import Mathlib

/-!
# Firefox JIT compartment and memory-metrics accounting: a shallow embedding

Sources embedded here:
* `js/src/jit/JitCompartment.h`  (stub spaces, `JitCompartment::getStubCode`, `putStubCode`)
* `js/src/vm/MemoryMetrics.cpp`  (`StatsArenaCallback`, `StatsCellCallback`,
  `FindNotableStrings`, `JS::CollectRuntimeStats`)

Conventions.
* `size_t` values are natural numbers reduced modulo `SIZE_MAX1 = 2 ^ 64` after every
  addition and subtraction.
* Pointers to generated code are natural numbers, `nullptr` is `0`; a pointer into one of
  the vectors or to a table of the accounting is an `Option` value, `none` is null.
* `JS_ASSERT` / `MOZ_ASSERT` are checked: a failing assertion ends the call with
  `Failure.assertion` and no later statement of the function runs.
* Results of allocations that the source tests (`reserve`, `growBy`, `add`, `init`) are
  inputs of the embedded function.
-/

namespace Firefox

/-! ## Common machinery -/

/-- Ways in which a call can end without returning. -/
inductive Failure where
  | assertion
  | unreachable
  | nullPointer
  | outOfBounds
  deriving DecidableEq, Repr

/-- Modelled from the spec: the assertion macros of `mfbt/Assertions.h` (not among the
sources). A violated assertion is a fatal contract violation; the call does not continue. -/
def JS_ASSERT (cond : Bool) : Except Failure Unit :=
  if cond then pure () else throw Failure.assertion

/-- Modelled from the spec: `MOZ_ASSERT` is the same macro as `JS_ASSERT`. -/
def MOZ_ASSERT (cond : Bool) : Except Failure Unit :=
  JS_ASSERT cond

/-- One more than the largest `size_t`. -/
def SIZE_MAX1 : Nat := 2 ^ 64

/-- The C++ `a + b` on `size_t`. -/
def sizeAdd (a b : Nat) : Nat := (a + b) % SIZE_MAX1

/-- The C++ `a - b` on `size_t`. -/
def sizeSub (a b : Nat) : Nat := (a + (SIZE_MAX1 - b % SIZE_MAX1)) % SIZE_MAX1

/-- The C++ `a * b` on `size_t`. -/
def sizeMul (a b : Nat) : Nat := (a * b) % SIZE_MAX1

/-- The null pointer. -/
def nullptr : Nat := 0

/-! ## `jit/JitCompartment.h` -/

/-- A `JitCode *`. -/
abbrev JitCodePtr := Nat

/-- Modelled from the spec: one chunk of the bump allocator `LifoAlloc` (`ds/LifoAlloc.h`,
not among the sources): a block of `capacity` bytes starting at `base`, of which the first
`bump` bytes have been handed out. -/
structure BumpChunk where
  base : Nat
  capacity : Nat
  bump : Nat
  deriving DecidableEq, Repr

/-- Modelled from the spec: `LifoAlloc` (`ds/LifoAlloc.h`, not among the sources): a list of
fixed-size chunks, a default chunk size and a current bump pointer. The list holds the
chunks latest first; the current bump pointer is that of the latest chunk. -/
structure LifoAlloc where
  defaultChunkSize_ : Nat
  chunks : List BumpChunk
  deriving DecidableEq, Repr

/-- Modelled from the spec: `LifoAlloc::freeAll` releases every chunk unconditionally. -/
def LifoAlloc.freeAll (a : LifoAlloc) : LifoAlloc :=
  { a with chunks := [] }

/-- The class `ICStubSpace`: the allocation policy and storage for stub data. -/
structure ICStubSpace where
  allocator_ : LifoAlloc
  deriving DecidableEq, Repr

/-- The constant `OptimizedICStubSpace::STUB_DEFAULT_CHUNK_SIZE`. -/
def OptimizedICStubSpace.STUB_DEFAULT_CHUNK_SIZE : Nat := 4 * 1024

/-- The constant `FallbackICStubSpace::STUB_DEFAULT_CHUNK_SIZE`. -/
def FallbackICStubSpace.STUB_DEFAULT_CHUNK_SIZE : Nat := 256

/-- The constructor `OptimizedICStubSpace()`. -/
def OptimizedICStubSpace.new : ICStubSpace :=
  { allocator_ := { defaultChunkSize_ := OptimizedICStubSpace.STUB_DEFAULT_CHUNK_SIZE, chunks := [] } }

/-- The method `OptimizedICStubSpace::free`. -/
def OptimizedICStubSpace.free (s : ICStubSpace) : ICStubSpace :=
  { s with allocator_ := s.allocator_.freeAll }

/-- Modelled from the spec: the hash map `ICStubCodeMap`
(`WeakValueCache<uint32_t, ReadBarriered<JitCode>>`, whose template is not among the
sources), as the list of its live entries. -/
structure ICStubCodeMap where
  entries : List (Nat × JitCodePtr)
  deriving DecidableEq, Repr

/-- Modelled from the spec: `lookupForAdd(key)`; the result is the found entry's value, or
`none` for a pointer to a free slot. -/
def ICStubCodeMap.lookupForAdd (m : ICStubCodeMap) (key : Nat) : Option JitCodePtr :=
  (m.entries.find? (fun e => e.1 == key)).map (fun e => e.2)

/-- Modelled from the spec: `has(key)`. -/
def ICStubCodeMap.has (m : ICStubCodeMap) (key : Nat) : Bool :=
  (m.lookupForAdd key).isSome

/-- Modelled from the spec: `add(p, key, value)` for a slot `p` that is free. It returns
false and leaves the table as it is when the table cannot grow (`allocOk = false`). -/
def ICStubCodeMap.add (m : ICStubCodeMap) (allocOk : Bool) (key : Nat) (value : JitCodePtr) :
    Bool × ICStubCodeMap :=
  if allocOk then (true, { entries := m.entries ++ [(key, value)] }) else (false, m)

/-- The members of `class JitCompartment` that the accessors below read or write. -/
structure JitCompartment where
  stubCodes_ : ICStubCodeMap
  baselineCallReturnAddr_ : Nat
  baselineGetPropReturnAddr_ : Nat
  baselineSetPropReturnAddr_ : Nat
  optimizedStubSpace_ : ICStubSpace
  stringConcatStub_ : JitCodePtr
  parallelStringConcatStub_ : JitCodePtr
  deriving DecidableEq, Repr

/-- A compartment right after `JitCompartment::initialize`: an empty stub map, an empty
optimized stub space. -/
def JitCompartment.init : JitCompartment :=
  { stubCodes_ := { entries := [] }
    baselineCallReturnAddr_ := nullptr
    baselineGetPropReturnAddr_ := nullptr
    baselineSetPropReturnAddr_ := nullptr
    optimizedStubSpace_ := OptimizedICStubSpace.new
    stringConcatStub_ := nullptr
    parallelStringConcatStub_ := nullptr }

/-- The method `JitCompartment::getStubCode`. -/
def JitCompartment.getStubCode (c : JitCompartment) (key : Nat) : JitCodePtr :=
  match c.stubCodes_.lookupForAdd key with
  | some v => v
  | none => nullptr

/-- The method `JitCompartment::putStubCode`; `allocOk` is whether the table can take one more
entry. The result is the returned boolean and the compartment after the call. -/
def JitCompartment.putStubCode (c : JitCompartment) (allocOk : Bool) (key : Nat)
    (stubCode : JitCodePtr) : Except Failure (Bool × JitCompartment) := do
  JS_ASSERT (!c.stubCodes_.has key)
  let r := c.stubCodes_.add allocOk key stubCode
  pure (r.1, { c with stubCodes_ := r.2 })

/-- The call `optimizedStubSpace()->free()` on a compartment. -/
def JitCompartment.freeOptimizedStubSpace (c : JitCompartment) : JitCompartment :=
  { c with optimizedStubSpace_ := OptimizedICStubSpace.free c.optimizedStubSpace_ }

/-- One `putStubCode` call of a history: the allocation outcome, the key, the code. -/
structure PutCall where
  allocOk : Bool
  key : Nat
  stubCode : JitCodePtr
  deriving DecidableEq, Repr

/-- A history of `putStubCode` calls on one compartment, none of which violates the
contract; a call that returns false leaves the compartment as it was. -/
def JitCompartment.putStubCodes : List PutCall → JitCompartment → Except Failure JitCompartment
  | [], c => pure c
  | p :: ps, c => do
    let r ← c.putStubCode p.allocOk p.key p.stubCode
    JitCompartment.putStubCodes ps r.2

/-! ## `vm/MemoryMetrics.cpp`: the data of an accounting pass -/

/-- Modelled from the spec: the constants and the span function of the GC heap layout
(`gc/Heap.h`, not among the sources) that the accounting reads. `thingsSpan thingSize` is
`Arena::thingsSpan(thingSize)`, the arena's maximum usable span. -/
structure GCLayout where
  ArenaSize : Nat
  ChunkSize : Nat
  ArenasPerChunk : Nat
  sizeofChunk : Nat
  sizeofArena : Nat
  thingsSpan : Nat → Nat

/-- The enum `Granularity`. -/
inductive Granularity where
  | FineGrained
  | CoarseGrained
  deriving DecidableEq, Repr

/-- What the accounting reads of a `JSString`: its characters and `isShort()`. -/
structure JSString where
  chars : List Nat
  isShort : Bool
  deriving DecidableEq, Repr

/-- The method `JSString::length`. -/
def JSString.length (s : JSString) : Nat := s.chars.length

/-- The function `mozilla::PodEqual(c1, c2, n)`: the first `n` elements agree. -/
def PodEqual (c1 c2 : List Nat) (n : Nat) : Bool :=
  c1.take n == c2.take n

/-- The function `InefficientNonFlatteningStringHashPolicy::match`. -/
def InefficientNonFlatteningStringHashPolicy.match_ (k l : JSString) : Bool :=
  if k.length != l.length then false
  else if k.isShort != l.isShort then false
  else PodEqual k.chars l.chars k.length

/-- Modelled from the spec: `JS::StringInfo` (`js/MemoryMetrics.h`, not among the sources),
the memory taken up by the identical copies of one string. `numCopies` is a 31-bit field. -/
structure StringInfo where
  numCopies : Nat
  isShort : Bool
  gcHeap : Nat
  mallocHeap : Nat
  deriving DecidableEq, Repr

/-- Modelled from the spec: the constructor `StringInfo(isShort, gcSize, mallocSize)`. -/
def StringInfo.mk1 (isShort : Bool) (gcSize mallocSize : Nat) : StringInfo :=
  { numCopies := 1, isShort := isShort, gcHeap := gcSize, mallocHeap := mallocSize }

/-- Modelled from the spec: `StringInfo::add(isShort, gcSize, mallocSize)`: one more copy
of a string of the same identity, its sizes accumulated. -/
def StringInfo.add (info : StringInfo) (_isShort : Bool) (gcSize mallocSize : Nat) : StringInfo :=
  { info with
    numCopies := (info.numCopies + 1) % 2 ^ 31,
    gcHeap := sizeAdd info.gcHeap gcSize,
    mallocHeap := sizeAdd info.mallocHeap mallocSize }

/-- The struct `JS::NotableStringInfo`: a `StringInfo` with the length of the string. The field `str`
stands for `buffer`, which holds the escaped characters of that string. -/
structure NotableStringInfo where
  info : StringInfo
  str : JSString
  length : Nat
  deriving DecidableEq, Repr

/-- The constructor `NotableStringInfo(JSString *str, const StringInfo &info)`. -/
def NotableStringInfo.mk2 (str : JSString) (info : StringInfo) : NotableStringInfo :=
  { info := info, str := str, length := str.length }

/-- Modelled from the spec: `ZoneStats::StringsHashMap`, the hash map from string identity
to aggregated size info, as the list of its entries in the order `all()` enumerates them. -/
structure StringsHashMap where
  entries : List (JSString × StringInfo)
  deriving DecidableEq, Repr

/-- Modelled from the spec: `StringsHashMap::count`. -/
def StringsHashMap.count (m : StringsHashMap) : Nat := m.entries.length

/-- Modelled from the spec: `lookupForAdd(str)`: the position of the entry whose key
matches `str` under the hash policy, if there is one. -/
def StringsHashMap.lookupForAdd (m : StringsHashMap) (str : JSString) : Option Nat :=
  m.entries.findIdx? (fun e => InefficientNonFlatteningStringHashPolicy.match_ e.1 str)

/-- Modelled from the spec: `add(p, str, info)` into a free slot; the return value, which
the caller ignores, is `allocOk`, and a failed `add` leaves the table as it is. -/
def StringsHashMap.add (m : StringsHashMap) (allocOk : Bool) (str : JSString)
    (info : StringInfo) : StringsHashMap :=
  if allocOk then { entries := m.entries ++ [(str, info)] } else m

/-- The members of `JS::ZoneStats` that `MemoryMetrics.cpp` reads or writes. `strings` is a
pointer (`none` is null). -/
structure ZoneStats where
  gcHeapArenaAdmin : Nat
  unusedGCThings : Nat
  stringsShortGCHeap : Nat
  stringsNormalGCHeap : Nat
  stringsNormalMallocHeap : Nat
  lazyScriptsGCHeap : Nat
  lazyScriptsMallocHeap : Nat
  jitCodesGCHeap : Nat
  typeObjectsGCHeap : Nat
  typeObjectsMallocHeap : Nat
  typePool : Nat
  strings : Option StringsHashMap
  notableStrings : List NotableStringInfo
  deriving DecidableEq, Repr

/-- The members of `JS::CompartmentStats` that `MemoryMetrics.cpp` reads or writes.
`objectsExtra` is the sum of the members of `ObjectsExtraSizes`. -/
structure CompartmentStats where
  objectsGCHeapOrdinary : Nat
  objectsGCHeapFunction : Nat
  objectsGCHeapDenseArray : Nat
  objectsGCHeapCrossCompartmentWrapper : Nat
  objectsExtra : Nat
  objectsPrivate : Nat
  shapesGCHeapTreeGlobalParented : Nat
  shapesGCHeapTreeNonGlobalParented : Nat
  shapesGCHeapDict : Nat
  shapesGCHeapBase : Nat
  shapesMallocHeapTreeTables : Nat
  shapesMallocHeapDictTables : Nat
  shapesMallocHeapTreeShapeKids : Nat
  shapesMallocHeapCompartmentTables : Nat
  scriptsGCHeap : Nat
  scriptsMallocHeapData : Nat
  baselineData : Nat
  baselineStubsFallback : Nat
  baselineStubsOptimized : Nat
  ionData : Nat
  typeInferenceTypeScripts : Nat
  typeInferenceAllocationSiteTables : Nat
  typeInferenceArrayTypeTables : Nat
  typeInferenceObjectTypeTables : Nat
  compartmentObject : Nat
  crossCompartmentWrappersTable : Nat
  regexpCompartment : Nat
  debuggeesSet : Nat
  deriving DecidableEq, Repr

/-- The members of `JS::RuntimeSizes`: `scriptSources` and the sum of the others. -/
structure RuntimeSizes where
  scriptSources : Nat
  others : Nat
  deriving DecidableEq, Repr

/-- The struct `JS::RuntimeStats`. `currZoneStats` points into `zoneStatsVector` (`none` is null);
the two `reserved` members are the capacities of the vectors. -/
structure RuntimeStats where
  runtime : RuntimeSizes
  gcHeapChunkTotal : Nat
  gcHeapDecommittedArenas : Nat
  gcHeapUnusedChunks : Nat
  gcHeapUnusedArenas : Nat
  gcHeapChunkAdmin : Nat
  gcHeapGCThings : Nat
  cTotals : CompartmentStats
  zTotals : ZoneStats
  compartmentStatsVector : List CompartmentStats
  compartmentStatsReserved : Nat
  zoneStatsVector : List ZoneStats
  zoneStatsReserved : Nat
  currZoneStats : Option Nat
  deriving DecidableEq, Repr

/-- The struct `StatsClosure`; `opv` is whether an `ObjectPrivateVisitor` was given, and
`seenSources` is the set of `ScriptSource` pointers. -/
structure StatsClosure where
  rtStats : RuntimeStats
  opv : Bool
  seenSources : List Nat
  deriving DecidableEq, Repr

/-- What the accounting reads of a `JSCompartment`: its `compartmentStats` pointer, which
`StatsCompartmentCallback` makes point into `compartmentStatsVector` (`none` is null). -/
structure JSCompartment where
  compartmentStats : Option Nat
  deriving DecidableEq, Repr

/-- The class tests `obj->is<T>()` that `StatsCellCallback` makes. -/
inductive ObjectClass where
  | JSFunction
  | ArrayObject
  | CrossCompartmentWrapperObject
  | other
  deriving DecidableEq, Repr

/-- What the accounting reads of a `JSObject`: `sizeOfExtra` is what
`addSizeOfExcludingThis` adds to `objectsExtra`; `privateSize` is
`opv->sizeOfIncludingThis(iface)` when `opv->getISupports_` yields a non-null `iface`. -/
structure JSObject where
  compartment : JSCompartment
  cls : ObjectClass
  sizeOfExtra : Nat
  privateSize : Option Nat
  deriving DecidableEq, Repr

/-- What the accounting reads of a `Shape`; `propTableSize` and `kidsSize` are what
`Shape::addSizeOfExcludingThis` adds through its two out-parameters. -/
structure Shape where
  compartment : JSCompartment
  inDictionary : Bool
  parentIsGlobal : Bool
  propTableSize : Nat
  kidsSize : Nat
  deriving DecidableEq, Repr

/-- What the accounting reads of a `JSScript`. -/
structure JSScript where
  compartment : JSCompartment
  sizeOfData : Nat
  sizeOfTypeScript : Nat
  sizeOfBaselineData : Nat
  sizeOfBaselineFallbackStubs : Nat
  sizeOfIonData : Nat
  scriptSource : Nat
  sizeOfScriptSource : Nat
  deriving DecidableEq, Repr

/-- A GC thing together with its trace kind: the `thing` and `traceKind` arguments of
`StatsCellCallback`. `invalid` is any trace kind outside the eight of the switch. -/
inductive Cell where
  | JSTRACE_OBJECT (obj : JSObject)
  | JSTRACE_STRING (str : JSString) (strCharsSize : Nat)
  | JSTRACE_SHAPE (shape : Shape)
  | JSTRACE_BASE_SHAPE (compartment : JSCompartment)
  | JSTRACE_SCRIPT (script : JSScript)
  | JSTRACE_LAZY_SCRIPT (sizeOfExcludingThis : Nat)
  | JSTRACE_JITCODE
  | JSTRACE_TYPE_OBJECT (sizeOfExcludingThis : Nat)
  | invalid (traceKind : Nat)
  deriving DecidableEq, Repr

/-- Modelled from the spec: the constructor `ZoneStats()` (`js/MemoryMetrics.h`, not among
the sources): every counter zero, no strings table, no notable string. -/
def ZoneStats.new : ZoneStats :=
  { gcHeapArenaAdmin := 0, unusedGCThings := 0, stringsShortGCHeap := 0,
    stringsNormalGCHeap := 0, stringsNormalMallocHeap := 0, lazyScriptsGCHeap := 0,
    lazyScriptsMallocHeap := 0, jitCodesGCHeap := 0, typeObjectsGCHeap := 0,
    typeObjectsMallocHeap := 0, typePool := 0, strings := none, notableStrings := [] }

/-- Modelled from the spec: the constructor `CompartmentStats()` (`js/MemoryMetrics.h`, not
among the sources): every counter zero. -/
def CompartmentStats.new : CompartmentStats :=
  { objectsGCHeapOrdinary := 0, objectsGCHeapFunction := 0, objectsGCHeapDenseArray := 0,
    objectsGCHeapCrossCompartmentWrapper := 0, objectsExtra := 0, objectsPrivate := 0,
    shapesGCHeapTreeGlobalParented := 0, shapesGCHeapTreeNonGlobalParented := 0,
    shapesGCHeapDict := 0, shapesGCHeapBase := 0, shapesMallocHeapTreeTables := 0,
    shapesMallocHeapDictTables := 0, shapesMallocHeapTreeShapeKids := 0,
    shapesMallocHeapCompartmentTables := 0, scriptsGCHeap := 0, scriptsMallocHeapData := 0,
    baselineData := 0, baselineStubsFallback := 0, baselineStubsOptimized := 0, ionData := 0,
    typeInferenceTypeScripts := 0, typeInferenceAllocationSiteTables := 0,
    typeInferenceArrayTypeTables := 0, typeInferenceObjectTypeTables := 0,
    compartmentObject := 0, crossCompartmentWrappersTable := 0, regexpCompartment := 0,
    debuggeesSet := 0 }

/-- Modelled from the spec: the constructor of `RuntimeStats` (`js/MemoryMetrics.h`, not
among the sources): every number zero, empty vectors, no current zone. -/
def RuntimeStats.new : RuntimeStats :=
  { runtime := { scriptSources := 0, others := 0 }, gcHeapChunkTotal := 0,
    gcHeapDecommittedArenas := 0, gcHeapUnusedChunks := 0, gcHeapUnusedArenas := 0,
    gcHeapChunkAdmin := 0, gcHeapGCThings := 0, cTotals := CompartmentStats.new,
    zTotals := ZoneStats.new, compartmentStatsVector := [], compartmentStatsReserved := 0,
    zoneStatsVector := [], zoneStatsReserved := 0, currZoneStats := none }

/-! ## `vm/MemoryMetrics.cpp`: the arena and cell callbacks -/

/-- Dereferencing `rtStats->currZoneStats`: the position in `zoneStatsVector` and the
record there. -/
def RuntimeStats.derefCurrZoneStats (r : RuntimeStats) : Except Failure (Nat × ZoneStats) :=
  match r.currZoneStats with
  | none => throw Failure.nullPointer
  | some i =>
    match r.zoneStatsVector[i]? with
    | none => throw Failure.nullPointer
    | some z => pure (i, z)

/-- Writing through a `ZoneStats *` that points at position `i` of `zoneStatsVector`. -/
def RuntimeStats.storeZoneStats (r : RuntimeStats) (i : Nat) (z : ZoneStats) : RuntimeStats :=
  { r with zoneStatsVector := r.zoneStatsVector.set i z }

/-- The call `GetCompartmentStats(comp)` followed by the dereference of the result: the position in
`compartmentStatsVector` and the record there. -/
def GetCompartmentStats (r : RuntimeStats) (comp : JSCompartment) :
    Except Failure (Nat × CompartmentStats) :=
  match comp.compartmentStats with
  | none => throw Failure.nullPointer
  | some i =>
    match r.compartmentStatsVector[i]? with
    | none => throw Failure.nullPointer
    | some c => pure (i, c)

/-- Writing through a `CompartmentStats *` that points at position `i` of
`compartmentStatsVector`. -/
def RuntimeStats.storeCompartmentStats (r : RuntimeStats) (i : Nat) (c : CompartmentStats) :
    RuntimeStats :=
  { r with compartmentStatsVector := r.compartmentStatsVector.set i c }

/-- The function `StatsArenaCallback`. Of its arguments only `data` (the closure) and `thingSize` are
read; `arena->thingsSpan` depends on `thingSize` alone. -/
def StatsArenaCallback (gc : GCLayout) (closure : StatsClosure) (thingSize : Nat) :
    Except Failure StatsClosure := do
  let rtStats := closure.rtStats
  let allocationSpace := gc.thingsSpan thingSize
  let (zi, z) ← rtStats.derefCurrZoneStats
  let z := { z with gcHeapArenaAdmin := sizeAdd z.gcHeapArenaAdmin (sizeSub gc.ArenaSize allocationSpace) }
  let z := { z with unusedGCThings := sizeAdd z.unusedGCThings allocationSpace }
  pure { closure with rtStats := rtStats.storeZoneStats zi z }

/-- The block `case JSTRACE_OBJECT` of `StatsCellCallback`, on the compartment's record. -/
def StatsCellCallback.caseObject (opv : Bool) (obj : JSObject) (thingSize : Nat)
    (cStats : CompartmentStats) : CompartmentStats :=
  let cStats :=
    if obj.cls = ObjectClass.JSFunction then
      { cStats with objectsGCHeapFunction := sizeAdd cStats.objectsGCHeapFunction thingSize }
    else if obj.cls = ObjectClass.ArrayObject then
      { cStats with objectsGCHeapDenseArray := sizeAdd cStats.objectsGCHeapDenseArray thingSize }
    else if obj.cls = ObjectClass.CrossCompartmentWrapperObject then
      { cStats with
        objectsGCHeapCrossCompartmentWrapper :=
          sizeAdd cStats.objectsGCHeapCrossCompartmentWrapper thingSize }
    else
      { cStats with objectsGCHeapOrdinary := sizeAdd cStats.objectsGCHeapOrdinary thingSize }
  let cStats := { cStats with objectsExtra := sizeAdd cStats.objectsExtra obj.sizeOfExtra }
  if opv then
    match obj.privateSize with
    | some n => { cStats with objectsPrivate := sizeAdd cStats.objectsPrivate n }
    | none => cStats
  else cStats

/-- The block `case JSTRACE_SHAPE` of `StatsCellCallback`, on the compartment's record. -/
def StatsCellCallback.caseShape (shape : Shape) (thingSize : Nat) (cStats : CompartmentStats) :
    CompartmentStats :=
  if shape.inDictionary then
    let cStats := { cStats with shapesGCHeapDict := sizeAdd cStats.shapesGCHeapDict thingSize }
    { cStats with
      shapesMallocHeapDictTables := sizeAdd cStats.shapesMallocHeapDictTables shape.propTableSize }
  else
    let cStats :=
      if shape.parentIsGlobal then
        { cStats with
          shapesGCHeapTreeGlobalParented :=
            sizeAdd cStats.shapesGCHeapTreeGlobalParented thingSize }
      else
        { cStats with
          shapesGCHeapTreeNonGlobalParented :=
            sizeAdd cStats.shapesGCHeapTreeNonGlobalParented thingSize }
    { cStats with
      shapesMallocHeapTreeTables := sizeAdd cStats.shapesMallocHeapTreeTables shape.propTableSize,
      shapesMallocHeapTreeShapeKids := sizeAdd cStats.shapesMallocHeapTreeShapeKids shape.kidsSize }

/-- The block `case JSTRACE_SCRIPT` of `StatsCellCallback`, on the compartment's record;
the lines between `#ifdef JS_ION` and `#endif` run when `JS_ION` is defined. -/
def StatsCellCallback.caseScript (JS_ION : Bool) (script : JSScript) (thingSize : Nat)
    (cStats : CompartmentStats) : CompartmentStats :=
  let cStats := { cStats with
    scriptsGCHeap := sizeAdd cStats.scriptsGCHeap thingSize,
    scriptsMallocHeapData := sizeAdd cStats.scriptsMallocHeapData script.sizeOfData,
    typeInferenceTypeScripts := sizeAdd cStats.typeInferenceTypeScripts script.sizeOfTypeScript }
  if JS_ION then
    { cStats with
      baselineData := sizeAdd cStats.baselineData script.sizeOfBaselineData,
      baselineStubsFallback := sizeAdd cStats.baselineStubsFallback script.sizeOfBaselineFallbackStubs,
      ionData := sizeAdd cStats.ionData script.sizeOfIonData }
  else cStats

/-- The tail of `case JSTRACE_SCRIPT`: the script source is counted the first time it is
seen; `allocOk` is whether `seenSources.add` succeeds. -/
def StatsCellCallback.caseScriptSource (allocOk : Bool) (script : JSScript)
    (closure : StatsClosure) : StatsClosure :=
  if closure.seenSources.contains script.scriptSource then closure
  else
    { closure with
      seenSources := if allocOk then script.scriptSource :: closure.seenSources
                     else closure.seenSources,
      rtStats := { closure.rtStats with
        runtime := { closure.rtStats.runtime with
          scriptSources := sizeAdd closure.rtStats.runtime.scriptSources script.sizeOfScriptSource } } }

/-- The string hashing of `case JSTRACE_STRING`, done when `granularity == FineGrained`;
`allocOk` is whether `strings->add` succeeds. -/
def StatsCellCallback.hashString (allocOk : Bool) (str : JSString) (isShort : Bool)
    (thingSize strCharsSize : Nat) (strings : StringsHashMap) : StringsHashMap :=
  match strings.lookupForAdd str with
  | none => strings.add allocOk str (StringInfo.mk1 isShort thingSize strCharsSize)
  | some i =>
    { entries := strings.entries.modify
        (fun e => (e.1, e.2.add isShort thingSize strCharsSize)) i }

/-- The block `case JSTRACE_STRING` of `StatsCellCallback`, on the zone's record. -/
def StatsCellCallback.caseString (granularity : Granularity) (allocOk : Bool) (str : JSString)
    (strCharsSize thingSize : Nat) (zStats : ZoneStats) : Except Failure ZoneStats := do
  let isShort := str.isShort
  let zStats ←
    if isShort then do
      let z := { zStats with stringsShortGCHeap := sizeAdd zStats.stringsShortGCHeap thingSize }
      MOZ_ASSERT (strCharsSize == 0)
      pure z
    else
      pure { zStats with
        stringsNormalGCHeap := sizeAdd zStats.stringsNormalGCHeap thingSize,
        stringsNormalMallocHeap := sizeAdd zStats.stringsNormalMallocHeap strCharsSize }
  if granularity = Granularity.FineGrained then
    match zStats.strings with
    | none => throw Failure.nullPointer
    | some strings =>
      let strings := StatsCellCallback.hashString allocOk str isShort thingSize strCharsSize strings
      pure { zStats with strings := some strings }
  else pure zStats

/-- The `switch (traceKind)` of `StatsCellCallback<granularity>`. -/
def StatsCellCallback.switch_ (granularity : Granularity) (JS_ION : Bool) (allocOk : Bool)
    (closure : StatsClosure) (cell : Cell) (thingSize : Nat) : Except Failure StatsClosure := do
  let rtStats := closure.rtStats
  let (zi, zStats) ← rtStats.derefCurrZoneStats
  match cell with
  | Cell.JSTRACE_OBJECT obj => do
    let (ci, cStats) ← GetCompartmentStats rtStats obj.compartment
    let cStats := StatsCellCallback.caseObject closure.opv obj thingSize cStats
    pure { closure with rtStats := rtStats.storeCompartmentStats ci cStats }
  | Cell.JSTRACE_STRING str strCharsSize => do
    let z ← StatsCellCallback.caseString granularity allocOk str strCharsSize thingSize zStats
    pure { closure with rtStats := rtStats.storeZoneStats zi z }
  | Cell.JSTRACE_SHAPE shape => do
    let (ci, cStats) ← GetCompartmentStats rtStats shape.compartment
    let cStats := StatsCellCallback.caseShape shape thingSize cStats
    pure { closure with rtStats := rtStats.storeCompartmentStats ci cStats }
  | Cell.JSTRACE_BASE_SHAPE compartment => do
    let (ci, cStats) ← GetCompartmentStats rtStats compartment
    let cStats := { cStats with shapesGCHeapBase := sizeAdd cStats.shapesGCHeapBase thingSize }
    pure { closure with rtStats := rtStats.storeCompartmentStats ci cStats }
  | Cell.JSTRACE_SCRIPT script => do
    let (ci, cStats) ← GetCompartmentStats rtStats script.compartment
    let cStats := StatsCellCallback.caseScript JS_ION script thingSize cStats
    let closure := { closure with rtStats := rtStats.storeCompartmentStats ci cStats }
    pure (StatsCellCallback.caseScriptSource allocOk script closure)
  | Cell.JSTRACE_LAZY_SCRIPT sizeOfExcludingThis =>
    let zStats := { zStats with
      lazyScriptsGCHeap := sizeAdd zStats.lazyScriptsGCHeap thingSize,
      lazyScriptsMallocHeap := sizeAdd zStats.lazyScriptsMallocHeap sizeOfExcludingThis }
    pure { closure with rtStats := rtStats.storeZoneStats zi zStats }
  | Cell.JSTRACE_JITCODE =>
    if JS_ION then
      let zStats := { zStats with jitCodesGCHeap := sizeAdd zStats.jitCodesGCHeap thingSize }
      pure { closure with rtStats := rtStats.storeZoneStats zi zStats }
    else pure closure
  | Cell.JSTRACE_TYPE_OBJECT sizeOfExcludingThis =>
    let zStats := { zStats with
      typeObjectsGCHeap := sizeAdd zStats.typeObjectsGCHeap thingSize,
      typeObjectsMallocHeap := sizeAdd zStats.typeObjectsMallocHeap sizeOfExcludingThis }
    pure { closure with rtStats := rtStats.storeZoneStats zi zStats }
  | Cell.invalid _ => throw Failure.unreachable

/-- The function `StatsCellCallback<granularity>`: the switch, then the subtraction of `thingSize` from
the zone's `unusedGCThings`. `JS_ION` is whether that macro is defined in the build;
`allocOk` is whether the one hash-table insertion the call may attempt succeeds. -/
def StatsCellCallback (granularity : Granularity) (JS_ION : Bool) (allocOk : Bool)
    (closure : StatsClosure) (cell : Cell) (thingSize : Nat) : Except Failure StatsClosure := do
  let closure ← StatsCellCallback.switch_ granularity JS_ION allocOk closure cell thingSize
  let (zi, zStats) ← closure.rtStats.derefCurrZoneStats
  let zStats := { zStats with unusedGCThings := sizeSub zStats.unusedGCThings thingSize }
  pure { closure with rtStats := closure.rtStats.storeZoneStats zi zStats }

/-- The cells of one arena as the heap iteration hands them to the callbacks: the arena
callback once, then the cell callback on each live cell in turn. Every cell of an arena has
the arena's `thingSize`; each cell comes with the outcome of the allocation its visit may
attempt. -/
def visitCells (granularity : Granularity) (JS_ION : Bool) (thingSize : Nat) :
    List (Cell × Bool) → StatsClosure → Except Failure StatsClosure
  | [], closure => pure closure
  | (cell, allocOk) :: rest, closure => do
    let closure ← StatsCellCallback granularity JS_ION allocOk closure cell thingSize
    visitCells granularity JS_ION thingSize rest closure

/-- Modelled from the spec: the part of the heap iteration (`IterateZonesCompartmentsArenasCells`
of `jsgc.cpp`, not among the sources) that handles one arena: "all cells of an arena are
visited contiguously, immediately after that arena's admin overhead is pre-charged". -/
def visitArena (gc : GCLayout) (granularity : Granularity) (JS_ION : Bool) (thingSize : Nat)
    (cells : List (Cell × Bool)) (closure : StatsClosure) : Except Failure StatsClosure := do
  let closure ← StatsArenaCallback gc closure thingSize
  visitCells granularity JS_ION thingSize cells closure

/-! ## `vm/MemoryMetrics.cpp`: `FindNotableStrings` -/

/-- The function `js::MemoryReportingSundriesThreshold`. -/
def MemoryReportingSundriesThreshold : Nat := 8 * 1024

/-- The body of the `for` loop of `FindNotableStrings` for the entry `(str, info)` of the
strings table, once the entry has passed the test of the `if`: the entry is appended to
`notableStrings` and its bytes are taken out of the non-notable tallies. -/
def FindNotableStrings.move (str : JSString) (info : StringInfo) (zStats : ZoneStats) :
    Except Failure ZoneStats := do
  let zStats := { zStats with
    notableStrings := zStats.notableStrings ++ [NotableStringInfo.mk2 str info] }
  if info.isShort then do
    MOZ_ASSERT (decide (zStats.stringsShortGCHeap ≥ info.gcHeap))
    let zStats := { zStats with
      stringsShortGCHeap := sizeSub zStats.stringsShortGCHeap info.gcHeap }
    MOZ_ASSERT (info.mallocHeap == 0)
    pure zStats
  else do
    MOZ_ASSERT (decide (zStats.stringsNormalGCHeap ≥ info.gcHeap))
    MOZ_ASSERT (decide (zStats.stringsNormalMallocHeap ≥ info.mallocHeap))
    pure { zStats with
      stringsNormalGCHeap := sizeSub zStats.stringsNormalGCHeap info.gcHeap,
      stringsNormalMallocHeap := sizeSub zStats.stringsNormalMallocHeap info.mallocHeap }

/-- The `for` loop of `FindNotableStrings` over the entries of the strings table that
`all()` still has to enumerate. `notableSize` is `NotableStringInfo::notableSize()`;
`growByOk str` is whether `notableStrings.growBy(1)` succeeds when it is attempted for the
entry of `str`. -/
def FindNotableStrings.loop (notableSize : Nat) (growByOk : JSString → Bool) :
    List (JSString × StringInfo) → ZoneStats → Except Failure ZoneStats
  | [], zStats => pure zStats
  | (str, info) :: rest, zStats =>
    if sizeAdd info.gcHeap info.mallocHeap < notableSize || !growByOk str then
      FindNotableStrings.loop notableSize growByOk rest zStats
    else do
      let zStats ← FindNotableStrings.move str info zStats
      FindNotableStrings.loop notableSize growByOk rest zStats

/-- The function `FindNotableStrings`. -/
def FindNotableStrings (notableSize : Nat) (growByOk : JSString → Bool) (zStats : ZoneStats) :
    Except Failure ZoneStats := do
  MOZ_ASSERT zStats.notableStrings.isEmpty
  match zStats.strings with
  | none => throw Failure.nullPointer
  | some strings => FindNotableStrings.loop notableSize growByOk strings.entries zStats

/-- The bytes of a notable string: `gcHeap + mallocHeap`. -/
def NotableStringInfo.bytes (n : NotableStringInfo) : Nat :=
  n.info.gcHeap + n.info.mallocHeap

/-- The string bytes a zone record accounts for: (sum over `notableStrings` of
`gcHeap + mallocHeap`) + `stringsShortGCHeap` + `stringsNormalGCHeap` +
`stringsNormalMallocHeap`. -/
def ZoneStats.stringsBytes (z : ZoneStats) : Nat :=
  (z.notableStrings.map NotableStringInfo.bytes).sum + z.stringsShortGCHeap +
    z.stringsNormalGCHeap + z.stringsNormalMallocHeap

/-- The three bulk string counters hold `size_t` values. -/
def ZoneStats.stringsInRange (z : ZoneStats) : Prop :=
  z.stringsShortGCHeap < SIZE_MAX1 ∧ z.stringsNormalGCHeap < SIZE_MAX1 ∧
    z.stringsNormalMallocHeap < SIZE_MAX1

/-- Whether `FindNotableStrings` moves the entry `(str, info)` to the notable list: its
cumulative size, computed in `size_t`, is at least the threshold and the vector can grow. -/
def FindNotableStrings.moves (notableSize : Nat) (growByOk : JSString → Bool)
    (e : JSString × StringInfo) : Bool :=
  !(sizeAdd e.2.gcHeap e.2.mallocHeap < notableSize || !growByOk e.1)

/-- The bookkeeping that the cell walk establishes between a strings table and the bulk
string counters: the bulk counters cover the GC-heap and malloc-heap bytes of the entries of
the table, by short and normal strings, and a short string has no malloc-heap bytes. -/
def StringsAccounted (entries : List (JSString × StringInfo)) (z : ZoneStats) : Prop :=
  ((entries.filter (fun e => e.2.isShort)).map (fun e => e.2.gcHeap)).sum ≤ z.stringsShortGCHeap ∧
  ((entries.filter (fun e => !e.2.isShort)).map (fun e => e.2.gcHeap)).sum ≤ z.stringsNormalGCHeap ∧
  ((entries.filter (fun e => !e.2.isShort)).map (fun e => e.2.mallocHeap)).sum ≤
    z.stringsNormalMallocHeap ∧
  (∀ e ∈ entries, e.2.isShort = true → e.2.mallocHeap = 0)

/-! ## The GC-heap byte counters -/

/-- The GC-heap byte counters of a `ZoneStats`: one per kind of cell that is charged to
the zone. -/
inductive ZoneCounter where
  | stringsShortGCHeap
  | stringsNormalGCHeap
  | lazyScriptsGCHeap
  | jitCodesGCHeap
  | typeObjectsGCHeap
  deriving DecidableEq, Repr

/-- The GC-heap byte counters of a `CompartmentStats`: one per kind and sub-kind of cell
that is charged to its compartment. -/
inductive CompartmentCounter where
  | objectsGCHeapOrdinary
  | objectsGCHeapFunction
  | objectsGCHeapDenseArray
  | objectsGCHeapCrossCompartmentWrapper
  | shapesGCHeapTreeGlobalParented
  | shapesGCHeapTreeNonGlobalParented
  | shapesGCHeapDict
  | shapesGCHeapBase
  | scriptsGCHeap
  deriving DecidableEq, Repr

/-- The value of a GC-heap counter of a zone record. -/
def ZoneStats.read (z : ZoneStats) : ZoneCounter → Nat
  | ZoneCounter.stringsShortGCHeap => z.stringsShortGCHeap
  | ZoneCounter.stringsNormalGCHeap => z.stringsNormalGCHeap
  | ZoneCounter.lazyScriptsGCHeap => z.lazyScriptsGCHeap
  | ZoneCounter.jitCodesGCHeap => z.jitCodesGCHeap
  | ZoneCounter.typeObjectsGCHeap => z.typeObjectsGCHeap

/-- The value of a GC-heap counter of a compartment record. -/
def CompartmentStats.read (c : CompartmentStats) : CompartmentCounter → Nat
  | CompartmentCounter.objectsGCHeapOrdinary => c.objectsGCHeapOrdinary
  | CompartmentCounter.objectsGCHeapFunction => c.objectsGCHeapFunction
  | CompartmentCounter.objectsGCHeapDenseArray => c.objectsGCHeapDenseArray
  | CompartmentCounter.objectsGCHeapCrossCompartmentWrapper => c.objectsGCHeapCrossCompartmentWrapper
  | CompartmentCounter.shapesGCHeapTreeGlobalParented => c.shapesGCHeapTreeGlobalParented
  | CompartmentCounter.shapesGCHeapTreeNonGlobalParented => c.shapesGCHeapTreeNonGlobalParented
  | CompartmentCounter.shapesGCHeapDict => c.shapesGCHeapDict
  | CompartmentCounter.shapesGCHeapBase => c.shapesGCHeapBase
  | CompartmentCounter.scriptsGCHeap => c.scriptsGCHeap

/-- A GC-heap byte counter of the stats of a runtime: a counter of the zone record at a
position of `zoneStatsVector`, or of the compartment record at a position of
`compartmentStatsVector`. -/
inductive GCHeapCounter where
  | zone (i : Nat) (k : ZoneCounter)
  | compartment (i : Nat) (k : CompartmentCounter)
  deriving DecidableEq, Repr

/-- The value of a GC-heap counter (`none` when there is no record at that position). -/
def RuntimeStats.readCounter (r : RuntimeStats) : GCHeapCounter → Option Nat
  | GCHeapCounter.zone i k => (r.zoneStatsVector[i]?).map (fun z => z.read k)
  | GCHeapCounter.compartment i k => (r.compartmentStatsVector[i]?).map (fun c => c.read k)

/-- The counter of its compartment that a cell of a given object class belongs to. -/
def ObjectClass.counter : ObjectClass → CompartmentCounter
  | ObjectClass.JSFunction => CompartmentCounter.objectsGCHeapFunction
  | ObjectClass.ArrayObject => CompartmentCounter.objectsGCHeapDenseArray
  | ObjectClass.CrossCompartmentWrapperObject => CompartmentCounter.objectsGCHeapCrossCompartmentWrapper
  | ObjectClass.other => CompartmentCounter.objectsGCHeapOrdinary

/-- The bucket of a cell, as the accounting design describes it: objects by subtype,
shapes by tree or dictionary form (tree shapes by the kind of parent), base shapes and
scripts go to the cell's compartment; strings by short or normal, lazy scripts, generated
code and type objects go to the current zone, whose record is at position `zi`. -/
def Cell.bucket (zi : Nat) : Cell → Option GCHeapCounter
  | Cell.JSTRACE_OBJECT obj =>
    obj.compartment.compartmentStats.map (fun ci => GCHeapCounter.compartment ci obj.cls.counter)
  | Cell.JSTRACE_STRING str _ =>
    some (GCHeapCounter.zone zi
      (if str.isShort then ZoneCounter.stringsShortGCHeap else ZoneCounter.stringsNormalGCHeap))
  | Cell.JSTRACE_SHAPE shape =>
    shape.compartment.compartmentStats.map (fun ci => GCHeapCounter.compartment ci
      (if shape.inDictionary then CompartmentCounter.shapesGCHeapDict
       else if shape.parentIsGlobal then CompartmentCounter.shapesGCHeapTreeGlobalParented
       else CompartmentCounter.shapesGCHeapTreeNonGlobalParented))
  | Cell.JSTRACE_BASE_SHAPE compartment =>
    compartment.compartmentStats.map
      (fun ci => GCHeapCounter.compartment ci CompartmentCounter.shapesGCHeapBase)
  | Cell.JSTRACE_SCRIPT script =>
    script.compartment.compartmentStats.map
      (fun ci => GCHeapCounter.compartment ci CompartmentCounter.scriptsGCHeap)
  | Cell.JSTRACE_LAZY_SCRIPT _ => some (GCHeapCounter.zone zi ZoneCounter.lazyScriptsGCHeap)
  | Cell.JSTRACE_JITCODE => some (GCHeapCounter.zone zi ZoneCounter.jitCodesGCHeap)
  | Cell.JSTRACE_TYPE_OBJECT _ => some (GCHeapCounter.zone zi ZoneCounter.typeObjectsGCHeap)
  | Cell.invalid _ => none

/-- The sum of the GC-heap live-byte counters of a zone record. -/
def ZoneStats.gcHeapLiveBytes (z : ZoneStats) : Nat :=
  z.stringsShortGCHeap + z.stringsNormalGCHeap + z.lazyScriptsGCHeap + z.jitCodesGCHeap +
    z.typeObjectsGCHeap

/-- The sum of the GC-heap live-byte counters of a compartment record. -/
def CompartmentStats.gcHeapLiveBytes (c : CompartmentStats) : Nat :=
  c.objectsGCHeapOrdinary + c.objectsGCHeapFunction + c.objectsGCHeapDenseArray +
    c.objectsGCHeapCrossCompartmentWrapper + c.shapesGCHeapTreeGlobalParented +
    c.shapesGCHeapTreeNonGlobalParented + c.shapesGCHeapDict + c.shapesGCHeapBase +
    c.scriptsGCHeap

/-- The bytes of arenas a zone record accounts for: live cells, unused things, admin. -/
def ZoneStats.arenaBytes (z : ZoneStats) : Nat :=
  z.gcHeapLiveBytes + z.unusedGCThings + z.gcHeapArenaAdmin

/-- The bytes of arenas accounted for in the per-zone and per-compartment records:
(sum of all per-kind live-byte counters) + unused things + arena admin. -/
def RuntimeStats.arenaBytes (r : RuntimeStats) : Nat :=
  (r.zoneStatsVector.map ZoneStats.arenaBytes).sum +
    (r.compartmentStatsVector.map CompartmentStats.gcHeapLiveBytes).sum

/-- The record `z'` is `z` with `n` bytes added to the GC-heap counter `k` and every other
GC-heap counter, the unused-things counter and the arena-admin counter left alone. -/
def ZoneStats.ChargedTo (k : ZoneCounter) (n : Nat) (z z' : ZoneStats) : Prop :=
  z'.read k = sizeAdd (z.read k) n ∧ (∀ k', k' ≠ k → z'.read k' = z.read k') ∧
    z'.unusedGCThings = z.unusedGCThings ∧ z'.gcHeapArenaAdmin = z.gcHeapArenaAdmin ∧
    z'.strings.isSome = z.strings.isSome

/-- The record `c'` is `c` with `n` bytes added to the GC-heap counter `k` and every other
GC-heap counter left alone. -/
def CompartmentStats.ChargedTo (k : CompartmentCounter) (n : Nat) (c c' : CompartmentStats) :
    Prop :=
  c'.read k = sizeAdd (c.read k) n ∧ ∀ k', k' ≠ k → c'.read k' = c.read k'

/-- The record that `currZoneStats` points to has at least `m` bytes of unused things. -/
def RuntimeStats.UnusedAtLeast (r : RuntimeStats) (m : Nat) : Prop :=
  ∃ zi z, r.currZoneStats = some zi ∧ r.zoneStatsVector[zi]? = some z ∧ m ≤ z.unusedGCThings

/-- The closure's `currZoneStats` points at a record of `zoneStatsVector`, as it does
from the first zone callback on. -/
def StatsClosure.hasCurrZone (cl : StatsClosure) : Prop :=
  ∃ zi z, cl.rtStats.currZoneStats = some zi ∧ cl.rtStats.zoneStatsVector[zi]? = some z

/-- The compartment's `compartmentStats` points at a record of `compartmentStatsVector`,
as it does once the compartment callback has run for the compartment. -/
def JSCompartment.hasStats (r : RuntimeStats) (comp : JSCompartment) : Prop :=
  ∃ ci, comp.compartmentStats = some ci ∧ ci < r.compartmentStatsVector.length

/-- What `StatsCellCallback<granularity>` relies on for a cell: the trace kind is one of
the eight of the switch; the compartment of an object, shape, base shape or script has its
record; a short string has no malloc-heap characters (the assertion of the string case);
and for fine-grained measurement the current zone has its strings table. -/
def StatsClosure.canVisit (g : Granularity) (cl : StatsClosure) : Cell → Prop
  | Cell.JSTRACE_OBJECT obj => obj.compartment.hasStats cl.rtStats
  | Cell.JSTRACE_STRING str strCharsSize =>
    (str.isShort = true → strCharsSize = 0) ∧
      (g = Granularity.FineGrained →
        ∃ zi z, cl.rtStats.currZoneStats = some zi ∧ cl.rtStats.zoneStatsVector[zi]? = some z ∧
          z.strings.isSome = true)
  | Cell.JSTRACE_SHAPE shape => shape.compartment.hasStats cl.rtStats
  | Cell.JSTRACE_BASE_SHAPE compartment => compartment.hasStats cl.rtStats
  | Cell.JSTRACE_SCRIPT script => script.compartment.hasStats cl.rtStats
  | Cell.JSTRACE_LAZY_SCRIPT _ => True
  | Cell.JSTRACE_JITCODE => True
  | Cell.JSTRACE_TYPE_OBJECT _ => True
  | Cell.invalid _ => False

/-! ## `vm/MemoryMetrics.cpp`: `JS::CollectRuntimeStats` -/

/-- What the accounting reads of a `gc::Chunk`: the bitmap `decommittedArenas`. -/
structure Chunk where
  decommittedArenas : List Bool
  deriving DecidableEq, Repr

/-- The loop of `DecommittedArenasChunkCallback` from index `i` on, for `fuel` more
indices: `n` grows by `gc::ArenaSize` for every decommitted arena. -/
def DecommittedArenasChunkCallback.count (gc : GCLayout) (chunk : Chunk) :
    (fuel i n : Nat) → Nat
  | 0, _, n => n
  | fuel + 1, i, n =>
    DecommittedArenasChunkCallback.count gc chunk fuel (i + 1)
      (if chunk.decommittedArenas.getD i false then sizeAdd n gc.ArenaSize else n)

/-- The function `DecommittedArenasChunkCallback`; `data` is the `size_t` that the callback adds to. -/
def DecommittedArenasChunkCallback (gc : GCLayout) (data : Nat) (chunk : Chunk) :
    Except Failure Nat := do
  if chunk.decommittedArenas.all (fun b => !b) then
    pure data
  else do
    let n := DecommittedArenasChunkCallback.count gc chunk gc.ArenasPerChunk 0 0
    JS_ASSERT (decide (n > 0))
    pure (sizeAdd data n)

/-- Modelled from the spec: `IterateChunks` (`jsgc.cpp`, not among the sources) calls the
callback once on every chunk of the runtime. -/
def IterateChunks (gc : GCLayout) : List Chunk → Nat → Except Failure Nat
  | [], data => pure data
  | chunk :: rest, data => do
    let data ← DecommittedArenasChunkCallback gc data chunk
    IterateChunks gc rest data

/-- What `JS::CollectRuntimeStats` reads of a `JSRuntime`: the counts it reserves for, the
two GC parameters, the chunks, and `sizeOfRuntime`, what `rt->addSizeOfIncludingThis` adds
to the members of `rtStats->runtime`. -/
structure JSRuntime where
  numCompartments : Nat
  numZones : Nat
  JSGC_TOTAL_CHUNKS : Nat
  JSGC_UNUSED_CHUNKS : Nat
  chunks : List Chunk
  sizeOfRuntime : Nat
  deriving DecidableEq, Repr

/-- The outcomes of the allocations that `JS::CollectRuntimeStats` attempts: the two
`reserve` calls, `closure.init()`, `notableStrings.growBy(1)` in the `FindNotableStrings`
call for `zs[i]` (or for `zTotals`, when `i` is `zs.length()`), and `strings->add` in
`addStrings`. -/
structure Allocations where
  reserveCompartmentStats : Bool
  reserveZoneStats : Bool
  closureInit : Bool
  growBy : Nat → JSString → Bool
  addStrings : JSString → Bool

/-- Modelled from the spec: `Vector::reserve(n)` on a vector of capacity `capacity`: it
succeeds without allocating when the capacity suffices, and otherwise allocates; the result
is the returned boolean and the new capacity. The contents of the vector are not touched. -/
def Vector.reserve (allocOk : Bool) (capacity n : Nat) : Bool × Nat :=
  if n ≤ capacity then (true, capacity)
  else if allocOk then (true, n)
  else (false, capacity)

/-- Modelled from the spec: `ZoneStats::addIgnoringStrings` (`js/MemoryMetrics.h`, not
among the sources) adds every counter of `other`; the strings table and the notable
strings are not touched. -/
def ZoneStats.addIgnoringStrings (z other : ZoneStats) : ZoneStats :=
  { z with
    gcHeapArenaAdmin := sizeAdd z.gcHeapArenaAdmin other.gcHeapArenaAdmin,
    unusedGCThings := sizeAdd z.unusedGCThings other.unusedGCThings,
    stringsShortGCHeap := sizeAdd z.stringsShortGCHeap other.stringsShortGCHeap,
    stringsNormalGCHeap := sizeAdd z.stringsNormalGCHeap other.stringsNormalGCHeap,
    stringsNormalMallocHeap := sizeAdd z.stringsNormalMallocHeap other.stringsNormalMallocHeap,
    lazyScriptsGCHeap := sizeAdd z.lazyScriptsGCHeap other.lazyScriptsGCHeap,
    lazyScriptsMallocHeap := sizeAdd z.lazyScriptsMallocHeap other.lazyScriptsMallocHeap,
    jitCodesGCHeap := sizeAdd z.jitCodesGCHeap other.jitCodesGCHeap,
    typeObjectsGCHeap := sizeAdd z.typeObjectsGCHeap other.typeObjectsGCHeap,
    typeObjectsMallocHeap := sizeAdd z.typeObjectsMallocHeap other.typeObjectsMallocHeap,
    typePool := sizeAdd z.typePool other.typePool }

/-- Modelled from the spec: `StringInfo::add(const StringInfo &)`, the sizes and the
number of copies of `other` accumulated. -/
def StringInfo.addInfo (info other : StringInfo) : StringInfo :=
  { info with
    numCopies := (info.numCopies + other.numCopies) % 2 ^ 31,
    gcHeap := sizeAdd info.gcHeap other.gcHeap,
    mallocHeap := sizeAdd info.mallocHeap other.mallocHeap }

/-- Modelled from the spec: the loop of `ZoneStats::addStrings` (`js/MemoryMetrics.h`, not
among the sources), the "incorporation of remaining tables": every entry of the other table
is added to the entry of the same string, or inserted when there is none and `strings->add`
succeeds. -/
def ZoneStats.addStrings.loop (addOk : JSString → Bool) :
    List (JSString × StringInfo) → StringsHashMap → StringsHashMap
  | [], strings => strings
  | (str, info) :: rest, strings =>
    ZoneStats.addStrings.loop addOk rest
      (match strings.lookupForAdd str with
       | some i => { entries := strings.entries.modify (fun e => (e.1, e.2.addInfo info)) i }
       | none => strings.add (addOk str) str info)

/-- Modelled from the spec: `ZoneStats::addStrings`; both `strings` pointers are
dereferenced. -/
def ZoneStats.addStrings (addOk : JSString → Bool) (z other : ZoneStats) :
    Except Failure ZoneStats :=
  match other.strings, z.strings with
  | some theirs, some ours =>
    pure { z with strings := some (ZoneStats.addStrings.loop addOk theirs.entries ours) }
  | _, _ => throw Failure.nullPointer

/-- Modelled from the spec: `ZoneStats::sizeOfLiveGCThings` (`js/MemoryMetrics.h`, not
among the sources): the live-cell bytes of the record, those of the notable strings
included. -/
def ZoneStats.sizeOfLiveGCThings (z : ZoneStats) : Nat :=
  (z.gcHeapLiveBytes + (z.notableStrings.map (fun n => n.info.gcHeap)).sum) % SIZE_MAX1

/-- Modelled from the spec: `CompartmentStats::sizeOfLiveGCThings` (`js/MemoryMetrics.h`,
not among the sources): the live-cell bytes of the record. -/
def CompartmentStats.sizeOfLiveGCThings (c : CompartmentStats) : Nat :=
  c.gcHeapLiveBytes % SIZE_MAX1

/-- Modelled from the spec: `CompartmentStats::add` (`js/MemoryMetrics.h`, not among the
sources), a "plain field-wise add". -/
def CompartmentStats.add (c other : CompartmentStats) : CompartmentStats :=
  { objectsGCHeapOrdinary := sizeAdd c.objectsGCHeapOrdinary other.objectsGCHeapOrdinary,
    objectsGCHeapFunction := sizeAdd c.objectsGCHeapFunction other.objectsGCHeapFunction,
    objectsGCHeapDenseArray := sizeAdd c.objectsGCHeapDenseArray other.objectsGCHeapDenseArray,
    objectsGCHeapCrossCompartmentWrapper :=
      sizeAdd c.objectsGCHeapCrossCompartmentWrapper other.objectsGCHeapCrossCompartmentWrapper,
    objectsExtra := sizeAdd c.objectsExtra other.objectsExtra,
    objectsPrivate := sizeAdd c.objectsPrivate other.objectsPrivate,
    shapesGCHeapTreeGlobalParented :=
      sizeAdd c.shapesGCHeapTreeGlobalParented other.shapesGCHeapTreeGlobalParented,
    shapesGCHeapTreeNonGlobalParented :=
      sizeAdd c.shapesGCHeapTreeNonGlobalParented other.shapesGCHeapTreeNonGlobalParented,
    shapesGCHeapDict := sizeAdd c.shapesGCHeapDict other.shapesGCHeapDict,
    shapesGCHeapBase := sizeAdd c.shapesGCHeapBase other.shapesGCHeapBase,
    shapesMallocHeapTreeTables :=
      sizeAdd c.shapesMallocHeapTreeTables other.shapesMallocHeapTreeTables,
    shapesMallocHeapDictTables :=
      sizeAdd c.shapesMallocHeapDictTables other.shapesMallocHeapDictTables,
    shapesMallocHeapTreeShapeKids :=
      sizeAdd c.shapesMallocHeapTreeShapeKids other.shapesMallocHeapTreeShapeKids,
    shapesMallocHeapCompartmentTables :=
      sizeAdd c.shapesMallocHeapCompartmentTables other.shapesMallocHeapCompartmentTables,
    scriptsGCHeap := sizeAdd c.scriptsGCHeap other.scriptsGCHeap,
    scriptsMallocHeapData := sizeAdd c.scriptsMallocHeapData other.scriptsMallocHeapData,
    baselineData := sizeAdd c.baselineData other.baselineData,
    baselineStubsFallback := sizeAdd c.baselineStubsFallback other.baselineStubsFallback,
    baselineStubsOptimized := sizeAdd c.baselineStubsOptimized other.baselineStubsOptimized,
    ionData := sizeAdd c.ionData other.ionData,
    typeInferenceTypeScripts := sizeAdd c.typeInferenceTypeScripts other.typeInferenceTypeScripts,
    typeInferenceAllocationSiteTables :=
      sizeAdd c.typeInferenceAllocationSiteTables other.typeInferenceAllocationSiteTables,
    typeInferenceArrayTypeTables :=
      sizeAdd c.typeInferenceArrayTypeTables other.typeInferenceArrayTypeTables,
    typeInferenceObjectTypeTables :=
      sizeAdd c.typeInferenceObjectTypeTables other.typeInferenceObjectTypeTables,
    compartmentObject := sizeAdd c.compartmentObject other.compartmentObject,
    crossCompartmentWrappersTable :=
      sizeAdd c.crossCompartmentWrappersTable other.crossCompartmentWrappersTable,
    regexpCompartment := sizeAdd c.regexpCompartment other.regexpCompartment,
    debuggeesSet := sizeAdd c.debuggeesSet other.debuggeesSet }

/-- Reading `zs[i]`; the vector asserts that the index is in bounds. -/
def zoneStatsAt (zs : List ZoneStats) (i : Nat) : Except Failure ZoneStats :=
  match zs[i]? with
  | some z => pure z
  | none => throw Failure.outOfBounds

/-- The value of `zs[i].strings->count()`. -/
def stringsCountAt (zs : List ZoneStats) (i : Nat) : Except Failure Nat := do
  let z ← zoneStatsAt zs i
  match z.strings with
  | some strings => pure strings.count
  | none => throw Failure.nullPointer

/-- The first `for` loop of `JS::CollectRuntimeStats`, from index `i` on, for `fuel` more
indices. The state is `zTotals`, the vector `zs` and `iMax`. -/
def CollectRuntimeStats.sumZones (notableSize : Nat) (growBy : Nat → JSString → Bool) :
    (fuel i : Nat) → ZoneStats × List ZoneStats × Nat →
      Except Failure (ZoneStats × List ZoneStats × Nat)
  | 0, _, state => pure state
  | fuel + 1, i, (zTotals, zs, iMax) => do
    let z ← zoneStatsAt zs i
    let zTotals := zTotals.addIgnoringStrings z
    let z ← FindNotableStrings notableSize (growBy i) z
    let zs := zs.set i z
    let count ← stringsCountAt zs i
    let countMax ← stringsCountAt zs iMax
    let iMax := if count > countMax then i else iMax
    CollectRuntimeStats.sumZones notableSize growBy fuel (i + 1) (zTotals, zs, iMax)

/-- The second `for` loop of `JS::CollectRuntimeStats`, from index `i` on, for `fuel` more
indices: every table but that of `zs[iMax]` is added to `zTotals` and deleted. -/
def CollectRuntimeStats.mergeStrings (addOk : JSString → Bool) (iMax : Nat) :
    (fuel i : Nat) → ZoneStats × List ZoneStats → Except Failure (ZoneStats × List ZoneStats)
  | 0, _, state => pure state
  | fuel + 1, i, (zTotals, zs) =>
    if i != iMax then do
      let z ← zoneStatsAt zs i
      let zTotals ← zTotals.addStrings addOk z
      let zs := zs.set i { z with strings := none }
      CollectRuntimeStats.mergeStrings addOk iMax fuel (i + 1) (zTotals, zs)
    else
      CollectRuntimeStats.mergeStrings addOk iMax fuel (i + 1) (zTotals, zs)

/-- The part of `JS::CollectRuntimeStats` after `closure.init()` has succeeded.
`heapWalk` is the effect on the closure of the call
`IterateZonesCompartmentsArenasCells(rt, &closure, StatsZoneCallback,
StatsCompartmentCallback, StatsArenaCallback, StatsCellCallback<FineGrained>)`, whose
driver (`jsgc.cpp`) is not among the sources. The final reset of the `compartmentStats`
pointers of the compartments does not touch `rtStats`. -/
def CollectRuntimeStats.measure (gc : GCLayout) (notableSize : Nat) (alloc : Allocations)
    (heapWalk : StatsClosure → Except Failure StatsClosure) (rt : JSRuntime)
    (closure : StatsClosure) : Except Failure (Bool × RuntimeStats) := do
  let closure ← heapWalk closure
  let rtStats := closure.rtStats
  let rtStats := { rtStats with
    runtime := { rtStats.runtime with others := sizeAdd rtStats.runtime.others rt.sizeOfRuntime } }
  let zs := rtStats.zoneStatsVector
  let (zTotals, zs, iMax) ←
    CollectRuntimeStats.sumZones notableSize alloc.growBy zs.length 0 (rtStats.zTotals, zs, 0)
  MOZ_ASSERT zTotals.strings.isNone
  let zMax ← zoneStatsAt zs iMax
  let zTotals := { zTotals with strings := zMax.strings }
  let zs := zs.set iMax { zMax with strings := none }
  let (zTotals, zs) ←
    CollectRuntimeStats.mergeStrings alloc.addStrings iMax zs.length 0 (zTotals, zs)
  let zTotals ← FindNotableStrings notableSize (alloc.growBy zs.length) zTotals
  let zTotals := { zTotals with strings := none }
  let cTotals := rtStats.compartmentStatsVector.foldl CompartmentStats.add rtStats.cTotals
  let gcHeapGCThings := sizeAdd zTotals.sizeOfLiveGCThings cTotals.sizeOfLiveGCThings
  let totalArenaSize :=
    sizeAdd (sizeAdd zTotals.gcHeapArenaAdmin zTotals.unusedGCThings) gcHeapGCThings
  JS_ASSERT (totalArenaSize % gc.ArenaSize == 0)
  let numDirtyChunks := sizeSub rtStats.gcHeapChunkTotal rtStats.gcHeapUnusedChunks / gc.ChunkSize
  let perChunkAdmin := sizeSub gc.sizeofChunk (sizeMul gc.sizeofArena gc.ArenasPerChunk)
  let gcHeapChunkAdmin := sizeMul numDirtyChunks perChunkAdmin
  let gcHeapUnusedArenas :=
    sizeSub (sizeSub (sizeSub (sizeSub (sizeSub (sizeSub rtStats.gcHeapChunkTotal
      rtStats.gcHeapDecommittedArenas) rtStats.gcHeapUnusedChunks) zTotals.unusedGCThings)
      gcHeapChunkAdmin) zTotals.gcHeapArenaAdmin) gcHeapGCThings
  pure (true, { rtStats with
    zTotals := zTotals, zoneStatsVector := zs, cTotals := cTotals,
    gcHeapGCThings := gcHeapGCThings, gcHeapChunkAdmin := gcHeapChunkAdmin,
    gcHeapUnusedArenas := gcHeapUnusedArenas })

/-- The function `JS::CollectRuntimeStats`. The result is the returned boolean and the caller's
`RuntimeStats` after the call. -/
def CollectRuntimeStats (gc : GCLayout) (notableSize : Nat) (alloc : Allocations)
    (heapWalk : StatsClosure → Except Failure StatsClosure) (rt : JSRuntime)
    (rtStats : RuntimeStats) (opv : Bool) : Except Failure (Bool × RuntimeStats) :=
  match Vector.reserve alloc.reserveCompartmentStats rtStats.compartmentStatsReserved
      rt.numCompartments with
  | (false, _) => pure (false, rtStats)
  | (true, capacity) =>
    let rtStats := { rtStats with compartmentStatsReserved := capacity }
    match Vector.reserve alloc.reserveZoneStats rtStats.zoneStatsReserved rt.numZones with
    | (false, _) => pure (false, rtStats)
    | (true, capacity) => do
      let rtStats := { rtStats with zoneStatsReserved := capacity }
      let rtStats := { rtStats with
        gcHeapChunkTotal := sizeMul rt.JSGC_TOTAL_CHUNKS gc.ChunkSize }
      let rtStats := { rtStats with
        gcHeapUnusedChunks := sizeMul rt.JSGC_UNUSED_CHUNKS gc.ChunkSize }
      let decommitted ← IterateChunks gc rt.chunks rtStats.gcHeapDecommittedArenas
      let rtStats := { rtStats with gcHeapDecommittedArenas := decommitted }
      let closure : StatsClosure := { rtStats := rtStats, opv := opv, seenSources := [] }
      if !alloc.closureInit then
        pure (false, rtStats)
      else
        CollectRuntimeStats.measure gc notableSize alloc heapWalk rt closure

/-! ## A small heap, used to run the definitions on concrete data -/

/-- A heap layout with arenas of 4096 bytes, a 32-byte arena header and chunks of 1 MiB
holding 252 arenas. -/
def Example.layout : GCLayout :=
  { ArenaSize := 4096, ChunkSize := 1048576, ArenasPerChunk := 252, sizeofChunk := 1048576,
    sizeofArena := 4096, thingsSpan := fun thingSize => (4096 - 32) / thingSize * thingSize }

/-- The closure at the start of the first arena of a heap with one zone and one
compartment: all counters zero, an empty strings table. -/
def Example.closure0 : StatsClosure :=
  { rtStats := { RuntimeStats.new with
      zoneStatsVector := [{ ZoneStats.new with strings := some { entries := [] } }],
      compartmentStatsVector := [CompartmentStats.new],
      currZoneStats := some 0 },
    opv := false, seenSources := [] }

/-- A function object of compartment 0 with 100 bytes of malloc-heap extras. -/
def Example.functionObject : Cell :=
  Cell.JSTRACE_OBJECT {
    compartment := { compartmentStats := some 0 },
    cls := ObjectClass.JSFunction, sizeOfExtra := 100, privateSize := none }

/-- The short string "ab". -/
def Example.shortString : JSString := { chars := [97, 98], isShort := true }

/-- The live cells of an arena of 32-byte things: a function object, a short string and a
piece of generated code. -/
def Example.cells : List (Cell × Bool) :=
  [(Example.functionObject, true), (Cell.JSTRACE_STRING Example.shortString 0, true),
   (Cell.JSTRACE_JITCODE, true)]

/-- The closure `Example.closure0` after the arena callback for 32-byte things: 32 bytes
of arena admin, 4064 bytes of unused things. -/
def Example.closureArena : StatsClosure :=
  { Example.closure0 with rtStats := { Example.closure0.rtStats with
      zoneStatsVector := [{ ZoneStats.new with
        gcHeapArenaAdmin := 32, unusedGCThings := 4064, strings := some { entries := [] } }] } }

/-- The closure `Example.closureArena` after the visit of the function object. -/
def Example.closureObject : StatsClosure :=
  { Example.closure0 with rtStats := { Example.closure0.rtStats with
      zoneStatsVector := [{ ZoneStats.new with
        gcHeapArenaAdmin := 32, unusedGCThings := 4032, strings := some { entries := [] } }],
      compartmentStatsVector := [{ CompartmentStats.new with
        objectsGCHeapFunction := 32, objectsExtra := 100 }] } }

/-- The closure after the arena callback and the visit of the three cells of
`Example.cells`. -/
def Example.closure1 : StatsClosure :=
  { Example.closure0 with rtStats := { Example.closure0.rtStats with
      zoneStatsVector := [{ ZoneStats.new with
        gcHeapArenaAdmin := 32, unusedGCThings := 3968, stringsShortGCHeap := 32,
        jitCodesGCHeap := 32,
        strings := some { entries := [(Example.shortString, StringInfo.mk1 true 32 0)] } }],
      compartmentStatsVector := [{ CompartmentStats.new with
        objectsGCHeapFunction := 32, objectsExtra := 100 }] } }

/-- A normal string and the info of its single copy: 32 bytes of GC heap and 18 bytes of
malloc heap, 50 bytes in all. -/
def Example.string50 : JSString × StringInfo :=
  ({ chars := [120], isShort := false }, StringInfo.mk1 false 32 18)

/-- A normal string and the info of its single copy: 32 bytes of GC heap and 4968 bytes of
malloc heap, 5000 bytes in all. -/
def Example.string5000 : JSString × StringInfo :=
  ({ chars := [121], isShort := false }, StringInfo.mk1 false 32 4968)

/-- A normal string and the info of its single copy: 32 bytes of GC heap and 4064 bytes of
malloc heap, 4096 bytes in all. -/
def Example.string4096 : JSString × StringInfo :=
  ({ chars := [122], isShort := false }, StringInfo.mk1 false 32 4064)

/-- A zone record after the walk of a zone with the two string cells of 50 and 5000
bytes. -/
def Example.zoneTwoStrings : ZoneStats :=
  { ZoneStats.new with
    stringsNormalGCHeap := 64, stringsNormalMallocHeap := 4986,
    strings := some { entries := [Example.string50, Example.string5000] } }

/-- The record `Example.zoneTwoStrings` after `FindNotableStrings` with threshold 4096. -/
def Example.zoneTwoStringsAfter : ZoneStats :=
  { Example.zoneTwoStrings with
    notableStrings := [NotableStringInfo.mk2 Example.string5000.1 Example.string5000.2],
    stringsNormalGCHeap := 32, stringsNormalMallocHeap := 18 }

/-- A zone record after the walk of a zone with one string cell of exactly 4096 bytes. -/
def Example.zoneAtThreshold : ZoneStats :=
  { ZoneStats.new with
    stringsNormalGCHeap := 32, stringsNormalMallocHeap := 4064,
    strings := some { entries := [Example.string4096] } }

/-- The record `Example.zoneAtThreshold` after `FindNotableStrings` with threshold 4096. -/
def Example.zoneAtThresholdAfter : ZoneStats :=
  { Example.zoneAtThreshold with
    notableStrings := [NotableStringInfo.mk2 Example.string4096.1 Example.string4096.2],
    stringsNormalGCHeap := 0, stringsNormalMallocHeap := 0 }

/-- A zone record after the walk of a zone with the string cells of 50 and 5000 bytes and
one more string cell of 5000 bytes that the strings table could not take (its `add`
failed), so that only the bulk counters hold it. -/
def Example.zoneThreeStrings : ZoneStats :=
  { ZoneStats.new with
    stringsNormalGCHeap := 96, stringsNormalMallocHeap := 9954,
    strings := some { entries := [Example.string50, Example.string5000] } }

/-- The record `Example.zoneThreeStrings` after `FindNotableStrings` with threshold 4096. -/
def Example.zoneThreeStringsAfter : ZoneStats :=
  { Example.zoneThreeStrings with
    notableStrings := [NotableStringInfo.mk2 Example.string5000.1 Example.string5000.2],
    stringsNormalGCHeap := 64, stringsNormalMallocHeap := 4986 }

/-- The record `Example.zoneThreeStringsAfter` after the loop of `FindNotableStrings` has
run over its table once more. -/
def Example.zoneThreeStringsAgain : ZoneStats :=
  { Example.zoneThreeStrings with
    notableStrings := [NotableStringInfo.mk2 Example.string5000.1 Example.string5000.2,
      NotableStringInfo.mk2 Example.string5000.1 Example.string5000.2],
    stringsNormalGCHeap := 32, stringsNormalMallocHeap := 18 }

/-- A runtime with three chunks, one of them unused and one with two decommitted
arenas. -/
def Example.runtime : JSRuntime :=
  { numCompartments := 1, numZones := 1, JSGC_TOTAL_CHUNKS := 3, JSGC_UNUSED_CHUNKS := 1,
    chunks := [{ decommittedArenas := [] }, { decommittedArenas := [true, false, true] }],
    sizeOfRuntime := 0 }

/-- Allocation outcomes: both reservations succeed and `closure.init()` fails. -/
def Example.closureInitFails : Allocations :=
  { reserveCompartmentStats := true, reserveZoneStats := true, closureInit := false,
    growBy := fun _ _ => true, addStrings := fun _ => true }

/-- Allocation outcomes: the reservation of `zoneStatsVector` fails. -/
def Example.reserveZonesFails : Allocations :=
  { reserveCompartmentStats := true, reserveZoneStats := false, closureInit := true,
    growBy := fun _ _ => true, addStrings := fun _ => true }

/-- Allocation outcomes: every allocation succeeds. -/
def Example.allocationsSucceed : Allocations :=
  { reserveCompartmentStats := true, reserveZoneStats := true, closureInit := true,
    growBy := fun _ _ => true, addStrings := fun _ => true }

/-- The heap iteration over a heap with one zone, one compartment and one arena of 32-byte
things holding the cells of `Example.cells`: the zone and the compartment callback have
appended one record each, the zone record with an empty strings table, and the arena is
visited. -/
def Example.heapWalk (closure : StatsClosure) : Except Failure StatsClosure :=
  visitArena Example.layout Granularity.FineGrained true 32 Example.cells
    { closure with rtStats := { closure.rtStats with
        zoneStatsVector := [{ ZoneStats.new with strings := some { entries := [] } }],
        compartmentStatsVector := [CompartmentStats.new],
        currZoneStats := some 0 } }

/-- The `RuntimeStats` after `JS::CollectRuntimeStats` on `Example.runtime` with the heap of
`Example.heapWalk`: three chunks of 1 MiB, 8192 decommitted bytes, one unused chunk, one
arena in use with 96 bytes of live cells. -/
def Example.runtimeStatsAfter : RuntimeStats :=
  { RuntimeStats.new with
    compartmentStatsReserved := 1, zoneStatsReserved := 1,
    gcHeapChunkTotal := 3145728, gcHeapDecommittedArenas := 8192,
    gcHeapUnusedChunks := 1048576, gcHeapUnusedArenas := 2052096,
    gcHeapChunkAdmin := 32768, gcHeapGCThings := 96,
    zTotals := { ZoneStats.new with
      gcHeapArenaAdmin := 32, unusedGCThings := 3968, stringsShortGCHeap := 32,
      jitCodesGCHeap := 32 },
    zoneStatsVector := [{ ZoneStats.new with
      gcHeapArenaAdmin := 32, unusedGCThings := 3968, stringsShortGCHeap := 32,
      jitCodesGCHeap := 32 }],
    cTotals := { CompartmentStats.new with objectsGCHeapFunction := 32, objectsExtra := 100 },
    compartmentStatsVector := [{ CompartmentStats.new with
      objectsGCHeapFunction := 32, objectsExtra := 100 }],
    currZoneStats := some 0 }

/-- The value of `strings->count()` for a zone record with a strings table; 0 stands for a
record whose `strings` pointer is null. -/
def ZoneStats.stringsCount (z : ZoneStats) : Nat :=
  match z.strings with
  | some strings => strings.count
  | none => 0

/-- A zone record as the heap walk leaves it: its strings table is there, no notable string
has been found yet, and the bulk string counters are `size_t` values that cover the
table. -/
def ZoneStats.Walked (z : ZoneStats) : Prop :=
  z.notableStrings = [] ∧ z.stringsInRange ∧
    ∃ strings, z.strings = some strings ∧ StringsAccounted strings.entries z

/-- The table the specification describes for `zTotals`: starting from `table`, the table
of every zone of `zs` (whose first zone has index `i`) other than the zone of index `iMax`
is merged in with `addStrings`, in the order of the zones. -/
def CollectRuntimeStats.mergedTable (addOk : JSString → Bool) (iMax : Nat) :
    Nat → List ZoneStats → StringsHashMap → StringsHashMap
  | _, [], table => table
  | i, z :: rest, table =>
    CollectRuntimeStats.mergedTable addOk iMax (i + 1) rest
      (if i = iMax then table
       else match z.strings with
         | some theirs => ZoneStats.addStrings.loop addOk theirs.entries table
         | none => table)

/-- A zone record after the walk of a zone with one arena whose only live cell is the
string cell of 50 bytes. -/
def Example.zoneOneString : ZoneStats :=
  { ZoneStats.new with
    gcHeapArenaAdmin := 32, unusedGCThings := 4032,
    stringsNormalGCHeap := 32, stringsNormalMallocHeap := 18,
    strings := some { entries := [Example.string50] } }

/-- A zone record after the walk of a zone with one arena whose live cells are the string
cells of 4096 and of 50 bytes. -/
def Example.zoneOtherStrings : ZoneStats :=
  { ZoneStats.new with
    gcHeapArenaAdmin := 32, unusedGCThings := 4000,
    stringsNormalGCHeap := 64, stringsNormalMallocHeap := 4082,
    strings := some { entries := [Example.string4096, Example.string50] } }

/-- A zone record after the walk of a zone with one arena whose live cells are the string
cells of 50 and of 5000 bytes. -/
def Example.zoneBothStrings : ZoneStats :=
  { Example.zoneTwoStrings with gcHeapArenaAdmin := 32, unusedGCThings := 4000 }

/-- The heap iteration over a heap of three zones, whose strings tables have one, two and
two entries. -/
def Example.heapWalkThreeZones (closure : StatsClosure) : Except Failure StatsClosure :=
  pure { closure with rtStats := { closure.rtStats with
    zoneStatsVector :=
      [Example.zoneOneString, Example.zoneBothStrings, Example.zoneOtherStrings] } }

/-- The closure that `JS::CollectRuntimeStats` builds for `Example.runtime` on a fresh
`RuntimeStats`: the three chunk measurements are written. -/
def Example.closureNew : StatsClosure :=
  { rtStats := { RuntimeStats.new with
      compartmentStatsReserved := 1, zoneStatsReserved := 1, gcHeapChunkTotal := 3145728,
      gcHeapUnusedChunks := 1048576, gcHeapDecommittedArenas := 8192 },
    opv := false, seenSources := [] }

/-- The `RuntimeStats` after the part of `JS::CollectRuntimeStats` that follows
`closure.init()`, run on `Example.closureNew` with the heap of
`Example.heapWalkThreeZones`: the two strings of 5000 and 4096 bytes are notable in their
zones and in the totals, and no record has a strings table. -/
def Example.threeZonesAfter : RuntimeStats :=
  { Example.closureNew.rtStats with
    gcHeapUnusedArenas := 2043904, gcHeapChunkAdmin := 32768, gcHeapGCThings := 160,
    zTotals := { ZoneStats.new with
      gcHeapArenaAdmin := 96, unusedGCThings := 12032,
      stringsNormalGCHeap := 96, stringsNormalMallocHeap := 54,
      notableStrings := [NotableStringInfo.mk2 Example.string5000.1 Example.string5000.2,
        NotableStringInfo.mk2 Example.string4096.1 Example.string4096.2] },
    zoneStatsVector :=
      [{ Example.zoneOneString with strings := none },
       { Example.zoneBothStrings with
         notableStrings := [NotableStringInfo.mk2 Example.string5000.1 Example.string5000.2],
         stringsNormalGCHeap := 32, stringsNormalMallocHeap := 18, strings := none },
       { Example.zoneOtherStrings with
         notableStrings := [NotableStringInfo.mk2 Example.string4096.1 Example.string4096.2],
         stringsNormalGCHeap := 32, stringsNormalMallocHeap := 18, strings := none }] }

/-- Everything in a zone record but its strings table: the record with a null `strings`
pointer. -/
def ZoneStats.withoutStrings (z : ZoneStats) : ZoneStats :=
  { z with strings := none }

/-- The `RuntimeStats` with the strings table of every zone record taken away; every byte
counter is kept. -/
def RuntimeStats.withoutStrings (r : RuntimeStats) : RuntimeStats :=
  { r with zoneStatsVector := r.zoneStatsVector.map ZoneStats.withoutStrings }

/-- The closure with the strings table of every zone record taken away. -/
def StatsClosure.withoutStrings (cl : StatsClosure) : StatsClosure :=
  { cl with rtStats := cl.rtStats.withoutStrings }

/-- The closure `Example.closureArena` after the fine-grained visit of the short string:
32 bytes are charged to `stringsShortGCHeap`, and the string is in the table. -/
def Example.closureString : StatsClosure :=
  { Example.closure0 with rtStats := { Example.closure0.rtStats with
      zoneStatsVector := [{ ZoneStats.new with
        gcHeapArenaAdmin := 32, unusedGCThings := 4032, stringsShortGCHeap := 32,
        strings := some { entries := [(Example.shortString, StringInfo.mk1 true 32 0)] } }] } }

/-- Modelled from the spec: what `LifoAlloc::alloc` does when the latest chunk cannot take
the request: "a call whose size exceeds remaining chunk space triggers a new chunk". `fresh`
is the outcome of the allocation of the chunk: `none` when memory is exhausted, or the
address of the new chunk, which has the default chunk size, or the size of the request when
that is larger. On failure the allocator is unchanged and the result is null. -/
def LifoAlloc.newChunk (a : LifoAlloc) (fresh : Option Nat) (n : Nat) : Option Nat × LifoAlloc :=
  match fresh with
  | none => (none, a)
  | some base =>
    (some base,
      { a with
        chunks := { base := base, capacity := max a.defaultChunkSize_ n, bump := n } :: a.chunks })

/-- Modelled from the spec: `LifoAlloc::alloc(n)`, "chunked allocator handing out sequential
offsets from a fixed-size block": the request is served at the bump pointer of the latest
chunk (the head of `chunks`) when it fits there, and from a new chunk otherwise. The result
is the returned pointer (`none` is null) and the allocator after the call. -/
def LifoAlloc.alloc (a : LifoAlloc) (fresh : Option Nat) (n : Nat) : Option Nat × LifoAlloc :=
  match a.chunks with
  | c :: older =>
    if c.bump + n ≤ c.capacity then
      (some (c.base + c.bump), { a with chunks := { c with bump := c.bump + n } :: older })
    else a.newChunk fresh n
  | [] => a.newChunk fresh n

/-- Modelled from the spec: `LifoAlloc::steal(other)`, "transfers the chunk list of `other`
into `self`, leaving `other` empty". The result is the pair of `this` and `other` after the
call. -/
def LifoAlloc.steal (a other : LifoAlloc) : LifoAlloc × LifoAlloc :=
  ({ a with chunks := other.chunks ++ a.chunks }, { other with chunks := [] })

/-- The method `ICStubSpace::alloc`. -/
def ICStubSpace.alloc (s : ICStubSpace) (fresh : Option Nat) (size : Nat) :
    Option Nat × ICStubSpace :=
  ((s.allocator_.alloc fresh size).1, { s with allocator_ := (s.allocator_.alloc fresh size).2 })

/-- The constructor `FallbackICStubSpace()`. -/
def FallbackICStubSpace.new : ICStubSpace :=
  { allocator_ := { defaultChunkSize_ := FallbackICStubSpace.STUB_DEFAULT_CHUNK_SIZE, chunks := [] } }

/-- The method `FallbackICStubSpace::adoptFrom`; the result is the pair of `this` and
`other` after the call. -/
def FallbackICStubSpace.adoptFrom (s other : ICStubSpace) : ICStubSpace × ICStubSpace :=
  ({ s with allocator_ := (s.allocator_.steal other.allocator_).1 },
   { other with allocator_ := (s.allocator_.steal other.allocator_).2 })

/-- Two chunks do not overlap. -/
def BumpChunk.disjoint (c d : BumpChunk) : Prop :=
  c.base + c.capacity ≤ d.base ∨ d.base + d.capacity ≤ c.base

/-- The part of a chunk that has been handed out, as a block: its address and its size. -/
def BumpChunk.used (c : BumpChunk) : Nat × Nat := (c.base, c.bump)

/-- Two blocks, each given by its address and its size, do not overlap. -/
def blocksDisjoint (b1 b2 : Nat × Nat) : Prop :=
  b1.1 + b1.2 ≤ b2.1 ∨ b2.1 + b2.2 ≤ b1.1

/-- The block `b` lies in the part of the chunk `c` that has been handed out. -/
def BumpChunk.holds (c : BumpChunk) (b : Nat × Nat) : Prop :=
  c.base ≤ b.1 ∧ b.1 + b.2 ≤ c.base + c.bump

/-- The chunks of a heap are well formed: no bump pointer is past the end of its chunk, and
no two chunks overlap. -/
def ChunksWellFormed (chunks : List BumpChunk) : Prop :=
  (∀ c ∈ chunks, c.bump ≤ c.capacity) ∧ chunks.Pairwise BumpChunk.disjoint

/-- The memory that the system hands to `a` for a new chunk is fresh: it overlaps no chunk
of `a` and none of the other live chunks `live`. -/
def LifoAlloc.MallocFresh (a : LifoAlloc) (live : List BumpChunk) (n : Nat)
    (fresh : Option Nat) : Prop :=
  ∀ base, fresh = some base → ∀ c ∈ a.chunks ++ live,
    BumpChunk.disjoint { base := base, capacity := max a.defaultChunkSize_ n, bump := n } c

/-- The blocks that a sequence of `alloc` calls on one stub space returns, and the space
after the calls; each call comes with its size and the outcome of the chunk allocation it
may attempt. -/
def ICStubSpace.allocs : ICStubSpace → List (Nat × Option Nat) → List (Nat × Nat) × ICStubSpace
  | s, [] => ([], s)
  | s, (n, fresh) :: rest =>
    match (s.alloc fresh n).1 with
    | some p => ((p, n) :: ((s.alloc fresh n).2.allocs rest).1, ((s.alloc fresh n).2.allocs rest).2)
    | none => (s.alloc fresh n).2.allocs rest

/-- Every chunk allocation of a sequence of `alloc` calls on one stub space gets fresh
memory. -/
def ICStubSpace.FreshRun : ICStubSpace → List (Nat × Option Nat) → Prop
  | _, [] => True
  | s, (n, fresh) :: rest =>
    s.allocator_.MallocFresh [] n fresh ∧ (s.alloc fresh n).2.FreshRun rest

/-- The blocks that a sequence of `alloc` calls on two stub spaces returns; each call names
its space (`true` is the first one) and comes with its size and the outcome of the chunk
allocation it may attempt. -/
def allocsOnTwo : ICStubSpace → ICStubSpace → List (Bool × Nat × Option Nat) → List (Nat × Nat)
  | _, _, [] => []
  | s, t, (true, n, fresh) :: rest =>
    match (s.alloc fresh n).1 with
    | some p => (p, n) :: allocsOnTwo (s.alloc fresh n).2 t rest
    | none => allocsOnTwo (s.alloc fresh n).2 t rest
  | s, t, (false, n, fresh) :: rest =>
    match (t.alloc fresh n).1 with
    | some p => (p, n) :: allocsOnTwo s (t.alloc fresh n).2 rest
    | none => allocsOnTwo s (t.alloc fresh n).2 rest

/-- Every chunk allocation of a sequence of `alloc` calls on two stub spaces gets memory
that overlaps no chunk of either space. -/
def FreshRunOnTwo : ICStubSpace → ICStubSpace → List (Bool × Nat × Option Nat) → Prop
  | _, _, [] => True
  | s, t, (true, n, fresh) :: rest =>
    s.allocator_.MallocFresh t.allocator_.chunks n fresh ∧
      FreshRunOnTwo (s.alloc fresh n).2 t rest
  | s, t, (false, n, fresh) :: rest =>
    t.allocator_.MallocFresh s.allocator_.chunks n fresh ∧
      FreshRunOnTwo s (t.alloc fresh n).2 rest

/-- Three calls of `alloc` on a stub space: 4000 bytes, for which the system hands out a
chunk at address 1000; 50 bytes; and 100 bytes, for which the system hands out a chunk at
address 10000. -/
def Example.allocCalls : List (Nat × Option Nat) :=
  [(4000, some 1000), (50, none), (100, some 10000)]

/-- A fallback stub space that has handed out the first 100 bytes of its single chunk, which
is at address 1000. -/
def Example.fallbackSpace : ICStubSpace :=
  { allocator_ := { defaultChunkSize_ := FallbackICStubSpace.STUB_DEFAULT_CHUNK_SIZE,
                    chunks := [{ base := 1000, capacity := 256, bump := 100 }] } }

/-- Three calls of `alloc` after an adoption: 100 bytes from the adopting space; 10 bytes
from the adopted one, for which the system hands out a chunk at address 5000; and 200 bytes
from the adopting space, for which the system hands out a chunk at address 2000. -/
def Example.callsAfterAdoption : List (Bool × Nat × Option Nat) :=
  [(true, 100, none), (false, 10, some 5000), (true, 200, some 2000)]

/-! ## `xpcom/glue/nsTextFormatter.cpp` -/

/-- What the formatter depends on of the build it is compiled in: whether `DEBUG` is
defined, the number of bits of `long`, and `sizeof(void *)`. -/
structure BuildConfig where
  DEBUG : Bool
  longBits : Nat
  sizeofPointer : Nat
  deriving DecidableEq, Repr

/-- Modelled from the spec: the macro `PR_ASSERT` of NSPR (`prlog.h`, not among the
sources): in a build with `DEBUG` a false condition aborts the program; in other builds the
macro expands to nothing. -/
def PR_ASSERT (cfg : BuildConfig) (cond : Bool) : Except Failure Unit :=
  if cfg.DEBUG && !cond then throw Failure.assertion else pure ()

/-- An `int` value wrapped to 32 bits in two's complement. -/
def wrapInt32 (x : Int) : Int := (x + 2 ^ 31) % 2 ^ 32 - 2 ^ 31

/-- The conversion of an `int` to `uint32_t`. -/
def toUint32 (x : Int) : Nat := (x % 2 ^ 32).toNat

/-- The conversion `(int32_t)x` of a `uint32_t`. -/
def toInt32 (x : Nat) : Int := wrapInt32 (x : Int)

/-- A value wrapped to the signed integers of `bits` bits in two's complement. -/
def wrapSigned (bits : Nat) (x : Int) : Int :=
  (x + 2 ^ (bits - 1)) % 2 ^ bits - 2 ^ (bits - 1)

/-- The struct `SprintfStateStr` but for its function pointer `stuff`, which the functions
below take as an argument: `base` is the content of the buffer that the pointer `base`
points to, `cur` is the offset `cur - base`. -/
structure SprintfState where
  base : List Nat
  cur : Nat
  maxlen : Nat
  deriving DecidableEq, Repr

/-- The type of `ss->stuff`: the call `(*ss->stuff)(ss, sp, len)`, where `sp` is given by
the units that can be read from it. The result is the returned `int` and the state after
the call. -/
abbrev StuffFn := SprintfState → List Nat → Nat → Except Failure (Int × SprintfState)

/-- The value of `enum Type` constant `NumArgState::INT16`. -/
def NumArgState.INT16 : Nat := 0
/-- The value of `enum Type` constant `NumArgState::UINT16`. -/
def NumArgState.UINT16 : Nat := 1
/-- The value of `enum Type` constant `NumArgState::INTN`. -/
def NumArgState.INTN : Nat := 2
/-- The value of `enum Type` constant `NumArgState::UINTN`. -/
def NumArgState.UINTN : Nat := 3
/-- The value of `enum Type` constant `NumArgState::INT32`. -/
def NumArgState.INT32 : Nat := 4
/-- The value of `enum Type` constant `NumArgState::UINT32`. -/
def NumArgState.UINT32 : Nat := 5
/-- The value of `enum Type` constant `NumArgState::INT64`. -/
def NumArgState.INT64 : Nat := 6
/-- The value of `enum Type` constant `NumArgState::UINT64`. -/
def NumArgState.UINT64 : Nat := 7
/-- The value of `enum Type` constant `NumArgState::STRING`. -/
def NumArgState.STRING : Nat := 8
/-- The value of `enum Type` constant `NumArgState::DOUBLE`. -/
def NumArgState.DOUBLE : Nat := 9
/-- The value of `enum Type` constant `NumArgState::INTSTR`. -/
def NumArgState.INTSTR : Nat := 10
/-- The value of `enum Type` constant `NumArgState::UNISTRING`. -/
def NumArgState.UNISTRING : Nat := 11
/-- The value of `enum Type` constant `NumArgState::UNKNOWN`. -/
def NumArgState.UNKNOWN : Nat := 12

/-- The macro `NAS_DEFAULT_NUM`. -/
def NAS_DEFAULT_NUM : Nat := 20

/-- The macro `_LEFT`. -/
def _LEFT : Nat := 0x1
/-- The macro `_SIGNED`. -/
def _SIGNED : Nat := 0x2
/-- The macro `_SPACED`. -/
def _SPACED : Nat := 0x4
/-- The macro `_ZEROS`. -/
def _ZEROS : Nat := 0x8
/-- The macro `_NEG`. -/
def _NEG : Nat := 0x10

/-- The check `if (rv < 0) return rv;` between two steps: the second step runs on the state
that the first one left unless the first one returned a negative value. -/
def stuffThen (first : Except Failure (Int × SprintfState))
    (next : SprintfState → Except Failure (Int × SprintfState)) :
    Except Failure (Int × SprintfState) := do
  let (rv, ss) ← first
  if rv < 0 then pure (rv, ss) else next ss

/-- The loop `while (--n >= 0) { rv = (*ss->stuff)(ss, &ch, 1); if (rv < 0) return rv; }`
for a counter that starts at `n`. -/
def stuffRepeat (stuff : StuffFn) (ch : Nat) : Nat → SprintfState →
    Except Failure (Int × SprintfState)
  | 0, ss => pure (0, ss)
  | n + 1, ss => stuffThen (stuff ss [ch] 1) (stuffRepeat stuff ch n)

/-- The function `fill2`. -/
def fill2 (stuff : StuffFn) (ss : SprintfState) (src : List Nat) (srclen width : Int)
    (flags : Nat) : Except Failure (Int × SprintfState) :=
  let width := wrapInt32 (width - srclen)
  let rightAdjust := decide (width > 0) && (flags &&& _LEFT == 0)
  let space := if rightAdjust && (flags &&& _ZEROS != 0) then 48 else 32
  stuffThen (if rightAdjust then stuffRepeat stuff space width.toNat ss else pure (0, ss))
    fun ss =>
      let width := if rightAdjust then -1 else width
      stuffThen (stuff ss src (toUint32 srclen)) fun ss =>
        if decide (width > 0) && (flags &&& _LEFT != 0) then
          stuffThen (stuffRepeat stuff space width.toNat ss) fun ss => pure (0, ss)
        else pure (0, ss)

/-- The function `fill_n`. -/
def fill_n (stuff : StuffFn) (ss : SprintfState) (src : List Nat) (srclen width prec : Int)
    (type flags : Nat) : Except Failure (Int × SprintfState) :=
  let space := 32
  let zeroChar := 48
  let signed := type &&& 1 == 0
  let sign :=
    if signed && (flags &&& _NEG != 0) then 45
    else if signed && (flags &&& _SIGNED != 0) then 43
    else 32
  let signwidth : Int :=
    if signed && ((flags &&& _NEG != 0) || (flags &&& _SIGNED != 0) || (flags &&& _SPACED != 0))
    then 1 else 0
  let cvtwidth := wrapInt32 (signwidth + srclen)
  let precwidth := if prec > 0 ∧ prec > srclen then wrapInt32 (prec - srclen) else 0
  let cvtwidth := wrapInt32 (cvtwidth + precwidth)
  let zerowidth :=
    if (flags &&& _ZEROS != 0) ∧ prec < 0 ∧ width > cvtwidth then wrapInt32 (width - cvtwidth)
    else 0
  let cvtwidth := wrapInt32 (cvtwidth + zerowidth)
  let rightspaces :=
    if (flags &&& _LEFT != 0) ∧ width > cvtwidth then wrapInt32 (width - cvtwidth) else 0
  let leftspaces :=
    if (flags &&& _LEFT == 0) ∧ width > cvtwidth then wrapInt32 (width - cvtwidth) else 0
  stuffThen (stuffRepeat stuff space leftspaces.toNat ss) fun ss =>
    stuffThen (if signwidth != 0 then stuff ss [sign] 1 else pure (0, ss)) fun ss =>
      stuffThen (stuffRepeat stuff space precwidth.toNat ss) fun ss =>
        stuffThen (stuffRepeat stuff zeroChar zerowidth.toNat ss) fun ss =>
          stuffThen (stuff ss src (toUint32 srclen)) fun ss =>
            stuffThen (stuffRepeat stuff space rightspaces.toNat ss) fun ss => pure (0, ss)

/-- The copy loop of `LimitStuff`: `while (len) { --len; *ss->cur++ = *sp++; }`. A read past
the units of `sp` or a write past the buffer is out of bounds. -/
def LimitStuff.copy : Nat → SprintfState → List Nat → Except Failure SprintfState
  | 0, ss, _ => pure ss
  | len + 1, ss, sp =>
    match sp with
    | [] => throw Failure.outOfBounds
    | ch :: rest =>
      if ss.cur < ss.base.length then
        LimitStuff.copy len { ss with base := ss.base.set ss.cur ch, cur := ss.cur + 1 } rest
      else throw Failure.outOfBounds

/-- The function `LimitStuff`. -/
def LimitStuff : StuffFn := fun ss sp len => do
  let limit := toUint32 ((ss.maxlen : Int) - (ss.cur : Int))
  let len := if len > limit then limit else len
  let ss ← LimitStuff.copy len ss sp
  pure (0, ss)

/-- The digits that `hex.get()` points to in `dosprintf`: "0123456789abcdef". -/
def hexDigits : List Nat := [48, 49, 50, 51, 52, 53, 54, 55, 56, 57, 97, 98, 99, 100, 101, 102]

/-- The digits that `HEX.get()` points to in `dosprintf`: "0123456789ABCDEF". -/
def HEXDigits : List Nat := [48, 49, 50, 51, 52, 53, 54, 55, 56, 57, 65, 66, 67, 68, 69, 70]

/-- The digit loop of `cvt_l`, `while (num) { ... }`, on the value of `(unsigned long)num`;
`cvt` is the part of `cvtbuf` that is filled. Each round divides the value by the radix, so
`fuel` rounds are enough for a value below `2 ^ fuel` and a radix above 1. -/
def cvt_l.digits (radix : Nat) (hexp : List Nat) : Nat → Nat → List Nat → List Nat
  | 0, _, cvt => cvt
  | fuel + 1, num, cvt =>
    if num = 0 then cvt
    else cvt_l.digits radix hexp fuel (num / radix) (hexp.getD ((num % radix) &&& 0xF) 0 :: cvt)

/-- The function `cvt_l`; `num` is a `long` of `cfg.longBits` bits. -/
def cvt_l (cfg : BuildConfig) (stuff : StuffFn) (ss : SprintfState) (num : Int)
    (width prec : Int) (radix type flags : Nat) (hexp : List Nat) :
    Except Failure (Int × SprintfState) :=
  if prec = 0 ∧ num = 0 then pure (0, ss)
  else
    let unum := (num % 2 ^ cfg.longBits).toNat
    let cvt := cvt_l.digits radix hexp cfg.longBits unum []
    let cvt := if cvt.length = 0 then [48] else cvt
    fill_n stuff ss cvt cvt.length width prec type flags

/-- The digit loop of `cvt_ll`, `while (num != 0) { ... }`, on the `int64_t` `num`: the
remainder and the quotient are those of the signed division of C++, which truncates. -/
def cvt_ll.digits (rad : Int) (hexp : List Nat) : Nat → Int → List Nat → List Nat
  | 0, _, cvt => cvt
  | fuel + 1, num, cvt =>
    if num = 0 then cvt
    else
      cvt_ll.digits rad hexp fuel (Int.tdiv num rad)
        (hexp.getD ((wrapInt32 (Int.tmod num rad) % 16).toNat) 0 :: cvt)

/-- The function `cvt_ll`; `num` is an `int64_t`. -/
def cvt_ll (stuff : StuffFn) (ss : SprintfState) (num : Int) (width prec : Int)
    (radix type flags : Nat) (hexp : List Nat) : Except Failure (Int × SprintfState) :=
  if prec = 0 ∧ num = 0 then pure (0, ss)
  else
    let cvt := cvt_ll.digits (radix : Int) hexp 64 num []
    let cvt := if cvt.length = 0 then [48] else cvt
    fill_n stuff ss cvt cvt.length width prec type flags

/-- The function `NS_strlen` (`nsCRTGlue.h`), on the units that can be read from the
pointer: the number of units before the first NUL. -/
def NS_strlen (s : List Nat) : Nat :=
  (s.takeWhile (fun c => c != 0)).length

/-- The function `cvt_f`. The digits come from `PR_dtoa` (NSPR, not among the sources),
which fails when they do not fit its buffer or memory is exhausted; `rbuf` is `none` when it
fails, and otherwise the content of the array `rbuf` that the function builds from the
digits for this conversion. -/
def cvt_f (stuff : StuffFn) (ss : SprintfState) (rbuf : Option (List Nat)) (width : Int)
    (flags : Nat) : Except Failure (Int × SprintfState) :=
  match rbuf with
  | none => pure (-1, ss)
  | some rbuf => fill2 stuff ss rbuf (NS_strlen rbuf) width flags

/-- The literal `"(null)"` of `cvt_S`. -/
def nullstr : List Nat := [40, 110, 117, 108, 108, 41]

/-- The function `cvt_S`; `s` is `none` for a null pointer and otherwise the units that can
be read from it. The `uint32_t` result of `NS_strlen` is stored in the `int` `slen`. -/
def cvt_S (stuff : StuffFn) (ss : SprintfState) (s : Option (List Nat)) (width prec : Int)
    (flags : Nat) : Except Failure (Int × SprintfState) :=
  if prec = 0 then pure (0, ss)
  else
    let slen : Int :=
      match s with
      | some s => toInt32 (NS_strlen s)
      | none => 6
    let slen := if prec > 0 ∧ prec < slen then prec else slen
    fill2 stuff ss (s.getD nullstr) slen width flags

/-- The function `cvt_s`; the argument is given by `utf16Val`, its conversion to UTF-16
(`NS_ConvertUTF8toUTF16` is not among the sources). -/
def cvt_s (stuff : StuffFn) (ss : SprintfState) (utf16Val : List Nat) (width prec : Int)
    (flags : Nat) : Except Failure (Int × SprintfState) :=
  cvt_S stuff ss (some utf16Val) width prec flags

/-- Reading `*p` in a NUL-terminated string, given by the units `fmt` before its NUL and the
offset `p`: the NUL is read at the end, and a read past the NUL is out of bounds. -/
def charAt (fmt : List Nat) (p : Nat) : Except Failure Nat :=
  if p < fmt.length then pure (fmt.getD p 0)
  else if p = fmt.length then pure 0
  else throw Failure.outOfBounds

/-- The struct `NumArgState`: the type of an argument and, for `ap`, the position in the
argument list that it points to. -/
structure NumArgState where
  type : Nat
  ap : Nat
  deriving DecidableEq, Repr

/-- The loop `while ((c >= '0') && (c <= '9')) { c = *p++; }`: the result is `c` and `p`
after the loop. Every round reads one unit, and a read past the NUL is out of bounds, so
`fuel` rounds are enough when `fuel` exceeds the length of the string by two. -/
def skipDigits (fmt : List Nat) : Nat → Nat → Nat → Except Failure (Nat × Nat)
  | 0, _, _ => throw Failure.outOfBounds
  | fuel + 1, c, p =>
    if c ≥ 48 ∧ c ≤ 57 then do
      let c ← charAt fmt p
      skipDigits fmt fuel c (p + 1)
    else pure (c, p)

/-- The loop `while (c && c != '$') { n = n * 10 + c - '0'; c = *p++; }` of the second pass
of `BuildArgArray` and of `dosprintf`: the result is `n`, `c` and `p` after the loop. -/
def argNumber (fmt : List Nat) : Nat → Int → Nat → Nat → Except Failure (Int × Nat × Nat)
  | 0, _, _, _ => throw Failure.outOfBounds
  | fuel + 1, n, c, p =>
    if c ≠ 0 ∧ c ≠ 36 then do
      let c' ← charAt fmt p
      argNumber fmt fuel (wrapInt32 (n * 10 + (c : Int) - 48)) c' (p + 1)
    else pure (n, c, p)

/-- The inner loop `while (c != 0) { ... }` of the first pass of `BuildArgArray`: the result
is `c` and `p` where the loop ends, at the NUL or at the first unit that is not a digit. -/
def BuildArgArray.scanSpec (fmt : List Nat) : Nat → Nat → Nat → Except Failure (Nat × Nat)
  | 0, _, _ => throw Failure.outOfBounds
  | fuel + 1, c, p =>
    if c = 0 then pure (c, p)
    else if c > 57 ∨ c < 48 then pure (c, p)
    else do
      let c ← charAt fmt p
      BuildArgArray.scanSpec fmt fuel c (p + 1)

/-- The first pass of `BuildArgArray`, from the offset `p` on: the result is `number`, or
`none` when the pass sets `*rv` to -1 and returns. -/
def BuildArgArray.firstPass (fmt : List Nat) : Nat → Nat → Nat → Nat → Except Failure (Option Nat)
  | 0, _, _, _ => throw Failure.outOfBounds
  | fuel + 1, p, number, i => do
    let c ← charAt fmt p
    if c = 0 then pure (some number)
    else if c ≠ 37 then BuildArgArray.firstPass fmt fuel (p + 1) number i
    else do
      let c ← charAt fmt (p + 1)
      if c = 37 then BuildArgArray.firstPass fmt fuel (p + 2) number i
      else do
        let (c, p) ← BuildArgArray.scanSpec fmt (fmt.length + 2) c (p + 2)
        if c = 0 then BuildArgArray.firstPass fmt fuel p number i
        else if c = 36 then
          if i > 0 then pure none
          else BuildArgArray.firstPass fmt fuel p (number + 1) i
        else
          if number > 0 then pure none
          else BuildArgArray.firstPass fmt fuel p number 1

/-- The part "size" and "format" of the second pass of `BuildArgArray`: the type that
`nas[cn].type` has after the `switch`, and `p` after it. -/
def BuildArgArray.specType (cfg : BuildConfig) (fmt : List Nat) (c p : Nat) :
    Except Failure (Nat × Nat) := do
  let (type, c, p) ←
    if c = 104 then do
      let c ← charAt fmt p
      pure (NumArgState.INT16, c, p + 1)
    else if c = 76 then do
      let c ← charAt fmt p
      pure (NumArgState.INT64, c, p + 1)
    else if c = 108 then do
      let c ← charAt fmt p
      if c = 108 then do
        let c ← charAt fmt (p + 1)
        pure (NumArgState.INT64, c, p + 2)
      else pure (NumArgState.INT32, c, p + 1)
    else pure (NumArgState.INTN, c, p)
  if c = 100 ∨ c = 99 ∨ c = 105 ∨ c = 111 ∨ c = 117 ∨ c = 120 ∨ c = 88 then pure (type, p)
  else if c = 101 ∨ c = 102 ∨ c = 103 then pure (NumArgState.DOUBLE, p)
  else if c = 112 then
    if cfg.sizeofPointer = 4 then pure (NumArgState.UINT32, p)
    else if cfg.sizeofPointer = 8 then pure (NumArgState.UINT64, p)
    else pure (NumArgState.UNKNOWN, p)
  else if c = 67 then do
    PR_ASSERT cfg false
    pure (NumArgState.UNKNOWN, p)
  else if c = 83 then pure (NumArgState.UNISTRING, p)
  else if c = 115 then pure (NumArgState.STRING, p)
  else if c = 110 then pure (NumArgState.INTSTR, p)
  else do
    PR_ASSERT cfg false
    pure (NumArgState.UNKNOWN, p)

/-- The parts "width" and "precision" of the second pass of `BuildArgArray`, entered with
the unit `c` read and `p` after it: the result is `c` and `p` after them, or `none` when a
`*` makes the pass set `*rv` to -1. -/
def BuildArgArray.specWidthPrec (fmt : List Nat) (c p : Nat) :
    Except Failure (Option (Nat × Nat)) := do
  if c = 42 then pure none
  else do
    let (c, p) ← skipDigits fmt (fmt.length + 2) c p
    if c = 46 then do
      let c ← charAt fmt p
      if c = 42 then pure none
      else do
        let (c, p) ← skipDigits fmt (fmt.length + 2) c (p + 1)
        pure (some (c, p))
    else pure (some (c, p))

/-- The second pass of `BuildArgArray`, from the offset `p` on: the result is `*rv` and the
array `nas` after the pass. -/
def BuildArgArray.secondPass (cfg : BuildConfig) (fmt : List Nat) (number : Nat) :
    Nat → Nat → List NumArgState → Except Failure (Int × List NumArgState)
  | 0, _, _ => throw Failure.outOfBounds
  | fuel + 1, p, nas => do
    let c ← charAt fmt p
    if c = 0 then pure (0, nas)
    else if c ≠ 37 then BuildArgArray.secondPass cfg fmt number fuel (p + 1) nas
    else do
      let c ← charAt fmt (p + 1)
      if c = 37 then BuildArgArray.secondPass cfg fmt number fuel (p + 2) nas
      else do
        let (cn, c, p) ← argNumber fmt (fmt.length + 2) 0 c (p + 2)
        if c = 0 ∨ cn < 1 ∨ cn > number then pure (-1, nas)
        else
          let cn := (cn - 1).toNat
          match nas[cn]? with
          | none => throw Failure.outOfBounds
          | some entry =>
            if entry.type ≠ NumArgState.UNKNOWN then
              BuildArgArray.secondPass cfg fmt number fuel p nas
            else do
              let c ← charAt fmt p
              match ← BuildArgArray.specWidthPrec fmt c (p + 1) with
              | none => pure (-1, nas)
              | some (c, p) =>
                let (type, p) ← BuildArgArray.specType cfg fmt c p
                let nas := nas.set cn { entry with type := type }
                if type = NumArgState.UNKNOWN then pure (-1, nas)
                else BuildArgArray.secondPass cfg fmt number fuel p nas

/-- The third pass of `BuildArgArray`, from the index `cn` on for `fuel` more entries: every
entry whose type is known gets the current position of `ap`, which then moves on by one
argument. The result is `none` when the pass sets `*rv` to -1 and returns. -/
def BuildArgArray.thirdPass : Nat → Nat → Nat → List NumArgState →
    Except Failure (Option (List NumArgState))
  | 0, _, _, nas => pure (some nas)
  | fuel + 1, cn, ap, nas =>
    match nas[cn]? with
    | none => throw Failure.outOfBounds
    | some entry =>
      if entry.type = NumArgState.UNKNOWN then BuildArgArray.thirdPass fuel (cn + 1) ap nas
      else if entry.type < NumArgState.UNKNOWN then
        BuildArgArray.thirdPass fuel (cn + 1) (ap + 1) (nas.set cn { entry with ap := ap })
      else pure none

/-- The function `BuildArgArray`. `ap` is the position of the argument list, and `allocOk`
is whether `nsMemory::Alloc` succeeds when the array of the caller is too small. The result
is `*rv` and the returned pointer (`none` is null). -/
def BuildArgArray (cfg : BuildConfig) (fmt : List Nat) (ap : Nat) (allocOk : Bool) :
    Except Failure (Int × Option (List NumArgState)) := do
  match ← BuildArgArray.firstPass fmt (fmt.length + 2) 0 0 0 with
  | none => pure (-1, none)
  | some number =>
    if number = 0 then pure (0, none)
    else if number > NAS_DEFAULT_NUM ∧ !allocOk then pure (-1, none)
    else do
      let nas := List.replicate number { type := NumArgState.UNKNOWN, ap := 0 }
      let (rv, nas) ← BuildArgArray.secondPass cfg fmt number (fmt.length + 2) 0 nas
      if rv < 0 then pure (rv, none)
      else
        match ← BuildArgArray.thirdPass number 0 ap nas with
        | none => pure (-1, none)
        | some nas => pure (rv, some nas)

/-- An argument of a variable argument list, as the formatter reads it. An integer is given
by its bits. A `double` is given by what `cvt_f` makes of it: the content of `rbuf` for the
conversion character and the precision at hand, or `none` when `PR_dtoa` fails. A
`const char *` is given by its conversion to UTF-16, a `const char16_t *` by the units that
can be read from it (`none` is null), and an `int *` by whether it is null. -/
inductive VaArg where
  | int (bits : Nat)
  | int64 (bits : Nat)
  | double (rbuf : Nat → Int → Option (List Nat))
  | string (utf16Val : List Nat)
  | ustring (s : Option (List Nat))
  | intptr (isNull : Bool)

/-- A `va_list`: the arguments and the position of the next one. -/
structure VaList where
  args : List VaArg
  pos : Nat

/-- The macro `va_arg(ap, int)`, also for `unsigned int`, `int32_t` and `uint32_t`: the bits
of the next argument. Reading past the last argument, or an argument of another kind, is
undefined and modelled as a read out of bounds. -/
def VaList.argInt (ap : VaList) : Except Failure (Nat × VaList) :=
  match ap.args[ap.pos]? with
  | some (VaArg.int bits) => pure (bits % 2 ^ 32, { ap with pos := ap.pos + 1 })
  | _ => throw Failure.outOfBounds

/-- The macro `va_arg(ap, int64_t)`, also for `uint64_t`. -/
def VaList.argInt64 (ap : VaList) : Except Failure (Nat × VaList) :=
  match ap.args[ap.pos]? with
  | some (VaArg.int64 bits) => pure (bits % 2 ^ 64, { ap with pos := ap.pos + 1 })
  | _ => throw Failure.outOfBounds

/-- The macro `va_arg(ap, double)`. -/
def VaList.argDouble (ap : VaList) :
    Except Failure ((Nat → Int → Option (List Nat)) × VaList) :=
  match ap.args[ap.pos]? with
  | some (VaArg.double rbuf) => pure (rbuf, { ap with pos := ap.pos + 1 })
  | _ => throw Failure.outOfBounds

/-- The macro `va_arg(ap, const char*)`. -/
def VaList.argString (ap : VaList) : Except Failure (List Nat × VaList) :=
  match ap.args[ap.pos]? with
  | some (VaArg.string s) => pure (s, { ap with pos := ap.pos + 1 })
  | _ => throw Failure.outOfBounds

/-- The macro `va_arg(ap, const char16_t*)`. -/
def VaList.argUstring (ap : VaList) : Except Failure (Option (List Nat) × VaList) :=
  match ap.args[ap.pos]? with
  | some (VaArg.ustring s) => pure (s, { ap with pos := ap.pos + 1 })
  | _ => throw Failure.outOfBounds

/-- The macro `va_arg(ap, int*)`. -/
def VaList.argIntptr (ap : VaList) : Except Failure (Bool × VaList) :=
  match ap.args[ap.pos]? with
  | some (VaArg.intptr isNull) => pure (isNull, { ap with pos := ap.pos + 1 })
  | _ => throw Failure.outOfBounds

/-- How one round of the loop of `dosprintf` ends: with a `return rv`, or at the end of the
body with `fmt` and `ap` moved on. -/
inductive LoopStep where
  | ret (rv : Int) (ss : SprintfState)
  | next (p : Nat) (ap : VaList) (ss : SprintfState)

/-- A stuffing step at the end of the body of the loop: `if (rv < 0) return rv;`, and else
on to the next round. -/
def LoopStep.after (p : Nat) (ap : VaList) (r : Except Failure (Int × SprintfState)) :
    Except Failure LoopStep := do
  let (rv, ss) ← r
  if rv < 0 then pure (LoopStep.ret rv ss) else pure (LoopStep.next p ap ss)

/-- The loop `while ((c == '-') || (c == '+') || (c == ' ') || (c == '0')) { ... }` of
`dosprintf`: the result is `flags`, `c` and `p` after the loop. -/
def dosprintf.flags (fmt : List Nat) : Nat → Nat → Nat → Nat → Except Failure (Nat × Nat × Nat)
  | 0, _, _, _ => throw Failure.outOfBounds
  | fuel + 1, flags, c, p =>
    if c = 45 ∨ c = 43 ∨ c = 32 ∨ c = 48 then do
      let flags := if c = 45 then flags ||| _LEFT else flags
      let flags := if c = 43 then flags ||| _SIGNED else flags
      let flags := if c = 32 then flags ||| _SPACED else flags
      let flags := if c = 48 then flags ||| _ZEROS else flags
      let c ← charAt fmt p
      dosprintf.flags fmt fuel flags c (p + 1)
    else pure (flags, c, p)

/-- The loop `while ((c >= '0') && (c <= '9')) { n = (n * 10) + (c - '0'); c = *fmt++; }`
of the width and of the precision in `dosprintf`: the result is `n`, `c` and `p` after the
loop. -/
def dosprintf.number (fmt : List Nat) : Nat → Int → Nat → Nat → Except Failure (Int × Nat × Nat)
  | 0, _, _, _ => throw Failure.outOfBounds
  | fuel + 1, n, c, p =>
    if c ≥ 48 ∧ c ≤ 57 then do
      let c' ← charAt fmt p
      dosprintf.number fmt fuel (wrapInt32 (n * 10 + ((c : Int) - 48))) c' (p + 1)
    else pure (n, c, p)

/-- The label `fetch_and_convert` of `dosprintf`: the inner `switch (type)`. -/
def dosprintf.fetchAndConvert (cfg : BuildConfig) (stuff : StuffFn) (ss : SprintfState)
    (ap : VaList) (width prec : Int) (radix type flags : Nat) (hexp : List Nat) :
    Except Failure (VaList × Int × SprintfState) := do
  if type = NumArgState.INT16 ∨ type = NumArgState.INTN ∨ type = NumArgState.INT32 then do
    let (bits, ap) ← ap.argInt
    let l := toInt32 bits
    let (l, flags) :=
      if l < 0 then (wrapSigned cfg.longBits (-l), flags ||| _NEG) else (l, flags)
    let (rv, ss) ← cvt_l cfg stuff ss l width prec radix type flags hexp
    pure (ap, rv, ss)
  else if type = NumArgState.UINT16 then do
    let (bits, ap) ← ap.argInt
    let (rv, ss) ← cvt_l cfg stuff ss ((bits &&& 0xffff : Nat) : Int) width prec radix type
      flags hexp
    pure (ap, rv, ss)
  else if type = NumArgState.UINTN ∨ type = NumArgState.UINT32 then do
    let (bits, ap) ← ap.argInt
    let (rv, ss) ← cvt_l cfg stuff ss (wrapSigned cfg.longBits (bits : Int)) width prec radix
      type flags hexp
    pure (ap, rv, ss)
  else if type = NumArgState.INT64 then do
    let (bits, ap) ← ap.argInt64
    let ll := wrapSigned 64 (bits : Int)
    let (ll, flags) := if ll < 0 then (wrapSigned 64 (-ll), flags ||| _NEG) else (ll, flags)
    let (rv, ss) ← cvt_ll stuff ss ll width prec radix type flags hexp
    pure (ap, rv, ss)
  else if type = NumArgState.UINT64 then do
    let (bits, ap) ← ap.argInt64
    let (rv, ss) ← cvt_ll stuff ss (wrapSigned 64 (bits : Int)) width prec radix type flags hexp
    pure (ap, rv, ss)
  else pure (ap, 0, ss)

/-- The loop `while (width-- > 1) { rv = (*ss->stuff)(ss, &space, 1); ... }` of the case
`'c'` of `dosprintf`. -/
def dosprintf.padChar (stuff : StuffFn) (ss : SprintfState) (width : Int) :
    Except Failure (Int × SprintfState) :=
  stuffRepeat stuff 32 (width - 1).toNat ss

/-- The body of the loop of `dosprintf` for a `%` that does not quote a `%`, entered with
the unit `c` after the `%` read and `p` after it. -/
def dosprintf.convert (cfg : BuildConfig) (stuff : StuffFn) (fmt : List Nat)
    (nas : Option (List NumArgState)) (c p : Nat) (ap : VaList) (ss : SprintfState) :
    Except Failure LoopStep := do
  let numbered : Option (Nat × Nat × VaList) ←
    match nas with
    | none => pure (some (c, p, ap))
    | some nas => do
      let (i, _, p) ← argNumber fmt (fmt.length + 2) 0 c p
      if i < 1 then throw Failure.outOfBounds
      else
        match nas[(i - 1).toNat]? with
        | none => throw Failure.outOfBounds
        | some entry =>
          if entry.type = NumArgState.UNKNOWN then pure none
          else do
            let c ← charAt fmt p
            pure (some (c, p + 1, { ap with pos := entry.ap }))
  match numbered with
  | none => pure (LoopStep.ret (-1) ss)
  | some (c, p, ap) => do
    let (flags, c, p) ← dosprintf.flags fmt (fmt.length + 2) 0 c p
    let flags := if flags &&& _SIGNED != 0 then flags &&& (0xffffffff - _SPACED) else flags
    let flags := if flags &&& _LEFT != 0 then flags &&& (0xffffffff - _ZEROS) else flags
    let (width, c, p, ap) ←
      if c = 42 then do
        let c ← charAt fmt p
        let (bits, ap) ← ap.argInt
        pure (toInt32 bits, c, p + 1, ap)
      else do
        let (width, c, p) ← dosprintf.number fmt (fmt.length + 2) 0 c p
        pure (width, c, p, ap)
    let (prec, c, p, ap) ←
      if c = 46 then do
        let c ← charAt fmt p
        if c = 42 then do
          let c ← charAt fmt (p + 1)
          let (bits, ap) ← ap.argInt
          pure (toInt32 bits, c, p + 2, ap)
        else do
          let (prec, c, p) ← dosprintf.number fmt (fmt.length + 2) 0 c (p + 1)
          pure (prec, c, p, ap)
      else pure (-1, c, p, ap)
    let (type, c, p) ←
      if c = 104 then do
        let c ← charAt fmt p
        pure (NumArgState.INT16, c, p + 1)
      else if c = 76 then do
        let c ← charAt fmt p
        pure (NumArgState.INT64, c, p + 1)
      else if c = 108 then do
        let c ← charAt fmt p
        if c = 108 then do
          let c ← charAt fmt (p + 1)
          pure (NumArgState.INT64, c, p + 2)
        else pure (NumArgState.INT32, c, p + 1)
      else pure (NumArgState.INTN, c, p)
    if c = 100 ∨ c = 105 then do
      let (ap, rv, ss) ← dosprintf.fetchAndConvert cfg stuff ss ap width prec 10 type flags
        hexDigits
      LoopStep.after p ap (pure (rv, ss))
    else if c = 111 then do
      let (ap, rv, ss) ← dosprintf.fetchAndConvert cfg stuff ss ap width prec 8 (type ||| 1)
        flags hexDigits
      LoopStep.after p ap (pure (rv, ss))
    else if c = 117 then do
      let (ap, rv, ss) ← dosprintf.fetchAndConvert cfg stuff ss ap width prec 10 (type ||| 1)
        flags hexDigits
      LoopStep.after p ap (pure (rv, ss))
    else if c = 120 then do
      let (ap, rv, ss) ← dosprintf.fetchAndConvert cfg stuff ss ap width prec 16 (type ||| 1)
        flags hexDigits
      LoopStep.after p ap (pure (rv, ss))
    else if c = 88 then do
      let (ap, rv, ss) ← dosprintf.fetchAndConvert cfg stuff ss ap width prec 16 (type ||| 1)
        flags HEXDigits
      LoopStep.after p ap (pure (rv, ss))
    else if c = 101 ∨ c = 69 ∨ c = 102 ∨ c = 103 ∨ c = 71 then do
      let (rbuf, ap) ← ap.argDouble
      LoopStep.after p ap (cvt_f stuff ss (rbuf c prec) width flags)
    else if c = 99 then do
      let (bits, ap) ← ap.argInt
      let ch := bits % 2 ^ 16
      LoopStep.after p ap
        (stuffThen (if flags &&& _LEFT == 0 then dosprintf.padChar stuff ss width
            else pure (0, ss)) fun ss =>
          stuffThen (stuff ss [ch] 1) fun ss =>
            if flags &&& _LEFT != 0 then dosprintf.padChar stuff ss width else pure (0, ss))
    else if c = 112 then do
      if cfg.sizeofPointer = 4 then do
        let (ap, rv, ss) ← dosprintf.fetchAndConvert cfg stuff ss ap width prec 16
          NumArgState.UINT32 flags hexDigits
        LoopStep.after p ap (pure (rv, ss))
      else if cfg.sizeofPointer = 8 then do
        let (ap, rv, ss) ← dosprintf.fetchAndConvert cfg stuff ss ap width prec 16
          NumArgState.UINT64 flags hexDigits
        LoopStep.after p ap (pure (rv, ss))
      else do
        PR_ASSERT cfg false
        pure (LoopStep.next p ap ss)
    else if c = 83 then do
      let (s, ap) ← ap.argUstring
      LoopStep.after p ap (cvt_S stuff ss s width prec flags)
    else if c = 115 then do
      let (s, ap) ← ap.argString
      LoopStep.after p ap (cvt_s stuff ss s width prec flags)
    else if c = 110 then do
      let (_, ap) ← ap.argIntptr
      pure (LoopStep.next p ap ss)
    else
      LoopStep.after p ap (stuffThen (stuff ss [37] 1) fun ss => stuff ss [c] 1)

/-- The loop `while ((c = *fmt++) != 0) { ... }` of `dosprintf` and what follows it, from
the offset `p` on. Every round reads at least one unit, and a read past the NUL is out of
bounds, so `fuel` rounds are enough when `fuel` exceeds the length of the format by two. -/
def dosprintf.loop (cfg : BuildConfig) (stuff : StuffFn) (fmt : List Nat)
    (nas : Option (List NumArgState)) :
    Nat → Nat → VaList → SprintfState → Except Failure (Int × SprintfState)
  | 0, _, _, _ => throw Failure.outOfBounds
  | fuel + 1, p, ap, ss => do
    let c ← charAt fmt p
    if c = 0 then stuff ss [0] 1
    else if c ≠ 37 then
      stuffThen (stuff ss [c] 1) (dosprintf.loop cfg stuff fmt nas fuel (p + 1) ap)
    else do
      let c ← charAt fmt (p + 1)
      if c = 37 then
        stuffThen (stuff ss [c] 1) (dosprintf.loop cfg stuff fmt nas fuel (p + 2) ap)
      else
        match ← dosprintf.convert cfg stuff fmt nas c (p + 2) ap ss with
        | LoopStep.ret rv ss => pure (rv, ss)
        | LoopStep.next p ap ss => dosprintf.loop cfg stuff fmt nas fuel p ap ss

/-- The function `dosprintf`. `allocOk` is whether `nsMemory::Alloc` succeeds in
`BuildArgArray`. The result is the returned `int` and the state `*ss` after the call. -/
def dosprintf (cfg : BuildConfig) (stuff : StuffFn) (allocOk : Bool) (ss : SprintfState)
    (fmt : List Nat) (ap : VaList) : Except Failure (Int × SprintfState) := do
  let (rv, nas) ← BuildArgArray cfg fmt ap.pos allocOk
  if rv < 0 then do
    PR_ASSERT cfg false
    pure (rv, ss)
  else dosprintf.loop cfg stuff fmt nas (fmt.length + 2) 0 ap ss

/-- The function `nsTextFormatter::vsnprintf`. `out` is the content of the buffer that the
pointer `out` points to. The result is the returned `uint32_t` and the content of the buffer
after the call. -/
def vsnprintf (cfg : BuildConfig) (allocOk : Bool) (out : List Nat) (outlen : Nat)
    (fmt : List Nat) (ap : VaList) : Except Failure (Nat × List Nat) := do
  PR_ASSERT cfg (decide (toInt32 outlen > 0))
  if toInt32 outlen ≤ 0 then pure (0, out)
  else do
    let ss : SprintfState := { base := out, cur := 0, maxlen := outlen }
    let (_, ss) ← dosprintf cfg LimitStuff allocOk ss fmt ap
    let ss ←
      if ss.cur ≠ 0 then
        match ss.base[ss.cur - 1]? with
        | none => throw Failure.outOfBounds
        | some last =>
          if last ≠ 0 then pure { ss with base := ss.base.set (ss.cur - 1) 0, cur := ss.cur - 1 }
          else pure ss
      else pure ss
    let n := ss.cur % 2 ^ 32
    pure (if n ≠ 0 then n - 1 else n, ss.base)

/-- A build with `DEBUG`, a `long` of 64 bits and pointers of 8 bytes. -/
def Example.debugBuild : BuildConfig := { DEBUG := true, longBits := 64, sizeofPointer := 8 }

/-- A build without `DEBUG`, with a `long` of 64 bits and pointers of 8 bytes. -/
def Example.releaseBuild : BuildConfig :=
  { DEBUG := false, longBits := 64, sizeofPointer := 8 }

/-- A buffer of four units, each holding the letter `x`. -/
def Example.out4 : List Nat := [120, 120, 120, 120]

/-- The formatter state for an output buffer of eight units, each holding the letter `x`. -/
def Example.state8 : SprintfState :=
  { base := [120, 120, 120, 120, 120, 120, 120, 120], cur := 0, maxlen := 8 }

/-- The format `"abcdef"`. -/
def Example.fmtAbcdef : List Nat := [97, 98, 99, 100, 101, 102]

/-- The format `"abc"`. -/
def Example.fmtAbc : List Nat := [97, 98, 99]

/-- The format `"%f"`. -/
def Example.fmtF : List Nat := [37, 102]

/-- The format `"%1$d%d"`, which mixes a numbered and a plain specification. -/
def Example.fmtMixed : List Nat := [37, 49, 36, 100, 37, 100]

/-- An empty argument list. -/
def Example.noArgs : VaList := { args := [], pos := 0 }

/-- An argument list with one `double` for which `PR_dtoa` fails. -/
def Example.dtoaFails : VaList := { args := [VaArg.double (fun _ _ => none)], pos := 0 }

/-- An argument list with the two `int` values 5 and 6. -/
def Example.twoInts : VaList := { args := [VaArg.int 5, VaArg.int 6], pos := 0 }

/-! ## `extensions/spellcheck/src/mozPersonalDictionary.cpp` -/

/-- The value `NS_OK` of `nsresult`. -/
def NS_OK : Nat := 0

/-- The value `NS_ERROR_FAILURE` of `nsresult`. -/
def NS_ERROR_FAILURE : Nat := 0x80004005

/-- The value `NS_ERROR_INVALID_POINTER` of `nsresult`, which `NS_ENSURE_ARG_POINTER`
returns for a null argument. -/
def NS_ERROR_INVALID_POINTER : Nat := 0x80004003

/-- Modelled from the spec: the macro `NS_FAILED` (`nsError.h`, not among the sources): the
severity bit of the `nsresult` is set. -/
def NS_FAILED (res : Nat) : Bool := res &&& 0x80000000 != 0

/-- The members of `mozPersonalDictionary` that `Load` and `Check` read or write: the two
hash sets of words, each as the list of its keys, and `mDirty`. -/
structure mozPersonalDictionary where
  mDictionaryTable : List (List Nat)
  mIgnoreTable : List (List Nat)
  mDirty : Bool
  deriving DecidableEq, Repr

/-- Modelled from the spec: `nsTHashtable::PutEntry` (not among the sources): the key is in
the set afterwards, once. -/
def PutEntry (table : List (List Nat)) (key : List Nat) : List (List Nat) :=
  if key ∈ table then table else table ++ [key]

/-- Modelled from the spec: `nsTHashtable::GetEntry` (not among the sources), as whether the
result is not null. -/
def GetEntry (table : List (List Nat)) (key : List Nat) : Bool :=
  decide (key ∈ table)

/-- What `Load` obtains from the profile: the results of `NS_GetSpecialDirectory` (with
whether `theFile` is set), of `Append`, of `Exists` (with `dictExists`) and of
`CreateInstanceFromUTF8Stream`, and the units that the stream of the file delivers. -/
structure Profile where
  getSpecialDirectory : Nat
  theFile : Bool
  append : Nat
  exists_ : Nat
  dictExists : Bool
  createStream : Nat
  content : List Nat

/-- The call `convStream->Read(&c, 1, &nRead)` together with the test
`(NS_OK != ...) || (nRead != 1)`: the next unit and the rest of the stream, or `none` when
the test holds, at the end of the stream. -/
def readUnit (stream : List Nat) : Option (Nat × List Nat) :=
  match stream with
  | [] => none
  | c :: rest => some (c, rest)

/-- The loop `while(!done && ((c == '\n') || (c == '\r')))` of `Load`, entered with
`done` false: the result is `c`, the rest of the stream and `done` after the loop. -/
def Load.skipNewlines : Nat → Nat → List Nat → Nat × List Nat × Bool
  | 0, c, stream => (c, stream, true)
  | fuel + 1, c, stream =>
    if c = 10 ∨ c = 13 then
      match readUnit stream with
      | none => (c, stream, true)
      | some (c, rest) => Load.skipNewlines fuel c rest
    else (c, stream, false)

/-- The loop `while((c != '\n') && (c != '\r') && !done)` of `Load`, entered with `done`
false: the result is the word, `c`, the rest of the stream and `done` after the loop. -/
def Load.readWord : Nat → List Nat → Nat → List Nat → List Nat × Nat × List Nat × Bool
  | 0, word, c, stream => (word, c, stream, true)
  | fuel + 1, word, c, stream =>
    if c ≠ 10 ∧ c ≠ 13 then
      match readUnit stream with
      | none => (word ++ [c], c, stream, true)
      | some (c', rest) => Load.readWord fuel (word ++ [c]) c' rest
    else (word, c, stream, false)

/-- The pointer `word.get()` as a key of the table: the string that it points to ends at
the first NUL, so the key holds the units of `word` before its first NUL unit. -/
def nsAutoString.get (word : List Nat) : List Nat :=
  word.takeWhile (fun c => c != 0)

/-- The loop `do { ... } while(!done)` of `Load`: the table after the loop. Every round
reads at least one unit, so `fuel` rounds are enough when `fuel` exceeds the length of the
stream. -/
def Load.readLines : Nat → List Nat → List (List Nat) → List (List Nat)
  | 0, _, table => table
  | fuel + 1, stream, table =>
    match readUnit stream with
    | none => table
    | some (c, rest) =>
      match Load.skipNewlines (rest.length + 1) c rest with
      | (_, _, true) => table
      | (c, rest, false) =>
        match Load.readWord (rest.length + 1) [] c rest with
        | (word, _, rest, done) =>
          if done then PutEntry table (nsAutoString.get word)
          else Load.readLines fuel rest (PutEntry table (nsAutoString.get word))

/-- The method `mozPersonalDictionary::Load`. The result is the returned `nsresult` and the
object after the call. -/
def mozPersonalDictionary.Load (d : mozPersonalDictionary) (profile : Profile) :
    Nat × mozPersonalDictionary :=
  if NS_FAILED profile.getSpecialDirectory then (profile.getSpecialDirectory, d)
  else if !profile.theFile then (NS_ERROR_FAILURE, d)
  else if NS_FAILED profile.append then (profile.append, d)
  else if NS_FAILED profile.exists_ then (profile.exists_, d)
  else if !profile.dictExists then (NS_OK, d)
  else if NS_FAILED profile.createStream then (profile.createStream, d)
  else
    (profile.createStream,
      { d with
        mDictionaryTable := Load.readLines (profile.content.length + 1) profile.content [],
        mDirty := false })

/-- The method `mozPersonalDictionary::Check`, for a non-null `aResult`; `aWord` is `none`
for a null pointer. The result is the returned `nsresult` and `*aResult`, when it is
written. -/
def mozPersonalDictionary.Check (d : mozPersonalDictionary) (aWord : Option (List Nat)) :
    Nat × Option Bool :=
  match aWord with
  | none => (NS_ERROR_INVALID_POINTER, none)
  | some aWord => (NS_OK, some (GetEntry d.mDictionaryTable aWord || GetEntry d.mIgnoreTable aWord))

/-- The topics that `mozPersonalDictionary::Observe` tells apart. -/
inductive Topic where
  | profileDoChange
  | profileBeforeChange
  | other
  deriving DecidableEq, Repr

/-- The method `mozPersonalDictionary::Observe`: on "profile-do-change" it calls `Load`,
whose result it ignores; on "profile-before-change" it calls `Save`, which writes the file
and leaves the members of the object as they are. The result is the returned `nsresult`
and the object after the call. -/
def mozPersonalDictionary.Observe (d : mozPersonalDictionary) (profile : Profile)
    (aTopic : Topic) : Nat × mozPersonalDictionary :=
  match aTopic with
  | Topic.profileDoChange => (NS_OK, (d.Load profile).2)
  | Topic.profileBeforeChange => (NS_OK, d)
  | Topic.other => (NS_OK, d)

/-- The word "foo". -/
def Example.foo : List Nat := [102, 111, 111]

/-- The word "bar". -/
def Example.bar : List Nat := [98, 97, 114]

/-- A personal dictionary that holds the word "foo". -/
def Example.dictionaryFoo : mozPersonalDictionary :=
  { mDictionaryTable := [Example.foo], mIgnoreTable := [], mDirty := false }

/-- A profile without `persdict.dat`: every call succeeds and `dictExists` is false. -/
def Example.profileWithoutFile : Profile :=
  { getSpecialDirectory := NS_OK, theFile := true, append := NS_OK, exists_ := NS_OK,
    dictExists := false, createStream := NS_OK, content := [] }

/-- A profile whose `persdict.dat` holds the one line "bar". -/
def Example.profileBar : Profile :=
  { getSpecialDirectory := NS_OK, theFile := true, append := NS_OK, exists_ := NS_OK,
    dictExists := true, createStream := NS_OK, content := [98, 97, 114, 10] }

/-- The function `InefficientNonFlatteningStringHashPolicy::hash`. `HashString` and
`AddToHash` stand for `mozilla::HashString` and `mozilla::AddToHash`, which are not among
the sources. -/
def InefficientNonFlatteningStringHashPolicy.hash (HashString : List Nat → Nat → Nat)
    (AddToHash : Nat → Bool → Nat) (l : JSString) : Nat :=
  AddToHash (HashString l.chars l.length) l.isShort

/-- A short string of two characters. -/
def Example.shortAb : JSString := { chars := [97, 98], isShort := true }

/-- A hash of characters for the examples: their sum. -/
def Example.sumHash (chars : List Nat) (n : Nat) : Nat := (chars.take n).sum

/-- A combination of a hash with a flag for the examples. -/
def Example.addFlag (h : Nat) (b : Bool) : Nat := 2 * h + (if b then 1 else 0)

/-! ## The media shutdown manager (`content/media/MediaShutdownManager.cpp`) -/

/-- Modelled from the spec: `nsTHashtable::Contains` (not among the sources) on a set of
addresses. -/
def nsTHashtable.Contains (table : List Nat) (key : Nat) : Bool :=
  decide (key ∈ table)

/-- Modelled from the spec: `nsTHashtable::Count` (not among the sources). -/
def nsTHashtable.Count (table : List Nat) : Nat :=
  table.length

/-- Modelled from the spec: `nsTHashtable::PutEntry` (not among the sources) on a set of
addresses: the key is in the set afterwards, once. -/
def nsTHashtable.PutEntry (table : List Nat) (key : Nat) : List Nat :=
  if key ∈ table then table else table ++ [key]

/-- Modelled from the spec: `nsTHashtable::RemoveEntry` (not among the sources) on a set of
addresses. -/
def nsTHashtable.RemoveEntry (table : List Nat) (key : Nat) : List Nat :=
  table.erase key

/-- The members of `MediaShutdownManager`, with the state outside the object that its
methods write: `sInstance`, as whether the static pointer is set, and `shutdownObserver`,
whether `nsContentUtils` holds the manager as a shutdown observer. Decoders and state machine
threads are named by their addresses. -/
structure MediaShutdownManager where
  mDecoders : List Nat
  mStateMachineThreads : List Nat
  mIsObservingShutdown : Bool
  mIsDoingXPCOMShutDown : Bool
  sInstance : Bool
  shutdownObserver : Bool
  deriving DecidableEq, Repr

/-- The argument of the overloaded methods `Register` and `Unregister`: a `MediaDecoder*` or
a `StateMachineThread*`. -/
inductive Registrant where
  | decoder (aDecoder : Nat)
  | thread (aThread : Nat)
  deriving DecidableEq, Repr

/-- Whether the table of its kind holds the registrant. -/
def MediaShutdownManager.holds (m : MediaShutdownManager) : Registrant → Bool
  | Registrant.decoder aDecoder => nsTHashtable.Contains m.mDecoders aDecoder
  | Registrant.thread aThread => nsTHashtable.Contains m.mStateMachineThreads aThread

/-- The constructor `MediaShutdownManager()`, as `Instance()` stores it in `sInstance`. -/
def MediaShutdownManager.new : MediaShutdownManager :=
  { mDecoders := [], mStateMachineThreads := [], mIsObservingShutdown := false,
    mIsDoingXPCOMShutDown := false, sInstance := true, shutdownObserver := false }

/-- The method `MediaShutdownManager::EnsureCorrectShutdownObserverState`. -/
def MediaShutdownManager.EnsureCorrectShutdownObserverState (m : MediaShutdownManager) :
    Except Failure MediaShutdownManager := do
  MOZ_ASSERT (!m.mIsDoingXPCOMShutDown)
  let needShutdownObserver := decide (nsTHashtable.Count m.mDecoders > 0) ||
    decide (nsTHashtable.Count m.mStateMachineThreads > 0)
  if needShutdownObserver != m.mIsObservingShutdown then
    let m := { m with mIsObservingShutdown := needShutdownObserver }
    if m.mIsObservingShutdown then
      pure { m with shutdownObserver := true }
    else
      pure { m with shutdownObserver := false, sInstance := false }
  else pure m

/-- The two methods `MediaShutdownManager::Register`, of a decoder and of a state machine
thread; `mainThread` is the value of `NS_IsMainThread()`. -/
def MediaShutdownManager.Register (m : MediaShutdownManager) (mainThread : Bool) :
    Registrant → Except Failure MediaShutdownManager
  | Registrant.decoder aDecoder => do
    MOZ_ASSERT mainThread
    MOZ_ASSERT (!nsTHashtable.Contains m.mDecoders aDecoder)
    let m := { m with mDecoders := nsTHashtable.PutEntry m.mDecoders aDecoder }
    MOZ_ASSERT (nsTHashtable.Contains m.mDecoders aDecoder)
    MOZ_ASSERT (decide (nsTHashtable.Count m.mDecoders > 0))
    m.EnsureCorrectShutdownObserverState
  | Registrant.thread aThread => do
    MOZ_ASSERT mainThread
    MOZ_ASSERT (!nsTHashtable.Contains m.mStateMachineThreads aThread)
    let m := { m with
      mStateMachineThreads := nsTHashtable.PutEntry m.mStateMachineThreads aThread }
    MOZ_ASSERT (nsTHashtable.Contains m.mStateMachineThreads aThread)
    MOZ_ASSERT (decide (nsTHashtable.Count m.mStateMachineThreads > 0))
    m.EnsureCorrectShutdownObserverState

/-- The two methods `MediaShutdownManager::Unregister`, of a decoder and of a state machine
thread; `mainThread` is the value of `NS_IsMainThread()`. -/
def MediaShutdownManager.Unregister (m : MediaShutdownManager) (mainThread : Bool) :
    Registrant → Except Failure MediaShutdownManager
  | Registrant.decoder aDecoder => do
    MOZ_ASSERT mainThread
    MOZ_ASSERT (nsTHashtable.Contains m.mDecoders aDecoder)
    if !m.mIsDoingXPCOMShutDown then
      let m := { m with mDecoders := nsTHashtable.RemoveEntry m.mDecoders aDecoder }
      m.EnsureCorrectShutdownObserverState
    else pure m
  | Registrant.thread aThread => do
    MOZ_ASSERT mainThread
    MOZ_ASSERT (nsTHashtable.Contains m.mStateMachineThreads aThread)
    if !m.mIsDoingXPCOMShutDown then
      let m := { m with
        mStateMachineThreads := nsTHashtable.RemoveEntry m.mStateMachineThreads aThread }
      m.EnsureCorrectShutdownObserverState
    else pure m

/-- A run of `Unregister` calls on the manager, one after the other. -/
def MediaShutdownManager.unregisterAll (mainThread : Bool) :
    List Registrant → MediaShutdownManager → Except Failure MediaShutdownManager
  | [], m => pure m
  | r :: rs, m => do
    let m ← m.Unregister mainThread r
    MediaShutdownManager.unregisterAll mainThread rs m

/-- Modelled from the spec: `mDecoders.EnumerateEntries(ShutdownMediaDecoder, nullptr)`
(`EnumerateEntries` and `MediaDecoder::Shutdown` are not among the sources). The entries
of the table are visited in turn; `decoderShutdown aDecoder` lists the `Unregister` calls
that `Shutdown()` of the decoder makes on the manager, and the enumerator returns
`PL_DHASH_REMOVE`, which takes the visited entry out of the table. -/
def MediaShutdownManager.Shutdown.decoders (mainThread : Bool)
    (decoderShutdown : Nat → List Registrant) :
    Nat → MediaShutdownManager → Except Failure MediaShutdownManager
  | 0, m => pure m
  | fuel + 1, m =>
    match m.mDecoders with
    | [] => pure m
    | aDecoder :: _ => do
      let m ← MediaShutdownManager.unregisterAll mainThread (decoderShutdown aDecoder) m
      MediaShutdownManager.Shutdown.decoders mainThread decoderShutdown fuel
        { m with mDecoders := nsTHashtable.RemoveEntry m.mDecoders aDecoder }

/-- Modelled from the spec: `mStateMachineThreads.EnumerateEntries(JoinStateMachineThreads,
nullptr)` (`EnumerateEntries` is not among the sources). `spin aThread` lists the `Unregister`
calls of the events that the main thread processes in `SpinUntilShutdownComplete()` of the
thread, such as that of `StateMachineThread::ShutdownThread`. -/
def MediaShutdownManager.Shutdown.threads (mainThread : Bool) (spin : Nat → List Registrant) :
    Nat → MediaShutdownManager → Except Failure MediaShutdownManager
  | 0, m => pure m
  | fuel + 1, m =>
    match m.mStateMachineThreads with
    | [] => pure m
    | aThread :: _ => do
      let m ← MediaShutdownManager.unregisterAll mainThread (spin aThread) m
      MediaShutdownManager.Shutdown.threads mainThread spin fuel
        { m with
          mStateMachineThreads := nsTHashtable.RemoveEntry m.mStateMachineThreads aThread }

/-- The method `MediaShutdownManager::Shutdown`. -/
def MediaShutdownManager.Shutdown (m : MediaShutdownManager) (mainThread : Bool)
    (decoderShutdown spin : Nat → List Registrant) : Except Failure MediaShutdownManager := do
  MOZ_ASSERT mainThread
  MOZ_ASSERT m.sInstance
  let m := { m with mIsDoingXPCOMShutDown := true }
  let m ← MediaShutdownManager.Shutdown.decoders mainThread decoderShutdown
    (nsTHashtable.Count m.mDecoders) m
  let m ← MediaShutdownManager.Shutdown.threads mainThread spin
    (nsTHashtable.Count m.mStateMachineThreads) m
  pure { m with shutdownObserver := false, sInstance := false }

/-- A manager with two decoders and a state machine thread registered. -/
def Example.mediaManager : MediaShutdownManager :=
  { mDecoders := [1, 2], mStateMachineThreads := [7], mIsObservingShutdown := true,
    mIsDoingXPCOMShutDown := false, sInstance := true, shutdownObserver := true }

/-- The manager of the example while `Shutdown` enumerates its tables. -/
def Example.mediaManagerShuttingDown : MediaShutdownManager :=
  { Example.mediaManager with mIsDoingXPCOMShutDown := true }

/-- The manager of the example after `Shutdown`. -/
def Example.mediaManagerAfterShutdown : MediaShutdownManager :=
  { mDecoders := [], mStateMachineThreads := [], mIsObservingShutdown := true,
    mIsDoingXPCOMShutDown := true, sInstance := false, shutdownObserver := false }

/-- The calls of the example: each decoder unregisters itself. -/
def Example.selfDecoder (aDecoder : Nat) : List Registrant := [Registrant.decoder aDecoder]

/-- The calls of the example: each thread unregisters itself. -/
def Example.selfThread (aThread : Nat) : List Registrant := [Registrant.thread aThread]

/-- A buffer of 24 units, each holding the letter `x`. -/
def Example.out24 : List Nat := List.replicate 24 120

/-- The format `"%llu"`. -/
def Example.fmtLlu : List Nat := [37, 108, 108, 117]

/-- The format `"%llx"`. -/
def Example.fmtLlx : List Nat := [37, 108, 108, 120]

/-- An argument list with the one `uint64_t` value `2 ^ 64 - 1`. -/
def Example.uint64Max : VaList := { args := [VaArg.int64 (2 ^ 64 - 1)], pos := 0 }

/-- An argument list with the one `uint64_t` value `2 ^ 63`. -/
def Example.uint64Half : VaList := { args := [VaArg.int64 (2 ^ 63)], pos := 0 }

/-- An argument list with the one `uint64_t` value `2 ^ 63 - 1`. -/
def Example.int64Max : VaList := { args := [VaArg.int64 (2 ^ 63 - 1)], pos := 0 }

/-- The state after the units `xs` have been stored in the buffer from the cursor on: the
units before the cursor and those after the stored ones are as before, and the cursor has
moved past the stored ones. -/
def SprintfState.put (ss : SprintfState) (xs : List Nat) : SprintfState :=
  { ss with
    base := ss.base.take ss.cur ++ xs ++ ss.base.drop (ss.cur + xs.length),
    cur := ss.cur + xs.length }

/-- The buffer of the state has room for `n` more units: they fit between the cursor and
`maxlen`, which is within the buffer and within `uint32_t`. -/
def SprintfState.hasRoom (ss : SprintfState) (n : Nat) : Prop :=
  ss.cur + n ≤ ss.maxlen ∧ ss.maxlen ≤ ss.base.length ∧ ss.maxlen < 2 ^ 32

/-- The output that is expected of `fill2` for the units `body`: they are padded to `width`
units, at the end with spaces when `_LEFT` is set, and else at the front with spaces or, when
`_ZEROS` is set, with zeros. -/
def fill2.expected (body : List Nat) (width : Int) (flags : Nat) : List Nat :=
  let pad := (width - (body.length : Int)).toNat
  if flags &&& _LEFT != 0 then body ++ List.replicate pad 32
  else List.replicate pad (if flags &&& _ZEROS != 0 then 48 else 32) ++ body

/-- The units of a string that `cvt_S` is to output, in the words of its comment: the string
is `s` up to its NUL, or `"(null)"` for a null pointer, and a positive `prec` limits the
number of its units. -/
def cvt_S.body (s : Option (List Nat)) (prec : Int) : List Nat :=
  let str := (s.getD nullstr).takeWhile (fun c => c != 0)
  if prec > 0 then str.take prec.toNat else str

/-- The output that is expected of `cvt_S`, in the words of its comment but for a precision
of zero, which gives no output at all, as the code has it. -/
def cvt_S.expected (s : Option (List Nat)) (width prec : Int) (flags : Nat) : List Nat :=
  if prec = 0 then [] else fill2.expected (cvt_S.body s prec) width flags

/-- The string `"ab"` followed by its NUL and a unit after it. -/
def Example.strAb : List Nat := [97, 98, 0, 99]

/-- The format `"%2$d %2$d"`, whose argument numbers leave out the number 1. -/
def Example.fmtSecondTwice : List Nat := [37, 50, 36, 100, 32, 37, 50, 36, 100]

/-- The format `"%1$d%1$d"`, which has two numbered specifications and leaves out the
number 2. -/
def Example.fmtFirstTwice : List Nat := [37, 49, 36, 100, 37, 49, 36, 100]

/-! ## Numbered formats, for the statement of what `BuildArgArray` checks -/

/-- The size part of a conversion specification: nothing, `h`, `l`, `ll` or `L`. -/
inductive FormatSize where
  | plain
  | h
  | l
  | ll
  | L
  deriving DecidableEq, Repr

/-- The units of a size part. -/
def FormatSize.units : FormatSize → List Nat
  | FormatSize.plain => []
  | FormatSize.h => [104]
  | FormatSize.l => [108]
  | FormatSize.ll => [108, 108]
  | FormatSize.L => [76]

/-- The conversion characters that the second pass of `BuildArgArray` gives a type. -/
inductive FormatConv where
  | d
  | c
  | i
  | o
  | u
  | x
  | X
  | e
  | f
  | g
  | p
  | S
  | s
  | n
  deriving DecidableEq, Repr

/-- The unit of a conversion character. -/
def FormatConv.unit : FormatConv → Nat
  | FormatConv.d => 100
  | FormatConv.c => 99
  | FormatConv.i => 105
  | FormatConv.o => 111
  | FormatConv.u => 117
  | FormatConv.x => 120
  | FormatConv.X => 88
  | FormatConv.e => 101
  | FormatConv.f => 102
  | FormatConv.g => 103
  | FormatConv.p => 112
  | FormatConv.S => 83
  | FormatConv.s => 115
  | FormatConv.n => 110

/-- The units of a run of decimal digits, given by their values. -/
def digitUnits (ds : List Nat) : List Nat := ds.map fun d => 48 + d

/-- The number that a run of decimal digits denotes after the number `n` read so far. -/
def digitsValue (n : Nat) (ds : List Nat) : Nat := ds.foldl (fun n d => n * 10 + d) n

/-- A numbered conversion specification `%N$` with a width, a precision, a size and a
conversion character: `number`, `width` and the precision are given by their decimal
digits, which may be none. -/
structure NumberedSpec where
  number : List Nat
  width : List Nat
  prec : Option (List Nat)
  size : FormatSize
  conv : FormatConv
  deriving DecidableEq, Repr

/-- The argument number `N` of a numbered specification. -/
def NumberedSpec.value (s : NumberedSpec) : Nat := digitsValue 0 s.number

/-- The units of a precision: none, or a point and digits. -/
def precisionUnits : Option (List Nat) → List Nat
  | none => []
  | some ds => 46 :: digitUnits ds

/-- The units of a numbered specification after its `$`. -/
def NumberedSpec.tail (s : NumberedSpec) : List Nat :=
  digitUnits s.width ++ (precisionUnits s.prec ++ (s.size.units ++ [s.conv.unit]))

/-- The units of a numbered specification: `%`, the digits of the number, `$` and the rest. -/
def NumberedSpec.units (s : NumberedSpec) : List Nat :=
  37 :: (digitUnits s.number ++ 36 :: s.tail)

/-- The type of the argument that a size and a conversion character stand for. -/
def NumberedSpec.type (cfg : BuildConfig) (s : NumberedSpec) : Nat :=
  match s.conv with
  | FormatConv.e | FormatConv.f | FormatConv.g => NumArgState.DOUBLE
  | FormatConv.p => if cfg.sizeofPointer = 4 then NumArgState.UINT32 else NumArgState.UINT64
  | FormatConv.S => NumArgState.UNISTRING
  | FormatConv.s => NumArgState.STRING
  | FormatConv.n => NumArgState.INTSTR
  | _ =>
    match s.size with
    | FormatSize.plain => NumArgState.INTN
    | FormatSize.h => NumArgState.INT16
    | FormatSize.l => NumArgState.INT32
    | FormatSize.ll => NumArgState.INT64
    | FormatSize.L => NumArgState.INT64

/-- The digits of a numbered specification are decimal digits, and its argument number
fits an `int`. -/
def NumberedSpec.WellFormed (s : NumberedSpec) : Prop :=
  (∀ d ∈ s.number, d ≤ 9) ∧ (∀ d ∈ s.width, d ≤ 9) ∧
    (∀ d ∈ s.prec.getD [], d ≤ 9) ∧ s.value < 2 ^ 31

instance (s : NumberedSpec) : Decidable s.WellFormed := by
  unfold NumberedSpec.WellFormed
  infer_instance

/-- A piece of a numbered format: a unit of text, which is neither `%` nor NUL, the quoted
percent sign `%%`, or a numbered specification. -/
inductive FormatItem where
  | text (u : Nat)
  | percent
  | spec (s : NumberedSpec)
  deriving DecidableEq, Repr

/-- The units of a piece of a format. -/
def FormatItem.units : FormatItem → List Nat
  | FormatItem.text u => [u]
  | FormatItem.percent => [37, 37]
  | FormatItem.spec s => s.units

/-- A piece of a format is as described: a unit of text is neither `%` nor NUL, and a
specification is well formed. -/
def FormatItem.WellFormed : FormatItem → Prop
  | FormatItem.text u => u ≠ 0 ∧ u ≠ 37
  | FormatItem.percent => True
  | FormatItem.spec s => s.WellFormed

instance (item : FormatItem) : Decidable item.WellFormed := by
  cases item <;> unfold FormatItem.WellFormed <;> infer_instance

/-- The format string that consists of the pieces, without its NUL. -/
def renderFormat : List FormatItem → List Nat
  | [] => []
  | item :: items => item.units ++ renderFormat items

/-- The numbered specifications of a format, in their order. -/
def numberedSpecs : List FormatItem → List NumberedSpec
  | [] => []
  | FormatItem.spec s :: items => s :: numberedSpecs items
  | _ :: items => numberedSpecs items

/-- The array `nas` of `k` entries as the second pass leaves it after the specifications
with the argument numbers and types `seen`: the entry of a number has the type of the first
specification with this number, and `UNKNOWN` when there is none. -/
def typedArray (k : Nat) (seen : List (Nat × Nat)) : List NumArgState :=
  (List.range k).map fun i =>
    { type := (seen.lookup (i + 1)).getD NumArgState.UNKNOWN, ap := 0 }

/-- The array after the third pass, in the words of its comment: the entries of unknown
type are skipped, and the others get the argument positions from `ap` on, one after the
other in the order of the array. -/
def assignArgs : Nat → List NumArgState → List NumArgState
  | _, [] => []
  | ap, entry :: rest =>
    if entry.type = NumArgState.UNKNOWN then entry :: assignArgs ap rest
    else { entry with ap := ap } :: assignArgs (ap + 1) rest

/-- The numbers and types of the specifications of a format. -/
def numberedTypes (cfg : BuildConfig) (items : List FormatItem) : List (Nat × Nat) :=
  (numberedSpecs items).map fun s => (s.value, s.type cfg)

/-- The rest `us` of the format from the offset `p` on. -/
def Suffix (fmt : List Nat) (p : Nat) (us : List Nat) : Prop :=
  fmt.drop p = us ∧ p + us.length = fmt.length

/-- The specification `%2$d`. -/
def Example.specSecondD : NumberedSpec :=
  { number := [2], width := [], prec := none, size := FormatSize.plain, conv := FormatConv.d }

/-- The pieces of the format `"%2$d %2$d"`. -/
def Example.itemsSecondTwice : List FormatItem :=
  [FormatItem.spec Example.specSecondD, FormatItem.text 32, FormatItem.spec Example.specSecondD]

/-- The pieces of the format `"%12$5.2lld%%"`, whose number exceeds the count of its
specifications. -/
def Example.itemsTwelfth : List FormatItem :=
  [FormatItem.spec { number := [1, 2], width := [5], prec := some [2], size := FormatSize.ll,
                     conv := FormatConv.d },
   FormatItem.percent]

/-! ## Theorems: the stub-code cache of a compartment -/

/-- An assertion that holds lets the call go on. -/
theorem JS_ASSERT_true : JS_ASSERT true = Except.ok () := rfl

/-- An assertion that fails ends the call. -/
theorem JS_ASSERT_false : JS_ASSERT false = Except.error Failure.assertion := rfl

/-- Looking a key up after one more entry has been appended to the table. -/
theorem ICStubCodeMap.lookupForAdd_append (es : List (Nat × JitCodePtr)) (k k' : Nat)
    (v : JitCodePtr) :
    ICStubCodeMap.lookupForAdd { entries := es ++ [(k, v)] } k' =
      (ICStubCodeMap.lookupForAdd { entries := es } k').or (if k = k' then some v else none) := by
  unfold ICStubCodeMap.lookupForAdd
  simp only [List.find?_append]
  cases h : es.find? (fun e => e.1 == k') with
  | some e => simp
  | none =>
    by_cases hk : k = k'
    · simp [List.find?, hk]
    · have hb : (k == k') = false := by simpa using hk
      simp [List.find?, hk, hb]

/-- Whether a key is present after one more entry has been appended. -/
theorem ICStubCodeMap.has_append (es : List (Nat × JitCodePtr)) (k k' : Nat) (v : JitCodePtr) :
    ICStubCodeMap.has { entries := es ++ [(k, v)] } k' =
      (ICStubCodeMap.has { entries := es } k' || decide (k = k')) := by
  unfold ICStubCodeMap.has
  rw [ICStubCodeMap.lookupForAdd_append]
  cases ICStubCodeMap.lookupForAdd { entries := es } k' <;> by_cases hk : k = k' <;> simp [hk]

/-- What a `putStubCode` call that returned does: the key was absent, and the table is the
old one, extended by the new entry exactly when the call returned true. -/
theorem JitCompartment.putStubCode_ok (c c' : JitCompartment) (a b : Bool) (k : Nat)
    (v : JitCodePtr) (h : c.putStubCode a k v = Except.ok (b, c')) :
    c.stubCodes_.has k = false ∧ b = a ∧
      c' = { c with stubCodes_ := if a then { entries := c.stubCodes_.entries ++ [(k, v)] }
                                  else c.stubCodes_ } := by
  unfold JitCompartment.putStubCode at h
  cases hh : c.stubCodes_.has k with
  | true =>
    rw [hh] at h
    simp [JS_ASSERT, bind, Except.bind, throw, throwThe, MonadExceptOf.throw] at h
  | false =>
    rw [hh] at h
    cases a <;>
      simp [JS_ASSERT, bind, Except.bind, pure, Except.pure, ICStubCodeMap.add] at h <;>
      obtain ⟨hb, hc⟩ := h <;> subst hb <;> subst hc <;> simp

/-- A `putStubCode` call on a key that is present violates the contract. -/
theorem JitCompartment.putStubCode_present (c : JitCompartment) (a : Bool) (k : Nat)
    (v : JitCodePtr) (h : c.stubCodes_.has k = true) :
    c.putStubCode a k v = Except.error Failure.assertion := by
  unfold JitCompartment.putStubCode
  rw [h]
  rfl

/-- A `putStubCode` call on an absent key returns, with the allocation outcome. -/
theorem JitCompartment.putStubCode_absent (c : JitCompartment) (a : Bool) (k : Nat)
    (v : JitCodePtr) (h : c.stubCodes_.has k = false) :
    c.putStubCode a k v =
      Except.ok (a, { c with stubCodes_ := if a then { entries := c.stubCodes_.entries ++ [(k, v)] }
                                           else c.stubCodes_ }) := by
  unfold JitCompartment.putStubCode
  rw [h]
  cases a <;> rfl

/-- The value of `getStubCode` after a successful insertion: the new code at the new key, the old
answer at every other key. -/
theorem JitCompartment.getStubCode_after_put (c : JitCompartment) (k k' : Nat) (v : JitCodePtr)
    (h : c.stubCodes_.has k = false) :
    JitCompartment.getStubCode
        { c with stubCodes_ := { entries := c.stubCodes_.entries ++ [(k, v)] } } k' =
      if k = k' then v else c.getStubCode k' := by
  unfold JitCompartment.getStubCode
  simp only [ICStubCodeMap.lookupForAdd_append]
  by_cases hk : k = k'
  · subst hk
    unfold ICStubCodeMap.has at h
    cases hl : c.stubCodes_.lookupForAdd k with
    | some w => rw [hl] at h; simp at h
    | none =>
      have : ICStubCodeMap.lookupForAdd { entries := c.stubCodes_.entries } k = none := hl
      simp [this]
  · have e : ICStubCodeMap.lookupForAdd { entries := c.stubCodes_.entries } k' =
        c.stubCodes_.lookupForAdd k' := rfl
    simp only [hk, if_false, e]
    cases c.stubCodes_.lookupForAdd k' <;> rfl

/-- After a successful `putStubCode(k, v)` the key is present and reads as `v`. -/
theorem putStubCode_present_after (c c1 : JitCompartment) (a : Bool) (k : Nat) (v : JitCodePtr)
    (h : c.putStubCode a k v = Except.ok (true, c1)) :
    c1.stubCodes_.has k = true ∧ c1.getStubCode k = v := by
  obtain ⟨habs, ha, hc⟩ := JitCompartment.putStubCode_ok c c1 a true k v h
  subst ha
  simp only [if_true] at hc
  refine ⟨?_, ?_⟩
  · rw [hc]
    show ICStubCodeMap.has { entries := c.stubCodes_.entries ++ [(k, v)] } k = true
    rw [ICStubCodeMap.has_append]
    simp
  · rw [hc, JitCompartment.getStubCode_after_put c k k v habs]
    simp

/-- C1: once `putStubCode(k, v1)` has succeeded, a second `putStubCode(k, v2)` is rejected
(its assertion `!stubCodes_->has(k)` fails) and `getStubCode(k)` still returns `v1`. -/
theorem putStubCode_insert_once (c c1 : JitCompartment) (a1 a2 : Bool) (k : Nat)
    (v1 v2 : JitCodePtr) (h : c.putStubCode a1 k v1 = Except.ok (true, c1)) :
    c1.putStubCode a2 k v2 = Except.error Failure.assertion ∧ c1.getStubCode k = v1 := by
  obtain ⟨hhas, hget⟩ := putStubCode_present_after c c1 a1 k v1 h
  exact ⟨JitCompartment.putStubCode_present c1 a2 k v2 hhas, hget⟩

/-- C1 at a concrete compartment: key 7 is given code 100, then code 200 is offered. -/
theorem putStubCode_insert_once_witness :
    JitCompartment.init.putStubCode true 7 100 =
        Except.ok (true, { JitCompartment.init with stubCodes_ := { entries := [(7, 100)] } }) ∧
      (JitCompartment.putStubCode
          { JitCompartment.init with stubCodes_ := { entries := [(7, 100)] } } true 7 200 =
          Except.error Failure.assertion ∧
        JitCompartment.getStubCode
          { JitCompartment.init with stubCodes_ := { entries := [(7, 100)] } } 7 = 100) :=
  ⟨rfl, putStubCode_insert_once JitCompartment.init _ true true 7 100 200 rfl⟩

/-- An absent key reads as the null pointer. -/
theorem JitCompartment.getStubCode_absent (c : JitCompartment) (k : Nat)
    (h : c.stubCodes_.has k = false) : c.getStubCode k = nullptr := by
  unfold JitCompartment.getStubCode
  unfold ICStubCodeMap.has at h
  cases hl : c.stubCodes_.lookupForAdd k with
  | some w => rw [hl] at h; simp at h
  | none => rfl

/-- One returning `putStubCode` call on another key, or one that returned false, changes
neither the presence nor the code of key `k`. -/
theorem JitCompartment.putStubCode_frame (c c' : JitCompartment) (a b : Bool) (k k' : Nat)
    (v : JitCodePtr) (h : c.putStubCode a k' v = Except.ok (b, c'))
    (hk : k' = k → a = false) :
    c'.stubCodes_.has k = c.stubCodes_.has k ∧ c'.getStubCode k = c.getStubCode k := by
  obtain ⟨habs, _, hc⟩ := JitCompartment.putStubCode_ok c c' a b k' v h
  cases a with
  | false =>
    simp only [Bool.false_eq_true, if_false] at hc
    rw [hc]
    exact ⟨rfl, rfl⟩
  | true =>
    have hne : k' ≠ k := fun e => by simpa using hk e
    simp only [if_true] at hc
    rw [hc]
    refine ⟨?_, ?_⟩
    · show ICStubCodeMap.has { entries := c.stubCodes_.entries ++ [(k', v)] } k = _
      rw [ICStubCodeMap.has_append]
      simp [hne]
    · rw [JitCompartment.getStubCode_after_put c k' k v habs]
      simp [hne]

/-- A history of returning calls none of which inserted `k` leaves `k` as it was. -/
theorem JitCompartment.putStubCodes_frame (k : Nat) (calls : List PutCall) :
    ∀ (c c' : JitCompartment), JitCompartment.putStubCodes calls c = Except.ok c' →
      (∀ p ∈ calls, p.key = k → p.allocOk = false) →
      c'.stubCodes_.has k = c.stubCodes_.has k ∧ c'.getStubCode k = c.getStubCode k := by
  induction calls with
  | nil =>
    intro c c' h _
    simp [JitCompartment.putStubCodes, pure, Except.pure] at h
    subst h
    exact ⟨rfl, rfl⟩
  | cons p ps ih =>
    intro c c' h hno
    unfold JitCompartment.putStubCodes at h
    cases hp : c.putStubCode p.allocOk p.key p.stubCode with
    | error e => rw [hp] at h; simp [bind, Except.bind] at h
    | ok r =>
      rw [hp] at h
      simp only [bind, Except.bind] at h
      obtain ⟨h1, h2⟩ := JitCompartment.putStubCode_frame c r.2 p.allocOk r.1 k p.key p.stubCode
        hp (hno p (List.mem_cons_self p ps))
      obtain ⟨h3, h4⟩ := ih r.2 c' h (fun q hq => hno q (List.mem_cons_of_mem p hq))
      exact ⟨h3.trans h1, h4.trans h2⟩

/-- A key that is present survives every later history of returning calls, with its code:
each later call on that key is a contract violation, so the history has none. -/
theorem JitCompartment.putStubCodes_keeps (k : Nat) (calls : List PutCall) :
    ∀ (c c' : JitCompartment), JitCompartment.putStubCodes calls c = Except.ok c' →
      c.stubCodes_.has k = true → c'.getStubCode k = c.getStubCode k := by
  induction calls with
  | nil =>
    intro c c' h _
    simp [JitCompartment.putStubCodes, pure, Except.pure] at h
    subst h
    rfl
  | cons p ps ih =>
    intro c c' h hk
    unfold JitCompartment.putStubCodes at h
    cases hp : c.putStubCode p.allocOk p.key p.stubCode with
    | error e => rw [hp] at h; simp [bind, Except.bind] at h
    | ok r =>
      rw [hp] at h
      simp only [bind, Except.bind] at h
      obtain ⟨habs, _, _⟩ := JitCompartment.putStubCode_ok c r.2 p.allocOk r.1 p.key p.stubCode hp
      have hne : p.key = k → p.allocOk = false := by
        intro e
        rw [e, hk] at habs
        cases habs
      obtain ⟨h1, h2⟩ := JitCompartment.putStubCode_frame c r.2 p.allocOk r.1 k p.key p.stubCode
        hp hne
      exact (ih r.2 c' h (h1.trans hk)).trans h2

/-- C2: `getStubCode(k)` is the null pointer as long as no `putStubCode(k, _)` has
succeeded on the compartment; a successful `putStubCode(k, code)` makes `getStubCode(k)`
return `code` and leaves `getStubCode(k')` unchanged for every other key `k'`. -/
theorem getStubCode_putStubCode (k : Nat) :
    (∀ (c0 c : JitCompartment) (calls : List PutCall),
        c0.stubCodes_.entries = [] →
        JitCompartment.putStubCodes calls c0 = Except.ok c →
        (∀ p ∈ calls, p.key = k → p.allocOk = false) → c.getStubCode k = nullptr) ∧
    (∀ (c c' : JitCompartment) (a : Bool) (code : JitCodePtr),
        c.putStubCode a k code = Except.ok (true, c') →
        c.stubCodes_.has k = false ∧ c'.getStubCode k = code ∧
          ∀ k', k' ≠ k → c'.getStubCode k' = c.getStubCode k') := by
  refine ⟨?_, ?_⟩
  · intro c0 c calls h0 hrun hno
    obtain ⟨h1, _⟩ := JitCompartment.putStubCodes_frame k calls c0 c hrun hno
    have hempty : c0.stubCodes_.has k = false := by
      unfold ICStubCodeMap.has ICStubCodeMap.lookupForAdd
      rw [h0]
      rfl
    exact JitCompartment.getStubCode_absent c k (h1.trans hempty)
  · intro c c' a code h
    obtain ⟨habs, ha, hc⟩ := JitCompartment.putStubCode_ok c c' a true k code h
    subst ha
    simp only [if_true] at hc
    refine ⟨habs, ?_, ?_⟩
    · rw [hc, JitCompartment.getStubCode_after_put c k k code habs]
      simp
    · intro k' hk'
      rw [hc, JitCompartment.getStubCode_after_put c k k' code habs]
      simp [Ne.symm hk']

/-- C2 at concrete compartments: after an insertion at key 3 and a failed insertion at
key 7, key 7 reads as null; inserting code 100 at key 7 then makes key 7 read 100 and
leaves key 3 at its code 50. -/
theorem getStubCode_putStubCode_witness :
    JitCompartment.getStubCode
        { JitCompartment.init with stubCodes_ := { entries := [(3, 50)] } } 7 = nullptr ∧
      (JitCompartment.getStubCode
          { JitCompartment.init with stubCodes_ := { entries := [(3, 50), (7, 100)] } } 7 = 100 ∧
        JitCompartment.getStubCode
          { JitCompartment.init with stubCodes_ := { entries := [(3, 50), (7, 100)] } } 3 = 50) :=
  ⟨(getStubCode_putStubCode 7).1 JitCompartment.init
      { JitCompartment.init with stubCodes_ := { entries := [(3, 50)] } }
      [{ allocOk := true, key := 3, stubCode := 50 }, { allocOk := false, key := 7, stubCode := 9 }]
      rfl rfl (by decide),
    ((getStubCode_putStubCode 7).2
      { JitCompartment.init with stubCodes_ := { entries := [(3, 50)] } }
      { JitCompartment.init with stubCodes_ := { entries := [(3, 50), (7, 100)] } }
      true 100 rfl).2.1,
    ((getStubCode_putStubCode 7).2
      { JitCompartment.init with stubCodes_ := { entries := [(3, 50)] } }
      { JitCompartment.init with stubCodes_ := { entries := [(3, 50), (7, 100)] } }
      true 100 rfl).2.2 3 (by decide)⟩

/-- C3: purging the optimized stub arena does not touch the stub-code cache. If
`putStubCode(k, code)` succeeded, then after any further returning `putStubCode` calls and
`optimizedStubSpace()->free()`, `getStubCode(k)` still returns `code`; `free()` leaves the
stub map as it is and changes only the arena, which afterwards has no chunk. -/
theorem free_keeps_stub_code (c c1 c2 : JitCompartment) (a : Bool) (k : Nat) (code : JitCodePtr)
    (calls : List PutCall)
    (hput : c.putStubCode a k code = Except.ok (true, c1))
    (hlater : JitCompartment.putStubCodes calls c1 = Except.ok c2) :
    c2.freeOptimizedStubSpace.getStubCode k = code ∧
      c2.freeOptimizedStubSpace.stubCodes_ = c2.stubCodes_ ∧
      (∀ k', c2.freeOptimizedStubSpace.getStubCode k' = c2.getStubCode k') ∧
      c2.freeOptimizedStubSpace.optimizedStubSpace_.allocator_.chunks = [] := by
  obtain ⟨hreject, hget⟩ := putStubCode_present_after c c1 a k code hput
  have hframe : ∀ k', c2.freeOptimizedStubSpace.getStubCode k' = c2.getStubCode k' :=
    fun _ => rfl
  refine ⟨?_, rfl, hframe, rfl⟩
  rw [hframe k, JitCompartment.putStubCodes_keeps k calls c1 c2 hlater hreject, hget]

/-- C3 at a concrete compartment whose arena holds one chunk with 24 bytes in use. -/
theorem free_keeps_stub_code_witness :
    JitCompartment.getStubCode (JitCompartment.freeOptimizedStubSpace
        { JitCompartment.init with
          stubCodes_ := { entries := [(7, 100), (3, 50)] },
          optimizedStubSpace_ := { allocator_ := {
            defaultChunkSize_ := 4096,
            chunks := [{ base := 65536, capacity := 4096, bump := 24 }] } } }) 7 = 100 :=
  (free_keeps_stub_code
    { JitCompartment.init with
      optimizedStubSpace_ := { allocator_ := {
        defaultChunkSize_ := 4096,
        chunks := [{ base := 65536, capacity := 4096, bump := 24 }] } } }
    _ _ true 7 100 [{ allocOk := true, key := 3, stubCode := 50 }] rfl rfl).1

/-! ## Theorems: the arena and cell callbacks -/

/-- The `size_t` sum is the sum modulo the range of `size_t`. -/
theorem sizeAdd_modEq (a b : Nat) : sizeAdd a b ≡ a + b [MOD SIZE_MAX1] :=
  Nat.mod_modEq _ _

/-- The `size_t` sum is the sum when it does not overflow. -/
theorem sizeAdd_of_lt (a b : Nat) (h : a + b < SIZE_MAX1) : sizeAdd a b = a + b :=
  Nat.mod_eq_of_lt h

/-- The `size_t` difference, modulo the range of `size_t`. -/
theorem sizeSub_add_modEq (a b : Nat) : sizeSub a b + b ≡ a [MOD SIZE_MAX1] := by
  unfold sizeSub Nat.ModEq
  have hW : 0 < SIZE_MAX1 := by unfold SIZE_MAX1; positivity
  have hb : b % SIZE_MAX1 < SIZE_MAX1 := Nat.mod_lt _ hW
  rw [Nat.add_mod, Nat.mod_mod, ← Nat.add_mod]
  have e : a + (SIZE_MAX1 - b % SIZE_MAX1) + b =
      a + SIZE_MAX1 * (b / SIZE_MAX1 + 1) := by
    have := Nat.div_add_mod b SIZE_MAX1
    have h2 : SIZE_MAX1 * (b / SIZE_MAX1 + 1) = SIZE_MAX1 * (b / SIZE_MAX1) + SIZE_MAX1 := by ring
    omega
  rw [e, Nat.add_mul_mod_self_left]

/-- The `size_t` difference is the difference when it does not underflow. -/
theorem sizeSub_of_le (a b : Nat) (hb : b ≤ a) (ha : a < SIZE_MAX1) : sizeSub a b = a - b := by
  unfold sizeSub
  have hb' : b % SIZE_MAX1 = b := Nat.mod_eq_of_lt (lt_of_le_of_lt hb ha)
  rw [hb']
  have e : a + (SIZE_MAX1 - b) = (a - b) + SIZE_MAX1 := by omega
  rw [e, Nat.add_mod_right]
  exact Nat.mod_eq_of_lt (by omega)

/-- Replacing one element of a list changes the sum of a measure by the difference of the
measures of the two elements. -/
theorem sum_map_set {α : Type} (f : α → Nat) :
    ∀ (l : List α) (i : Nat) (x y : α), l[i]? = some x →
      ((l.set i y).map f).sum + f x = (l.map f).sum + f y := by
  intro l
  induction l with
  | nil => intro i x y h; simp at h
  | cons a t ih =>
    intro i x y h
    cases i with
    | zero =>
      simp at h
      subst h
      simp
      omega
    | succ n =>
      simp at h
      have := ih n x y h
      simp only [List.set_cons_succ, List.map_cons, List.sum_cons]
      omega

/-- The measure of an element is at most the sum of the measures. -/
theorem le_sum_map {α : Type} (f : α → Nat) :
    ∀ (l : List α) (i : Nat) (x : α), l[i]? = some x → f x ≤ (l.map f).sum := by
  intro l
  induction l with
  | nil => intro i x h; simp at h
  | cons a t ih =>
    intro i x h
    cases i with
    | zero =>
      simp at h
      subst h
      simp
    | succ n =>
      simp at h
      have := ih n x h
      simp
      omega

/-- When the dereference of `currZoneStats` returns, and what. -/
theorem RuntimeStats.derefCurrZoneStats_ok (r : RuntimeStats) (zi : Nat) (z : ZoneStats) :
    r.derefCurrZoneStats = Except.ok (zi, z) ↔
      r.currZoneStats = some zi ∧ r.zoneStatsVector[zi]? = some z := by
  unfold RuntimeStats.derefCurrZoneStats
  split
  · rename_i h1
    simp [h1, throw, throwThe, MonadExceptOf.throw]
  · rename_i i h1
    split
    · rename_i h2
      simp only [h1, throw, throwThe, MonadExceptOf.throw, Option.some.injEq, false_iff, not_and]
      constructor
      · intro h; cases h
      · rintro ⟨e, h3⟩
        subst e
        rw [h2] at h3
        cases h3
    · rename_i z0 h2
      simp only [h1, pure, Except.pure, Except.ok.injEq, Prod.mk.injEq, Option.some.injEq]
      constructor
      · rintro ⟨e1, e2⟩
        subst e1
        exact ⟨rfl, by rw [h2, e2]⟩
      · rintro ⟨e1, e2⟩
        subst e1
        rw [h2] at e2
        exact ⟨rfl, Option.some.inj e2⟩

/-- When the dereference of a compartment's record returns, and what. -/
theorem GetCompartmentStats_ok (r : RuntimeStats) (comp : JSCompartment) (ci : Nat)
    (c : CompartmentStats) :
    GetCompartmentStats r comp = Except.ok (ci, c) ↔
      comp.compartmentStats = some ci ∧ r.compartmentStatsVector[ci]? = some c := by
  unfold GetCompartmentStats
  split
  · rename_i h1
    simp [h1, throw, throwThe, MonadExceptOf.throw]
  · rename_i i h1
    split
    · rename_i h2
      simp only [h1, throw, throwThe, MonadExceptOf.throw, Option.some.injEq, false_iff, not_and]
      constructor
      · intro h; cases h
      · rintro ⟨e, h3⟩
        subst e
        rw [h2] at h3
        cases h3
    · rename_i c0 h2
      simp only [h1, pure, Except.pure, Except.ok.injEq, Prod.mk.injEq, Option.some.injEq]
      constructor
      · rintro ⟨e1, e2⟩
        subst e1
        exact ⟨rfl, by rw [h2, e2]⟩
      · rintro ⟨e1, e2⟩
        subst e1
        rw [h2] at e2
        exact ⟨rfl, Option.some.inj e2⟩

/-- Charging a zone counter moves the arena bytes of the record by as much as the counter. -/
theorem ZoneStats.ChargedTo.zone_arenaBytes {k : ZoneCounter} {n : Nat} {z z' : ZoneStats}
    (h : ZoneStats.ChargedTo k n z z') :
    z'.arenaBytes + z.read k = z.arenaBytes + sizeAdd (z.read k) n ∧
      z.read k + z.unusedGCThings ≤ z.arenaBytes := by
  obtain ⟨h0, hf, hu, ha, _⟩ := h
  have a1 := hf ZoneCounter.stringsShortGCHeap
  have a2 := hf ZoneCounter.stringsNormalGCHeap
  have a3 := hf ZoneCounter.lazyScriptsGCHeap
  have a4 := hf ZoneCounter.jitCodesGCHeap
  have a5 := hf ZoneCounter.typeObjectsGCHeap
  unfold ZoneStats.arenaBytes ZoneStats.gcHeapLiveBytes
  cases k <;> simp [ZoneStats.read] at * <;> omega

/-- Charging a compartment counter moves the live bytes of the record by as much. -/
theorem CompartmentStats.ChargedTo.gcHeapLiveBytes_eq {k : CompartmentCounter} {n : Nat}
    {c c' : CompartmentStats} (h : CompartmentStats.ChargedTo k n c c') :
    c'.gcHeapLiveBytes + c.read k = c.gcHeapLiveBytes + sizeAdd (c.read k) n ∧
      c.read k ≤ c.gcHeapLiveBytes := by
  obtain ⟨h0, hf⟩ := h
  have a1 := hf CompartmentCounter.objectsGCHeapOrdinary
  have a2 := hf CompartmentCounter.objectsGCHeapFunction
  have a3 := hf CompartmentCounter.objectsGCHeapDenseArray
  have a4 := hf CompartmentCounter.objectsGCHeapCrossCompartmentWrapper
  have a5 := hf CompartmentCounter.shapesGCHeapTreeGlobalParented
  have a6 := hf CompartmentCounter.shapesGCHeapTreeNonGlobalParented
  have a7 := hf CompartmentCounter.shapesGCHeapDict
  have a8 := hf CompartmentCounter.shapesGCHeapBase
  have a9 := hf CompartmentCounter.scriptsGCHeap
  unfold CompartmentStats.gcHeapLiveBytes
  cases k <;> simp [CompartmentStats.read] at * <;> omega

/-- The object case charges the counter of the object's class. -/
theorem StatsCellCallback.caseObject_charged (opv : Bool) (obj : JSObject) (n : Nat)
    (c : CompartmentStats) :
    CompartmentStats.ChargedTo obj.cls.counter n c (StatsCellCallback.caseObject opv obj n c) := by
  unfold StatsCellCallback.caseObject CompartmentStats.ChargedTo
  cases hc : obj.cls <;> cases opv <;> cases obj.privateSize <;>
    refine ⟨by simp [ObjectClass.counter, CompartmentStats.read], fun k' hk' => ?_⟩ <;>
    cases k' <;> simp_all [ObjectClass.counter, CompartmentStats.read]

/-- The shape case charges the counter of the shape's form. -/
theorem StatsCellCallback.caseShape_charged (shape : Shape) (n : Nat) (c : CompartmentStats) :
    CompartmentStats.ChargedTo
      (if shape.inDictionary then CompartmentCounter.shapesGCHeapDict
       else if shape.parentIsGlobal then CompartmentCounter.shapesGCHeapTreeGlobalParented
       else CompartmentCounter.shapesGCHeapTreeNonGlobalParented) n c
      (StatsCellCallback.caseShape shape n c) := by
  unfold StatsCellCallback.caseShape CompartmentStats.ChargedTo
  cases shape.inDictionary <;> cases shape.parentIsGlobal <;>
    refine ⟨by simp [CompartmentStats.read], fun k' hk' => ?_⟩ <;>
    cases k' <;> simp_all [CompartmentStats.read]

/-- The script case charges `scriptsGCHeap`. -/
theorem StatsCellCallback.caseScript_charged (J : Bool) (script : JSScript) (n : Nat)
    (c : CompartmentStats) :
    CompartmentStats.ChargedTo CompartmentCounter.scriptsGCHeap n c
      (StatsCellCallback.caseScript J script n c) := by
  unfold StatsCellCallback.caseScript CompartmentStats.ChargedTo
  cases J <;>
    refine ⟨by simp [CompartmentStats.read], fun k' hk' => ?_⟩ <;>
    cases k' <;> simp_all [CompartmentStats.read]

/-- The string case, when it returns, charges the short or the normal counter. -/
theorem StatsCellCallback.caseString_charged (g : Granularity) (a : Bool) (str : JSString)
    (sz n : Nat) (z z' : ZoneStats)
    (h : StatsCellCallback.caseString g a str sz n z = Except.ok z') :
    ZoneStats.ChargedTo
      (if str.isShort then ZoneCounter.stringsShortGCHeap else ZoneCounter.stringsNormalGCHeap)
      n z z' := by
  unfold StatsCellCallback.caseString at h
  unfold ZoneStats.ChargedTo
  cases hs : str.isShort <;> cases g <;> cases hsz : (sz == 0) <;> cases hst : z.strings <;>
    simp [hs, hsz, hst, MOZ_ASSERT, JS_ASSERT, bind, Except.bind, pure, Except.pure, throw,
      throwThe, MonadExceptOf.throw] at h <;>
    subst h <;>
    refine ⟨by simp [ZoneStats.read], fun k' hk' => ?_, rfl, rfl, by simp [hst]⟩ <;>
    cases k' <;> simp_all [ZoneStats.read]

/-- What the switch of `StatsCellCallback` does when it returns: the current zone pointer
stays, and the cell's `thingSize` is charged to the counter `Cell.bucket` names, in the
current zone's record or in the record of the cell's compartment, all other GC-heap
counters, `unusedGCThings` and `gcHeapArenaAdmin` staying as they were. -/
theorem StatsCellCallback.switch_effect (g : Granularity) (J a : Bool) (cl cl1 : StatsClosure)
    (cell : Cell) (n : Nat) (hjit : J = true ∨ cell ≠ Cell.JSTRACE_JITCODE)
    (h : StatsCellCallback.switch_ g J a cl cell n = Except.ok cl1) :
    ∃ zi z, cl.rtStats.currZoneStats = some zi ∧ cl.rtStats.zoneStatsVector[zi]? = some z ∧
      cl1.rtStats.currZoneStats = some zi ∧
      ((∃ k z', cell.bucket zi = some (GCHeapCounter.zone zi k) ∧
          cl1.rtStats.zoneStatsVector = cl.rtStats.zoneStatsVector.set zi z' ∧
          cl1.rtStats.compartmentStatsVector = cl.rtStats.compartmentStatsVector ∧
          ZoneStats.ChargedTo k n z z') ∨
       (∃ ci k c c', cell.bucket zi = some (GCHeapCounter.compartment ci k) ∧
          cl.rtStats.compartmentStatsVector[ci]? = some c ∧
          cl1.rtStats.compartmentStatsVector = cl.rtStats.compartmentStatsVector.set ci c' ∧
          cl1.rtStats.zoneStatsVector = cl.rtStats.zoneStatsVector ∧
          CompartmentStats.ChargedTo k n c c')) := by
  unfold StatsCellCallback.switch_ at h
  dsimp only at h
  cases hz : cl.rtStats.derefCurrZoneStats with
  | error e => rw [hz] at h; simp [bind, Except.bind] at h
  | ok p =>
    obtain ⟨zi, z⟩ := p
    rw [hz] at h
    obtain ⟨hz1, hz2⟩ := (RuntimeStats.derefCurrZoneStats_ok _ _ _).mp hz
    refine ⟨zi, z, hz1, hz2, ?_⟩
    simp only [bind, Except.bind] at h
    cases cell with
    | JSTRACE_OBJECT obj =>
      simp only at h
      cases hc : GetCompartmentStats cl.rtStats obj.compartment with
      | error e => rw [hc] at h; simp at h
      | ok q =>
        obtain ⟨ci, c⟩ := q
        rw [hc] at h
        simp only [pure, Except.pure, Except.ok.injEq] at h
        subst h
        obtain ⟨hc1, hc2⟩ := (GetCompartmentStats_ok _ _ _ _).mp hc
        exact ⟨hz1, Or.inr ⟨ci, _, c, _, by simp [Cell.bucket, hc1], hc2, rfl, rfl,
          StatsCellCallback.caseObject_charged _ _ _ _⟩⟩
    | JSTRACE_STRING str sz =>
      simp only at h
      cases hs : StatsCellCallback.caseString g a str sz n z with
      | error e => rw [hs] at h; simp at h
      | ok z' =>
        rw [hs] at h
        simp only [pure, Except.pure, Except.ok.injEq] at h
        subst h
        exact ⟨hz1, Or.inl ⟨_, z', by simp [Cell.bucket], rfl, rfl,
          StatsCellCallback.caseString_charged _ _ _ _ _ _ _ hs⟩⟩
    | JSTRACE_SHAPE shape =>
      simp only at h
      cases hc : GetCompartmentStats cl.rtStats shape.compartment with
      | error e => rw [hc] at h; simp at h
      | ok q =>
        obtain ⟨ci, c⟩ := q
        rw [hc] at h
        simp only [pure, Except.pure, Except.ok.injEq] at h
        subst h
        obtain ⟨hc1, hc2⟩ := (GetCompartmentStats_ok _ _ _ _).mp hc
        exact ⟨hz1, Or.inr ⟨ci, _, c, _, by simp [Cell.bucket, hc1], hc2, rfl, rfl,
          StatsCellCallback.caseShape_charged _ _ _⟩⟩
    | JSTRACE_BASE_SHAPE comp =>
      simp only at h
      cases hc : GetCompartmentStats cl.rtStats comp with
      | error e => rw [hc] at h; simp at h
      | ok q =>
        obtain ⟨ci, c⟩ := q
        rw [hc] at h
        simp only [pure, Except.pure, Except.ok.injEq] at h
        subst h
        obtain ⟨hc1, hc2⟩ := (GetCompartmentStats_ok _ _ _ _).mp hc
        refine ⟨hz1, Or.inr ⟨ci, CompartmentCounter.shapesGCHeapBase, c, _,
          by simp [Cell.bucket, hc1], hc2, rfl, rfl, by simp [CompartmentStats.read], ?_⟩⟩
        intro k' hk'
        cases k' <;> simp_all [CompartmentStats.read]
    | JSTRACE_SCRIPT script =>
      simp only at h
      cases hc : GetCompartmentStats cl.rtStats script.compartment with
      | error e => rw [hc] at h; simp at h
      | ok q =>
        obtain ⟨ci, c⟩ := q
        rw [hc] at h
        simp only [pure, Except.pure, Except.ok.injEq] at h
        subst h
        obtain ⟨hc1, hc2⟩ := (GetCompartmentStats_ok _ _ _ _).mp hc
        refine ⟨?_, Or.inr ⟨ci, _, c, StatsCellCallback.caseScript J script n c,
          by simp [Cell.bucket, hc1], hc2, ?_, ?_, StatsCellCallback.caseScript_charged _ _ _ _⟩⟩
        · unfold StatsCellCallback.caseScriptSource
          split <;> exact hz1
        · unfold StatsCellCallback.caseScriptSource
          split <;> rfl
        · unfold StatsCellCallback.caseScriptSource
          split <;> rfl
    | JSTRACE_LAZY_SCRIPT sz =>
      simp only [pure, Except.pure, Except.ok.injEq] at h
      subst h
      refine ⟨hz1, Or.inl ⟨ZoneCounter.lazyScriptsGCHeap, _, by simp [Cell.bucket], rfl, rfl,
        by simp [ZoneStats.read], ?_, rfl, rfl, rfl⟩⟩
      intro k' hk'
      cases k' <;> simp_all [ZoneStats.read]
    | JSTRACE_JITCODE =>
      have hJ : J = true := by
        cases hjit with
        | inl h1 => exact h1
        | inr h1 => exact absurd rfl h1
      subst hJ
      simp only [if_true, pure, Except.pure, Except.ok.injEq] at h
      subst h
      refine ⟨hz1, Or.inl ⟨ZoneCounter.jitCodesGCHeap, _, by simp [Cell.bucket], rfl, rfl,
        by simp [ZoneStats.read], ?_, rfl, rfl, rfl⟩⟩
      intro k' hk'
      cases k' <;> simp_all [ZoneStats.read]
    | JSTRACE_TYPE_OBJECT sz =>
      simp only [pure, Except.pure, Except.ok.injEq] at h
      subst h
      refine ⟨hz1, Or.inl ⟨ZoneCounter.typeObjectsGCHeap, _, by simp [Cell.bucket], rfl, rfl,
        by simp [ZoneStats.read], ?_, rfl, rfl, rfl⟩⟩
      intro k' hk'
      cases k' <;> simp_all [ZoneStats.read]
    | invalid k =>
      simp [throw, throwThe, MonadExceptOf.throw] at h

/-- What `StatsCellCallback` does when it returns: the effect of the switch, and then the
cell's `thingSize` taken off `unusedGCThings` of the current zone's record. -/
theorem StatsCellCallback.cell_effect (g : Granularity) (J a : Bool) (cl cl2 : StatsClosure)
    (cell : Cell) (n : Nat) (hjit : J = true ∨ cell ≠ Cell.JSTRACE_JITCODE)
    (h : StatsCellCallback g J a cl cell n = Except.ok cl2) :
    ∃ zi z, cl.rtStats.currZoneStats = some zi ∧ cl.rtStats.zoneStatsVector[zi]? = some z ∧
      cl2.rtStats.currZoneStats = some zi ∧
      ((∃ k z', cell.bucket zi = some (GCHeapCounter.zone zi k) ∧
          cl2.rtStats.zoneStatsVector = cl.rtStats.zoneStatsVector.set zi
            { z' with unusedGCThings := sizeSub z'.unusedGCThings n } ∧
          cl2.rtStats.compartmentStatsVector = cl.rtStats.compartmentStatsVector ∧
          ZoneStats.ChargedTo k n z z') ∨
       (∃ ci k c c', cell.bucket zi = some (GCHeapCounter.compartment ci k) ∧
          cl.rtStats.compartmentStatsVector[ci]? = some c ∧
          cl2.rtStats.compartmentStatsVector = cl.rtStats.compartmentStatsVector.set ci c' ∧
          cl2.rtStats.zoneStatsVector = cl.rtStats.zoneStatsVector.set zi
            { z with unusedGCThings := sizeSub z.unusedGCThings n } ∧
          CompartmentStats.ChargedTo k n c c')) := by
  unfold StatsCellCallback at h
  cases hs : StatsCellCallback.switch_ g J a cl cell n with
  | error e => rw [hs] at h; simp [bind, Except.bind] at h
  | ok cl1 =>
    rw [hs] at h
    simp only [bind, Except.bind] at h
    obtain ⟨zi, z, hz1, hz2, hz3, hcase⟩ :=
      StatsCellCallback.switch_effect g J a cl cl1 cell n hjit hs
    have hlt : zi < cl.rtStats.zoneStatsVector.length := by
      rcases Nat.lt_or_ge zi cl.rtStats.zoneStatsVector.length with hl | hl
      · exact hl
      · rw [List.getElem?_eq_none hl] at hz2
        cases hz2
    cases hd : cl1.rtStats.derefCurrZoneStats with
    | error e => rw [hd] at h; simp at h
    | ok p =>
      obtain ⟨zi1, z1⟩ := p
      rw [hd] at h
      simp only [pure, Except.pure, Except.ok.injEq] at h
      subst h
      obtain ⟨hd1, hd2⟩ := (RuntimeStats.derefCurrZoneStats_ok _ _ _).mp hd
      rw [hz3] at hd1
      have hzi : zi1 = zi := (Option.some.inj hd1).symm
      subst hzi
      refine ⟨zi1, z, hz1, hz2, hz3, ?_⟩
      rcases hcase with ⟨k, z', hb, hzs, hcs, hch⟩ | ⟨ci, k, c, c', hb, hc, hcs, hzs, hch⟩
      · left
        have hz' : z1 = z' := by
          rw [hzs, List.getElem?_set_self hlt] at hd2
          exact (Option.some.inj hd2).symm
        subst hz'
        refine ⟨k, z1, hb, ?_, hcs, hch⟩
        show cl1.rtStats.zoneStatsVector.set zi1 _ = _
        rw [hzs, List.set_set]
      · right
        have hz' : z1 = z := by
          rw [hzs, hz2] at hd2
          exact (Option.some.inj hd2).symm
        subst hz'
        refine ⟨ci, k, c, c', hb, hc, hcs, ?_, hch⟩
        show cl1.rtStats.zoneStatsVector.set zi1 _ = _
        rw [hzs]

/-- One cell visit leaves the accounted arena bytes unchanged modulo the range of `size_t`. -/
theorem StatsCellCallback.cell_arenaBytes_modEq (g : Granularity) (J a : Bool) (cl cl2 : StatsClosure)
    (cell : Cell) (n : Nat) (hjit : J = true ∨ cell ≠ Cell.JSTRACE_JITCODE)
    (h : StatsCellCallback g J a cl cell n = Except.ok cl2) :
    cl2.rtStats.arenaBytes ≡ cl.rtStats.arenaBytes [MOD SIZE_MAX1] := by
  obtain ⟨zi, z, _, hz2, _, hcase⟩ := StatsCellCallback.cell_effect g J a cl cl2 cell n hjit h
  unfold RuntimeStats.arenaBytes
  rcases hcase with ⟨k, z', _, hzs, hcs, hch⟩ | ⟨ci, k, c, c', _, hc, hcs, hzs, hch⟩
  · rw [hzs, hcs]
    have e := sum_map_set ZoneStats.arenaBytes _ zi z
      { z' with unusedGCThings := sizeSub z'.unusedGCThings n } hz2
    obtain ⟨e1, _⟩ := hch.zone_arenaBytes
    have e2 : ZoneStats.arenaBytes { z' with unusedGCThings := sizeSub z'.unusedGCThings n } +
        z'.unusedGCThings = z'.arenaBytes + sizeSub z'.unusedGCThings n := by
      unfold ZoneStats.arenaBytes ZoneStats.gcHeapLiveBytes
      simp only
      omega
    have m1 := sizeAdd_modEq (z.read k) n
    have m2 := sizeSub_add_modEq z'.unusedGCThings n
    simp only [Nat.ModEq, SIZE_MAX1, Nat.reducePow] at m1 m2 ⊢
    omega
  · rw [hzs, hcs]
    have e := sum_map_set ZoneStats.arenaBytes _ zi z
      { z with unusedGCThings := sizeSub z.unusedGCThings n } hz2
    have e' := sum_map_set CompartmentStats.gcHeapLiveBytes _ ci c c' hc
    obtain ⟨e1, _⟩ := hch.gcHeapLiveBytes_eq
    have e2 : ZoneStats.arenaBytes { z with unusedGCThings := sizeSub z.unusedGCThings n } +
        z.unusedGCThings = z.arenaBytes + sizeSub z.unusedGCThings n := by
      unfold ZoneStats.arenaBytes ZoneStats.gcHeapLiveBytes
      simp only
      omega
    have m1 := sizeAdd_modEq (c.read k) n
    have m2 := sizeSub_add_modEq z.unusedGCThings n
    simp only [Nat.ModEq, SIZE_MAX1, Nat.reducePow] at m1 m2 ⊢
    omega

/-- An index with an element is within the list. -/
theorem lt_length_of_getElem? {α : Type} (l : List α) (i : Nat) (x : α) (h : l[i]? = some x) :
    i < l.length := by
  rcases Nat.lt_or_ge i l.length with hl | hl
  · exact hl
  · rw [List.getElem?_eq_none hl] at h
    cases h

/-- One cell visit leaves the accounted arena bytes exactly unchanged when no counter
overflows and the current zone has the cell's size in unused things; the unused things go
down by the cell's size. -/
theorem StatsCellCallback.cell_arenaBytes_eq (g : Granularity) (J a : Bool) (cl cl2 : StatsClosure)
    (cell : Cell) (n m : Nat) (hjit : J = true ∨ cell ≠ Cell.JSTRACE_JITCODE)
    (h : StatsCellCallback g J a cl cell n = Except.ok cl2)
    (hlt : cl.rtStats.arenaBytes < SIZE_MAX1) (hun : cl.rtStats.UnusedAtLeast (n + m)) :
    cl2.rtStats.arenaBytes = cl.rtStats.arenaBytes ∧ cl2.rtStats.UnusedAtLeast m := by
  obtain ⟨zi, z, hz1, hz2, hz3, hcase⟩ := StatsCellCallback.cell_effect g J a cl cl2 cell n hjit h
  obtain ⟨zi', z0, hu1, hu2, hu3⟩ := hun
  rw [hz1] at hu1
  have hzi : zi' = zi := (Option.some.inj hu1).symm
  subst hzi
  rw [hz2] at hu2
  have hz0 : z0 = z := (Option.some.inj hu2).symm
  subst hz0
  have hlen := lt_length_of_getElem? _ _ _ hz2
  have hzle := le_sum_map ZoneStats.arenaBytes _ zi' z0 hz2
  unfold RuntimeStats.arenaBytes at hlt ⊢
  unfold RuntimeStats.UnusedAtLeast
  rcases hcase with ⟨k, z', _, hzs, hcs, hch⟩ | ⟨ci, k, c, c', _, hc, hcs, hzs, hch⟩
  · have e := sum_map_set ZoneStats.arenaBytes _ zi' z0
      { z' with unusedGCThings := sizeSub z'.unusedGCThings n } hz2
    obtain ⟨e1, e3⟩ := hch.zone_arenaBytes
    have hu' : z'.unusedGCThings = z0.unusedGCThings := hch.2.2.1
    have e2 : ZoneStats.arenaBytes { z' with unusedGCThings := sizeSub z'.unusedGCThings n } +
        z'.unusedGCThings = z'.arenaBytes + sizeSub z'.unusedGCThings n := by
      unfold ZoneStats.arenaBytes ZoneStats.gcHeapLiveBytes
      simp only
      omega
    have s1 : sizeAdd (z0.read k) n = z0.read k + n := sizeAdd_of_lt _ _ (by omega)
    have s2 : sizeSub z'.unusedGCThings n = z'.unusedGCThings - n :=
      sizeSub_of_le _ _ (by omega) (by omega)
    refine ⟨?_, zi', { z' with unusedGCThings := sizeSub z'.unusedGCThings n }, hz3, ?_, ?_⟩
    · rw [hzs, hcs]
      omega
    · rw [hzs, List.getElem?_set_self hlen]
    · simp only
      omega
  · have e := sum_map_set ZoneStats.arenaBytes _ zi' z0
      { z0 with unusedGCThings := sizeSub z0.unusedGCThings n } hz2
    have e' := sum_map_set CompartmentStats.gcHeapLiveBytes _ ci c c' hc
    have hcle := le_sum_map CompartmentStats.gcHeapLiveBytes _ ci c hc
    obtain ⟨e1, e3⟩ := hch.gcHeapLiveBytes_eq
    have e2 : ZoneStats.arenaBytes { z0 with unusedGCThings := sizeSub z0.unusedGCThings n } +
        z0.unusedGCThings = z0.arenaBytes + sizeSub z0.unusedGCThings n := by
      unfold ZoneStats.arenaBytes ZoneStats.gcHeapLiveBytes
      simp only
      omega
    have e4 : z0.unusedGCThings ≤ z0.arenaBytes := by
      unfold ZoneStats.arenaBytes
      omega
    have s1 : sizeAdd (c.read k) n = c.read k + n := sizeAdd_of_lt _ _ (by omega)
    have s2 : sizeSub z0.unusedGCThings n = z0.unusedGCThings - n :=
      sizeSub_of_le _ _ (by omega) (by omega)
    refine ⟨?_, zi', { z0 with unusedGCThings := sizeSub z0.unusedGCThings n }, hz3, ?_, ?_⟩
    · rw [hzs, hcs]
      omega
    · rw [hzs, List.getElem?_set_self hlen]
    · simp only
      omega

/-- What `StatsArenaCallback` does when it returns. -/
theorem StatsArenaCallback.arena_effect (gc : GCLayout) (cl cl1 : StatsClosure) (n : Nat)
    (h : StatsArenaCallback gc cl n = Except.ok cl1) :
    ∃ zi z, cl.rtStats.currZoneStats = some zi ∧ cl.rtStats.zoneStatsVector[zi]? = some z ∧
      cl1.rtStats.currZoneStats = some zi ∧
      cl1.rtStats.zoneStatsVector = cl.rtStats.zoneStatsVector.set zi
        { z with
          gcHeapArenaAdmin := sizeAdd z.gcHeapArenaAdmin (sizeSub gc.ArenaSize (gc.thingsSpan n)),
          unusedGCThings := sizeAdd z.unusedGCThings (gc.thingsSpan n) } ∧
      cl1.rtStats.compartmentStatsVector = cl.rtStats.compartmentStatsVector := by
  unfold StatsArenaCallback at h
  dsimp only at h
  cases hz : cl.rtStats.derefCurrZoneStats with
  | error e => rw [hz] at h; simp [bind, Except.bind] at h
  | ok p =>
    obtain ⟨zi, z⟩ := p
    rw [hz] at h
    obtain ⟨hz1, hz2⟩ := (RuntimeStats.derefCurrZoneStats_ok _ _ _).mp hz
    simp only [bind, Except.bind, pure, Except.pure, Except.ok.injEq] at h
    subst h
    exact ⟨zi, z, hz1, hz2, hz1, rfl, rfl⟩

/-- The arena callback adds the arena's size to the accounted arena bytes, modulo the range
of `size_t`. -/
theorem StatsArenaCallback.arena_arenaBytes_modEq (gc : GCLayout) (cl cl1 : StatsClosure) (n : Nat)
    (h : StatsArenaCallback gc cl n = Except.ok cl1) :
    cl1.rtStats.arenaBytes ≡ cl.rtStats.arenaBytes + gc.ArenaSize [MOD SIZE_MAX1] := by
  obtain ⟨zi, z, _, hz2, _, hzs, hcs⟩ := StatsArenaCallback.arena_effect gc cl cl1 n h
  unfold RuntimeStats.arenaBytes
  rw [hzs, hcs]
  have e := sum_map_set ZoneStats.arenaBytes _ zi z
    { z with
      gcHeapArenaAdmin := sizeAdd z.gcHeapArenaAdmin (sizeSub gc.ArenaSize (gc.thingsSpan n)),
      unusedGCThings := sizeAdd z.unusedGCThings (gc.thingsSpan n) } hz2
  have e2 : ZoneStats.arenaBytes { z with
      gcHeapArenaAdmin := sizeAdd z.gcHeapArenaAdmin (sizeSub gc.ArenaSize (gc.thingsSpan n)),
      unusedGCThings := sizeAdd z.unusedGCThings (gc.thingsSpan n) } +
      z.gcHeapArenaAdmin + z.unusedGCThings = z.arenaBytes +
      sizeAdd z.gcHeapArenaAdmin (sizeSub gc.ArenaSize (gc.thingsSpan n)) +
      sizeAdd z.unusedGCThings (gc.thingsSpan n) := by
    unfold ZoneStats.arenaBytes ZoneStats.gcHeapLiveBytes
    simp only
    omega
  have m1 := sizeAdd_modEq z.gcHeapArenaAdmin (sizeSub gc.ArenaSize (gc.thingsSpan n))
  have m2 := sizeSub_add_modEq gc.ArenaSize (gc.thingsSpan n)
  have m3 := sizeAdd_modEq z.unusedGCThings (gc.thingsSpan n)
  simp only [Nat.ModEq, SIZE_MAX1, Nat.reducePow] at m1 m2 m3 ⊢
  omega

/-- The arena callback adds exactly the arena's size to the accounted arena bytes when no
counter overflows, and leaves the arena's span in the unused things of the zone. -/
theorem StatsArenaCallback.arena_arenaBytes_eq (gc : GCLayout) (cl cl1 : StatsClosure) (n : Nat)
    (h : StatsArenaCallback gc cl n = Except.ok cl1)
    (hspan : gc.thingsSpan n ≤ gc.ArenaSize)
    (hlt : cl.rtStats.arenaBytes + gc.ArenaSize < SIZE_MAX1) :
    cl1.rtStats.arenaBytes = cl.rtStats.arenaBytes + gc.ArenaSize ∧
      cl1.rtStats.UnusedAtLeast (gc.thingsSpan n) := by
  obtain ⟨zi, z, _, hz2, hz3, hzs, hcs⟩ := StatsArenaCallback.arena_effect gc cl cl1 n h
  have hlen := lt_length_of_getElem? _ _ _ hz2
  have hzle := le_sum_map ZoneStats.arenaBytes _ zi z hz2
  unfold RuntimeStats.arenaBytes at hlt ⊢
  unfold RuntimeStats.UnusedAtLeast
  have e := sum_map_set ZoneStats.arenaBytes _ zi z
    { z with
      gcHeapArenaAdmin := sizeAdd z.gcHeapArenaAdmin (sizeSub gc.ArenaSize (gc.thingsSpan n)),
      unusedGCThings := sizeAdd z.unusedGCThings (gc.thingsSpan n) } hz2
  have e2 : ZoneStats.arenaBytes { z with
      gcHeapArenaAdmin := sizeAdd z.gcHeapArenaAdmin (sizeSub gc.ArenaSize (gc.thingsSpan n)),
      unusedGCThings := sizeAdd z.unusedGCThings (gc.thingsSpan n) } +
      z.gcHeapArenaAdmin + z.unusedGCThings = z.arenaBytes +
      sizeAdd z.gcHeapArenaAdmin (sizeSub gc.ArenaSize (gc.thingsSpan n)) +
      sizeAdd z.unusedGCThings (gc.thingsSpan n) := by
    unfold ZoneStats.arenaBytes ZoneStats.gcHeapLiveBytes
    simp only
    omega
  have e3 : z.gcHeapArenaAdmin + z.unusedGCThings ≤ z.arenaBytes := by
    unfold ZoneStats.arenaBytes
    omega
  have s0 : sizeSub gc.ArenaSize (gc.thingsSpan n) = gc.ArenaSize - gc.thingsSpan n :=
    sizeSub_of_le _ _ hspan (by omega)
  have s1 : sizeAdd z.gcHeapArenaAdmin (gc.ArenaSize - gc.thingsSpan n) =
      z.gcHeapArenaAdmin + (gc.ArenaSize - gc.thingsSpan n) := sizeAdd_of_lt _ _ (by omega)
  have s2 : sizeAdd z.unusedGCThings (gc.thingsSpan n) = z.unusedGCThings + gc.thingsSpan n :=
    sizeAdd_of_lt _ _ (by omega)
  rw [s0] at e e2
  refine ⟨?_, zi, { z with
      gcHeapArenaAdmin := sizeAdd z.gcHeapArenaAdmin (sizeSub gc.ArenaSize (gc.thingsSpan n)),
      unusedGCThings := sizeAdd z.unusedGCThings (gc.thingsSpan n) }, hz3, ?_, ?_⟩
  · rw [hzs, hcs, s0]
    omega
  · rw [hzs, List.getElem?_set_self hlen]
  · simp only
    omega

/-- The visit of the cells of an arena leaves the accounted arena bytes unchanged modulo
the range of `size_t`. -/
theorem visitCells.cells_arenaBytes_modEq (g : Granularity) (J : Bool) (n : Nat) :
    ∀ (cells : List (Cell × Bool)) (cl cl' : StatsClosure),
      (J = true ∨ ∀ c ∈ cells, c.1 ≠ Cell.JSTRACE_JITCODE) →
      visitCells g J n cells cl = Except.ok cl' →
      cl'.rtStats.arenaBytes ≡ cl.rtStats.arenaBytes [MOD SIZE_MAX1] := by
  intro cells
  induction cells with
  | nil =>
    intro cl cl' _ h
    simp only [visitCells, pure, Except.pure, Except.ok.injEq] at h
    subst h
    exact Nat.ModEq.refl _
  | cons c rest ih =>
    intro cl cl' hjit h
    obtain ⟨cell, a⟩ := c
    simp only [visitCells] at h
    cases hc : StatsCellCallback g J a cl cell n with
    | error e => rw [hc] at h; simp [bind, Except.bind] at h
    | ok cl1 =>
      rw [hc] at h
      simp only [bind, Except.bind] at h
      have hj1 : J = true ∨ cell ≠ Cell.JSTRACE_JITCODE :=
        hjit.imp id (fun hh => hh (cell, a) (List.mem_cons_self _ _))
      have hj2 : J = true ∨ ∀ c ∈ rest, c.1 ≠ Cell.JSTRACE_JITCODE :=
        hjit.imp id (fun hh c hc' => hh c (List.mem_cons_of_mem _ hc'))
      exact (ih cl1 cl' hj2 h).trans (StatsCellCallback.cell_arenaBytes_modEq g J a cl cl1 cell n hj1 hc)

/-- The visit of the cells of an arena leaves the accounted arena bytes exactly unchanged
when nothing overflows and the cells fit in the unused things of the zone. -/
theorem visitCells.cells_arenaBytes_eq (g : Granularity) (J : Bool) (n : Nat) :
    ∀ (cells : List (Cell × Bool)) (cl cl' : StatsClosure),
      (J = true ∨ ∀ c ∈ cells, c.1 ≠ Cell.JSTRACE_JITCODE) →
      visitCells g J n cells cl = Except.ok cl' →
      cl.rtStats.arenaBytes < SIZE_MAX1 → cl.rtStats.UnusedAtLeast (cells.length * n) →
      cl'.rtStats.arenaBytes = cl.rtStats.arenaBytes := by
  intro cells
  induction cells with
  | nil =>
    intro cl cl' _ h _ _
    simp only [visitCells, pure, Except.pure, Except.ok.injEq] at h
    subst h
    rfl
  | cons c rest ih =>
    intro cl cl' hjit h hlt hun
    obtain ⟨cell, a⟩ := c
    simp only [visitCells] at h
    cases hc : StatsCellCallback g J a cl cell n with
    | error e => rw [hc] at h; simp [bind, Except.bind] at h
    | ok cl1 =>
      rw [hc] at h
      simp only [bind, Except.bind] at h
      have hj1 : J = true ∨ cell ≠ Cell.JSTRACE_JITCODE :=
        hjit.imp id (fun hh => hh (cell, a) (List.mem_cons_self _ _))
      have hj2 : J = true ∨ ∀ c ∈ rest, c.1 ≠ Cell.JSTRACE_JITCODE :=
        hjit.imp id (fun hh c hc' => hh c (List.mem_cons_of_mem _ hc'))
      have hun' : cl.rtStats.UnusedAtLeast (n + rest.length * n) := by
        have e : (List.length ((cell, a) :: rest)) * n = n + rest.length * n := by
          simp only [List.length_cons]
          ring
        rw [e] at hun
        exact hun
      obtain ⟨e1, e2⟩ := StatsCellCallback.cell_arenaBytes_eq g J a cl cl1 cell n (rest.length * n)
        hj1 hc hlt hun'
      rw [ih cl1 cl' hj2 h (by rw [e1]; exact hlt) e2, e1]

/-- The unused-things counter is none of the GC-heap live-byte counters. -/
theorem ZoneStats.read_unusedGCThings (z : ZoneStats) (u : Nat) (k : ZoneCounter) :
    ZoneStats.read { z with unusedGCThings := u } k = z.read k := by
  cases k <;> rfl

/-! ### The callbacks return on a well-formed heap -/

/-- The dereference of the record of a compartment that has one returns. -/
theorem GetCompartmentStats_returns (r : RuntimeStats) (comp : JSCompartment)
    (h : comp.hasStats r) : ∃ ci c, GetCompartmentStats r comp = Except.ok (ci, c) := by
  obtain ⟨ci, h1, h2⟩ := h
  exact ⟨ci, r.compartmentStatsVector[ci],
    (GetCompartmentStats_ok _ _ _ _).mpr ⟨h1, List.getElem?_eq_getElem h2⟩⟩

/-- The string case returns when its assertion holds and the table it needs is there. -/
theorem StatsCellCallback.caseString_returns (g : Granularity) (a : Bool) (str : JSString)
    (sz n : Nat) (z : ZoneStats) (h1 : str.isShort = true → sz = 0)
    (h2 : g = Granularity.FineGrained → z.strings.isSome = true) :
    ∃ z', StatsCellCallback.caseString g a str sz n z = Except.ok z' := by
  unfold StatsCellCallback.caseString
  cases hs : str.isShort with
  | true =>
    have h0 := h1 hs
    subst h0
    cases g with
    | CoarseGrained =>
      simp [MOZ_ASSERT, JS_ASSERT, bind, Except.bind, pure, Except.pure]
    | FineGrained =>
      cases hst : z.strings with
      | none => rw [hst] at h2; simp at h2
      | some t => simp [MOZ_ASSERT, JS_ASSERT, bind, Except.bind, pure, Except.pure, hst]
  | false =>
    cases g with
    | CoarseGrained =>
      simp [bind, Except.bind, pure, Except.pure]
    | FineGrained =>
      cases hst : z.strings with
      | none => rw [hst] at h2; simp at h2
      | some t => simp [bind, Except.bind, pure, Except.pure, hst]

/-- The switch returns on a cell that can be visited. -/
theorem StatsCellCallback.switch_returns (g : Granularity) (J a : Bool) (cl : StatsClosure)
    (cell : Cell) (n : Nat) (hz : cl.hasCurrZone) (hv : cl.canVisit g cell) :
    ∃ cl1, StatsCellCallback.switch_ g J a cl cell n = Except.ok cl1 := by
  obtain ⟨zi, z, hz1, hz2⟩ := hz
  have hd := (RuntimeStats.derefCurrZoneStats_ok _ _ _).mpr ⟨hz1, hz2⟩
  unfold StatsCellCallback.switch_
  dsimp only
  rw [hd]
  simp only [bind, Except.bind]
  cases cell with
  | JSTRACE_OBJECT obj =>
    obtain ⟨ci, c, hc⟩ := GetCompartmentStats_returns _ _ hv
    simp only
    rw [hc]
    exact ⟨_, rfl⟩
  | JSTRACE_STRING str sz =>
    obtain ⟨h1, h2⟩ := hv
    have h2' : g = Granularity.FineGrained → z.strings.isSome = true := by
      intro hg
      obtain ⟨zi', z', e1, e2, e3⟩ := h2 hg
      rw [hz1] at e1
      have e := Option.some.inj e1
      subst e
      rw [hz2] at e2
      have e' := Option.some.inj e2
      subst e'
      exact e3
    obtain ⟨z', hs⟩ := StatsCellCallback.caseString_returns g a str sz n z h1 h2'
    simp only
    rw [hs]
    exact ⟨_, rfl⟩
  | JSTRACE_SHAPE shape =>
    obtain ⟨ci, c, hc⟩ := GetCompartmentStats_returns _ _ hv
    simp only
    rw [hc]
    exact ⟨_, rfl⟩
  | JSTRACE_BASE_SHAPE comp =>
    obtain ⟨ci, c, hc⟩ := GetCompartmentStats_returns _ _ hv
    simp only
    rw [hc]
    exact ⟨_, rfl⟩
  | JSTRACE_SCRIPT script =>
    obtain ⟨ci, c, hc⟩ := GetCompartmentStats_returns _ _ hv
    simp only
    rw [hc]
    exact ⟨_, rfl⟩
  | JSTRACE_LAZY_SCRIPT sz => exact ⟨_, rfl⟩
  | JSTRACE_JITCODE => cases J <;> exact ⟨_, rfl⟩
  | JSTRACE_TYPE_OBJECT sz => exact ⟨_, rfl⟩
  | invalid k => exact absurd hv id

/-- The callback `StatsCellCallback` returns on a cell that can be visited. -/
theorem StatsCellCallback.cell_returns (g : Granularity) (J a : Bool) (cl : StatsClosure)
    (cell : Cell) (n : Nat) (hjit : J = true ∨ cell ≠ Cell.JSTRACE_JITCODE)
    (hz : cl.hasCurrZone) (hv : cl.canVisit g cell) :
    ∃ cl2, StatsCellCallback g J a cl cell n = Except.ok cl2 := by
  obtain ⟨cl1, hs⟩ := StatsCellCallback.switch_returns g J a cl cell n hz hv
  obtain ⟨zi, z, _, hz2, hz3, hcase⟩ := StatsCellCallback.switch_effect g J a cl cl1 cell n hjit hs
  have hlen := lt_length_of_getElem? _ _ _ hz2
  have hz1 : ∃ z1, cl1.rtStats.zoneStatsVector[zi]? = some z1 := by
    rcases hcase with ⟨_, z', _, hzs, _, _⟩ | ⟨_, _, _, _, _, _, _, hzs, _⟩
    · exact ⟨z', by rw [hzs, List.getElem?_set_self hlen]⟩
    · exact ⟨z, by rw [hzs, hz2]⟩
  obtain ⟨z1, hz1⟩ := hz1
  have hd := (RuntimeStats.derefCurrZoneStats_ok _ _ _).mpr ⟨hz3, hz1⟩
  unfold StatsCellCallback
  rw [hs]
  simp only [bind, Except.bind]
  rw [hd]
  exact ⟨_, rfl⟩

/-- A cell visit keeps what later visits rely on. -/
theorem StatsCellCallback.cell_keeps_canVisit (g : Granularity) (J a : Bool)
    (cl cl2 : StatsClosure) (cell : Cell) (n : Nat)
    (hjit : J = true ∨ cell ≠ Cell.JSTRACE_JITCODE)
    (h : StatsCellCallback g J a cl cell n = Except.ok cl2) :
    cl2.hasCurrZone ∧ ∀ g' cell', cl.canVisit g' cell' → cl2.canVisit g' cell' := by
  obtain ⟨zi, z, hz1, hz2, hz3, hcase⟩ := StatsCellCallback.cell_effect g J a cl cl2 cell n hjit h
  have hlen := lt_length_of_getElem? _ _ _ hz2
  have hclen : cl2.rtStats.compartmentStatsVector.length =
      cl.rtStats.compartmentStatsVector.length := by
    rcases hcase with ⟨_, _, _, _, hcs, _⟩ | ⟨_, _, _, _, _, _, hcs, _, _⟩
    · rw [hcs]
    · rw [hcs, List.length_set]
  have hzone : ∃ z2, cl2.rtStats.zoneStatsVector[zi]? = some z2 ∧
      z2.strings.isSome = z.strings.isSome := by
    rcases hcase with ⟨_, z', _, hzs, _, hch⟩ | ⟨_, _, _, _, _, _, _, hzs, _⟩
    · exact ⟨{ z' with unusedGCThings := sizeSub z'.unusedGCThings n },
        by rw [hzs, List.getElem?_set_self hlen], hch.2.2.2.2⟩
    · exact ⟨{ z with unusedGCThings := sizeSub z.unusedGCThings n },
        by rw [hzs, List.getElem?_set_self hlen], rfl⟩
  obtain ⟨z2, hz2', hstr⟩ := hzone
  have hcomp : ∀ comp : JSCompartment, comp.hasStats cl.rtStats → comp.hasStats cl2.rtStats := by
    rintro comp ⟨ci, h1, h2⟩
    exact ⟨ci, h1, by rw [hclen]; exact h2⟩
  refine ⟨⟨zi, z2, hz3, hz2'⟩, ?_⟩
  intro g' cell' hv
  cases cell' with
  | JSTRACE_OBJECT obj => exact hcomp _ hv
  | JSTRACE_STRING str sz =>
    refine ⟨hv.1, fun hg => ?_⟩
    obtain ⟨zi', z', e1, e2, e3⟩ := hv.2 hg
    rw [hz1] at e1
    have e := Option.some.inj e1
    subst e
    rw [hz2] at e2
    have e' := Option.some.inj e2
    subst e'
    exact ⟨zi, z2, hz3, hz2', hstr.trans e3⟩
  | JSTRACE_SHAPE shape => exact hcomp _ hv
  | JSTRACE_BASE_SHAPE comp => exact hcomp _ hv
  | JSTRACE_SCRIPT script => exact hcomp _ hv
  | JSTRACE_LAZY_SCRIPT sz => exact hv
  | JSTRACE_JITCODE => exact hv
  | JSTRACE_TYPE_OBJECT sz => exact hv
  | invalid k => exact hv

/-- The visit of the live cells of an arena returns when every cell can be visited. -/
theorem visitCells.cells_return (g : Granularity) (J : Bool) (n : Nat) :
    ∀ (cells : List (Cell × Bool)) (cl : StatsClosure),
      (J = true ∨ ∀ c ∈ cells, c.1 ≠ Cell.JSTRACE_JITCODE) → cl.hasCurrZone →
      (∀ c ∈ cells, cl.canVisit g c.1) →
      ∃ cl', visitCells g J n cells cl = Except.ok cl' := by
  intro cells
  induction cells with
  | nil => intro cl _ _ _; exact ⟨cl, rfl⟩
  | cons c rest ih =>
    intro cl hjit hz hv
    obtain ⟨cell, a⟩ := c
    have hj1 : J = true ∨ cell ≠ Cell.JSTRACE_JITCODE :=
      hjit.imp id (fun hh => hh (cell, a) (List.mem_cons_self _ _))
    have hj2 : J = true ∨ ∀ c ∈ rest, c.1 ≠ Cell.JSTRACE_JITCODE :=
      hjit.imp id (fun hh c hc' => hh c (List.mem_cons_of_mem _ hc'))
    obtain ⟨cl1, h1⟩ := StatsCellCallback.cell_returns g J a cl cell n hj1 hz
      (hv (cell, a) (List.mem_cons_self _ _))
    obtain ⟨k1, k2⟩ := StatsCellCallback.cell_keeps_canVisit g J a cl cl1 cell n hj1 h1
    obtain ⟨cl', h'⟩ := ih cl1 hj2 k1
      (fun c hc => k2 g c.1 (hv c (List.mem_cons_of_mem _ hc)))
    refine ⟨cl', ?_⟩
    simp only [visitCells]
    rw [h1]
    exact h'

/-- The arena callback returns when there is a current zone, and keeps what the cell visits
rely on. -/
theorem StatsArenaCallback.arena_returns (gc : GCLayout) (cl : StatsClosure) (n : Nat)
    (hz : cl.hasCurrZone) :
    ∃ cl1, StatsArenaCallback gc cl n = Except.ok cl1 ∧ cl1.hasCurrZone ∧
      ∀ g cell, cl.canVisit g cell → cl1.canVisit g cell := by
  obtain ⟨zi, z, hz1, hz2⟩ := hz
  have hd := (RuntimeStats.derefCurrZoneStats_ok _ _ _).mpr ⟨hz1, hz2⟩
  have hlen := lt_length_of_getElem? _ _ _ hz2
  have hret : ∃ cl1, StatsArenaCallback gc cl n = Except.ok cl1 := by
    unfold StatsArenaCallback
    dsimp only
    rw [hd]
    exact ⟨_, rfl⟩
  obtain ⟨cl1, h1⟩ := hret
  obtain ⟨zi', z', e1, e2, hz3, hzs, hcs⟩ := StatsArenaCallback.arena_effect gc cl cl1 n h1
  rw [hz1] at e1
  have e := Option.some.inj e1
  subst e
  rw [hz2] at e2
  have e' := Option.some.inj e2
  subst e'
  have hz2' : cl1.rtStats.zoneStatsVector[zi]? = some
      { z with
        gcHeapArenaAdmin := sizeAdd z.gcHeapArenaAdmin (sizeSub gc.ArenaSize (gc.thingsSpan n)),
        unusedGCThings := sizeAdd z.unusedGCThings (gc.thingsSpan n) } := by
    rw [hzs, List.getElem?_set_self hlen]
  have hcomp : ∀ comp : JSCompartment, comp.hasStats cl.rtStats → comp.hasStats cl1.rtStats := by
    rintro comp ⟨ci, c1, c2⟩
    exact ⟨ci, c1, by rw [hcs]; exact c2⟩
  refine ⟨cl1, h1, ⟨zi, _, hz3, hz2'⟩, ?_⟩
  intro g cell hv
  cases cell with
  | JSTRACE_OBJECT obj => exact hcomp _ hv
  | JSTRACE_STRING str sz =>
    refine ⟨hv.1, fun hg => ?_⟩
    obtain ⟨zi', z', e1, e2, e3⟩ := hv.2 hg
    rw [hz1] at e1
    have e := Option.some.inj e1
    subst e
    rw [hz2] at e2
    have e' := Option.some.inj e2
    subst e'
    exact ⟨zi, _, hz3, hz2', e3⟩
  | JSTRACE_SHAPE shape => exact hcomp _ hv
  | JSTRACE_BASE_SHAPE comp => exact hcomp _ hv
  | JSTRACE_SCRIPT script => exact hcomp _ hv
  | JSTRACE_LAZY_SCRIPT sz => exact hv
  | JSTRACE_JITCODE => exact hv
  | JSTRACE_TYPE_OBJECT sz => exact hv
  | invalid k => exact hv

/-- The visit of an arena returns when there is a current zone and every live cell can be
visited. -/
theorem visitArena_returns (gc : GCLayout) (g : Granularity) (J : Bool) (n : Nat)
    (cells : List (Cell × Bool)) (cl : StatsClosure)
    (hjit : J = true ∨ ∀ c ∈ cells, c.1 ≠ Cell.JSTRACE_JITCODE) (hz : cl.hasCurrZone)
    (hv : ∀ c ∈ cells, cl.canVisit g c.1) :
    ∃ cl', visitArena gc g J n cells cl = Except.ok cl' := by
  obtain ⟨cl1, h1, k1, k2⟩ := StatsArenaCallback.arena_returns gc cl n hz
  obtain ⟨cl', h'⟩ := visitCells.cells_return g J n cells cl1 hjit k1
    (fun c hc => k2 g c.1 (hv c hc))
  refine ⟨cl', ?_⟩
  unfold visitArena
  rw [h1]
  exact h'

/-! ## C4 and C5 -/

/-- C4: heap accounting conservation. On a closure with a current zone and for live cells
of the eight trace kinds that can be visited, `StatsArenaCallback` on an arena followed by
`StatsCellCallback` on each of its live cells returns, and the quantity (sum of all per-kind
GC-heap live-byte counters of the zone and compartment records) + `unusedGCThings` +
`gcHeapArenaAdmin` has grown by `gc::ArenaSize`: always so in `size_t` arithmetic, and exactly
so as a number when the arena's span fits in the arena, the live cells fit in the span and no
counter overflows. JitCode cells occur only in builds with `JS_ION`. -/
theorem heap_accounting_conservation (gc : GCLayout) (g : Granularity) (J : Bool) (n : Nat)
    (cells : List (Cell × Bool)) (cl : StatsClosure)
    (hjit : J = true ∨ ∀ c ∈ cells, c.1 ≠ Cell.JSTRACE_JITCODE) (hz : cl.hasCurrZone)
    (hv : ∀ c ∈ cells, cl.canVisit g c.1) :
    ∃ cl', visitArena gc g J n cells cl = Except.ok cl' ∧
      cl'.rtStats.arenaBytes ≡ cl.rtStats.arenaBytes + gc.ArenaSize [MOD SIZE_MAX1] ∧
      (gc.thingsSpan n ≤ gc.ArenaSize → cells.length * n ≤ gc.thingsSpan n →
        cl.rtStats.arenaBytes + gc.ArenaSize < SIZE_MAX1 →
        cl'.rtStats.arenaBytes = cl.rtStats.arenaBytes + gc.ArenaSize) := by
  obtain ⟨cl', h⟩ := visitArena_returns gc g J n cells cl hjit hz hv
  refine ⟨cl', h, ?_⟩
  unfold visitArena at h
  cases ha : StatsArenaCallback gc cl n with
  | error e => rw [ha] at h; simp [bind, Except.bind] at h
  | ok cl1 =>
    rw [ha] at h
    simp only [bind, Except.bind] at h
    refine ⟨?_, ?_⟩
    · exact (visitCells.cells_arenaBytes_modEq g J n cells cl1 cl' hjit h).trans
        (StatsArenaCallback.arena_arenaBytes_modEq gc cl cl1 n ha)
    · intro hspan hfit hlt
      obtain ⟨e1, ⟨zi, z, u1, u2, u3⟩⟩ :=
        StatsArenaCallback.arena_arenaBytes_eq gc cl cl1 n ha hspan hlt
      rw [visitCells.cells_arenaBytes_eq g J n cells cl1 cl' hjit h (by rw [e1]; exact hlt)
        ⟨zi, z, u1, u2, le_trans hfit u3⟩, e1]

/-- The example closure has a current zone. -/
theorem Example.closure0_hasCurrZone : Example.closure0.hasCurrZone :=
  ⟨0, _, rfl, rfl⟩

/-- The cells of the example arena can be visited from the example closure. -/
theorem Example.cells_canVisit :
    ∀ c ∈ Example.cells, Example.closure0.canVisit Granularity.FineGrained c.1 := by
  intro c hc
  simp only [Example.cells, List.mem_cons, List.mem_singleton, List.not_mem_nil, or_false] at hc
  rcases hc with rfl | rfl | rfl
  · exact ⟨0, rfl, by decide⟩
  · exact ⟨fun _ => rfl, fun _ => ⟨0, _, rfl, rfl, rfl⟩⟩
  · exact True.intro

/-- C4 on the example heap: the walk of the arena of 32-byte things with its three live
cells returns, and the accounted arena bytes are exactly 4096 more than at the start. -/
theorem heap_accounting_conservation_witness :
    ∃ cl', visitArena Example.layout Granularity.FineGrained true 32 Example.cells
        Example.closure0 = Except.ok cl' ∧
      cl'.rtStats.arenaBytes = Example.closure0.rtStats.arenaBytes + 4096 :=
  match heap_accounting_conservation Example.layout Granularity.FineGrained true 32
      Example.cells Example.closure0 (Or.inl rfl) Example.closure0_hasCurrZone
      Example.cells_canVisit with
  | ⟨cl', h1, _, h3⟩ => ⟨cl', h1, h3 (by decide) (by decide) (by decide)⟩

/-- The walk of the example arena, computed: it ends in `Example.closure1`, which accounts
for 4096 bytes of arenas. -/
theorem Example.visitArena_eq :
    visitArena Example.layout Granularity.FineGrained true 32 Example.cells Example.closure0 =
        Except.ok Example.closure1 ∧
      Example.closure0.rtStats.arenaBytes = 0 ∧ Example.closure1.rtStats.arenaBytes = 4096 :=
  ⟨rfl, rfl, rfl⟩

/-- C5: on a closure with a current zone, `StatsCellCallback` on a live cell of one of the
eight trace kinds that can be visited returns, and it adds the cell's `thingSize` to exactly
one GC-heap byte counter: the counter `Cell.bucket` names, in the record of the cell's
compartment or of the current zone according to kind and sub-kind. Every other GC-heap
counter of every record keeps its value. JitCode cells occur only in builds with `JS_ION`. -/
theorem StatsCellCallback_charges_one_counter (g : Granularity) (J a : Bool)
    (cl : StatsClosure) (cell : Cell) (n : Nat)
    (hjit : J = true ∨ cell ≠ Cell.JSTRACE_JITCODE) (hz : cl.hasCurrZone)
    (hv : cl.canVisit g cell) :
    ∃ cl' zi b x, StatsCellCallback g J a cl cell n = Except.ok cl' ∧
      cl.rtStats.currZoneStats = some zi ∧ cell.bucket zi = some b ∧
      cl.rtStats.readCounter b = some x ∧
      cl'.rtStats.readCounter b = some (sizeAdd x n) ∧
      ∀ b', b' ≠ b → cl'.rtStats.readCounter b' = cl.rtStats.readCounter b' := by
  obtain ⟨cl', h⟩ := StatsCellCallback.cell_returns g J a cl cell n hjit hz hv
  obtain ⟨zi, z, hz1, hz2, _, hcase⟩ := StatsCellCallback.cell_effect g J a cl cl' cell n hjit h
  have hlen := lt_length_of_getElem? _ _ _ hz2
  rcases hcase with ⟨k, z', hb, hzs, hcs, hch⟩ | ⟨ci, k, c, c', hb, hc, hcs, hzs, hch⟩
  · refine ⟨cl', zi, GCHeapCounter.zone zi k, z.read k, h, hz1, hb, ?_, ?_, ?_⟩
    · simp [RuntimeStats.readCounter, hz2]
    · simp only [RuntimeStats.readCounter, hzs, List.getElem?_set_self hlen, Option.map_some',
        ZoneStats.read_unusedGCThings, hch.1]
    · intro b' hb'
      cases b' with
      | zone i k' =>
        simp only [RuntimeStats.readCounter, hzs]
        by_cases hi : zi = i
        · subst hi
          have hk : k' ≠ k := fun e => hb' (by rw [e])
          simp only [List.getElem?_set_self hlen, Option.map_some', hz2,
            ZoneStats.read_unusedGCThings, hch.2.1 k' hk]
        · rw [List.getElem?_set_ne hi]
      | compartment i k' =>
        simp only [RuntimeStats.readCounter, hcs]
  · have hclen := lt_length_of_getElem? _ _ _ hc
    refine ⟨cl', zi, GCHeapCounter.compartment ci k, c.read k, h, hz1, hb, ?_, ?_, ?_⟩
    · simp [RuntimeStats.readCounter, hc]
    · simp only [RuntimeStats.readCounter, hcs, List.getElem?_set_self hclen, Option.map_some',
        hch.1]
    · intro b' hb'
      cases b' with
      | zone i k' =>
        simp only [RuntimeStats.readCounter, hzs]
        by_cases hi : zi = i
        · subst hi
          simp only [List.getElem?_set_self hlen, Option.map_some', hz2,
            ZoneStats.read_unusedGCThings]
        · rw [List.getElem?_set_ne hi]
      | compartment i k' =>
        simp only [RuntimeStats.readCounter, hcs]
        by_cases hi : ci = i
        · subst hi
          have hk : k' ≠ k := fun e => hb' (by rw [e])
          simp only [List.getElem?_set_self hclen, Option.map_some', hc, hch.2 k' hk]
        · rw [List.getElem?_set_ne hi]

/-- C5 on the example heap: the visit of the function object, in the state after the arena
callback, charges its 32 bytes to one counter and leaves every other GC-heap counter
alone. -/
theorem StatsCellCallback_charges_one_counter_witness :
    ∃ cl' zi b x, StatsCellCallback Granularity.FineGrained true true Example.closureArena
        Example.functionObject 32 = Except.ok cl' ∧
      Example.closureArena.rtStats.currZoneStats = some zi ∧
      Example.functionObject.bucket zi = some b ∧
      Example.closureArena.rtStats.readCounter b = some x ∧
      cl'.rtStats.readCounter b = some (sizeAdd x 32) ∧
      ∀ b', b' ≠ b →
        cl'.rtStats.readCounter b' = Example.closureArena.rtStats.readCounter b' :=
  StatsCellCallback_charges_one_counter Granularity.FineGrained true true Example.closureArena
    Example.functionObject 32 (Or.inl rfl) ⟨0, _, rfl, rfl⟩ ⟨0, rfl, by decide⟩

/-- The visit of the function object of the example, computed: 32 bytes go to
`objectsGCHeapFunction` of compartment 0 and come off `unusedGCThings`. -/
theorem Example.visitObject_eq :
    StatsCellCallback Granularity.FineGrained true true Example.closureArena
        Example.functionObject 32 = Except.ok Example.closureObject ∧
      Example.functionObject.bucket 0 =
        some (GCHeapCounter.compartment 0 CompartmentCounter.objectsGCHeapFunction) :=
  ⟨rfl, rfl⟩

/-! ## Theorems: `FindNotableStrings` -/

/-- What the move of one entry does when it returns: the asserted bounds held, the entry
is at the end of `notableStrings`, and its bytes are out of the bulk tallies. -/
theorem FindNotableStrings.move_ok (str : JSString) (info : StringInfo) (z z' : ZoneStats)
    (h : FindNotableStrings.move str info z = Except.ok z') :
    (info.isShort = true ∧ info.gcHeap ≤ z.stringsShortGCHeap ∧ info.mallocHeap = 0 ∧
        z' = { z with
          notableStrings := z.notableStrings ++ [NotableStringInfo.mk2 str info],
          stringsShortGCHeap := sizeSub z.stringsShortGCHeap info.gcHeap }) ∨
      (info.isShort = false ∧ info.gcHeap ≤ z.stringsNormalGCHeap ∧
        info.mallocHeap ≤ z.stringsNormalMallocHeap ∧
        z' = { z with
          notableStrings := z.notableStrings ++ [NotableStringInfo.mk2 str info],
          stringsNormalGCHeap := sizeSub z.stringsNormalGCHeap info.gcHeap,
          stringsNormalMallocHeap := sizeSub z.stringsNormalMallocHeap info.mallocHeap }) := by
  unfold FindNotableStrings.move at h
  dsimp only at h
  cases hs : info.isShort with
  | true =>
    left
    rw [hs] at h
    simp only [if_true] at h
    by_cases h1 : info.gcHeap ≤ z.stringsShortGCHeap
    · by_cases h2 : info.mallocHeap = 0
      · simp [MOZ_ASSERT, JS_ASSERT, h1, h2, bind, Except.bind, pure, Except.pure] at h
        exact ⟨rfl, h1, h2, h.symm⟩
      · simp [MOZ_ASSERT, JS_ASSERT, h1, h2, bind, Except.bind, pure, Except.pure, throw,
          throwThe, MonadExceptOf.throw] at h
    · simp [MOZ_ASSERT, JS_ASSERT, h1, bind, Except.bind, pure, Except.pure, throw,
        throwThe, MonadExceptOf.throw] at h
  | false =>
    right
    rw [hs] at h
    simp only [Bool.false_eq_true, if_false] at h
    by_cases h1 : info.gcHeap ≤ z.stringsNormalGCHeap
    · by_cases h2 : info.mallocHeap ≤ z.stringsNormalMallocHeap
      · simp [MOZ_ASSERT, JS_ASSERT, h1, h2, bind, Except.bind, pure, Except.pure] at h
        exact ⟨rfl, h1, h2, h.symm⟩
      · simp [MOZ_ASSERT, JS_ASSERT, h1, h2, bind, Except.bind, pure, Except.pure, throw,
          throwThe, MonadExceptOf.throw] at h
    · simp [MOZ_ASSERT, JS_ASSERT, h1, bind, Except.bind, pure, Except.pure, throw,
        throwThe, MonadExceptOf.throw] at h

/-- The move of one entry returns when the asserted bounds hold. -/
theorem FindNotableStrings.move_returns (str : JSString) (info : StringInfo) (z : ZoneStats)
    (h : (info.isShort = true ∧ info.gcHeap ≤ z.stringsShortGCHeap ∧ info.mallocHeap = 0) ∨
      (info.isShort = false ∧ info.gcHeap ≤ z.stringsNormalGCHeap ∧
        info.mallocHeap ≤ z.stringsNormalMallocHeap)) :
    ∃ z', FindNotableStrings.move str info z = Except.ok z' := by
  unfold FindNotableStrings.move
  dsimp only
  rcases h with ⟨hs, h1, h2⟩ | ⟨hs, h1, h2⟩
  · simp [hs, MOZ_ASSERT, JS_ASSERT, h1, h2, bind, Except.bind, pure, Except.pure]
  · simp [hs, MOZ_ASSERT, JS_ASSERT, h1, h2, bind, Except.bind, pure, Except.pure]

/-- One step of the loop. -/
theorem FindNotableStrings.loop_cons (ns : Nat) (grow : JSString → Bool)
    (e : JSString × StringInfo) (rest : List (JSString × StringInfo)) (z : ZoneStats) :
    FindNotableStrings.loop ns grow (e :: rest) z =
      if FindNotableStrings.moves ns grow e then
        (FindNotableStrings.move e.1 e.2 z) >>= (FindNotableStrings.loop ns grow rest)
      else FindNotableStrings.loop ns grow rest z := by
  obtain ⟨str, info⟩ := e
  simp only [FindNotableStrings.loop, FindNotableStrings.moves]
  cases hc : (decide (sizeAdd info.gcHeap info.mallocHeap < ns) || !grow str) <;> simp

/-- The move of one entry keeps the string bytes and the range of the counters. -/
theorem FindNotableStrings.move_conserves (str : JSString) (info : StringInfo) (z z' : ZoneStats)
    (hr : z.stringsInRange) (h : FindNotableStrings.move str info z = Except.ok z') :
    z'.stringsBytes = z.stringsBytes ∧ z'.stringsInRange := by
  obtain ⟨r1, r2, r3⟩ := hr
  rcases FindNotableStrings.move_ok str info z z' h with ⟨_, h1, h2, e⟩ | ⟨_, h1, h2, e⟩
  · subst e
    have s1 := sizeSub_of_le _ _ h1 r1
    refine ⟨?_, ?_, r2, r3⟩
    · simp only [ZoneStats.stringsBytes, List.map_append, List.sum_append, List.map_cons,
        List.map_nil, List.sum_cons, List.sum_nil, NotableStringInfo.bytes,
        NotableStringInfo.mk2, s1]
      omega
    · show sizeSub z.stringsShortGCHeap info.gcHeap < SIZE_MAX1
      rw [s1]
      omega
  · subst e
    have s1 := sizeSub_of_le _ _ h1 r2
    have s2 := sizeSub_of_le _ _ h2 r3
    refine ⟨?_, r1, ?_, ?_⟩
    · simp only [ZoneStats.stringsBytes, List.map_append, List.sum_append, List.map_cons,
        List.map_nil, List.sum_cons, List.sum_nil, NotableStringInfo.bytes,
        NotableStringInfo.mk2, s1, s2]
      omega
    · show sizeSub z.stringsNormalGCHeap info.gcHeap < SIZE_MAX1
      rw [s1]
      omega
    · show sizeSub z.stringsNormalMallocHeap info.mallocHeap < SIZE_MAX1
      rw [s2]
      omega

/-- The loop keeps the string bytes. -/
theorem FindNotableStrings.loop_conserves (ns : Nat) (grow : JSString → Bool) :
    ∀ (entries : List (JSString × StringInfo)) (z z' : ZoneStats), z.stringsInRange →
      FindNotableStrings.loop ns grow entries z = Except.ok z' →
      z'.stringsBytes = z.stringsBytes := by
  intro entries
  induction entries with
  | nil =>
    intro z z' _ h
    simp only [FindNotableStrings.loop, pure, Except.pure, Except.ok.injEq] at h
    subst h
    rfl
  | cons e rest ih =>
    intro z z' hr h
    rw [FindNotableStrings.loop_cons] at h
    cases hm : FindNotableStrings.moves ns grow e with
    | false =>
      rw [hm] at h
      simp only [Bool.false_eq_true, if_false] at h
      exact ih z z' hr h
    | true =>
      rw [hm] at h
      simp only [if_true] at h
      cases hv : FindNotableStrings.move e.1 e.2 z with
      | error err => rw [hv] at h; simp [bind, Except.bind] at h
      | ok z1 =>
        rw [hv] at h
        simp only [bind, Except.bind] at h
        obtain ⟨c1, c2⟩ := FindNotableStrings.move_conserves e.1 e.2 z z1 hr hv
        rw [ih z1 z' c2 h, c1]

/-- The notable list after the loop: the list before, followed by one entry for each entry
of the table that the loop moves, in table order. The strings table itself is untouched. -/
theorem FindNotableStrings.loop_notable (ns : Nat) (grow : JSString → Bool) :
    ∀ (entries : List (JSString × StringInfo)) (z z' : ZoneStats),
      FindNotableStrings.loop ns grow entries z = Except.ok z' →
      z'.notableStrings = z.notableStrings ++
          (entries.filter (FindNotableStrings.moves ns grow)).map
            (fun e => NotableStringInfo.mk2 e.1 e.2) ∧
        z'.strings = z.strings := by
  intro entries
  induction entries with
  | nil =>
    intro z z' h
    simp only [FindNotableStrings.loop, pure, Except.pure, Except.ok.injEq] at h
    subst h
    simp
  | cons e rest ih =>
    intro z z' h
    rw [FindNotableStrings.loop_cons] at h
    cases hm : FindNotableStrings.moves ns grow e with
    | false =>
      rw [hm] at h
      simp only [Bool.false_eq_true, if_false] at h
      obtain ⟨i1, i2⟩ := ih z z' h
      exact ⟨by rw [i1, List.filter_cons_of_neg (by simp [hm])], i2⟩
    | true =>
      rw [hm] at h
      simp only [if_true] at h
      cases hv : FindNotableStrings.move e.1 e.2 z with
      | error err => rw [hv] at h; simp [bind, Except.bind] at h
      | ok z1 =>
        rw [hv] at h
        simp only [bind, Except.bind] at h
        obtain ⟨i1, i2⟩ := ih z1 z' h
        have hz1 : z1.notableStrings = z.notableStrings ++ [NotableStringInfo.mk2 e.1 e.2] ∧
            z1.strings = z.strings := by
          rcases FindNotableStrings.move_ok e.1 e.2 z z1 hv with ⟨_, _, _, e1⟩ | ⟨_, _, _, e1⟩ <;>
            subst e1 <;> exact ⟨rfl, rfl⟩
        refine ⟨?_, i2.trans hz1.2⟩
        rw [i1, hz1.1, List.filter_cons_of_pos (by simp [hm])]
        simp

/-- A loop that moves no entry returns the record it was given. -/
theorem FindNotableStrings.loop_noop (ns : Nat) (grow : JSString → Bool) :
    ∀ (entries : List (JSString × StringInfo)) (z : ZoneStats),
      entries.filter (FindNotableStrings.moves ns grow) = [] →
      FindNotableStrings.loop ns grow entries z = Except.ok z := by
  intro entries
  induction entries with
  | nil => intro z _; rfl
  | cons e rest ih =>
    intro z h
    rw [FindNotableStrings.loop_cons]
    cases hm : FindNotableStrings.moves ns grow e with
    | false =>
      rw [List.filter_cons_of_neg (by simp [hm])] at h
      simp only [Bool.false_eq_true, if_false]
      exact ih z h
    | true =>
      rw [List.filter_cons_of_pos (by simp [hm])] at h
      cases h

/-- The loop over a concatenation is the loop over the first part, then over the second. -/
theorem FindNotableStrings.loop_append (ns : Nat) (grow : JSString → Bool) :
    ∀ (pre post : List (JSString × StringInfo)) (z : ZoneStats),
      FindNotableStrings.loop ns grow (pre ++ post) z =
        (FindNotableStrings.loop ns grow pre z) >>= (FindNotableStrings.loop ns grow post) := by
  intro pre
  induction pre with
  | nil => intro post z; rfl
  | cons e rest ih =>
    intro post z
    rw [List.cons_append, FindNotableStrings.loop_cons, FindNotableStrings.loop_cons]
    cases hm : FindNotableStrings.moves ns grow e with
    | false =>
      simp only [Bool.false_eq_true, if_false]
      exact ih post z
    | true =>
      simp only [if_true]
      cases hv : FindNotableStrings.move e.1 e.2 z with
      | error err => rfl
      | ok z1 =>
        simp only [bind, Except.bind]
        exact ih post z1

/-- Bulk counters that cover a table cover the table without its first entry. -/
theorem StringsAccounted.tail {e : JSString × StringInfo} {rest : List (JSString × StringInfo)}
    {z : ZoneStats} (h : StringsAccounted (e :: rest) z) : StringsAccounted rest z := by
  obtain ⟨a1, a2, a3, a4⟩ := h
  refine ⟨?_, ?_, ?_, fun x hx => a4 x (List.mem_cons_of_mem _ hx)⟩
  all_goals (cases hs : e.2.isShort <;> simp [List.filter_cons, hs] at a1 a2 a3 ⊢ <;> omega)

/-- The loop returns on a record whose bulk counters cover its strings table. -/
theorem FindNotableStrings.loop_returns (ns : Nat) (grow : JSString → Bool) :
    ∀ (entries : List (JSString × StringInfo)) (z : ZoneStats), StringsAccounted entries z →
      z.stringsInRange → ∃ z', FindNotableStrings.loop ns grow entries z = Except.ok z' := by
  intro entries
  induction entries with
  | nil => intro z _ _; exact ⟨z, rfl⟩
  | cons e rest ih =>
    intro z hacc hr
    rw [FindNotableStrings.loop_cons]
    cases hm : FindNotableStrings.moves ns grow e with
    | false =>
      simp only [Bool.false_eq_true, if_false]
      exact ih z hacc.tail hr
    | true =>
      simp only [if_true]
      obtain ⟨a1, a2, a3, a4⟩ := hacc
      obtain ⟨r1, r2, r3⟩ := hr
      have hrest := (StringsAccounted.tail ⟨a1, a2, a3, a4⟩ : StringsAccounted rest z)
      obtain ⟨t1, t2, t3, t4⟩ := hrest
      cases hs : e.2.isShort with
      | true =>
        have hm0 := a4 e (List.mem_cons_self _ _) hs
        simp [List.filter_cons, hs] at a1
        obtain ⟨z1, hz1⟩ := FindNotableStrings.move_returns e.1 e.2 z
          (Or.inl ⟨hs, by omega, hm0⟩)
        rw [hz1]
        simp only [bind, Except.bind]
        rcases FindNotableStrings.move_ok e.1 e.2 z z1 hz1 with ⟨_, h1, _, e1⟩ | ⟨hf, _, _, _⟩
        · have s1 := sizeSub_of_le _ _ h1 r1
          apply ih z1
          · subst e1
            refine ⟨?_, t2, t3, t4⟩
            show _ ≤ sizeSub z.stringsShortGCHeap e.2.gcHeap
            rw [s1]
            omega
          · subst e1
            refine ⟨?_, r2, r3⟩
            show sizeSub z.stringsShortGCHeap e.2.gcHeap < SIZE_MAX1
            rw [s1]
            omega
        · rw [hs] at hf
          cases hf
      | false =>
        simp [List.filter_cons, hs] at a2 a3
        obtain ⟨z1, hz1⟩ := FindNotableStrings.move_returns e.1 e.2 z
          (Or.inr ⟨hs, by omega, by omega⟩)
        rw [hz1]
        simp only [bind, Except.bind]
        rcases FindNotableStrings.move_ok e.1 e.2 z z1 hz1 with ⟨hf, _, _, _⟩ | ⟨_, h1, h2, e1⟩
        · rw [hs] at hf
          cases hf
        · have s1 := sizeSub_of_le _ _ h1 r2
          have s2 := sizeSub_of_le _ _ h2 r3
          apply ih z1
          · subst e1
            refine ⟨t1, ?_, ?_, t4⟩
            · show _ ≤ sizeSub z.stringsNormalGCHeap e.2.gcHeap
              rw [s1]
              omega
            · show _ ≤ sizeSub z.stringsNormalMallocHeap e.2.mallocHeap
              rw [s2]
              omega
          · subst e1
            refine ⟨r1, ?_, ?_⟩
            · show sizeSub z.stringsNormalGCHeap e.2.gcHeap < SIZE_MAX1
              rw [s1]
              omega
            · show sizeSub z.stringsNormalMallocHeap e.2.mallocHeap < SIZE_MAX1
              rw [s2]
              omega

/-- What a returning `FindNotableStrings` call was: the notable list was empty, there is
a strings table, and the result is that of the loop over the table. -/
theorem FindNotableStrings_ok (ns : Nat) (grow : JSString → Bool) (z z' : ZoneStats)
    (h : FindNotableStrings ns grow z = Except.ok z') :
    z.notableStrings = [] ∧ ∃ strings, z.strings = some strings ∧
      FindNotableStrings.loop ns grow strings.entries z = Except.ok z' := by
  unfold FindNotableStrings at h
  cases hn : z.notableStrings with
  | cons a t =>
    rw [hn] at h
    simp [MOZ_ASSERT, JS_ASSERT, bind, Except.bind, throw, throwThe, MonadExceptOf.throw] at h
  | nil =>
    rw [hn] at h
    cases hs : z.strings with
    | none =>
      rw [hs] at h
      simp [MOZ_ASSERT, JS_ASSERT, bind, Except.bind, throw, throwThe, MonadExceptOf.throw, pure,
        Except.pure] at h
    | some strings =>
      rw [hs] at h
      simp only [MOZ_ASSERT, JS_ASSERT, List.isEmpty_nil, if_true, bind, Except.bind, pure,
        Except.pure] at h
      exact ⟨rfl, strings, rfl, h⟩

/-- On a record with an empty notable list and a strings table, `FindNotableStrings` is
the loop over the table. -/
theorem FindNotableStrings_eq_loop (ns : Nat) (grow : JSString → Bool) (z : ZoneStats)
    (strings : StringsHashMap) (hn : z.notableStrings = []) (hs : z.strings = some strings) :
    FindNotableStrings ns grow z = FindNotableStrings.loop ns grow strings.entries z := by
  unfold FindNotableStrings
  rw [hn, hs]
  rfl

/-- On a record with a notable string, `FindNotableStrings` fails its first assertion. -/
theorem FindNotableStrings_nonempty (ns : Nat) (grow : JSString → Bool) (z : ZoneStats)
    (hn : z.notableStrings ≠ []) :
    FindNotableStrings ns grow z = Except.error Failure.assertion := by
  unfold FindNotableStrings
  cases hl : z.notableStrings with
  | nil => exact absurd hl hn
  | cons a t => rfl

/-! ## C6, C7, C8, C10 -/

/-- C6: notable-string reclassification conservation. On a zone record whose
`notableStrings` list is empty (its bulk string counters being `size_t` values), a returning
`FindNotableStrings` leaves the total (sum over `notableStrings` of `gcHeap + mallocHeap`) +
`stringsShortGCHeap` + `stringsNormalGCHeap` + `stringsNormalMallocHeap` unchanged; and the
call does return whenever the bulk counters cover the strings table, as they do after the
cell walk. -/
theorem FindNotableStrings_conserves_string_bytes (ns : Nat) (grow : JSString → Bool)
    (z : ZoneStats) (hempty : z.notableStrings = []) (hr : z.stringsInRange) :
    (∀ z', FindNotableStrings ns grow z = Except.ok z' → z'.stringsBytes = z.stringsBytes) ∧
      (∀ strings, z.strings = some strings → StringsAccounted strings.entries z →
        ∃ z', FindNotableStrings ns grow z = Except.ok z') := by
  refine ⟨?_, ?_⟩
  · intro z' h
    obtain ⟨_, strings, _, hl⟩ := FindNotableStrings_ok ns grow z z' h
    exact FindNotableStrings.loop_conserves ns grow strings.entries z z' hr hl
  · intro strings hs hacc
    rw [FindNotableStrings_eq_loop ns grow z strings hempty hs]
    exact FindNotableStrings.loop_returns ns grow strings.entries z hacc hr

/-- C6 on the example: with threshold 4096 the record of the 50-byte and the 5000-byte
string keeps its 5050 string bytes. -/
theorem FindNotableStrings_conserves_string_bytes_witness :
    FindNotableStrings 4096 (fun _ => true) Example.zoneTwoStrings =
        Except.ok Example.zoneTwoStringsAfter ∧
      Example.zoneTwoStringsAfter.stringsBytes = Example.zoneTwoStrings.stringsBytes :=
  ⟨rfl, (FindNotableStrings_conserves_string_bytes 4096 (fun _ => true) Example.zoneTwoStrings
    rfl (by unfold ZoneStats.stringsInRange; decide)).1 Example.zoneTwoStringsAfter rfl⟩

/-- C7, as stated, fails at the threshold: with threshold 4096 and no allocation failure, a
string whose cumulative size is exactly 4096 bytes, which does not exceed the threshold,
gets an entry in `notableStrings`. -/
theorem FindNotableStrings_at_threshold_counterexample :
    FindNotableStrings 4096 (fun _ => true) Example.zoneAtThreshold =
        Except.ok Example.zoneAtThresholdAfter ∧
      Example.zoneAtThresholdAfter.notableStrings =
        [NotableStringInfo.mk2 Example.string4096.1 Example.string4096.2] ∧
      ¬ (4096 < Example.string4096.2.gcHeap + Example.string4096.2.mallocHeap) :=
  ⟨rfl, rfl, by decide⟩

/-- C7, amended: after a returning `FindNotableStrings` with no allocation failure,
`notableStrings` holds exactly one entry for each entry of the strings table whose cumulative
size `gcHeap + mallocHeap` (a `size_t` sum) is at least the notable threshold, in table
order, and no entry for any string whose cumulative size is below it. -/
theorem FindNotableStrings_notable_list (ns : Nat) (grow : JSString → Bool) (z z' : ZoneStats)
    (strings : StringsHashMap) (hgrow : ∀ str, grow str = true) (hs : z.strings = some strings)
    (h : FindNotableStrings ns grow z = Except.ok z') :
    z'.notableStrings =
      (strings.entries.filter (fun e => decide (ns ≤ sizeAdd e.2.gcHeap e.2.mallocHeap))).map
        (fun e => NotableStringInfo.mk2 e.1 e.2) := by
  obtain ⟨hn, strings', hs', hl⟩ := FindNotableStrings_ok ns grow z z' h
  rw [hs] at hs'
  have e : strings' = strings := (Option.some.inj hs').symm
  subst e
  obtain ⟨h1, _⟩ := FindNotableStrings.loop_notable ns grow strings'.entries z z' hl
  rw [h1, hn, List.nil_append]
  congr 1
  apply List.filter_congr
  intro x _
  by_cases hlt : sizeAdd x.2.gcHeap x.2.mallocHeap < ns
  · simp [FindNotableStrings.moves, hgrow, hlt, Nat.not_le.mpr hlt]
  · simp [FindNotableStrings.moves, hgrow, hlt, Nat.le_of_not_lt hlt]

/-- C7, amended, on the example of the claim: with threshold 4096 and strings of 50 and
5000 bytes, exactly the 5000-byte string is notable, and the bulk counters hold the 32 and 18
bytes of the 50-byte string. -/
theorem FindNotableStrings_notable_list_witness :
    Example.zoneTwoStringsAfter.notableStrings =
        [NotableStringInfo.mk2 Example.string5000.1 Example.string5000.2] ∧
      Example.zoneTwoStringsAfter.stringsNormalGCHeap = 32 ∧
      Example.zoneTwoStringsAfter.stringsNormalMallocHeap = 18 :=
  ⟨FindNotableStrings_notable_list 4096 (fun _ => true) Example.zoneTwoStrings
    Example.zoneTwoStringsAfter { entries := [Example.string50, Example.string5000] }
    (fun _ => rfl) rfl rfl, rfl, rfl⟩

/-- C8, as stated, fails: after a first run that found a notable string, the second run on
the unmodified record fails the assertion `notableStrings.empty()`; and the loop itself, run
again over the same table, appends the notable string a second time and subtracts its bytes
a second time. -/
theorem FindNotableStrings_rerun_counterexample :
    FindNotableStrings 4096 (fun _ => true) Example.zoneThreeStrings =
        Except.ok Example.zoneThreeStringsAfter ∧
      FindNotableStrings 4096 (fun _ => true) Example.zoneThreeStringsAfter =
        Except.error Failure.assertion ∧
      FindNotableStrings.loop 4096 (fun _ => true) [Example.string50, Example.string5000]
        Example.zoneThreeStringsAfter = Except.ok Example.zoneThreeStringsAgain ∧
      Example.zoneThreeStringsAgain.stringsNormalGCHeap ≠
        Example.zoneThreeStringsAfter.stringsNormalGCHeap ∧
      Example.zoneThreeStringsAgain.notableStrings ≠
        Example.zoneThreeStringsAfter.notableStrings :=
  ⟨rfl, rfl, rfl, by decide, by decide⟩

/-- C8, amended: `FindNotableStrings` is to be run once per record. After a first run that
returned, a second run on the unmodified record fails the assertion
`notableStrings.empty()` when the first run moved any string to `notableStrings`; when the
first run, with no allocation failure, found no notable string, the second run returns the
record unchanged. -/
theorem FindNotableStrings_rerun (ns : Nat) (grow grow2 : JSString → Bool) (z z1 : ZoneStats)
    (h : FindNotableStrings ns grow z = Except.ok z1) :
    (z1.notableStrings ≠ [] →
        FindNotableStrings ns grow2 z1 = Except.error Failure.assertion) ∧
      (z1.notableStrings = [] → (∀ str, grow str = true) →
        FindNotableStrings ns grow2 z1 = Except.ok z1) := by
  refine ⟨FindNotableStrings_nonempty ns grow2 z1, ?_⟩
  intro hn1 hgrow
  obtain ⟨hn, strings, hs, hl⟩ := FindNotableStrings_ok ns grow z z1 h
  obtain ⟨h1, h2⟩ := FindNotableStrings.loop_notable ns grow strings.entries z z1 hl
  rw [hn1, hn, List.nil_append] at h1
  have hnone : strings.entries.filter (FindNotableStrings.moves ns grow) = [] := by
    cases hf : strings.entries.filter (FindNotableStrings.moves ns grow) with
    | nil => rfl
    | cons a t => rw [hf] at h1; simp at h1
  have hnone2 : strings.entries.filter (FindNotableStrings.moves ns grow2) = [] := by
    rw [List.filter_eq_nil_iff] at hnone ⊢
    intro a ha hm
    apply hnone a ha
    simp only [FindNotableStrings.moves, hgrow, Bool.not_true, Bool.or_false] at hm ⊢
    cases hd : decide (sizeAdd a.2.gcHeap a.2.mallocHeap < ns) with
    | false => rfl
    | true => rw [hd] at hm; simp at hm
  rw [FindNotableStrings_eq_loop ns grow2 z1 strings hn1 (h2.trans hs)]
  exact FindNotableStrings.loop_noop ns grow2 strings.entries z1 hnone2

/-- C8, amended, on the examples: the second run on the record with a notable string is a
contract violation. -/
theorem FindNotableStrings_rerun_witness :
    FindNotableStrings 4096 (fun _ => true) Example.zoneTwoStringsAfter =
      Except.error Failure.assertion :=
  (FindNotableStrings_rerun 4096 (fun _ => true) (fun _ => true) Example.zoneTwoStrings
    Example.zoneTwoStringsAfter rfl).1 (by decide)

/-- C10: when growing the `notableStrings` vector fails for a string that is at or above
the threshold, that string is skipped and the pass goes on. The loop at that entry continues
with the remaining entries from the unchanged record: no notable entry is added for the string
and its bytes stay in the bulk counters. So the pass over a table that holds the entry gives
the result of the pass over the table without it. Had the vector grown, the entry would have
been moved. -/
theorem FindNotableStrings_skips_on_growBy_failure (ns : Nat) (grow : JSString → Bool)
    (pre post : List (JSString × StringInfo)) (str : JSString) (info : StringInfo)
    (z : ZoneStats) (hsize : ns ≤ sizeAdd info.gcHeap info.mallocHeap)
    (hfail : grow str = false) :
    FindNotableStrings.loop ns grow ((str, info) :: post) z =
        FindNotableStrings.loop ns grow post z ∧
      FindNotableStrings.loop ns grow (pre ++ (str, info) :: post) z =
        FindNotableStrings.loop ns grow (pre ++ post) z ∧
      (∀ grow2 : JSString → Bool, grow2 str = true →
        FindNotableStrings.loop ns grow2 ((str, info) :: post) z =
          (FindNotableStrings.move str info z) >>= (FindNotableStrings.loop ns grow2 post)) := by
  have hstep : FindNotableStrings.loop ns grow ((str, info) :: post) =
      FindNotableStrings.loop ns grow post := by
    funext z1
    rw [FindNotableStrings.loop_cons]
    simp [FindNotableStrings.moves, hfail]
  refine ⟨by rw [hstep], ?_, ?_⟩
  · rw [FindNotableStrings.loop_append, FindNotableStrings.loop_append, hstep]
  · intro grow2 hg
    rw [FindNotableStrings.loop_cons]
    have hm : FindNotableStrings.moves ns grow2 (str, info) = true := by
      simp only [FindNotableStrings.moves, hg, Bool.not_true, Bool.or_false, Bool.not_eq_true',
        decide_eq_false_iff_not, not_lt]
      exact hsize
    rw [hm]
    rfl

/-- C10 on the example: when the vector cannot grow for the 5000-byte string, the pass
over the table of the 5000-byte, the 4096-byte and the 50-byte string moves the 4096-byte
string only: 32 and 4064 bytes leave the bulk counters, the 5000 bytes stay. -/
theorem FindNotableStrings_skips_on_growBy_failure_witness :
    FindNotableStrings.loop 4096 (fun str => str != Example.string5000.1)
        (Example.string5000 :: [Example.string4096, Example.string50])
        Example.zoneThreeStrings =
      Except.ok { Example.zoneThreeStrings with
        notableStrings := [NotableStringInfo.mk2 Example.string4096.1 Example.string4096.2],
        stringsNormalGCHeap := 64, stringsNormalMallocHeap := 5890 } :=
  ((FindNotableStrings_skips_on_growBy_failure 4096 (fun str => str != Example.string5000.1)
    [] [Example.string4096, Example.string50] Example.string5000.1 Example.string5000.2
    Example.zoneThreeStrings (by decide) (by decide)).1).trans rfl

/-! ## C9 -/

/-- The part of `JS::CollectRuntimeStats` after `closure.init()` never returns false. -/
theorem CollectRuntimeStats.measure_not_false (gc : GCLayout) (ns : Nat) (alloc : Allocations)
    (heapWalk : StatsClosure → Except Failure StatsClosure) (rt : JSRuntime)
    (closure : StatsClosure) (r' : RuntimeStats) :
    CollectRuntimeStats.measure gc ns alloc heapWalk rt closure ≠ Except.ok (false, r') := by
  intro h
  unfold CollectRuntimeStats.measure at h
  simp only [bind, Except.bind, pure, Except.pure] at h
  repeat' split at h
  all_goals cases h

set_option maxRecDepth 20000 in
/-- C9, as stated, fails: when both reservations succeed and `closure.init()` fails,
`JS::CollectRuntimeStats` returns false after it has written `gcHeapChunkTotal`,
`gcHeapUnusedChunks` and `gcHeapDecommittedArenas`. -/
theorem CollectRuntimeStats_partial_counterexample :
    CollectRuntimeStats Example.layout 4096 Example.closureInitFails (fun c => pure c)
        Example.runtime RuntimeStats.new false =
      Except.ok (false, { RuntimeStats.new with
        compartmentStatsReserved := 1, zoneStatsReserved := 1, gcHeapChunkTotal := 3145728,
        gcHeapUnusedChunks := 1048576, gcHeapDecommittedArenas := 8192 }) ∧
      RuntimeStats.new.gcHeapChunkTotal = 0 ∧ RuntimeStats.new.gcHeapUnusedChunks = 0 ∧
      RuntimeStats.new.gcHeapDecommittedArenas = 0 :=
  ⟨rfl, rfl, rfl, rfl⟩

/-- C9, amended: whenever `JS::CollectRuntimeStats` returns false, the contents of the zone
and compartment vectors, the totals and the runtime sizes have the values they had before the
call. When the failure is that of a reservation, `gcHeapChunkTotal`, `gcHeapUnusedChunks` and
`gcHeapDecommittedArenas` have their old values too. When both reservations succeeded, the
failure is that of `closure.init()`, and these three members hold the new measurements. -/
theorem CollectRuntimeStats_returns_false (gc : GCLayout) (ns : Nat) (alloc : Allocations)
    (heapWalk : StatsClosure → Except Failure StatsClosure) (rt : JSRuntime)
    (rtStats r' : RuntimeStats) (opv : Bool)
    (h : CollectRuntimeStats gc ns alloc heapWalk rt rtStats opv = Except.ok (false, r')) :
    (r'.zoneStatsVector = rtStats.zoneStatsVector ∧
      r'.compartmentStatsVector = rtStats.compartmentStatsVector ∧
      r'.zTotals = rtStats.zTotals ∧ r'.cTotals = rtStats.cTotals ∧
      r'.runtime = rtStats.runtime ∧ r'.gcHeapGCThings = rtStats.gcHeapGCThings ∧
      r'.gcHeapChunkAdmin = rtStats.gcHeapChunkAdmin ∧
      r'.gcHeapUnusedArenas = rtStats.gcHeapUnusedArenas) ∧
    (((Vector.reserve alloc.reserveCompartmentStats rtStats.compartmentStatsReserved
          rt.numCompartments).1 = false ∨
        (Vector.reserve alloc.reserveZoneStats rtStats.zoneStatsReserved rt.numZones).1 = false) →
      r'.gcHeapChunkTotal = rtStats.gcHeapChunkTotal ∧
      r'.gcHeapUnusedChunks = rtStats.gcHeapUnusedChunks ∧
      r'.gcHeapDecommittedArenas = rtStats.gcHeapDecommittedArenas) ∧
    (((Vector.reserve alloc.reserveCompartmentStats rtStats.compartmentStatsReserved
          rt.numCompartments).1 = true ∧
        (Vector.reserve alloc.reserveZoneStats rtStats.zoneStatsReserved rt.numZones).1 = true) →
      alloc.closureInit = false ∧
      r'.gcHeapChunkTotal = sizeMul rt.JSGC_TOTAL_CHUNKS gc.ChunkSize ∧
      r'.gcHeapUnusedChunks = sizeMul rt.JSGC_UNUSED_CHUNKS gc.ChunkSize ∧
      IterateChunks gc rt.chunks rtStats.gcHeapDecommittedArenas =
        Except.ok r'.gcHeapDecommittedArenas) := by
  unfold CollectRuntimeStats at h
  cases h1 : Vector.reserve alloc.reserveCompartmentStats rtStats.compartmentStatsReserved
      rt.numCompartments with
  | mk b1 cap1 =>
    rw [h1] at h
    cases b1 with
    | false =>
      simp only [pure, Except.pure, Except.ok.injEq, Prod.mk.injEq, true_and] at h
      subst h
      simp
    | true =>
      simp only at h
      cases h2 : Vector.reserve alloc.reserveZoneStats rtStats.zoneStatsReserved rt.numZones with
      | mk b2 cap2 =>
        rw [h2] at h
        cases b2 with
        | false =>
          simp only [pure, Except.pure, Except.ok.injEq, Prod.mk.injEq, true_and] at h
          subst h
          simp
        | true =>
          simp only [bind, Except.bind] at h
          cases hd : IterateChunks gc rt.chunks rtStats.gcHeapDecommittedArenas with
          | error e => rw [hd] at h; simp at h
          | ok d =>
            rw [hd] at h
            simp only at h
            cases hi : alloc.closureInit with
            | true =>
              rw [hi] at h
              simp only [Bool.not_true, Bool.false_eq_true, if_false] at h
              exact absurd h (CollectRuntimeStats.measure_not_false _ _ _ _ _ _ _)
            | false =>
              rw [hi] at h
              simp only [Bool.not_false, if_true, pure, Except.pure, Except.ok.injEq,
                Prod.mk.injEq, true_and] at h
              subst h
              simp

set_option maxRecDepth 20000 in
/-- C9, amended, on the example: when the reservation of `zoneStatsVector` fails, the
call returns false and has changed nothing but the capacity of `compartmentStatsVector`. -/
theorem CollectRuntimeStats_returns_false_witness :
    CollectRuntimeStats Example.layout 4096 Example.reserveZonesFails (fun c => pure c)
        Example.runtime RuntimeStats.new false =
      Except.ok (false, { RuntimeStats.new with compartmentStatsReserved := 1 }) ∧
    (0 = RuntimeStats.new.gcHeapChunkTotal ∧ 0 = RuntimeStats.new.gcHeapUnusedChunks ∧
      0 = RuntimeStats.new.gcHeapDecommittedArenas) :=
  ⟨rfl, (CollectRuntimeStats_returns_false Example.layout 4096 Example.reserveZonesFails
    (fun c => pure c) Example.runtime RuntimeStats.new
    { RuntimeStats.new with compartmentStatsReserved := 1 } false rfl).2.1 (Or.inr rfl)⟩

/-! ## Theorems: the stages of `JS::CollectRuntimeStats` -/

/-- A run of `CollectRuntimeStats.measure` that returns went through every stage: the heap
walk, the first loop, the transfer of the table of `zs[iMax]`, the second loop and the run
of `FindNotableStrings` on `zTotals`; it returns `true`, and the members of the result are
those computed at the end of the function. -/
theorem CollectRuntimeStats.measure_stages (gc : GCLayout) (ns : Nat) (alloc : Allocations)
    (heapWalk : StatsClosure → Except Failure StatsClosure) (rt : JSRuntime)
    (closure : StatsClosure) (b : Bool) (r : RuntimeStats)
    (h : CollectRuntimeStats.measure gc ns alloc heapWalk rt closure = Except.ok (b, r)) :
    ∃ cl1 zT1 zs1 iMax zMax zT2 zs2 zT3,
      heapWalk closure = Except.ok cl1 ∧
      CollectRuntimeStats.sumZones ns alloc.growBy cl1.rtStats.zoneStatsVector.length 0
        (cl1.rtStats.zTotals, cl1.rtStats.zoneStatsVector, 0) = Except.ok (zT1, zs1, iMax) ∧
      zT1.strings = none ∧
      zoneStatsAt zs1 iMax = Except.ok zMax ∧
      CollectRuntimeStats.mergeStrings alloc.addStrings iMax
        (zs1.set iMax { zMax with strings := none }).length 0
        ({ zT1 with strings := zMax.strings }, zs1.set iMax { zMax with strings := none }) =
          Except.ok (zT2, zs2) ∧
      FindNotableStrings ns (alloc.growBy zs2.length) zT2 = Except.ok zT3 ∧
      b = true ∧
      r.zTotals = { zT3 with strings := none } ∧ r.zoneStatsVector = zs2 ∧
      r.gcHeapChunkTotal = cl1.rtStats.gcHeapChunkTotal ∧
      r.gcHeapDecommittedArenas = cl1.rtStats.gcHeapDecommittedArenas ∧
      r.gcHeapUnusedChunks = cl1.rtStats.gcHeapUnusedChunks ∧
      r.gcHeapUnusedArenas =
        sizeSub (sizeSub (sizeSub (sizeSub (sizeSub (sizeSub r.gcHeapChunkTotal
          r.gcHeapDecommittedArenas) r.gcHeapUnusedChunks) r.zTotals.unusedGCThings)
          r.gcHeapChunkAdmin) r.zTotals.gcHeapArenaAdmin) r.gcHeapGCThings := by
  unfold CollectRuntimeStats.measure at h
  cases h0 : heapWalk closure with
  | error e => rw [h0] at h; simp [bind, Except.bind] at h
  | ok cl1 =>
    rw [h0] at h
    simp only [bind, Except.bind] at h
    cases h1 : CollectRuntimeStats.sumZones ns alloc.growBy cl1.rtStats.zoneStatsVector.length 0
        (cl1.rtStats.zTotals, cl1.rtStats.zoneStatsVector, 0) with
    | error e => rw [h1] at h; simp at h
    | ok v =>
      obtain ⟨zT1, zs1, iMax⟩ := v
      rw [h1] at h
      simp only at h
      cases h2 : zT1.strings with
      | some s => simp [MOZ_ASSERT, JS_ASSERT, h2] at h
      | none =>
        simp only [MOZ_ASSERT, h2, Option.isNone_none, JS_ASSERT_true] at h
        cases h3 : zoneStatsAt zs1 iMax with
        | error e => rw [h3] at h; simp at h
        | ok zMax =>
          rw [h3] at h
          simp only at h
          cases h4 : CollectRuntimeStats.mergeStrings alloc.addStrings iMax
              (zs1.set iMax { zMax with strings := none }).length 0
              ({ zT1 with strings := zMax.strings },
                zs1.set iMax { zMax with strings := none }) with
          | error e => rw [h4] at h; simp at h
          | ok v =>
            obtain ⟨zT2, zs2⟩ := v
            rw [h4] at h
            simp only at h
            cases h5 : FindNotableStrings ns (alloc.growBy zs2.length) zT2 with
            | error e => rw [h5] at h; simp at h
            | ok zT3 =>
              rw [h5] at h
              simp only at h
              split at h
              · simp at h
              · simp only [pure, Except.pure, Except.ok.injEq, Prod.mk.injEq] at h
                obtain ⟨hb, hr⟩ := h
                subst hr
                exact ⟨cl1, zT1, zs1, iMax, zMax, zT2, zs2, zT3, rfl, h1, h2, h3, h4, h5,
                  hb.symm, rfl, rfl, rfl, rfl, rfl, rfl⟩

/-- A call of `JS::CollectRuntimeStats` that returns true has run
`CollectRuntimeStats.measure` on a closure for the caller's `RuntimeStats` with the three
chunk measurements written. -/
theorem CollectRuntimeStats.true_measure (gc : GCLayout) (ns : Nat) (alloc : Allocations)
    (heapWalk : StatsClosure → Except Failure StatsClosure) (rt : JSRuntime)
    (rtStats r : RuntimeStats) (opv : Bool)
    (h : CollectRuntimeStats gc ns alloc heapWalk rt rtStats opv = Except.ok (true, r)) :
    ∃ closure : StatsClosure,
      CollectRuntimeStats.measure gc ns alloc heapWalk rt closure = Except.ok (true, r) ∧
      closure.rtStats.zoneStatsVector = rtStats.zoneStatsVector ∧
      closure.rtStats.zTotals = rtStats.zTotals := by
  unfold CollectRuntimeStats at h
  cases h1 : Vector.reserve alloc.reserveCompartmentStats rtStats.compartmentStatsReserved
      rt.numCompartments with
  | mk b1 cap1 =>
    rw [h1] at h
    cases b1 with
    | false => simp [pure, Except.pure] at h
    | true =>
      simp only at h
      cases h2 : Vector.reserve alloc.reserveZoneStats rtStats.zoneStatsReserved rt.numZones with
      | mk b2 cap2 =>
        rw [h2] at h
        cases b2 with
        | false => simp [pure, Except.pure] at h
        | true =>
          simp only [bind, Except.bind] at h
          cases hd : IterateChunks gc rt.chunks rtStats.gcHeapDecommittedArenas with
          | error e => rw [hd] at h; simp at h
          | ok d =>
            rw [hd] at h
            simp only at h
            cases hi : alloc.closureInit with
            | true =>
              rw [hi] at h
              simp only [Bool.not_true, Bool.false_eq_true, if_false] at h
              exact ⟨_, h, rfl, rfl⟩
            | false =>
              rw [hi] at h
              simp [pure, Except.pure] at h

/-! ## C11 -/

set_option maxRecDepth 20000 in
/-- C11, as stated, fails: on a runtime with three chunks of 1 MiB, 8192 decommitted bytes,
one unused chunk and one arena in use, `JS::CollectRuntimeStats` returns true, and the five
parts of the claim add up to 3108992 bytes, not to the 3145728 bytes of `gcHeapChunkTotal`:
the 3968 bytes of `zTotals.unusedGCThings` and the 32768 bytes of `gcHeapChunkAdmin` are
missing from the sum. -/
theorem CollectRuntimeStats_five_parts_counterexample :
    CollectRuntimeStats Example.layout 4096 Example.allocationsSucceed Example.heapWalk
        Example.runtime RuntimeStats.new false = Except.ok (true, Example.runtimeStatsAfter) ∧
    Example.runtimeStatsAfter.gcHeapChunkTotal = 3145728 ∧
    Example.runtimeStatsAfter.gcHeapDecommittedArenas +
      Example.runtimeStatsAfter.gcHeapUnusedChunks + Example.runtimeStatsAfter.gcHeapGCThings +
      Example.runtimeStatsAfter.zTotals.gcHeapArenaAdmin +
      Example.runtimeStatsAfter.gcHeapUnusedArenas = 3108992 ∧
    Example.runtimeStatsAfter.zTotals.unusedGCThings = 3968 ∧
    Example.runtimeStatsAfter.gcHeapChunkAdmin = 32768 :=
  ⟨rfl, rfl, rfl, rfl, rfl⟩

/-- C11, amended: when `JS::CollectRuntimeStats` returns true, `gcHeapChunkTotal` is, in
`size_t` arithmetic (modulo `2^64`), the sum of seven parts: `gcHeapDecommittedArenas`,
`gcHeapUnusedChunks`, `zTotals.unusedGCThings`, `gcHeapChunkAdmin`,
`zTotals.gcHeapArenaAdmin`, `gcHeapGCThings` and `gcHeapUnusedArenas`, the last being the
value computed by difference at the end of the function. The sum is exact when the first six
parts together do not exceed `gcHeapChunkTotal`. -/
theorem CollectRuntimeStats_seven_parts (gc : GCLayout) (ns : Nat) (alloc : Allocations)
    (heapWalk : StatsClosure → Except Failure StatsClosure) (rt : JSRuntime)
    (rtStats r : RuntimeStats) (opv : Bool)
    (h : CollectRuntimeStats gc ns alloc heapWalk rt rtStats opv = Except.ok (true, r)) :
    r.gcHeapDecommittedArenas + r.gcHeapUnusedChunks + r.zTotals.unusedGCThings +
        r.gcHeapChunkAdmin + r.zTotals.gcHeapArenaAdmin + r.gcHeapGCThings +
        r.gcHeapUnusedArenas ≡ r.gcHeapChunkTotal [MOD SIZE_MAX1] ∧
    (r.gcHeapChunkTotal < SIZE_MAX1 →
      r.gcHeapDecommittedArenas + r.gcHeapUnusedChunks + r.zTotals.unusedGCThings +
        r.gcHeapChunkAdmin + r.zTotals.gcHeapArenaAdmin + r.gcHeapGCThings ≤
          r.gcHeapChunkTotal →
      r.gcHeapChunkTotal =
        r.gcHeapDecommittedArenas + r.gcHeapUnusedChunks + r.zTotals.unusedGCThings +
          r.gcHeapChunkAdmin + r.zTotals.gcHeapArenaAdmin + r.gcHeapGCThings +
          r.gcHeapUnusedArenas) := by
  obtain ⟨closure, hm, -, -⟩ := CollectRuntimeStats.true_measure gc ns alloc heapWalk rt rtStats r opv h
  obtain ⟨cl1, zT1, zs1, iMax, zMax, zT2, zs2, zT3, -, -, -, -, -, -, -, -, -, -, -, -, hu⟩ :=
    CollectRuntimeStats.measure_stages gc ns alloc heapWalk rt closure true r hm
  generalize r.gcHeapChunkTotal = t at hu ⊢
  generalize r.gcHeapDecommittedArenas = a1 at hu ⊢
  generalize r.gcHeapUnusedChunks = a2 at hu ⊢
  generalize r.zTotals.unusedGCThings = a3 at hu ⊢
  generalize r.gcHeapChunkAdmin = a4 at hu ⊢
  generalize r.zTotals.gcHeapArenaAdmin = a5 at hu ⊢
  generalize r.gcHeapGCThings = a6 at hu ⊢
  generalize r.gcHeapUnusedArenas = u at hu ⊢
  subst hu
  constructor
  · have m1 := sizeSub_add_modEq t a1
    have m2 := sizeSub_add_modEq (sizeSub t a1) a2
    have m3 := sizeSub_add_modEq (sizeSub (sizeSub t a1) a2) a3
    have m4 := sizeSub_add_modEq (sizeSub (sizeSub (sizeSub t a1) a2) a3) a4
    have m5 := sizeSub_add_modEq (sizeSub (sizeSub (sizeSub (sizeSub t a1) a2) a3) a4) a5
    have m6 := sizeSub_add_modEq
      (sizeSub (sizeSub (sizeSub (sizeSub (sizeSub t a1) a2) a3) a4) a5) a6
    generalize sizeSub t a1 = s1 at m1 m2 m3 m4 m5 m6 ⊢
    generalize sizeSub s1 a2 = s2 at m2 m3 m4 m5 m6 ⊢
    generalize sizeSub s2 a3 = s3 at m3 m4 m5 m6 ⊢
    generalize sizeSub s3 a4 = s4 at m4 m5 m6 ⊢
    generalize sizeSub s4 a5 = s5 at m5 m6 ⊢
    generalize sizeSub s5 a6 = s6 at m6 ⊢
    simp only [Nat.ModEq, SIZE_MAX1, Nat.reducePow] at m1 m2 m3 m4 m5 m6 ⊢
    omega
  · intro ht hle
    have e1 : sizeSub t a1 = t - a1 := sizeSub_of_le t a1 (by omega) ht
    have e2 : sizeSub (t - a1) a2 = t - a1 - a2 := sizeSub_of_le _ a2 (by omega) (by omega)
    have e3 : sizeSub (t - a1 - a2) a3 = t - a1 - a2 - a3 :=
      sizeSub_of_le _ a3 (by omega) (by omega)
    have e4 : sizeSub (t - a1 - a2 - a3) a4 = t - a1 - a2 - a3 - a4 :=
      sizeSub_of_le _ a4 (by omega) (by omega)
    have e5 : sizeSub (t - a1 - a2 - a3 - a4) a5 = t - a1 - a2 - a3 - a4 - a5 :=
      sizeSub_of_le _ a5 (by omega) (by omega)
    have e6 : sizeSub (t - a1 - a2 - a3 - a4 - a5) a6 = t - a1 - a2 - a3 - a4 - a5 - a6 :=
      sizeSub_of_le _ a6 (by omega) (by omega)
    rw [e1, e2, e3, e4, e5, e6]
    omega

set_option maxRecDepth 20000 in
/-- C11, amended, on the example: the run on `Example.runtime` returns true and its seven
parts add up to the 3145728 bytes of `gcHeapChunkTotal`. -/
theorem CollectRuntimeStats_seven_parts_witness :
    CollectRuntimeStats Example.layout 4096 Example.allocationsSucceed Example.heapWalk
        Example.runtime RuntimeStats.new false = Except.ok (true, Example.runtimeStatsAfter) ∧
    (3145728 : Nat) = 8192 + 1048576 + 3968 + 32768 + 32 + 96 + 2052096 :=
  ⟨rfl, (CollectRuntimeStats_seven_parts Example.layout 4096 Example.allocationsSucceed
    Example.heapWalk Example.runtime RuntimeStats.new Example.runtimeStatsAfter false rfl).2
    (by decide) (by decide)⟩

/-! ## Theorems: the strings tables in `JS::CollectRuntimeStats` -/

/-- Replacing an element by one with the same image leaves the mapped list as it is. -/
theorem map_set_of_eq {α β : Type} (f : α → β) (l : List α) (i : Nat) (x y : α)
    (h : l[i]? = some x) (hf : f y = f x) : (l.set i y).map f = l.map f := by
  apply List.ext_getElem?
  intro j
  simp only [List.getElem?_map, List.getElem?_set]
  by_cases hij : i = j
  · subst hij
    have hl := lt_length_of_getElem? l i x h
    simp [hl, h, hf]
  · simp [hij]

/-- The function `FindNotableStrings` returns on a zone record that the heap walk left, and it
leaves the strings table of the record in place. -/
theorem FindNotableStrings_walked (ns : Nat) (grow : JSString → Bool) (z : ZoneStats)
    (hz : z.Walked) :
    ∃ z', FindNotableStrings ns grow z = Except.ok z' ∧ z'.strings = z.strings := by
  obtain ⟨hn, hr, strings, hs, hacc⟩ := hz
  rw [FindNotableStrings_eq_loop ns grow z strings hn hs]
  obtain ⟨z', hz'⟩ := FindNotableStrings.loop_returns ns grow strings.entries z hacc hr
  exact ⟨z', hz', (FindNotableStrings.loop_notable ns grow strings.entries z z' hz').2⟩

/-- Reading the count of the table of a zone record that has one. -/
theorem stringsCountAt_ok (zs : List ZoneStats) (i : Nat) (z : ZoneStats)
    (h : zs[i]? = some z) (hs : z.strings.isSome = true) :
    stringsCountAt zs i = Except.ok z.stringsCount := by
  unfold stringsCountAt zoneStatsAt ZoneStats.stringsCount
  rw [h]
  cases hz : z.strings with
  | none => rw [hz] at hs; cases hs
  | some s => simp [bind, Except.bind, pure, Except.pure, hz]

/-- The first loop of `JS::CollectRuntimeStats` returns on zone records that the heap walk
left. It leaves `zTotals.strings` and the strings table of every zone in place, and its
`iMax` is the index of the first zone whose table has the maximal count; `cnt j` is the
count of the table of zone `j`. -/
theorem CollectRuntimeStats.sumZones_returns (ns : Nat) (grow : Nat → JSString → Bool)
    (cnt : Nat → Nat) :
    ∀ (fuel i : Nat) (zT : ZoneStats) (zs : List ZoneStats) (iMax : Nat),
      fuel + i = zs.length →
      (∀ j z, zs[j]? = some z → z.strings.isSome = true ∧ z.stringsCount = cnt j) →
      (∀ j z, i ≤ j → zs[j]? = some z → z.Walked) →
      iMax < zs.length →
      (∀ j, j < i → cnt j ≤ cnt iMax) →
      (∀ j, j < iMax → cnt j < cnt iMax) →
      ∃ zT' zs' iMax',
        CollectRuntimeStats.sumZones ns grow fuel i (zT, zs, iMax) =
          Except.ok (zT', zs', iMax') ∧
        zT'.strings = zT.strings ∧
        zs'.map ZoneStats.strings = zs.map ZoneStats.strings ∧
        iMax' < zs.length ∧
        (∀ j, j < zs.length → cnt j ≤ cnt iMax') ∧
        (∀ j, j < iMax' → cnt j < cnt iMax') := by
  intro fuel
  induction fuel with
  | zero =>
    intro i zT zs iMax hlen _ _ hi h1 h2
    refine ⟨zT, zs, iMax, rfl, rfl, rfl, hi, ?_, h2⟩
    intro j hj
    exact h1 j (by omega)
  | succ fuel ih =>
    intro i zT zs iMax hlen hs hw hi h1 h2
    have hil : i < zs.length := by omega
    have hzi : zs[i]? = some zs[i] := List.getElem?_eq_getElem hil
    obtain ⟨z', hz', hstr⟩ := FindNotableStrings_walked ns (grow i) zs[i] (hw i _ le_rfl hzi)
    have hset : ∀ j, (zs.set i z')[j]? = if i = j then some z' else zs[j]? := by
      intro j
      rw [List.getElem?_set]
      by_cases hij : i = j
      · subst hij
        simp [hil]
      · simp [hij]
    have hs' : ∀ j z, (zs.set i z')[j]? = some z →
        z.strings.isSome = true ∧ z.stringsCount = cnt j := by
      intro j z hz
      rw [hset] at hz
      by_cases hij : i = j
      · rw [if_pos hij] at hz
        cases hz
        have := hs i _ hzi
        subst hij
        simpa [ZoneStats.stringsCount, hstr] using this
      · rw [if_neg hij] at hz
        exact hs j z hz
    have hci : stringsCountAt (zs.set i z') i = Except.ok (cnt i) := by
      have hz : (zs.set i z')[i]? = some z' := by rw [hset]; simp
      rw [stringsCountAt_ok _ i z' hz (hs' i z' hz).1, (hs' i z' hz).2]
    have hcm : stringsCountAt (zs.set i z') iMax = Except.ok (cnt iMax) := by
      have hl : iMax < (zs.set i z').length := by simpa using hi
      have hz : (zs.set i z')[iMax]? = some (zs.set i z')[iMax] := List.getElem?_eq_getElem hl
      rw [stringsCountAt_ok _ iMax _ hz (hs' iMax _ hz).1, (hs' iMax _ hz).2]
    have hstep : CollectRuntimeStats.sumZones ns grow (fuel + 1) i (zT, zs, iMax) =
        CollectRuntimeStats.sumZones ns grow fuel (i + 1)
          (zT.addIgnoringStrings zs[i], zs.set i z',
            if cnt i > cnt iMax then i else iMax) := by
      simp only [CollectRuntimeStats.sumZones, zoneStatsAt, hzi, bind, Except.bind, pure,
        Except.pure, hz', hci, hcm]
    rw [hstep]
    obtain ⟨zT', zs', iMax', hr, e1, e2, e3, e4, e5⟩ :=
      ih (i + 1) (zT.addIgnoringStrings zs[i]) (zs.set i z') (if cnt i > cnt iMax then i else iMax)
        (by simp; omega) hs'
        (by
          intro j z hij hz
          rw [hset, if_neg (by omega)] at hz
          exact hw j z (by omega) hz)
        (by simp; split <;> omega)
        (by
          intro j hj
          split
          · rcases Nat.lt_or_ge j i with hlt | hge
            · have := h1 j hlt
              omega
            · have : j = i := by omega
              subst this
              exact le_rfl
          · rcases Nat.lt_or_ge j i with hlt | hge
            · exact h1 j hlt
            · have : j = i := by omega
              subst this
              omega)
        (by
          intro j hj
          split
          · rename_i hgt
            rw [if_pos hgt] at hj
            have := h1 j hj
            omega
          · rename_i hgt
            rw [if_neg hgt] at hj
            exact h2 j hj)
    refine ⟨zT', zs', iMax', hr, ?_, ?_, ?_, ?_, e5⟩
    · rw [e1]; rfl
    · rw [e2]
      exact map_set_of_eq ZoneStats.strings zs i zs[i] z' hzi hstr
    · simpa using e3
    · simpa using e4

/-- The function `ZoneStats::addStrings` on two records with a table. -/
theorem ZoneStats.addStrings_ok (addOk : JSString → Bool) (z other : ZoneStats)
    (ours theirs : StringsHashMap) (h1 : z.strings = some ours)
    (h2 : other.strings = some theirs) :
    z.addStrings addOk other =
      Except.ok { z with strings := some (ZoneStats.addStrings.loop addOk theirs.entries ours) } := by
  unfold ZoneStats.addStrings
  rw [h1, h2]
  rfl

/-- The second loop of `JS::CollectRuntimeStats` returns when `zTotals` has a table and so
has every zone from index `i` on other than the zone `iMax`: the table of `zTotals` becomes
the merged table, and every zone from index `i` on other than `iMax` loses its table. -/
theorem CollectRuntimeStats.mergeStrings_returns (addOk : JSString → Bool) (iMax : Nat) :
    ∀ (fuel i : Nat) (zT : ZoneStats) (zs : List ZoneStats) (table : StringsHashMap),
      fuel + i = zs.length →
      zT.strings = some table →
      (∀ j z, i ≤ j → j ≠ iMax → zs[j]? = some z → z.strings.isSome = true) →
      ∃ zs',
        CollectRuntimeStats.mergeStrings addOk iMax fuel i (zT, zs) =
          Except.ok ({ zT with
                        strings := some
                          (CollectRuntimeStats.mergedTable addOk iMax i (zs.drop i) table) },
                      zs') ∧
        zs'.length = zs.length ∧
        ∀ j, zs'[j]? = (zs[j]?).map
          (fun z => if i ≤ j ∧ j ≠ iMax then { z with strings := none } else z) := by
  intro fuel
  induction fuel with
  | zero =>
    intro i zT zs table hlen ht _
    refine ⟨zs, ?_, rfl, ?_⟩
    · have hd : zs.drop i = [] := List.drop_eq_nil_of_le (by omega)
      rw [hd]
      simp only [CollectRuntimeStats.mergeStrings, CollectRuntimeStats.mergedTable, pure,
        Except.pure, ← ht]
    · intro j
      cases hj : zs[j]? with
      | none => rfl
      | some z =>
        have := lt_length_of_getElem? zs j z hj
        have hn : ¬ (i ≤ j ∧ j ≠ iMax) := by omega
        simp [hn]
  | succ fuel ih =>
    intro i zT zs table hlen ht hs
    have hil : i < zs.length := by omega
    have hzi : zs[i]? = some zs[i] := List.getElem?_eq_getElem hil
    have hdrop : zs.drop i = zs[i] :: zs.drop (i + 1) := List.drop_eq_getElem_cons hil
    by_cases him : i = iMax
    · have hstep : CollectRuntimeStats.mergeStrings addOk iMax (fuel + 1) i (zT, zs) =
          CollectRuntimeStats.mergeStrings addOk iMax fuel (i + 1) (zT, zs) := by
        simp [CollectRuntimeStats.mergeStrings, him]
      obtain ⟨zs', hr, hl, hp⟩ := ih (i + 1) zT zs table (by omega) ht
        (fun j z hij hne hz => hs j z (by omega) hne hz)
      refine ⟨zs', ?_, hl, ?_⟩
      · rw [hstep, hr, hdrop]
        simp [CollectRuntimeStats.mergedTable, him]
      · intro j
        rw [hp j]
        cases hj : zs[j]? with
        | none => rfl
        | some z =>
          by_cases hji : j = iMax
          · simp [hji]
          · have : (i + 1 ≤ j ∧ j ≠ iMax) ↔ (i ≤ j ∧ j ≠ iMax) := by omega
            simp [this]
    · obtain ⟨theirs, hth⟩ := Option.isSome_iff_exists.mp (hs i _ le_rfl him hzi)
      have hstep : CollectRuntimeStats.mergeStrings addOk iMax (fuel + 1) i (zT, zs) =
          CollectRuntimeStats.mergeStrings addOk iMax fuel (i + 1)
            ({ zT with strings := some (ZoneStats.addStrings.loop addOk theirs.entries table) },
              zs.set i { zs[i] with strings := none }) := by
        simp [CollectRuntimeStats.mergeStrings, him, zoneStatsAt, hzi, bind, Except.bind, pure,
          Except.pure, ZoneStats.addStrings_ok addOk zT zs[i] table theirs ht hth]
      have hset : ∀ j, (zs.set i { zs[i] with strings := none })[j]? =
          if i = j then some { zs[i] with strings := none } else zs[j]? := by
        intro j
        rw [List.getElem?_set]
        by_cases hij : i = j
        · subst hij
          simp [hil]
        · simp [hij]
      obtain ⟨zs', hr, hl, hp⟩ := ih (i + 1)
        { zT with strings := some (ZoneStats.addStrings.loop addOk theirs.entries table) }
        (zs.set i { zs[i] with strings := none })
        (ZoneStats.addStrings.loop addOk theirs.entries table) (by simp; omega) rfl
        (by
          intro j z hij hne hz
          rw [hset, if_neg (by omega)] at hz
          exact hs j z (by omega) hne hz)
      refine ⟨zs', ?_, by simpa using hl, ?_⟩
      · rw [hstep, hr, hdrop, List.drop_set_of_lt _ _ (Nat.lt_succ_self i)]
        simp [CollectRuntimeStats.mergedTable, him, hth]
      · intro j
        rw [hp j, hset]
        by_cases hij : i = j
        · subst hij
          simp [hzi, him]
        · rw [if_neg hij]
          cases hj : zs[j]? with
          | none => rfl
          | some z =>
            have : (i + 1 ≤ j ∧ j ≠ iMax) ↔ (i ≤ j ∧ j ≠ iMax) := by omega
            simp [this]

/-- The merged table depends only on the tables of the zones other than `iMax`. -/
theorem CollectRuntimeStats.mergedTable_congr (addOk : JSString → Bool) (iMax : Nat) :
    ∀ (zsA zsB : List ZoneStats) (i : Nat) (table : StringsHashMap),
      zsA.length = zsB.length →
      (∀ k, i + k ≠ iMax → (zsA[k]?).map ZoneStats.strings = (zsB[k]?).map ZoneStats.strings) →
      CollectRuntimeStats.mergedTable addOk iMax i zsA table =
        CollectRuntimeStats.mergedTable addOk iMax i zsB table := by
  intro zsA
  induction zsA with
  | nil =>
    intro zsB i table hl _
    cases zsB with
    | nil => rfl
    | cons b t => cases hl
  | cons a ta ih =>
    intro zsB i table hl h
    cases zsB with
    | nil => cases hl
    | cons b tb =>
      simp only [CollectRuntimeStats.mergedTable]
      have htail : ∀ t, CollectRuntimeStats.mergedTable addOk iMax (i + 1) ta t =
          CollectRuntimeStats.mergedTable addOk iMax (i + 1) tb t := fun t =>
        ih tb (i + 1) t (by simpa using hl)
          (fun k hk => by
            have := h (k + 1) (by omega)
            simpa using this)
      by_cases him : i = iMax
      · simp only [him, if_true] at htail ⊢
        exact htail table
      · have h0 := h 0 (by omega)
        simp only [List.getElem?_cons_zero, Option.map_some', Option.some.injEq] at h0
        simp only [him, if_false, h0]
        exact htail _

/-- The function `CollectRuntimeStats.measure` returns true once every stage has returned and
the check of the in-arena measurements holds. -/
theorem CollectRuntimeStats.measure_of_stages (gc : GCLayout) (ns : Nat) (alloc : Allocations)
    (heapWalk : StatsClosure → Except Failure StatsClosure) (rt : JSRuntime)
    (closure cl1 : StatsClosure) (zT1 : ZoneStats) (zs1 : List ZoneStats) (iMax : Nat)
    (zMax zT2 : ZoneStats) (zs2 : List ZoneStats) (zT3 : ZoneStats)
    (h0 : heapWalk closure = Except.ok cl1)
    (h1 : CollectRuntimeStats.sumZones ns alloc.growBy cl1.rtStats.zoneStatsVector.length 0
      (cl1.rtStats.zTotals, cl1.rtStats.zoneStatsVector, 0) = Except.ok (zT1, zs1, iMax))
    (h2 : zT1.strings = none)
    (h3 : zoneStatsAt zs1 iMax = Except.ok zMax)
    (h4 : CollectRuntimeStats.mergeStrings alloc.addStrings iMax
      (zs1.set iMax { zMax with strings := none }).length 0
      ({ zT1 with strings := zMax.strings }, zs1.set iMax { zMax with strings := none }) =
        Except.ok (zT2, zs2))
    (h5 : FindNotableStrings ns (alloc.growBy zs2.length) zT2 = Except.ok zT3)
    (h6 : sizeAdd (sizeAdd zT3.gcHeapArenaAdmin zT3.unusedGCThings)
      (sizeAdd zT3.sizeOfLiveGCThings
        (cl1.rtStats.compartmentStatsVector.foldl CompartmentStats.add
          cl1.rtStats.cTotals).sizeOfLiveGCThings) % gc.ArenaSize = 0) :
    ∃ r, CollectRuntimeStats.measure gc ns alloc heapWalk rt closure = Except.ok (true, r) := by
  have h6' : sizeAdd (sizeAdd zT3.gcHeapArenaAdmin zT3.unusedGCThings)
      (sizeAdd ({ zT3 with strings := none } : ZoneStats).sizeOfLiveGCThings
        (cl1.rtStats.compartmentStatsVector.foldl CompartmentStats.add
          cl1.rtStats.cTotals).sizeOfLiveGCThings) % gc.ArenaSize = 0 := h6
  unfold CollectRuntimeStats.measure
  simp only [h0, bind, Except.bind, h1, MOZ_ASSERT, h2, Option.isNone_none, JS_ASSERT_true,
    h3, h4, h5, h6', beq_self_eq_true, pure, Except.pure]
  exact ⟨_, rfl⟩

/-! ## C19 -/

/-- C19: in `JS::CollectRuntimeStats`, on a non-empty vector of zone records that the heap
walk left, both loops return. The table moved into `zTotals` is the table of `zs[iMax]`,
whose count is maximal among all zones and strictly above that of every earlier zone (the
first such zone); the table of `zTotals` after the second loop is that table with the table
of every other zone merged in with `addStrings`; every zone record then has a null `strings`
pointer. The function returns true once `FindNotableStrings(zTotals)` has returned and the
check of the in-arena measurements holds, and every returning run ends with the zone records
of the second loop and a null `zTotals.strings`. -/
theorem CollectRuntimeStats_moves_biggest_table (gc : GCLayout) (ns : Nat) (alloc : Allocations)
    (heapWalk : StatsClosure → Except Failure StatsClosure) (rt : JSRuntime)
    (closure cl1 : StatsClosure)
    (hw : heapWalk closure = Except.ok cl1)
    (hne : cl1.rtStats.zoneStatsVector ≠ [])
    (hz : ∀ z ∈ cl1.rtStats.zoneStatsVector, z.Walked)
    (ht : cl1.rtStats.zTotals.strings = none) :
    ∃ (iMax : Nat) (zMax : ZoneStats) (table : StringsHashMap) (zT1 : ZoneStats)
        (zs1 : List ZoneStats) (zMax1 zT2 : ZoneStats) (zs2 : List ZoneStats),
      CollectRuntimeStats.sumZones ns alloc.growBy cl1.rtStats.zoneStatsVector.length 0
        (cl1.rtStats.zTotals, cl1.rtStats.zoneStatsVector, 0) = Except.ok (zT1, zs1, iMax) ∧
      zs1.map ZoneStats.strings = cl1.rtStats.zoneStatsVector.map ZoneStats.strings ∧
      cl1.rtStats.zoneStatsVector[iMax]? = some zMax ∧ zMax.strings = some table ∧
      (∀ z ∈ cl1.rtStats.zoneStatsVector, z.stringsCount ≤ table.count) ∧
      (∀ j z, j < iMax → cl1.rtStats.zoneStatsVector[j]? = some z →
        z.stringsCount < table.count) ∧
      zs1[iMax]? = some zMax1 ∧
      CollectRuntimeStats.mergeStrings alloc.addStrings iMax zs1.length 0
        ({ zT1 with strings := some table }, zs1.set iMax { zMax1 with strings := none }) =
          Except.ok (zT2, zs2) ∧
      zT2.strings = some (CollectRuntimeStats.mergedTable alloc.addStrings iMax 0
        cl1.rtStats.zoneStatsVector table) ∧
      zs2.length = cl1.rtStats.zoneStatsVector.length ∧
      (∀ z ∈ zs2, z.strings = none) ∧
      (∀ zT3, FindNotableStrings ns (alloc.growBy zs2.length) zT2 = Except.ok zT3 →
        sizeAdd (sizeAdd zT3.gcHeapArenaAdmin zT3.unusedGCThings)
          (sizeAdd zT3.sizeOfLiveGCThings
            (cl1.rtStats.compartmentStatsVector.foldl CompartmentStats.add
              cl1.rtStats.cTotals).sizeOfLiveGCThings) % gc.ArenaSize = 0 →
        ∃ r, CollectRuntimeStats.measure gc ns alloc heapWalk rt closure =
          Except.ok (true, r)) ∧
      (∀ b r, CollectRuntimeStats.measure gc ns alloc heapWalk rt closure = Except.ok (b, r) →
        r.zoneStatsVector = zs2 ∧ r.zTotals.strings = none) := by
  generalize hzs0 : cl1.rtStats.zoneStatsVector = zs0 at *
  have hstr : ∀ (j : Nat) (z : ZoneStats), zs0[j]? = some z → z.Walked := fun j z h =>
    hz z (List.getElem?_mem h)
  have hpos : 0 < zs0.length := List.length_pos.mpr hne
  obtain ⟨zT1, zs1, iMax, hr, e1, e2, e3, e4, e5⟩ :=
    CollectRuntimeStats.sumZones_returns ns alloc.growBy
      (fun j => ((zs0[j]?).map ZoneStats.stringsCount).getD 0) zs0.length 0
      cl1.rtStats.zTotals zs0 0 rfl
      (by
        intro (j : Nat) (z : ZoneStats) h
        obtain ⟨_, _, s, hs, _⟩ := hstr j z h
        exact ⟨by simp [hs], by simp [h]⟩)
      (fun (j : Nat) (z : ZoneStats) _ h => hstr j z h) hpos
      (fun j hj => absurd hj (Nat.not_lt_zero j))
      (fun j hj => absurd hj (Nat.not_lt_zero j))
  have hlen1 : zs1.length = zs0.length := by
    have := congrArg List.length e2
    simpa using this
  have hpt : ∀ j : Nat,
      (zs1[j]?).map ZoneStats.strings = (zs0[j]?).map ZoneStats.strings := by
    intro j
    have := congrArg (fun (l : List (Option StringsHashMap)) => l[j]?) e2
    simpa [List.getElem?_map] using this
  have hm0 : zs0[iMax]? = some zs0[iMax] := List.getElem?_eq_getElem e3
  obtain ⟨zMax1, hm1⟩ : ∃ z, zs1[iMax]? = some z :=
    ⟨_, List.getElem?_eq_getElem (by omega)⟩
  obtain ⟨_, _, table, htab, _⟩ := hstr iMax _ hm0
  have hmax1 : zMax1.strings = some table := by
    have := hpt iMax
    rw [hm0, hm1] at this
    simp only [Option.map_some', Option.some.injEq] at this
    rw [this, htab]
  have hcount : ∀ (j : Nat) (z : ZoneStats), zs0[j]? = some z →
      ((zs0[j]?).map ZoneStats.stringsCount).getD 0 = z.stringsCount := by
    intro j z h
    simp [h]
  have hcm : ((zs0[iMax]?).map ZoneStats.stringsCount).getD 0 = table.count := by
    rw [hcount iMax _ hm0]
    simp [ZoneStats.stringsCount, htab]
  have hset : ∀ j : Nat, (zs1.set iMax { zMax1 with strings := none })[j]? =
      if iMax = j then some { zMax1 with strings := none } else zs1[j]? := by
    intro j
    rw [List.getElem?_set]
    by_cases hij : iMax = j
    · subst hij
      simp [hlen1, e3]
    · simp [hij]
  obtain ⟨zs2, hmr, hl2, hp2⟩ :=
    CollectRuntimeStats.mergeStrings_returns alloc.addStrings iMax
      (zs1.set iMax { zMax1 with strings := none }).length 0
      { zT1 with strings := some table }
      (zs1.set iMax { zMax1 with strings := none }) table rfl rfl
      (by
        intro j z _ hne hj
        rw [hset, if_neg (Ne.symm hne)] at hj
        have := hpt j
        rw [hj] at this
        cases h0 : zs0[j]? with
        | none => rw [h0] at this; simp at this
        | some z0 =>
          rw [h0] at this
          simp only [Option.map_some', Option.some.injEq] at this
          obtain ⟨_, _, s, hs, _⟩ := hstr j z0 h0
          rw [this, hs]
          rfl)
  have hmerged : CollectRuntimeStats.mergedTable alloc.addStrings iMax 0
      ((zs1.set iMax { zMax1 with strings := none }).drop 0) table =
      CollectRuntimeStats.mergedTable alloc.addStrings iMax 0 zs0 table := by
    rw [List.drop_zero]
    apply CollectRuntimeStats.mergedTable_congr
    · simp [hlen1]
    · intro k hk
      rw [hset, if_neg (by omega)]
      exact hpt k
  have hnull : ∀ z ∈ zs2, z.strings = none := by
    intro z hzm
    obtain ⟨j, hj⟩ := List.mem_iff_getElem?.mp hzm
    rw [hp2 j, hset] at hj
    by_cases hij : iMax = j
    · rw [if_pos hij] at hj
      simp only [Option.map_some', Option.some.injEq] at hj
      subst hj
      split <;> rfl
    · rw [if_neg hij] at hj
      cases h1 : zs1[j]? with
      | none => rw [h1] at hj; simp at hj
      | some z1 =>
        rw [h1] at hj
        simp only [Option.map_some', Option.some.injEq] at hj
        subst hj
        rw [if_pos ⟨Nat.zero_le j, Ne.symm hij⟩]
  have hzm : zoneStatsAt zs1 iMax = Except.ok zMax1 := by
    unfold zoneStatsAt
    rw [hm1]
    rfl
  have hT1 : zT1.strings = none := by rw [e1, ht]
  rw [hmerged] at hmr
  have hmr' : CollectRuntimeStats.mergeStrings alloc.addStrings iMax
      (zs1.set iMax { zMax1 with strings := none }).length 0
      ({ zT1 with strings := zMax1.strings },
        zs1.set iMax { zMax1 with strings := none }) =
      Except.ok ({ zT1 with
                    strings := some (CollectRuntimeStats.mergedTable alloc.addStrings iMax 0
                      zs0 table) },
                  zs2) := by
    rw [hmax1]
    exact hmr
  refine ⟨iMax, zs0[iMax], table, zT1, zs1, zMax1,
    { zT1 with
      strings := some (CollectRuntimeStats.mergedTable alloc.addStrings iMax 0 zs0 table) },
    zs2, hr, e2, hm0, htab, ?_, ?_, hm1, ?_, rfl, ?_, hnull, ?_, ?_⟩
  · intro z hzm
    obtain ⟨j, hj⟩ := List.mem_iff_getElem?.mp hzm
    have := e4 j (lt_length_of_getElem? zs0 j z hj)
    rw [hcount j z hj, hcm] at this
    exact this
  · intro j z hj h
    have := e5 j hj
    rw [hcount j z h, hcm] at this
    exact this
  · have : (zs1.set iMax { zMax1 with strings := none }).length = zs1.length := by
      simp
    rw [← this]
    exact hmr
  · rw [hl2]
    simp [hlen1]
  · intro zT3 h5 h6
    exact CollectRuntimeStats.measure_of_stages gc ns alloc heapWalk rt closure cl1 zT1 zs1 iMax
      _ _ zs2 zT3 hw (by rw [hzs0]; exact hr) hT1 hzm hmr' h5 h6
  · intro b r hmeas
    obtain ⟨cl1', zT1', zs1', iMax', zMax', zT2', zs2', zT3', a0, a1, _, a3, a4, _, _, a7, a8,
      _⟩ := CollectRuntimeStats.measure_stages gc ns alloc heapWalk rt closure b r hmeas
    rw [hw] at a0
    cases a0
    rw [hzs0, hr] at a1
    cases a1
    rw [hzm] at a3
    cases a3
    rw [hmr'] at a4
    cases a4
    exact ⟨a8, by rw [a7]⟩

/-- The three zone records of the example are as the heap walk leaves them. -/
theorem Example.threeZones_walked :
    ∀ z ∈ [Example.zoneOneString, Example.zoneBothStrings, Example.zoneOtherStrings],
      z.Walked := by
  intro z hz
  simp only [List.mem_cons, List.mem_singleton, List.not_mem_nil, or_false] at hz
  rcases hz with rfl | rfl | rfl
  · exact ⟨rfl, by unfold ZoneStats.stringsInRange; decide, _, rfl,
      by unfold StringsAccounted; decide⟩
  · exact ⟨rfl, by unfold ZoneStats.stringsInRange; decide, _, rfl,
      by unfold StringsAccounted; decide⟩
  · exact ⟨rfl, by unfold ZoneStats.stringsInRange; decide, _, rfl,
      by unfold StringsAccounted; decide⟩

set_option maxRecDepth 20000 in
/-- C19 on the example: of three zones whose tables have one, two and two entries, the
first loop picks the zone of index 1, and the run returns true with a null `strings` pointer
in `zTotals` and in the three zone records. -/
theorem CollectRuntimeStats_moves_biggest_table_witness :
    (CollectRuntimeStats.sumZones 4096 Example.allocationsSucceed.growBy 3 0
        (ZoneStats.new, [Example.zoneOneString, Example.zoneBothStrings,
          Example.zoneOtherStrings], 0)).map (fun state => state.2.2) = Except.ok 1 ∧
    CollectRuntimeStats.measure Example.layout 4096 Example.allocationsSucceed
        Example.heapWalkThreeZones Example.runtime Example.closureNew =
      Except.ok (true, Example.threeZonesAfter) ∧
    Example.threeZonesAfter.zTotals.strings = none ∧
    Example.threeZonesAfter.zoneStatsVector.map ZoneStats.strings = [none, none, none] :=
  ⟨rfl, rfl,
    match CollectRuntimeStats_moves_biggest_table Example.layout 4096
        Example.allocationsSucceed Example.heapWalkThreeZones Example.runtime
        Example.closureNew
        { Example.closureNew with
          rtStats := { Example.closureNew.rtStats with
            zoneStatsVector :=
              [Example.zoneOneString, Example.zoneBothStrings, Example.zoneOtherStrings] } }
        rfl (by decide) Example.threeZones_walked rfl with
    | ⟨_, _, _, _, _, _, _, _, _, _, _, _, _, _, _, _, _, _, _, _, h⟩ =>
      (h true Example.threeZonesAfter rfl).2,
    rfl⟩

/-! ## Theorems: unused things and arena admin of one arena -/

/-- A JitCode cell in a build without `JS_ION`: the switch charges nothing, and the cell's
size still comes off the unused things of the current zone. -/
theorem StatsCellCallback.jitcode_without_ion (g : Granularity) (a : Bool) (cl : StatsClosure)
    (n zi : Nat) (z : ZoneStats) (hc : cl.rtStats.currZoneStats = some zi)
    (hz : cl.rtStats.zoneStatsVector[zi]? = some z) :
    StatsCellCallback g false a cl Cell.JSTRACE_JITCODE n =
      Except.ok { cl with
        rtStats := cl.rtStats.storeZoneStats zi
          { z with unusedGCThings := sizeSub z.unusedGCThings n } } := by
  have hd := (RuntimeStats.derefCurrZoneStats_ok _ _ _).mpr ⟨hc, hz⟩
  unfold StatsCellCallback StatsCellCallback.switch_
  simp [hd, bind, Except.bind, pure, Except.pure]

/-- One cell visit on a closure with a current zone, for a cell that can be visited: the
visit returns, the current zone stays, its unused things go down by the cell's size (in
`size_t`), its arena admin stays, and what later visits rely on is kept. -/
theorem StatsCellCallback.cell_step (g : Granularity) (J a : Bool) (cl : StatsClosure)
    (cell : Cell) (n zi : Nat) (z : ZoneStats) (hc : cl.rtStats.currZoneStats = some zi)
    (hz : cl.rtStats.zoneStatsVector[zi]? = some z) (hv : cl.canVisit g cell) :
    ∃ cl2 z2, StatsCellCallback g J a cl cell n = Except.ok cl2 ∧
      cl2.rtStats.currZoneStats = some zi ∧ cl2.rtStats.zoneStatsVector[zi]? = some z2 ∧
      z2.unusedGCThings = sizeSub z.unusedGCThings n ∧
      z2.gcHeapArenaAdmin = z.gcHeapArenaAdmin ∧
      ∀ g' cell', cl.canVisit g' cell' → cl2.canVisit g' cell' := by
  have hlen := lt_length_of_getElem? _ _ _ hz
  by_cases hjit : J = true ∨ cell ≠ Cell.JSTRACE_JITCODE
  · obtain ⟨cl2, h⟩ := StatsCellCallback.cell_returns g J a cl cell n hjit ⟨zi, z, hc, hz⟩ hv
    obtain ⟨zi', z', e1, e2, e3, hcase⟩ := StatsCellCallback.cell_effect g J a cl cl2 cell n hjit h
    rw [hc] at e1
    have e := Option.some.inj e1
    subst e
    rw [hz] at e2
    have e' := Option.some.inj e2
    subst e'
    have hk := (StatsCellCallback.cell_keeps_canVisit g J a cl cl2 cell n hjit h).2
    rcases hcase with ⟨k, z1, _, hzs, _, hch⟩ | ⟨ci, k, c, c', _, _, _, hzs, _⟩
    · refine ⟨cl2, { z1 with unusedGCThings := sizeSub z1.unusedGCThings n }, h, e3,
        by rw [hzs, List.getElem?_set_self hlen], ?_, hch.2.2.2.1, hk⟩
      show sizeSub z1.unusedGCThings n = sizeSub z.unusedGCThings n
      rw [hch.2.2.1]
    · exact ⟨cl2, { z with unusedGCThings := sizeSub z.unusedGCThings n }, h, e3,
        by rw [hzs, List.getElem?_set_self hlen], rfl, rfl, hk⟩
  · have hJ : J = false := by
      cases J with
      | false => rfl
      | true => exact absurd (Or.inl rfl) hjit
    have hcell : cell = Cell.JSTRACE_JITCODE := by
      by_contra hne
      exact hjit (Or.inr hne)
    subst hJ
    subst hcell
    refine ⟨_, { z with unusedGCThings := sizeSub z.unusedGCThings n },
      StatsCellCallback.jitcode_without_ion g a cl n zi z hc hz, hc, ?_, rfl, rfl, ?_⟩
    · show (cl.rtStats.zoneStatsVector.set zi _)[zi]? = _
      rw [List.getElem?_set_self hlen]
    · intro g' cell' hv'
      cases cell' with
      | JSTRACE_OBJECT obj => exact hv'
      | JSTRACE_STRING str sz =>
        refine ⟨hv'.1, fun hg => ?_⟩
        obtain ⟨zi', z', e1, e2, e3⟩ := hv'.2 hg
        rw [hc] at e1
        have e := Option.some.inj e1
        subst e
        rw [hz] at e2
        have e' := Option.some.inj e2
        subst e'
        exact ⟨zi, { z with unusedGCThings := sizeSub z.unusedGCThings n }, hc, by
          show (cl.rtStats.zoneStatsVector.set zi _)[zi]? = _
          rw [List.getElem?_set_self hlen], e3⟩
      | JSTRACE_SHAPE shape => exact hv'
      | JSTRACE_BASE_SHAPE comp => exact hv'
      | JSTRACE_SCRIPT script => exact hv'
      | JSTRACE_LAZY_SCRIPT _ => exact True.intro
      | JSTRACE_JITCODE => exact True.intro
      | JSTRACE_TYPE_OBJECT _ => exact True.intro
      | invalid _ => exact hv'

/-- The visits of the live cells of an arena: they return, and the unused things of the
current zone go down by the cells' sizes, in `size_t` arithmetic and exactly when the zone has
that many unused bytes; the arena admin stays. -/
theorem visitCells.cells_unused (g : Granularity) (J : Bool) (n : Nat) :
    ∀ (cells : List (Cell × Bool)) (cl : StatsClosure) (zi : Nat) (z : ZoneStats),
      cl.rtStats.currZoneStats = some zi → cl.rtStats.zoneStatsVector[zi]? = some z →
      (∀ c ∈ cells, cl.canVisit g c.1) →
      ∃ cl' z', visitCells g J n cells cl = Except.ok cl' ∧
        cl'.rtStats.currZoneStats = some zi ∧ cl'.rtStats.zoneStatsVector[zi]? = some z' ∧
        z'.unusedGCThings + cells.length * n ≡ z.unusedGCThings [MOD SIZE_MAX1] ∧
        z'.gcHeapArenaAdmin = z.gcHeapArenaAdmin ∧
        (cells.length * n ≤ z.unusedGCThings → z.unusedGCThings < SIZE_MAX1 →
          z'.unusedGCThings = z.unusedGCThings - cells.length * n) := by
  intro cells
  induction cells with
  | nil =>
    intro cl zi z hc hz _
    exact ⟨cl, z, rfl, hc, hz, by simp [Nat.ModEq], rfl, fun _ _ => by simp⟩
  | cons c rest ih =>
    intro cl zi z hc hz hv
    obtain ⟨cell, a⟩ := c
    obtain ⟨cl2, z2, h, c2, hz2, hu, ha, hk⟩ :=
      StatsCellCallback.cell_step g J a cl cell n zi z hc hz (hv (cell, a) (List.mem_cons_self _ _))
    obtain ⟨cl', z', h', c', hz', hu', ha', hx'⟩ := ih cl2 zi z2 c2 hz2
      (fun c hc' => hk g c.1 (hv c (List.mem_cons_of_mem _ hc')))
    refine ⟨cl', z', ?_, c', hz', ?_, by rw [ha', ha], ?_⟩
    · simp only [visitCells, bind, Except.bind]
      rw [h]
      exact h'
    · have m := sizeSub_add_modEq z.unusedGCThings n
      rw [← hu] at m
      simp only [List.length_cons]
      simp only [Nat.ModEq, SIZE_MAX1, Nat.reducePow] at hu' m ⊢
      have e : (rest.length + 1) * n = rest.length * n + n := by ring
      rw [e]
      omega
    · intro hfit hlt
      simp only [List.length_cons] at hfit ⊢
      have e : (rest.length + 1) * n = rest.length * n + n := by ring
      rw [e] at hfit ⊢
      have s := sizeSub_of_le z.unusedGCThings n (by omega) hlt
      rw [← hu] at s
      rw [hx' (by omega) (by omega), s]
      omega

/-! ## C17 -/

/-- C17: on a closure whose current zone is the record `z`, and for live cells that can be
visited, `StatsArenaCallback` on an arena followed by `StatsCellCallback` on each of its
live cells returns, and in the record of the current zone `unusedGCThings` has grown by
`thingsSpan(thingSize)` minus the sizes of the live cells (each of `thingSize` bytes), and
`gcHeapArenaAdmin` by `gc::ArenaSize - thingsSpan(thingSize)`: always so in `size_t`
arithmetic (modulo `2^64`), and exactly so as numbers when the live cells fit in the span,
the span fits in the arena and neither counter overflows. -/
theorem arena_unused_things_and_admin (gc : GCLayout) (g : Granularity) (J : Bool) (n : Nat)
    (cells : List (Cell × Bool)) (cl : StatsClosure) (zi : Nat) (z : ZoneStats)
    (hc : cl.rtStats.currZoneStats = some zi) (hz : cl.rtStats.zoneStatsVector[zi]? = some z)
    (hv : ∀ c ∈ cells, cl.canVisit g c.1) :
    ∃ cl' z', visitArena gc g J n cells cl = Except.ok cl' ∧
      cl'.rtStats.currZoneStats = some zi ∧ cl'.rtStats.zoneStatsVector[zi]? = some z' ∧
      z'.unusedGCThings + cells.length * n ≡
        z.unusedGCThings + gc.thingsSpan n [MOD SIZE_MAX1] ∧
      z'.gcHeapArenaAdmin + gc.thingsSpan n ≡
        z.gcHeapArenaAdmin + gc.ArenaSize [MOD SIZE_MAX1] ∧
      (cells.length * n ≤ gc.thingsSpan n →
        z.unusedGCThings + gc.thingsSpan n < SIZE_MAX1 →
        z'.unusedGCThings = z.unusedGCThings + (gc.thingsSpan n - cells.length * n)) ∧
      (gc.thingsSpan n ≤ gc.ArenaSize → z.gcHeapArenaAdmin + gc.ArenaSize < SIZE_MAX1 →
        z'.gcHeapArenaAdmin = z.gcHeapArenaAdmin + (gc.ArenaSize - gc.thingsSpan n)) := by
  have hlen := lt_length_of_getElem? _ _ _ hz
  obtain ⟨cl1, h1, _, k2⟩ := StatsArenaCallback.arena_returns gc cl n ⟨zi, z, hc, hz⟩
  obtain ⟨zi', z0, e1, e2, c1, hzs, _⟩ := StatsArenaCallback.arena_effect gc cl cl1 n h1
  rw [hc] at e1
  have e := Option.some.inj e1
  subst e
  rw [hz] at e2
  have e' := Option.some.inj e2
  subst e'
  have hz1 : cl1.rtStats.zoneStatsVector[zi]? = some
      { z with
        gcHeapArenaAdmin := sizeAdd z.gcHeapArenaAdmin (sizeSub gc.ArenaSize (gc.thingsSpan n)),
        unusedGCThings := sizeAdd z.unusedGCThings (gc.thingsSpan n) } := by
    rw [hzs, List.getElem?_set_self hlen]
  obtain ⟨cl', z', h', c', hz', hu, ha, hx⟩ := visitCells.cells_unused g J n cells cl1 zi _ c1 hz1
    (fun c hc' => k2 g c.1 (hv c hc'))
  have hu' : z'.unusedGCThings + cells.length * n ≡
      sizeAdd z.unusedGCThings (gc.thingsSpan n) [MOD SIZE_MAX1] := hu
  have ha' : z'.gcHeapArenaAdmin =
      sizeAdd z.gcHeapArenaAdmin (sizeSub gc.ArenaSize (gc.thingsSpan n)) := ha
  have hx' : cells.length * n ≤ sizeAdd z.unusedGCThings (gc.thingsSpan n) →
      sizeAdd z.unusedGCThings (gc.thingsSpan n) < SIZE_MAX1 →
      z'.unusedGCThings = sizeAdd z.unusedGCThings (gc.thingsSpan n) - cells.length * n := hx
  refine ⟨cl', z', ?_, c', hz', ?_, ?_, ?_, ?_⟩
  · unfold visitArena
    simp only [bind, Except.bind]
    rw [h1]
    exact h'
  · exact hu'.trans (sizeAdd_modEq _ _)
  · rw [ha']
    have m1 := sizeAdd_modEq z.gcHeapArenaAdmin (sizeSub gc.ArenaSize (gc.thingsSpan n))
    have m2 := sizeSub_add_modEq gc.ArenaSize (gc.thingsSpan n)
    generalize sizeAdd z.gcHeapArenaAdmin (sizeSub gc.ArenaSize (gc.thingsSpan n)) = s at m1 ⊢
    generalize sizeSub gc.ArenaSize (gc.thingsSpan n) = d at m1 m2
    simp only [Nat.ModEq, SIZE_MAX1, Nat.reducePow] at m1 m2 ⊢
    omega
  · intro hfit hlt
    have s := sizeAdd_of_lt _ _ hlt
    rw [s] at hx'
    rw [hx' (by omega) hlt]
    omega
  · intro hspan hlt
    have s := sizeSub_of_le gc.ArenaSize (gc.thingsSpan n) hspan (by omega)
    rw [ha', s]
    exact sizeAdd_of_lt _ _ (by omega)

/-- C17 on the example: the arena of 32-byte things with three live cells adds
4064 - 96 = 3968 bytes to `unusedGCThings` and 4096 - 4064 = 32 bytes to `gcHeapArenaAdmin`
of the current zone. -/
theorem arena_unused_things_and_admin_witness :
    ∃ cl' z', visitArena Example.layout Granularity.FineGrained true 32 Example.cells
        Example.closure0 = Except.ok cl' ∧
      cl'.rtStats.zoneStatsVector[0]? = some z' ∧
      z'.unusedGCThings = 0 + (4064 - 3 * 32) ∧ z'.gcHeapArenaAdmin = 0 + (4096 - 4064) :=
  match arena_unused_things_and_admin Example.layout Granularity.FineGrained true 32
      Example.cells Example.closure0 0 _ rfl rfl Example.cells_canVisit with
  | ⟨cl', z', h1, _, h3, _, _, h6, h7⟩ =>
    ⟨cl', z', h1, h3, h6 (by decide) (by decide), h7 (by decide) (by decide)⟩

/-! ## Theorems: the two granularities of `StatsCellCallback` -/

/-- Dereferencing `currZoneStats` after the strings tables are taken away gives the same
record without its table. -/
theorem RuntimeStats.derefCurrZoneStats_withoutStrings (r : RuntimeStats) :
    r.withoutStrings.derefCurrZoneStats =
      (r.derefCurrZoneStats).map (fun p => (p.1, p.2.withoutStrings)) := by
  unfold RuntimeStats.derefCurrZoneStats RuntimeStats.withoutStrings
  cases hc : r.currZoneStats with
  | none => rfl
  | some i =>
    simp only [List.getElem?_map]
    cases hz : r.zoneStatsVector[i]? with
    | none => rfl
    | some z => rfl

/-- Taking the strings tables away does not change what `GetCompartmentStats` finds. -/
theorem GetCompartmentStats_withoutStrings (r : RuntimeStats) (comp : JSCompartment) :
    GetCompartmentStats r.withoutStrings comp = GetCompartmentStats r comp := rfl

/-- Writing a zone record commutes with taking the strings tables away. -/
theorem RuntimeStats.storeZoneStats_withoutStrings (r : RuntimeStats) (i : Nat) (z : ZoneStats) :
    (r.storeZoneStats i z).withoutStrings = r.withoutStrings.storeZoneStats i z.withoutStrings := by
  simp [RuntimeStats.storeZoneStats, RuntimeStats.withoutStrings, List.map_set]

/-- Writing a compartment record commutes with taking the strings tables away. -/
theorem RuntimeStats.storeCompartmentStats_withoutStrings (r : RuntimeStats) (i : Nat)
    (c : CompartmentStats) :
    (r.storeCompartmentStats i c).withoutStrings = r.withoutStrings.storeCompartmentStats i c :=
  rfl

/-- The coarse-grained string case leaves the `strings` pointer as it is and gives the same
counters whether or not the record has a table. -/
theorem StatsCellCallback.caseString_coarse (a : Bool) (str : JSString) (sz n : Nat)
    (z : ZoneStats) :
    StatsCellCallback.caseString Granularity.CoarseGrained a str sz n z.withoutStrings =
        (StatsCellCallback.caseString Granularity.CoarseGrained a str sz n z).map
          ZoneStats.withoutStrings ∧
      ∀ z', StatsCellCallback.caseString Granularity.CoarseGrained a str sz n z = Except.ok z' →
        z'.strings = z.strings := by
  unfold StatsCellCallback.caseString ZoneStats.withoutStrings
  cases hs : str.isShort <;> cases hsz : (sz == 0) <;>
    simp [hs, hsz, MOZ_ASSERT, JS_ASSERT, bind, Except.bind, pure, Except.pure, throw,
      throwThe, MonadExceptOf.throw, Except.map]

/-- The fine-grained string case is the coarse-grained one followed by the hashing of the
string into the table of the record, which has to be there. -/
theorem StatsCellCallback.caseString_fine (a : Bool) (str : JSString) (sz n : Nat)
    (z : ZoneStats) :
    StatsCellCallback.caseString Granularity.FineGrained a str sz n z =
      (StatsCellCallback.caseString Granularity.CoarseGrained a str sz n z) >>= fun zc =>
        match zc.strings with
        | none => Except.error Failure.nullPointer
        | some strings =>
          Except.ok { zc with
            strings := some (StatsCellCallback.hashString a str str.isShort n sz strings) } := by
  unfold StatsCellCallback.caseString
  cases hs : str.isShort <;> cases hsz : (sz == 0) <;> cases hst : z.strings <;>
    simp [hs, hsz, hst, MOZ_ASSERT, JS_ASSERT, bind, Except.bind, pure, Except.pure, throw,
      throwThe, MonadExceptOf.throw]

/-- The tail of the script case commutes with taking the strings tables away. -/
theorem StatsCellCallback.caseScriptSource_withoutStrings (a : Bool) (script : JSScript)
    (cl : StatsClosure) :
    StatsCellCallback.caseScriptSource a script cl.withoutStrings =
      (StatsCellCallback.caseScriptSource a script cl).withoutStrings := by
  unfold StatsCellCallback.caseScriptSource
  by_cases h : cl.seenSources.contains script.scriptSource
  · have h' : cl.withoutStrings.seenSources.contains script.scriptSource = true := h
    rw [if_pos h, if_pos h']
  · have h' : ¬ cl.withoutStrings.seenSources.contains script.scriptSource = true := h
    rw [if_neg h, if_neg h']
    rfl

/-- The coarse-grained switch never reads a strings table: it commutes with taking the
tables away. -/
theorem StatsCellCallback.switch_withoutStrings (J a : Bool) (cl : StatsClosure) (cell : Cell)
    (n : Nat) :
    StatsCellCallback.switch_ Granularity.CoarseGrained J a cl.withoutStrings cell n =
      (StatsCellCallback.switch_ Granularity.CoarseGrained J a cl cell n).map
        StatsClosure.withoutStrings := by
  unfold StatsCellCallback.switch_
  dsimp only
  have hd := RuntimeStats.derefCurrZoneStats_withoutStrings cl.rtStats
  have hd' : cl.withoutStrings.rtStats.derefCurrZoneStats =
      (cl.rtStats.derefCurrZoneStats).map (fun p => (p.1, p.2.withoutStrings)) := hd
  rw [hd']
  cases hz : cl.rtStats.derefCurrZoneStats with
  | error e => rfl
  | ok p =>
    obtain ⟨zi, z⟩ := p
    simp only [Except.map, bind, Except.bind]
    cases cell with
    | JSTRACE_OBJECT obj =>
      simp only
      have hg : GetCompartmentStats cl.withoutStrings.rtStats obj.compartment =
          GetCompartmentStats cl.rtStats obj.compartment := rfl
      rw [hg]
      cases hc : GetCompartmentStats cl.rtStats obj.compartment with
      | error e => rfl
      | ok q => rfl
    | JSTRACE_STRING str sz =>
      simp only
      rw [(StatsCellCallback.caseString_coarse a str sz n z).1]
      cases hs : StatsCellCallback.caseString Granularity.CoarseGrained a str sz n z with
      | error e => rfl
      | ok z' =>
        simp only [Except.map, pure, Except.pure, Except.ok.injEq]
        show _ = StatsClosure.withoutStrings _
        simp only [StatsClosure.withoutStrings, RuntimeStats.storeZoneStats_withoutStrings]
    | JSTRACE_SHAPE shape =>
      simp only
      have hg : GetCompartmentStats cl.withoutStrings.rtStats shape.compartment =
          GetCompartmentStats cl.rtStats shape.compartment := rfl
      rw [hg]
      cases hc : GetCompartmentStats cl.rtStats shape.compartment with
      | error e => rfl
      | ok q => rfl
    | JSTRACE_BASE_SHAPE comp =>
      simp only
      have hg : GetCompartmentStats cl.withoutStrings.rtStats comp =
          GetCompartmentStats cl.rtStats comp := rfl
      rw [hg]
      cases hc : GetCompartmentStats cl.rtStats comp with
      | error e => rfl
      | ok q => rfl
    | JSTRACE_SCRIPT script =>
      simp only
      have hg : GetCompartmentStats cl.withoutStrings.rtStats script.compartment =
          GetCompartmentStats cl.rtStats script.compartment := rfl
      rw [hg]
      cases hc : GetCompartmentStats cl.rtStats script.compartment with
      | error e => rfl
      | ok q =>
        simp only [pure, Except.pure, Except.ok.injEq]
        exact StatsCellCallback.caseScriptSource_withoutStrings a script
          { cl with
            rtStats := cl.rtStats.storeCompartmentStats q.1
              (StatsCellCallback.caseScript J script n q.2) }
    | JSTRACE_LAZY_SCRIPT sz =>
      simp only [pure, Except.pure, Except.ok.injEq]
      show _ = StatsClosure.withoutStrings _
      simp only [StatsClosure.withoutStrings, RuntimeStats.storeZoneStats_withoutStrings]
      rfl
    | JSTRACE_JITCODE =>
      cases J with
      | false => rfl
      | true =>
        simp only [if_true, pure, Except.pure, Except.ok.injEq]
        show _ = StatsClosure.withoutStrings _
        simp only [StatsClosure.withoutStrings, RuntimeStats.storeZoneStats_withoutStrings]
        rfl
    | JSTRACE_TYPE_OBJECT sz =>
      simp only [pure, Except.pure, Except.ok.injEq]
      show _ = StatsClosure.withoutStrings _
      simp only [StatsClosure.withoutStrings, RuntimeStats.storeZoneStats_withoutStrings]
      rfl
    | invalid k => rfl

/-- The coarse-grained `StatsCellCallback` never reads a strings table: it commutes with
taking the tables away. -/
theorem StatsCellCallback.coarse_withoutStrings (J a : Bool) (cl : StatsClosure) (cell : Cell)
    (n : Nat) :
    StatsCellCallback Granularity.CoarseGrained J a cl.withoutStrings cell n =
      (StatsCellCallback Granularity.CoarseGrained J a cl cell n).map
        StatsClosure.withoutStrings := by
  unfold StatsCellCallback
  rw [StatsCellCallback.switch_withoutStrings]
  cases hs : StatsCellCallback.switch_ Granularity.CoarseGrained J a cl cell n with
  | error e => rfl
  | ok cl1 =>
    simp only [Except.map, bind, Except.bind]
    have hd : cl1.withoutStrings.rtStats.derefCurrZoneStats =
        (cl1.rtStats.derefCurrZoneStats).map (fun p => (p.1, p.2.withoutStrings)) :=
      RuntimeStats.derefCurrZoneStats_withoutStrings cl1.rtStats
    rw [hd]
    cases hz : cl1.rtStats.derefCurrZoneStats with
    | error e => rfl
    | ok p =>
      simp only [Except.map, pure, Except.pure, Except.ok.injEq]
      show _ = StatsClosure.withoutStrings _
      simp only [StatsClosure.withoutStrings, RuntimeStats.storeZoneStats_withoutStrings]
      rfl

/-- On a cell that is not a string the two instances of `StatsCellCallback` are the same
function. -/
theorem StatsCellCallback.fine_eq_coarse (J a : Bool) (cl : StatsClosure) (cell : Cell) (n : Nat)
    (h : ∀ str sz, cell ≠ Cell.JSTRACE_STRING str sz) :
    StatsCellCallback Granularity.FineGrained J a cl cell n =
      StatsCellCallback Granularity.CoarseGrained J a cl cell n := by
  have hs : StatsCellCallback.switch_ Granularity.FineGrained J a cl cell n =
      StatsCellCallback.switch_ Granularity.CoarseGrained J a cl cell n := by
    cases cell with
    | JSTRACE_STRING str sz => exact absurd rfl (h str sz)
    | JSTRACE_OBJECT obj => rfl
    | JSTRACE_SHAPE shape => rfl
    | JSTRACE_BASE_SHAPE comp => rfl
    | JSTRACE_SCRIPT script => rfl
    | JSTRACE_LAZY_SCRIPT sz => rfl
    | JSTRACE_JITCODE => rfl
    | JSTRACE_TYPE_OBJECT sz => rfl
    | invalid k => rfl
  unfold StatsCellCallback
  rw [hs]

/-- The function `StatsCellCallback` on a string cell: the string case on the record of the
current zone, and the subtraction from its unused things. -/
theorem StatsCellCallback.string_eq (g : Granularity) (J a : Bool) (cl : StatsClosure)
    (str : JSString) (sz n : Nat) :
    StatsCellCallback g J a cl (Cell.JSTRACE_STRING str sz) n =
      cl.rtStats.derefCurrZoneStats >>= fun p =>
        StatsCellCallback.caseString g a str sz n p.2 >>= fun z' =>
          Except.ok { cl with
            rtStats := cl.rtStats.storeZoneStats p.1
              { z' with unusedGCThings := sizeSub z'.unusedGCThings n } } := by
  unfold StatsCellCallback StatsCellCallback.switch_
  dsimp only
  cases hz : cl.rtStats.derefCurrZoneStats with
  | error e => rfl
  | ok p =>
    obtain ⟨zi, z⟩ := p
    obtain ⟨hz1, hz2⟩ := (RuntimeStats.derefCurrZoneStats_ok _ _ _).mp hz
    have hlen := lt_length_of_getElem? _ _ _ hz2
    simp only [bind, Except.bind]
    cases hs : StatsCellCallback.caseString g a str sz n z with
    | error e => rfl
    | ok z' =>
      have hd : (cl.rtStats.storeZoneStats zi z').derefCurrZoneStats = Except.ok (zi, z') :=
        (RuntimeStats.derefCurrZoneStats_ok _ _ _).mpr
          ⟨hz1, by
            show (cl.rtStats.zoneStatsVector.set zi z')[zi]? = some z'
            rw [List.getElem?_set_self hlen]⟩
      simp only [pure, Except.pure, hd, Except.ok.injEq]
      simp [RuntimeStats.storeZoneStats, List.set_set]

/-- The coarse-grained switch leaves the `strings` pointer of every zone record, and the
table it points to, as they are. -/
theorem StatsCellCallback.switch_keeps_strings (J a : Bool) (cl cl1 : StatsClosure)
    (cell : Cell) (n : Nat)
    (h : StatsCellCallback.switch_ Granularity.CoarseGrained J a cl cell n = Except.ok cl1) :
    cl1.rtStats.zoneStatsVector.map ZoneStats.strings =
      cl.rtStats.zoneStatsVector.map ZoneStats.strings := by
  unfold StatsCellCallback.switch_ at h
  dsimp only at h
  cases hz : cl.rtStats.derefCurrZoneStats with
  | error e => rw [hz] at h; simp [bind, Except.bind] at h
  | ok p =>
    obtain ⟨zi, z⟩ := p
    rw [hz] at h
    obtain ⟨hz1, hz2⟩ := (RuntimeStats.derefCurrZoneStats_ok _ _ _).mp hz
    simp only [bind, Except.bind] at h
    cases cell with
    | JSTRACE_OBJECT obj =>
      simp only at h
      cases hc : GetCompartmentStats cl.rtStats obj.compartment with
      | error e => rw [hc] at h; simp at h
      | ok q =>
        rw [hc] at h
        simp only [pure, Except.pure, Except.ok.injEq] at h
        subst h
        rfl
    | JSTRACE_STRING str sz =>
      simp only at h
      cases hs : StatsCellCallback.caseString Granularity.CoarseGrained a str sz n z with
      | error e => rw [hs] at h; simp at h
      | ok z' =>
        rw [hs] at h
        simp only [pure, Except.pure, Except.ok.injEq] at h
        subst h
        exact map_set_of_eq ZoneStats.strings _ zi z z' hz2
          ((StatsCellCallback.caseString_coarse a str sz n z).2 z' hs)
    | JSTRACE_SHAPE shape =>
      simp only at h
      cases hc : GetCompartmentStats cl.rtStats shape.compartment with
      | error e => rw [hc] at h; simp at h
      | ok q =>
        rw [hc] at h
        simp only [pure, Except.pure, Except.ok.injEq] at h
        subst h
        rfl
    | JSTRACE_BASE_SHAPE comp =>
      simp only at h
      cases hc : GetCompartmentStats cl.rtStats comp with
      | error e => rw [hc] at h; simp at h
      | ok q =>
        rw [hc] at h
        simp only [pure, Except.pure, Except.ok.injEq] at h
        subst h
        rfl
    | JSTRACE_SCRIPT script =>
      simp only at h
      cases hc : GetCompartmentStats cl.rtStats script.compartment with
      | error e => rw [hc] at h; simp at h
      | ok q =>
        rw [hc] at h
        simp only [pure, Except.pure, Except.ok.injEq] at h
        subst h
        unfold StatsCellCallback.caseScriptSource
        split <;> rfl
    | JSTRACE_LAZY_SCRIPT sz =>
      simp only [pure, Except.pure, Except.ok.injEq] at h
      subst h
      exact map_set_of_eq ZoneStats.strings _ zi z _ hz2 rfl
    | JSTRACE_JITCODE =>
      cases J with
      | false =>
        simp only [Bool.false_eq_true, if_false, pure, Except.pure, Except.ok.injEq] at h
        subst h
        rfl
      | true =>
        simp only [if_true, pure, Except.pure, Except.ok.injEq] at h
        subst h
        exact map_set_of_eq ZoneStats.strings _ zi z _ hz2 rfl
    | JSTRACE_TYPE_OBJECT sz =>
      simp only [pure, Except.pure, Except.ok.injEq] at h
      subst h
      exact map_set_of_eq ZoneStats.strings _ zi z _ hz2 rfl
    | invalid k => simp [throw, throwThe, MonadExceptOf.throw] at h

/-- The coarse-grained `StatsCellCallback` leaves the `strings` pointer of every zone
record, and the table it points to, as they are. -/
theorem StatsCellCallback.coarse_keeps_strings (J a : Bool) (cl clC : StatsClosure)
    (cell : Cell) (n : Nat)
    (h : StatsCellCallback Granularity.CoarseGrained J a cl cell n = Except.ok clC) :
    clC.rtStats.zoneStatsVector.map ZoneStats.strings =
      cl.rtStats.zoneStatsVector.map ZoneStats.strings := by
  unfold StatsCellCallback at h
  cases hs : StatsCellCallback.switch_ Granularity.CoarseGrained J a cl cell n with
  | error e => rw [hs] at h; simp [bind, Except.bind] at h
  | ok cl1 =>
    rw [hs] at h
    simp only [bind, Except.bind] at h
    cases hd : cl1.rtStats.derefCurrZoneStats with
    | error e => rw [hd] at h; simp at h
    | ok p =>
      obtain ⟨zi, z⟩ := p
      rw [hd] at h
      obtain ⟨_, hz2⟩ := (RuntimeStats.derefCurrZoneStats_ok _ _ _).mp hd
      simp only [pure, Except.pure, Except.ok.injEq] at h
      subst h
      rw [← StatsCellCallback.switch_keeps_strings J a cl cl1 cell n hs]
      exact map_set_of_eq ZoneStats.strings _ zi z _ hz2 rfl

/-! ## C18 -/

/-- C18: the two instances of `StatsCellCallback` differ only in the string hashing. On
every cell and every closure: when the fine-grained instance returns, so does the
coarse-grained one, and the two results agree in everything but the strings tables (every
byte counter of the zone and compartment records and of the runtime sizes, `unusedGCThings`
included); when the coarse-grained instance returns and the current zone has its strings
table, the fine-grained one returns too; the coarse-grained instance leaves every strings
table as it is, and its result does not depend on the tables: it commutes with taking them
away. -/
theorem StatsCellCallback_granularities_agree (J a : Bool) (cl : StatsClosure) (cell : Cell)
    (n : Nat) :
    (∀ clF, StatsCellCallback Granularity.FineGrained J a cl cell n = Except.ok clF →
      ∃ clC, StatsCellCallback Granularity.CoarseGrained J a cl cell n = Except.ok clC ∧
        clC.withoutStrings = clF.withoutStrings) ∧
    (∀ clC, StatsCellCallback Granularity.CoarseGrained J a cl cell n = Except.ok clC →
      clC.rtStats.zoneStatsVector.map ZoneStats.strings =
          cl.rtStats.zoneStatsVector.map ZoneStats.strings ∧
        ((∀ zi z, cl.rtStats.currZoneStats = some zi → cl.rtStats.zoneStatsVector[zi]? = some z →
            z.strings.isSome = true) →
          ∃ clF, StatsCellCallback Granularity.FineGrained J a cl cell n = Except.ok clF ∧
            clF.withoutStrings = clC.withoutStrings)) ∧
    StatsCellCallback Granularity.CoarseGrained J a cl.withoutStrings cell n =
      (StatsCellCallback Granularity.CoarseGrained J a cl cell n).map
        StatsClosure.withoutStrings := by
  refine ⟨?_, ?_, StatsCellCallback.coarse_withoutStrings J a cl cell n⟩
  · intro clF hF
    by_cases hstr : ∀ str sz, cell ≠ Cell.JSTRACE_STRING str sz
    · rw [StatsCellCallback.fine_eq_coarse J a cl cell n hstr] at hF
      exact ⟨clF, hF, rfl⟩
    · push_neg at hstr
      obtain ⟨str, sz, rfl⟩ := hstr
      rw [StatsCellCallback.string_eq] at hF ⊢
      cases hz : cl.rtStats.derefCurrZoneStats with
      | error e => rw [hz] at hF; simp [bind, Except.bind] at hF
      | ok p =>
        rw [hz] at hF
        simp only [bind, Except.bind] at hF ⊢
        rw [StatsCellCallback.caseString_fine] at hF
        cases hs : StatsCellCallback.caseString Granularity.CoarseGrained a str sz n p.2 with
        | error e => rw [hs] at hF; simp [bind, Except.bind] at hF
        | ok zc =>
          rw [hs] at hF
          simp only [bind, Except.bind] at hF
          cases ht : zc.strings with
          | none => rw [ht] at hF; simp at hF
          | some t =>
            rw [ht] at hF
            simp only [Except.ok.injEq] at hF
            subst hF
            refine ⟨_, rfl, ?_⟩
            simp only [StatsClosure.withoutStrings, RuntimeStats.storeZoneStats_withoutStrings]
            rfl
  · intro clC hC
    refine ⟨StatsCellCallback.coarse_keeps_strings J a cl clC cell n hC, ?_⟩
    intro htab
    by_cases hstr : ∀ str sz, cell ≠ Cell.JSTRACE_STRING str sz
    · rw [StatsCellCallback.fine_eq_coarse J a cl cell n hstr]
      exact ⟨clC, hC, rfl⟩
    · push_neg at hstr
      obtain ⟨str, sz, rfl⟩ := hstr
      rw [StatsCellCallback.string_eq] at hC ⊢
      cases hz : cl.rtStats.derefCurrZoneStats with
      | error e => rw [hz] at hC; simp [bind, Except.bind] at hC
      | ok p =>
        obtain ⟨zi, z⟩ := p
        obtain ⟨hz1, hz2⟩ := (RuntimeStats.derefCurrZoneStats_ok _ _ _).mp hz
        rw [hz] at hC
        simp only [bind, Except.bind] at hC ⊢
        rw [StatsCellCallback.caseString_fine]
        cases hs : StatsCellCallback.caseString Granularity.CoarseGrained a str sz n z with
        | error e => rw [hs] at hC; simp at hC
        | ok zc =>
          rw [hs] at hC
          simp only [Except.ok.injEq] at hC
          subst hC
          have hzc := (StatsCellCallback.caseString_coarse a str sz n z).2 zc hs
          obtain ⟨t, ht⟩ := Option.isSome_iff_exists.mp (htab zi z hz1 hz2)
          rw [ht] at hzc
          simp only [bind, Except.bind, hzc]
          refine ⟨_, rfl, ?_⟩
          simp only [StatsClosure.withoutStrings, RuntimeStats.storeZoneStats_withoutStrings]
          rfl

/-- C18 on the example: the fine-grained visit of the short string puts it in the strings
table; the coarse-grained visit returns the same closure but for the table. -/
theorem StatsCellCallback_granularities_agree_witness :
    StatsCellCallback Granularity.FineGrained true true Example.closureArena
        (Cell.JSTRACE_STRING Example.shortString 0) 32 = Except.ok Example.closureString ∧
    ∃ clC, StatsCellCallback Granularity.CoarseGrained true true Example.closureArena
        (Cell.JSTRACE_STRING Example.shortString 0) 32 = Except.ok clC ∧
      clC.withoutStrings = Example.closureString.withoutStrings :=
  ⟨rfl, (StatsCellCallback_granularities_agree true true Example.closureArena
    (Cell.JSTRACE_STRING Example.shortString 0) 32).1 Example.closureString rfl⟩

/-! ## Theorems: the bump allocator of the stub spaces -/

/-- A block that avoids a block avoids every block inside it. -/
theorem blocksDisjoint_of_inside (b r s : Nat × Nat) (h : blocksDisjoint b s)
    (h1 : s.1 ≤ r.1) (h2 : r.1 + r.2 ≤ s.1 + s.2) : blocksDisjoint b r := by
  unfold blocksDisjoint at h ⊢
  omega

/-- One call of `LifoAlloc::alloc` on well-formed chunks with fresh memory: the chunks stay
well formed, every chunk keeps its place and the part of it handed out only grows, and the
returned block lies in the handed-out part of a single chunk and overlaps nothing that had
been handed out before, in this allocator or in the other live chunks. -/
theorem LifoAlloc.alloc_step (a : LifoAlloc) (live : List BumpChunk) (fresh : Option Nat)
    (n : Nat) (hwf : ChunksWellFormed (a.chunks ++ live))
    (hfresh : a.MallocFresh live n fresh) :
    ChunksWellFormed ((a.alloc fresh n).2.chunks ++ live) ∧
    (∀ c ∈ a.chunks, ∃ c' ∈ (a.alloc fresh n).2.chunks,
      c'.base = c.base ∧ c'.capacity = c.capacity ∧ c.bump ≤ c'.bump) ∧
    (∀ p, (a.alloc fresh n).1 = some p →
      (∀ c ∈ a.chunks ++ live, blocksDisjoint (p, n) c.used) ∧
      ∃ c' ∈ (a.alloc fresh n).2.chunks, c'.holds (p, n)) := by
  have hnew : ChunksWellFormed ((a.newChunk fresh n).2.chunks ++ live) ∧
      (∀ c ∈ a.chunks, ∃ c' ∈ (a.newChunk fresh n).2.chunks,
        c'.base = c.base ∧ c'.capacity = c.capacity ∧ c.bump ≤ c'.bump) ∧
      (∀ p, (a.newChunk fresh n).1 = some p →
        (∀ c ∈ a.chunks ++ live, blocksDisjoint (p, n) c.used) ∧
        ∃ c' ∈ (a.newChunk fresh n).2.chunks, c'.holds (p, n)) := by
    unfold LifoAlloc.newChunk
    cases hf : fresh with
    | none =>
      refine ⟨hwf, fun c hc => ⟨c, hc, rfl, rfl, le_rfl⟩, ?_⟩
      intro p hp
      cases hp
    | some base =>
      have hd := hfresh base hf
      refine ⟨⟨?_, ?_⟩, fun c hc => ⟨c, List.mem_cons_of_mem _ hc, rfl, rfl, le_rfl⟩, ?_⟩
      · intro c hc
        simp only [List.cons_append, List.mem_cons] at hc
        rcases hc with rfl | hc
        · exact le_max_right _ _
        · exact hwf.1 c hc
      · simp only [List.cons_append, List.pairwise_cons]
        exact ⟨hd, hwf.2⟩
      · intro p hp
        simp only [Option.some.injEq] at hp
        subst hp
        refine ⟨?_, _, List.mem_cons_self _ _, le_rfl, le_rfl⟩
        intro c hc
        have h1 := hd c hc
        have h2 := hwf.1 c hc
        have h3 : n ≤ max a.defaultChunkSize_ n := le_max_right _ _
        unfold BumpChunk.disjoint at h1
        unfold blocksDisjoint BumpChunk.used
        simp only at h1 ⊢
        omega
  unfold LifoAlloc.alloc
  cases hch : a.chunks with
  | nil =>
    rw [hch] at hnew
    exact hnew
  | cons c older =>
    by_cases hroom : c.bump + n ≤ c.capacity
    · simp only [if_pos hroom]
      rw [hch] at hwf
      have hcwf := hwf.1 c (by simp)
      have hpair := hwf.2
      simp only [List.cons_append, List.pairwise_cons] at hpair
      refine ⟨⟨?_, ?_⟩, ?_, ?_⟩
      · intro d hd
        simp only [List.cons_append, List.mem_cons] at hd
        rcases hd with rfl | hd
        · exact hroom
        · exact hwf.1 d (by simp [hd])
      · simp only [List.cons_append, List.pairwise_cons]
        exact ⟨fun d hd => hpair.1 d hd, hpair.2⟩
      · intro d hd
        simp only [List.mem_cons] at hd
        rcases hd with rfl | hd
        · exact ⟨_, List.mem_cons_self _ _, rfl, rfl, Nat.le_add_right _ _⟩
        · exact ⟨d, List.mem_cons_of_mem _ hd, rfl, rfl, le_rfl⟩
      · intro p hp
        simp only [Option.some.injEq] at hp
        subst hp
        refine ⟨?_, _, List.mem_cons_self _ _, Nat.le_add_right _ _,
          by show c.base + c.bump + n ≤ c.base + (c.bump + n); omega⟩
        intro d hd
        simp only [List.cons_append, List.mem_cons] at hd
        unfold blocksDisjoint BumpChunk.used
        rcases hd with rfl | hd
        · right
          exact le_rfl
        · have h1 := hpair.1 d hd
          have h2 := hwf.1 d (by simp [hd])
          unfold BumpChunk.disjoint at h1
          simp only
          omega
    · simp only [if_neg hroom]
      rw [hch] at hnew
      exact hnew

/-- Not overlapping is symmetric. -/
theorem blocksDisjoint_symm (b1 b2 : Nat × Nat) (h : blocksDisjoint b1 b2) :
    blocksDisjoint b2 b1 :=
  Or.symm h

/-- A block that avoids the handed-out part of a chunk avoids the handed-out part of every
chunk at the same place of which less has been handed out. -/
theorem blocksDisjoint_used_of_le (b : Nat × Nat) (c c' : BumpChunk) (h : blocksDisjoint b c'.used)
    (h1 : c'.base = c.base) (h2 : c.bump ≤ c'.bump) : blocksDisjoint b c.used := by
  unfold blocksDisjoint BumpChunk.used at h ⊢
  simp only at h ⊢
  omega

/-- A block that avoids the handed-out part of a chunk avoids every block that the chunk
holds. -/
theorem blocksDisjoint_of_holds (b r : Nat × Nat) (c : BumpChunk) (h : blocksDisjoint b c.used)
    (hr : c.holds r) : blocksDisjoint b r := by
  unfold blocksDisjoint BumpChunk.used at h
  unfold BumpChunk.holds at hr
  unfold blocksDisjoint
  simp only at h
  omega

/-- A block that a chunk holds is held by every chunk at the same place of which more has
been handed out. -/
theorem BumpChunk.holds_of_le (b : Nat × Nat) (c c' : BumpChunk) (h : c.holds b)
    (h1 : c'.base = c.base) (h2 : c.bump ≤ c'.bump) : c'.holds b := by
  unfold BumpChunk.holds at h ⊢
  omega

/-- A sequence of `alloc` calls on one stub space with well-formed chunks and fresh memory:
the chunks stay well formed, every chunk keeps its place and the part of it handed out only
grows, the returned blocks are pairwise non-overlapping, and each of them lies in the
handed-out part of a single chunk and overlaps nothing handed out before the calls. -/
theorem ICStubSpace.allocs_blocks :
    ∀ (calls : List (Nat × Option Nat)) (s : ICStubSpace),
      ChunksWellFormed s.allocator_.chunks → s.FreshRun calls →
      ChunksWellFormed (s.allocs calls).2.allocator_.chunks ∧
      (∀ c ∈ s.allocator_.chunks, ∃ c' ∈ (s.allocs calls).2.allocator_.chunks,
        c'.base = c.base ∧ c'.capacity = c.capacity ∧ c.bump ≤ c'.bump) ∧
      (s.allocs calls).1.Pairwise blocksDisjoint ∧
      (∀ b ∈ (s.allocs calls).1,
        (∀ c ∈ s.allocator_.chunks, blocksDisjoint b c.used) ∧
        ∃ c' ∈ (s.allocs calls).2.allocator_.chunks, c'.holds b) := by
  intro calls
  induction calls with
  | nil =>
    intro s hwf _
    refine ⟨hwf, fun c hc => ⟨c, hc, rfl, rfl, le_rfl⟩, List.Pairwise.nil, ?_⟩
    intro b hb
    cases hb
  | cons call rest ih =>
    intro s hwf hfresh
    obtain ⟨n, fresh⟩ := call
    obtain ⟨hf1, hf2⟩ := hfresh
    obtain ⟨s1wf, s1mono, s1blk⟩ := LifoAlloc.alloc_step s.allocator_ [] fresh n
      (by simpa using hwf) hf1
    rw [List.append_nil] at s1wf
    obtain ⟨rwf, rmono, rpair, rblk⟩ := ih (s.alloc fresh n).2 s1wf hf2
    have hmono : ∀ c ∈ s.allocator_.chunks,
        ∃ c' ∈ ((s.alloc fresh n).2.allocs rest).2.allocator_.chunks,
          c'.base = c.base ∧ c'.capacity = c.capacity ∧ c.bump ≤ c'.bump := by
      intro c hc
      obtain ⟨c1, hc1, e1, e2, e3⟩ := s1mono c hc
      obtain ⟨c2, hc2, f1, f2, f3⟩ := rmono c1 hc1
      exact ⟨c2, hc2, by rw [f1, e1], by rw [f2, e2], le_trans e3 f3⟩
    have hrest : ∀ b ∈ ((s.alloc fresh n).2.allocs rest).1,
        (∀ c ∈ s.allocator_.chunks, blocksDisjoint b c.used) ∧
        ∃ c' ∈ ((s.alloc fresh n).2.allocs rest).2.allocator_.chunks, c'.holds b := by
      intro b hb
      obtain ⟨h1, h2⟩ := rblk b hb
      refine ⟨?_, h2⟩
      intro c hc
      obtain ⟨c1, hc1, e1, _, e3⟩ := s1mono c hc
      exact blocksDisjoint_used_of_le b c c1 (h1 c1 hc1) e1 e3
    cases hp : (s.alloc fresh n).1 with
    | none =>
      have he : s.allocs ((n, fresh) :: rest) = (s.alloc fresh n).2.allocs rest := by
        simp only [ICStubSpace.allocs, hp]
      rw [he]
      exact ⟨rwf, hmono, rpair, hrest⟩
    | some p =>
      have he : s.allocs ((n, fresh) :: rest) =
          ((p, n) :: ((s.alloc fresh n).2.allocs rest).1,
            ((s.alloc fresh n).2.allocs rest).2) := by
        simp only [ICStubSpace.allocs, hp]
      rw [he]
      obtain ⟨hp1, c1, hc1, hold1⟩ := s1blk p hp
      refine ⟨rwf, hmono, ?_, ?_⟩
      · rw [List.pairwise_cons]
        refine ⟨?_, rpair⟩
        intro b hb
        exact blocksDisjoint_symm _ _
          (blocksDisjoint_of_holds b (p, n) c1 ((rblk b hb).1 c1 hc1) hold1)
      · intro b hb
        simp only [List.mem_cons] at hb
        rcases hb with rfl | hb
        · refine ⟨fun c hc => hp1 c (by simpa using hc), ?_⟩
          obtain ⟨c2, hc2, f1, _, f3⟩ := rmono c1 hc1
          exact ⟨c2, hc2, BumpChunk.holds_of_le _ c1 c2 hold1 f1 f3⟩
        · exact hrest b hb

/-! ## C13 -/

/-- C13: arena monotonic bump. For every sequence of `ICStubSpace::alloc(n)` calls on a
stub space whose chunks are well formed, each chunk allocation getting fresh memory, the
returned blocks are pairwise non-overlapping, each lies wholly inside the handed-out part of
a single chunk (which ends before the end of the chunk), and none overlaps what the
space had handed out before the calls. A call whose size exceeds the space remaining in the
current chunk is served from the start of a new chunk, and every older chunk, with its bump
pointer, is left as it was. -/
theorem ICStubSpace_alloc_monotonic_bump (s : ICStubSpace) (calls : List (Nat × Option Nat))
    (hwf : ChunksWellFormed s.allocator_.chunks) (hfresh : s.FreshRun calls) :
    (s.allocs calls).1.Pairwise blocksDisjoint ∧
    (∀ b ∈ (s.allocs calls).1, ∃ c ∈ (s.allocs calls).2.allocator_.chunks,
      c.holds b ∧ c.bump ≤ c.capacity) ∧
    (∀ b ∈ (s.allocs calls).1, ∀ c ∈ s.allocator_.chunks, blocksDisjoint b c.used) ∧
    (∀ (t : ICStubSpace) (c : BumpChunk) (older : List BumpChunk) (n base : Nat),
      t.allocator_.chunks = c :: older → c.capacity < c.bump + n →
      (t.alloc (some base) n).1 = some base ∧
      (t.alloc (some base) n).2.allocator_.chunks =
        { base := base, capacity := max t.allocator_.defaultChunkSize_ n, bump := n } ::
          c :: older) := by
  obtain ⟨rwf, _, rpair, rblk⟩ := ICStubSpace.allocs_blocks calls s hwf hfresh
  refine ⟨rpair, ?_, fun b hb => (rblk b hb).1, ?_⟩
  · intro b hb
    obtain ⟨c, hc, hold⟩ := (rblk b hb).2
    exact ⟨c, hc, hold, rwf.1 c hc⟩
  · intro t c older n base hch hbig
    have hno : ¬ c.bump + n ≤ c.capacity := by omega
    simp [ICStubSpace.alloc, LifoAlloc.alloc, hch, hno, LifoAlloc.newChunk]

/-- The chunk allocations of the example calls get fresh memory. -/
theorem Example.allocCalls_fresh : OptimizedICStubSpace.new.FreshRun Example.allocCalls := by
  refine ⟨?_, ?_, ?_, True.intro⟩
  · intro base _ c hc
    simp [OptimizedICStubSpace.new] at hc
  · intro base hb
    cases hb
  · intro base hb c hc
    simp only [Option.some.injEq] at hb
    subst hb
    simp [ICStubSpace.alloc, LifoAlloc.alloc, LifoAlloc.newChunk, OptimizedICStubSpace.new,
      OptimizedICStubSpace.STUB_DEFAULT_CHUNK_SIZE] at hc
    subst hc
    right
    decide

/-- C13 on the example: on a fresh space with chunks of 4096 bytes the three calls return
the blocks at 1000 and at 5000 in the first chunk and, the 100 bytes not fitting in the 46
bytes that remain, the block at 10000 in a new chunk; the three blocks do not overlap. -/
theorem ICStubSpace_alloc_monotonic_bump_witness :
    (OptimizedICStubSpace.new.allocs Example.allocCalls).1 =
        [(1000, 4000), (5000, 50), (10000, 100)] ∧
      List.Pairwise blocksDisjoint [(1000, 4000), (5000, 50), (10000, 100)] :=
  ⟨rfl, (ICStubSpace_alloc_monotonic_bump OptimizedICStubSpace.new Example.allocCalls
    ⟨fun _ hc => absurd hc (List.not_mem_nil _), List.Pairwise.nil⟩
    Example.allocCalls_fresh).1⟩

/-- Two chunks not overlapping is symmetric. -/
theorem BumpChunk.disjoint_symm : Symmetric BumpChunk.disjoint :=
  fun _ _ h => Or.symm h

/-- The chunks of two allocators are well formed in either order. -/
theorem ChunksWellFormed.swap (l1 l2 : List BumpChunk) (h : ChunksWellFormed (l1 ++ l2)) :
    ChunksWellFormed (l2 ++ l1) := by
  refine ⟨fun c hc => h.1 c ?_, (List.pairwise_append_comm (fun {_ _} hxy => BumpChunk.disjoint_symm hxy)).mp h.2⟩
  simp only [List.mem_append] at hc ⊢
  exact hc.symm

/-- A sequence of `alloc` calls on two stub spaces whose chunks are well formed, with fresh
memory for every chunk allocation: the returned blocks are pairwise non-overlapping and
overlap nothing that either space had handed out before the calls. -/
theorem allocsOnTwo_blocks :
    ∀ (calls : List (Bool × Nat × Option Nat)) (s t : ICStubSpace),
      ChunksWellFormed (s.allocator_.chunks ++ t.allocator_.chunks) →
      FreshRunOnTwo s t calls →
      (allocsOnTwo s t calls).Pairwise blocksDisjoint ∧
      ∀ b ∈ allocsOnTwo s t calls, ∀ c ∈ s.allocator_.chunks ++ t.allocator_.chunks,
        blocksDisjoint b c.used := by
  intro calls
  induction calls with
  | nil =>
    intro s t _ _
    exact ⟨List.Pairwise.nil, fun b hb => by cases hb⟩
  | cons call rest ih =>
    intro s t hwf hfresh
    obtain ⟨onThis, n, fresh⟩ := call
    cases onThis with
    | true =>
      obtain ⟨hf1, hf2⟩ := hfresh
      obtain ⟨s1wf, s1mono, s1blk⟩ :=
        LifoAlloc.alloc_step s.allocator_ t.allocator_.chunks fresh n hwf hf1
      obtain ⟨rpair, rblk⟩ := ih (s.alloc fresh n).2 t s1wf hf2
      have hrest : ∀ b ∈ allocsOnTwo (s.alloc fresh n).2 t rest,
          ∀ c ∈ s.allocator_.chunks ++ t.allocator_.chunks, blocksDisjoint b c.used := by
        intro b hb c hc
        rcases List.mem_append.mp hc with hc | hc
        · obtain ⟨c1, hc1, e1, _, e3⟩ := s1mono c hc
          exact blocksDisjoint_used_of_le b c c1
            (rblk b hb c1 (List.mem_append.mpr (Or.inl hc1))) e1 e3
        · exact rblk b hb c (List.mem_append.mpr (Or.inr hc))
      cases hp : (s.alloc fresh n).1 with
      | none =>
        have he : allocsOnTwo s t ((true, n, fresh) :: rest) =
            allocsOnTwo (s.alloc fresh n).2 t rest := by
          simp only [allocsOnTwo, hp]
        rw [he]
        exact ⟨rpair, hrest⟩
      | some p =>
        have he : allocsOnTwo s t ((true, n, fresh) :: rest) =
            (p, n) :: allocsOnTwo (s.alloc fresh n).2 t rest := by
          simp only [allocsOnTwo, hp]
        rw [he]
        obtain ⟨hp1, c1, hc1, hold1⟩ := s1blk p hp
        refine ⟨?_, ?_⟩
        · rw [List.pairwise_cons]
          refine ⟨?_, rpair⟩
          intro b hb
          exact blocksDisjoint_symm _ _ (blocksDisjoint_of_holds b (p, n) c1
            (rblk b hb c1 (List.mem_append.mpr (Or.inl hc1))) hold1)
        · intro b hb
          simp only [List.mem_cons] at hb
          rcases hb with rfl | hb
          · exact hp1
          · exact hrest b hb
    | false =>
      obtain ⟨hf1, hf2⟩ := hfresh
      obtain ⟨t1wf, t1mono, t1blk⟩ :=
        LifoAlloc.alloc_step t.allocator_ s.allocator_.chunks fresh n
          (ChunksWellFormed.swap _ _ hwf) hf1
      obtain ⟨rpair, rblk⟩ := ih s (t.alloc fresh n).2 (ChunksWellFormed.swap _ _ t1wf) hf2
      have hrest : ∀ b ∈ allocsOnTwo s (t.alloc fresh n).2 rest,
          ∀ c ∈ s.allocator_.chunks ++ t.allocator_.chunks, blocksDisjoint b c.used := by
        intro b hb c hc
        rcases List.mem_append.mp hc with hc | hc
        · exact rblk b hb c (List.mem_append.mpr (Or.inl hc))
        · obtain ⟨c1, hc1, e1, _, e3⟩ := t1mono c hc
          exact blocksDisjoint_used_of_le b c c1
            (rblk b hb c1 (List.mem_append.mpr (Or.inr hc1))) e1 e3
      cases hp : (t.alloc fresh n).1 with
      | none =>
        have he : allocsOnTwo s t ((false, n, fresh) :: rest) =
            allocsOnTwo s (t.alloc fresh n).2 rest := by
          simp only [allocsOnTwo, hp]
        rw [he]
        exact ⟨rpair, hrest⟩
      | some p =>
        have he : allocsOnTwo s t ((false, n, fresh) :: rest) =
            (p, n) :: allocsOnTwo s (t.alloc fresh n).2 rest := by
          simp only [allocsOnTwo, hp]
        rw [he]
        obtain ⟨hp1, c1, hc1, hold1⟩ := t1blk p hp
        refine ⟨?_, ?_⟩
        · rw [List.pairwise_cons]
          refine ⟨?_, rpair⟩
          intro b hb
          exact blocksDisjoint_symm _ _ (blocksDisjoint_of_holds b (p, n) c1
            (rblk b hb c1 (List.mem_append.mpr (Or.inr hc1))) hold1)
        · intro b hb
          simp only [List.mem_cons] at hb
          rcases hb with rfl | hb
          · intro c hc
            exact hp1 c (by
              simp only [List.mem_append] at hc ⊢
              exact hc.symm)
          · exact hrest b hb

/-! ## C12 -/

/-- C12: `FallbackICStubSpace::adoptFrom(other)` moves the whole chunk list of `other` into
this space and leaves `other` without chunks, as a freshly constructed fallback space.
Every block that `other` had handed out lies, after the adoption, in the handed-out part of
a chunk of this space, and no block returned by a later `alloc` call on either space
overlaps it; the later blocks do not overlap one another either. The chunks of the two
spaces are well formed, and every later chunk allocation gets fresh memory. -/
theorem FallbackICStubSpace_adoptFrom_keeps_blocks (s other : ICStubSpace)
    (calls : List (Bool × Nat × Option Nat))
    (hwf : ChunksWellFormed (s.allocator_.chunks ++ other.allocator_.chunks))
    (hfresh : FreshRunOnTwo (FallbackICStubSpace.adoptFrom s other).1
      (FallbackICStubSpace.adoptFrom s other).2 calls) :
    (FallbackICStubSpace.adoptFrom s other).1.allocator_.chunks =
      other.allocator_.chunks ++ s.allocator_.chunks ∧
    (FallbackICStubSpace.adoptFrom s other).2.allocator_.chunks = [] ∧
    (other.allocator_.defaultChunkSize_ = FallbackICStubSpace.STUB_DEFAULT_CHUNK_SIZE →
      (FallbackICStubSpace.adoptFrom s other).2 = FallbackICStubSpace.new) ∧
    (∀ old : Nat × Nat, (∃ c ∈ other.allocator_.chunks, c.holds old) →
      (∃ c ∈ (FallbackICStubSpace.adoptFrom s other).1.allocator_.chunks, c.holds old) ∧
      ∀ b ∈ allocsOnTwo (FallbackICStubSpace.adoptFrom s other).1
          (FallbackICStubSpace.adoptFrom s other).2 calls, blocksDisjoint b old) ∧
    (allocsOnTwo (FallbackICStubSpace.adoptFrom s other).1
      (FallbackICStubSpace.adoptFrom s other).2 calls).Pairwise blocksDisjoint := by
  have hwf' : ChunksWellFormed ((FallbackICStubSpace.adoptFrom s other).1.allocator_.chunks ++
      (FallbackICStubSpace.adoptFrom s other).2.allocator_.chunks) := by
    show ChunksWellFormed ((other.allocator_.chunks ++ s.allocator_.chunks) ++ [])
    rw [List.append_nil]
    exact ChunksWellFormed.swap _ _ hwf
  obtain ⟨rpair, rblk⟩ := allocsOnTwo_blocks calls _ _ hwf' hfresh
  refine ⟨rfl, rfl, ?_, ?_, rpair⟩
  · intro hd
    obtain ⟨⟨d, cs⟩⟩ := other
    simp only at hd
    subst hd
    rfl
  · rintro old ⟨c, hc, hold⟩
    refine ⟨⟨c, List.mem_append.mpr (Or.inl hc), hold⟩, ?_⟩
    intro b hb
    refine blocksDisjoint_of_holds b old c (rblk b hb c ?_) hold
    show c ∈ (other.allocator_.chunks ++ s.allocator_.chunks) ++ []
    simp [hc]

/-- The chunk allocations of the example calls after the adoption get fresh memory. -/
theorem Example.callsAfterAdoption_fresh :
    FreshRunOnTwo (FallbackICStubSpace.adoptFrom FallbackICStubSpace.new Example.fallbackSpace).1
      (FallbackICStubSpace.adoptFrom FallbackICStubSpace.new Example.fallbackSpace).2
      Example.callsAfterAdoption := by
  refine ⟨?_, ?_, ?_, True.intro⟩
  · intro base hb
    cases hb
  · intro base hb c hc
    simp only [Option.some.injEq] at hb
    subst hb
    simp [ICStubSpace.alloc, LifoAlloc.alloc, LifoAlloc.newChunk, FallbackICStubSpace.adoptFrom,
      LifoAlloc.steal, FallbackICStubSpace.new, Example.fallbackSpace] at hc
    subst hc
    right
    decide
  · intro base hb c hc
    simp only [Option.some.injEq] at hb
    subst hb
    simp [ICStubSpace.alloc, LifoAlloc.alloc, LifoAlloc.newChunk, FallbackICStubSpace.adoptFrom,
      LifoAlloc.steal, FallbackICStubSpace.new, Example.fallbackSpace,
      FallbackICStubSpace.STUB_DEFAULT_CHUNK_SIZE] at hc
    rcases hc with rfl | rfl
    · right
      decide
    · left
      decide

/-- C12 on the example: a fresh fallback space adopts a space that had handed out the 100
bytes at address 1000; the three later calls return the blocks at 1100, 5000 and 2000, none
of which overlaps the block at 1000. -/
theorem FallbackICStubSpace_adoptFrom_keeps_blocks_witness :
    allocsOnTwo (FallbackICStubSpace.adoptFrom FallbackICStubSpace.new Example.fallbackSpace).1
        (FallbackICStubSpace.adoptFrom FallbackICStubSpace.new Example.fallbackSpace).2
        Example.callsAfterAdoption = [(1100, 100), (5000, 10), (2000, 200)] ∧
      ∀ b ∈ [((1100, 100) : Nat × Nat), (5000, 10), (2000, 200)],
        blocksDisjoint b (1000, 100) :=
  ⟨rfl, ((FallbackICStubSpace_adoptFrom_keeps_blocks FallbackICStubSpace.new
    Example.fallbackSpace Example.callsAfterAdoption
    ⟨by decide, by simp [FallbackICStubSpace.new, Example.fallbackSpace]⟩
    Example.callsAfterAdoption_fresh).2.2.2.1 (1000, 100)
    ⟨{ base := 1000, capacity := 256, bump := 100 }, List.mem_singleton.mpr rfl,
      by unfold BumpChunk.holds; decide⟩).2⟩

/-! ## `nsTextFormatter`: C14, C15, C20 -/

/-- C20, the code against the claim: for the digits "42" with precision 5, no width and no
flags, `fill_n` stuffs three spaces, not three '0' characters, before the digits: the loop
over `precwidth` stuffs `space`. The buffer ends up holding "   42", not "00042". With the
flag `_ZEROS`, no precision and width 5 the function does fill with '0' characters. -/
theorem fill_n_precision_pads_with_spaces :
    fill_n LimitStuff Example.state8 [52, 50] 2 0 5 NumArgState.INTN 0 =
        Except.ok (0, { Example.state8 with
          base := [32, 32, 32, 52, 50, 120, 120, 120], cur := 5 }) ∧
      fill_n LimitStuff Example.state8 [52, 50] 2 5 (-1) NumArgState.INTN _ZEROS =
        Except.ok (0, { Example.state8 with
          base := [48, 48, 48, 52, 50, 120, 120, 120], cur := 5 }) :=
  ⟨rfl, rfl⟩

/-- C14, the code against the claim: when `dosprintf` returns before it has stuffed
anything, `vsnprintf` leaves the buffer as it was, without a NUL. This happens in a build
without `DEBUG` for the format "%1$d%d", which `BuildArgArray` rejects, and in every build
for the format "%f" and a `double` for which `PR_dtoa` fails; in a build with `DEBUG` the
first call ends in the failure of `PR_ASSERT(0)`. -/
theorem vsnprintf_no_NUL_on_early_error :
    vsnprintf Example.releaseBuild true Example.out4 4 Example.fmtMixed Example.twoInts =
        Except.ok (0, Example.out4) ∧
      vsnprintf Example.debugBuild true Example.out4 4 Example.fmtF Example.dtoaFails =
        Except.ok (0, Example.out4) ∧
      vsnprintf Example.debugBuild true Example.out4 4 Example.fmtMixed Example.twoInts =
        Except.error Failure.assertion ∧
      (∀ c ∈ Example.out4, c ≠ 0) :=
  ⟨rfl, rfl, rfl, by decide⟩

/-- C15, the code against the claim: for the format "abcdef" and a buffer of four units
`vsnprintf` leaves "abc" and the NUL in the buffer and returns 2, one less than the three
units before the NUL; for the format "abc", which fits, it leaves the same buffer and
returns 3. -/
theorem vsnprintf_truncated_returns_one_less :
    vsnprintf Example.debugBuild true Example.out4 4 Example.fmtAbcdef Example.noArgs =
        Except.ok (2, [97, 98, 99, 0]) ∧
      vsnprintf Example.debugBuild true Example.out4 4 Example.fmtAbc Example.noArgs =
        Except.ok (3, [97, 98, 99, 0]) ∧
      NS_strlen [97, 98, 99, 0] = 3 :=
  ⟨rfl, rfl, rfl⟩

/-! ## `mozPersonalDictionary`: C16 -/

/-- C16, the code against the claim: `Load` returns before `mDictionaryTable.Clear()` when
the new profile has no `persdict.dat`. A dictionary that holds "foo" still holds it after
`Load`, and after the notification "profile-do-change", on such a profile, and `Check`
still reports the word. On a profile whose file holds "bar" the table is cleared and
holds "bar" alone. -/
theorem Load_keeps_table_without_file :
    Example.dictionaryFoo.Load Example.profileWithoutFile = (NS_OK, Example.dictionaryFoo) ∧
      (Example.dictionaryFoo.Observe Example.profileWithoutFile Topic.profileDoChange).2 =
        Example.dictionaryFoo ∧
      Example.dictionaryFoo.Check (some Example.foo) = (NS_OK, some true) ∧
      (Example.dictionaryFoo.Load Example.profileBar).2.mDictionaryTable = [Example.bar] :=
  ⟨rfl, rfl, rfl, rfl⟩

/-! ## Theorems: the hash policy of the strings table -/

/-- C24: `InefficientNonFlatteningStringHashPolicy::match(k, l)` holds exactly when `k` and
`l` have the same length, the same `isShort()` and the same characters, and two strings
that match have the same `hash`, whatever `HashString` and `AddToHash` compute. -/
theorem InefficientNonFlatteningStringHashPolicy_match_iff (HashString : List Nat → Nat → Nat)
    (AddToHash : Nat → Bool → Nat) (k l : JSString) :
    (InefficientNonFlatteningStringHashPolicy.match_ k l = true ↔
      k.length = l.length ∧ k.isShort = l.isShort ∧ k.chars = l.chars) ∧
    (InefficientNonFlatteningStringHashPolicy.match_ k l = true →
      InefficientNonFlatteningStringHashPolicy.hash HashString AddToHash k =
        InefficientNonFlatteningStringHashPolicy.hash HashString AddToHash l) := by
  have key : InefficientNonFlatteningStringHashPolicy.match_ k l = true ↔
      k.length = l.length ∧ k.isShort = l.isShort ∧ k.chars = l.chars := by
    unfold InefficientNonFlatteningStringHashPolicy.match_ PodEqual JSString.length
    constructor
    · intro h
      by_cases h1 : k.chars.length = l.chars.length
      · by_cases h2 : k.isShort = l.isShort
        · simp [h1, h2] at h
          refine ⟨h1, h2, ?_⟩
          have h3 := h
          rw [← h1, List.take_length] at h3
          exact h3
        · simp [h1, h2] at h
      · simp [h1] at h
    · rintro ⟨h1, h2, h3⟩
      simp [h1, h2, h3]
  refine ⟨key, fun h => ?_⟩
  obtain ⟨_, h2, h3⟩ := key.mp h
  unfold InefficientNonFlatteningStringHashPolicy.hash JSString.length
  rw [h2, h3]

/-- C24, at an example: two copies of a short string match and have the same hash. -/
theorem InefficientNonFlatteningStringHashPolicy_match_iff_witness :
    InefficientNonFlatteningStringHashPolicy.match_ Example.shortAb Example.shortAb = true ∧
    InefficientNonFlatteningStringHashPolicy.hash Example.sumHash Example.addFlag Example.shortAb =
      InefficientNonFlatteningStringHashPolicy.hash Example.sumHash Example.addFlag
        Example.shortAb :=
  ⟨by decide,
   (InefficientNonFlatteningStringHashPolicy_match_iff Example.sumHash Example.addFlag
      Example.shortAb Example.shortAb).2 (by decide)⟩

/-! ## Theorems: the media shutdown manager -/

/-- An `Unregister` call that returns while `mIsDoingXPCOMShutDown` is set leaves the
manager as it was. -/
theorem MediaShutdownManager.Unregister_frame (m m1 : MediaShutdownManager) (mainThread : Bool)
    (r : Registrant) (hflag : m.mIsDoingXPCOMShutDown = true)
    (h : m.Unregister mainThread r = Except.ok m1) : m1 = m := by
  cases r with
  | decoder d =>
    simp only [MediaShutdownManager.Unregister, hflag] at h
    cases hm : mainThread <;> cases hc : nsTHashtable.Contains m.mDecoders d <;>
      simp [hm, hc, MOZ_ASSERT, JS_ASSERT, bind, Except.bind, pure, Except.pure] at h
    exact h.symm
  | thread t =>
    simp only [MediaShutdownManager.Unregister, hflag] at h
    cases hm : mainThread <;> cases hc : nsTHashtable.Contains m.mStateMachineThreads t <;>
      simp [hm, hc, MOZ_ASSERT, JS_ASSERT, bind, Except.bind, pure, Except.pure] at h
    exact h.symm

/-- An `Unregister` call on the main thread of a registrant that the manager holds returns
while `mIsDoingXPCOMShutDown` is set, and leaves the manager as it was. -/
theorem MediaShutdownManager.Unregister_returns (m : MediaShutdownManager)
    (r : Registrant) (hflag : m.mIsDoingXPCOMShutDown = true) (hr : m.holds r = true) :
    m.Unregister true r = Except.ok m := by
  cases r with
  | decoder d =>
    simp only [MediaShutdownManager.holds] at hr
    simp [MediaShutdownManager.Unregister, hflag, hr, MOZ_ASSERT, JS_ASSERT, bind, Except.bind,
      pure, Except.pure]
  | thread t =>
    simp only [MediaShutdownManager.holds] at hr
    simp [MediaShutdownManager.Unregister, hflag, hr, MOZ_ASSERT, JS_ASSERT, bind, Except.bind,
      pure, Except.pure]

/-- A run of `Unregister` calls of registrants that the manager holds returns while
`mIsDoingXPCOMShutDown` is set, and leaves the manager as it was. -/
theorem MediaShutdownManager.unregisterAll_returns (m : MediaShutdownManager)
    (hflag : m.mIsDoingXPCOMShutDown = true) (rs : List Registrant)
    (hrs : ∀ r ∈ rs, m.holds r = true) :
    MediaShutdownManager.unregisterAll true rs m = Except.ok m := by
  induction rs with
  | nil => rfl
  | cons r rs ih =>
    simp only [MediaShutdownManager.unregisterAll,
      MediaShutdownManager.Unregister_returns m r hflag (hrs r (List.mem_cons_self _ _))]
    exact ih (fun r1 h1 => hrs r1 (List.mem_cons_of_mem _ h1))

/-- The enumeration of `mDecoders` in `Shutdown` returns with the table empty and nothing
else changed, when every `Unregister` call of a decoder's `Shutdown()` names a registrant that
the manager still holds. -/
theorem MediaShutdownManager.Shutdown.decoders_returns (calls : Nat → List Registrant)
    (fuel : Nat) (m : MediaShutdownManager) (hflag : m.mIsDoingXPCOMShutDown = true)
    (hfuel : m.mDecoders.length ≤ fuel)
    (hv : ∀ pre d post, m.mDecoders = pre ++ d :: post → ∀ r ∈ calls d,
      MediaShutdownManager.holds { m with mDecoders := d :: post } r = true) :
    MediaShutdownManager.Shutdown.decoders true calls fuel m =
      Except.ok { m with mDecoders := [] } := by
  induction fuel generalizing m with
  | zero =>
    obtain ⟨ds, ts, o, f, s, so⟩ := m
    simp only [Nat.le_zero, List.length_eq_zero] at hfuel
    subst hfuel
    rfl
  | succ fuel ih =>
    obtain ⟨ds, ts, o, f, s, so⟩ := m
    cases ds with
    | nil => rfl
    | cons d rest =>
      simp only at hflag
      have h1 := MediaShutdownManager.unregisterAll_returns ⟨d :: rest, ts, o, f, s, so⟩ hflag
        (calls d) (hv [] d rest rfl)
      simp only [MediaShutdownManager.Shutdown.decoders, h1, bind, Except.bind,
        nsTHashtable.RemoveEntry, List.erase_cons_head]
      refine (ih ⟨rest, ts, o, f, s, so⟩ hflag ?_ ?_).trans rfl
      · simp only [List.length_cons] at hfuel
        simp only
        omega
      · intro pre d1 post hsplit r hr
        exact hv (d :: pre) d1 post (by simp only at hsplit; simp [hsplit]) r hr

/-- The enumeration of `mStateMachineThreads` in `Shutdown` returns with the table empty and
nothing else changed, when every `Unregister` call made while the main thread spins names a
registrant that the manager still holds. -/
theorem MediaShutdownManager.Shutdown.threads_returns (calls : Nat → List Registrant)
    (fuel : Nat) (m : MediaShutdownManager) (hflag : m.mIsDoingXPCOMShutDown = true)
    (hfuel : m.mStateMachineThreads.length ≤ fuel)
    (hv : ∀ pre t post, m.mStateMachineThreads = pre ++ t :: post → ∀ r ∈ calls t,
      MediaShutdownManager.holds { m with mStateMachineThreads := t :: post } r = true) :
    MediaShutdownManager.Shutdown.threads true calls fuel m =
      Except.ok { m with mStateMachineThreads := [] } := by
  induction fuel generalizing m with
  | zero =>
    obtain ⟨ds, ts, o, f, s, so⟩ := m
    simp only [Nat.le_zero, List.length_eq_zero] at hfuel
    subst hfuel
    rfl
  | succ fuel ih =>
    obtain ⟨ds, ts, o, f, s, so⟩ := m
    cases ts with
    | nil => rfl
    | cons t rest =>
      simp only at hflag
      have h1 := MediaShutdownManager.unregisterAll_returns ⟨ds, t :: rest, o, f, s, so⟩ hflag
        (calls t) (hv [] t rest rfl)
      simp only [MediaShutdownManager.Shutdown.threads, h1, bind, Except.bind,
        nsTHashtable.RemoveEntry, List.erase_cons_head]
      refine (ih ⟨ds, rest, o, f, s, so⟩ hflag ?_ ?_).trans rfl
      · simp only [List.length_cons] at hfuel
        simp only
        omega
      · intro pre t1 post hsplit r hr
        exact hv (t :: pre) t1 post (by simp only at hsplit; simp [hsplit]) r hr

/-- C25: while `mIsDoingXPCOMShutDown` is set, `Unregister` of a decoder or of a state machine
thread changes no member of the manager: called on the main thread for a registrant that
its table holds it returns with `mDecoders`, `mStateMachineThreads`, `mIsObservingShutdown`
and all the rest as they were, and so does any run of such calls; and a call that returns
at all has changed nothing. So `Shutdown`, which sets the flag before it enumerates the two
tables, returns with both tables emptied by the enumerations alone, when each `Unregister`
call made from inside an enumeration names the entry being visited, one not yet visited, or
(from a decoder) a state machine thread. -/
theorem Unregister_during_Shutdown_keeps_tables (m : MediaShutdownManager)
    (decoderShutdown spin : Nat → List Registrant)
    (hflag : m.mIsDoingXPCOMShutDown = true) :
    (∀ r, m.holds r = true → m.Unregister true r = Except.ok m) ∧
    (∀ rs, (∀ r ∈ rs, m.holds r = true) →
      MediaShutdownManager.unregisterAll true rs m = Except.ok m) ∧
    (∀ mainThread r m1, m.Unregister mainThread r = Except.ok m1 →
      m1.mDecoders = m.mDecoders ∧ m1.mStateMachineThreads = m.mStateMachineThreads ∧
      m1.mIsObservingShutdown = m.mIsObservingShutdown ∧ m1 = m) ∧
    (∀ m0 : MediaShutdownManager, m0.sInstance = true →
      (∀ pre d post, m0.mDecoders = pre ++ d :: post → ∀ r ∈ decoderShutdown d,
        (∃ d1 ∈ d :: post, r = Registrant.decoder d1) ∨
        (∃ t ∈ m0.mStateMachineThreads, r = Registrant.thread t)) →
      (∀ pre t post, m0.mStateMachineThreads = pre ++ t :: post → ∀ r ∈ spin t,
        ∃ t1 ∈ t :: post, r = Registrant.thread t1) →
      m0.Shutdown true decoderShutdown spin =
        Except.ok { m0 with mDecoders := [], mStateMachineThreads := [],
                            mIsDoingXPCOMShutDown := true, sInstance := false,
                            shutdownObserver := false }) := by
  refine ⟨fun r hr => MediaShutdownManager.Unregister_returns m r hflag hr,
    fun rs hrs => MediaShutdownManager.unregisterAll_returns m hflag rs hrs,
    fun mainThread r m1 h => ?_, ?_⟩
  · have h1 := MediaShutdownManager.Unregister_frame m m1 mainThread r hflag h
    subst h1
    exact ⟨rfl, rfl, rfl, rfl⟩
  · intro m0 hs hd ht
    obtain ⟨ds, ts, o, f, s, so⟩ := m0
    simp only at hs
    subst hs
    have h1 := MediaShutdownManager.Shutdown.decoders_returns decoderShutdown ds.length
      ⟨ds, ts, o, true, true, so⟩ rfl (Nat.le_refl _) (by
        intro pre d post hsplit r hr
        rcases hd pre d post hsplit r hr with ⟨d1, hd1, rfl⟩ | ⟨t, ht1, rfl⟩
        · simpa [MediaShutdownManager.holds, nsTHashtable.Contains] using hd1
        · simpa [MediaShutdownManager.holds, nsTHashtable.Contains] using ht1)
    have h2 := MediaShutdownManager.Shutdown.threads_returns spin ts.length
      ⟨[], ts, o, true, true, so⟩ rfl (Nat.le_refl _) (by
        intro pre t post hsplit r hr
        rcases ht pre t post hsplit r hr with ⟨t1, ht1, rfl⟩
        simpa [MediaShutdownManager.holds, nsTHashtable.Contains] using ht1)
    simp only [MediaShutdownManager.Shutdown, MOZ_ASSERT, JS_ASSERT, nsTHashtable.Count,
      if_true, bind, Except.bind, pure, Except.pure, h1, h2]

/-- C25, at an example: while the manager of the example shuts down, `Unregister` of its
second decoder and of its thread change nothing, and its `Shutdown`, in which every decoder
and thread unregisters itself, returns with both tables empty. -/
theorem Unregister_during_Shutdown_keeps_tables_witness :
    Example.mediaManagerShuttingDown.Unregister true (Registrant.decoder 2) =
      Except.ok Example.mediaManagerShuttingDown ∧
    Example.mediaManagerShuttingDown.Unregister true (Registrant.thread 7) =
      Except.ok Example.mediaManagerShuttingDown ∧
    Example.mediaManager.Shutdown true Example.selfDecoder Example.selfThread =
      Except.ok Example.mediaManagerAfterShutdown ∧
    Example.mediaManager.Unregister true (Registrant.decoder 2) =
      Except.ok { Example.mediaManager with mDecoders := [1] } :=
  ⟨(Unregister_during_Shutdown_keeps_tables Example.mediaManagerShuttingDown
      Example.selfDecoder Example.selfThread rfl).1 (Registrant.decoder 2) (by decide),
   (Unregister_during_Shutdown_keeps_tables Example.mediaManagerShuttingDown
      Example.selfDecoder Example.selfThread rfl).1 (Registrant.thread 7) (by decide),
   rfl, rfl⟩

/-! ## Theorems: the default chunk sizes of the stub spaces -/

/-- C26, counterexample: the default chunk of `OptimizedICStubSpace` is not smaller than that
of `FallbackICStubSpace`: it is 4096 bytes against 256. -/
theorem STUB_DEFAULT_CHUNK_SIZE_optimized_not_smaller :
    OptimizedICStubSpace.STUB_DEFAULT_CHUNK_SIZE = 4096 ∧
    FallbackICStubSpace.STUB_DEFAULT_CHUNK_SIZE = 256 ∧
    ¬ (OptimizedICStubSpace.STUB_DEFAULT_CHUNK_SIZE <
        FallbackICStubSpace.STUB_DEFAULT_CHUNK_SIZE) := by
  decide

/-- C26, amended: the space of the optimized stubs uses the large default chunk and the space
of the fallback stubs the small one: `FallbackICStubSpace::STUB_DEFAULT_CHUNK_SIZE`, 256, is
less than `OptimizedICStubSpace::STUB_DEFAULT_CHUNK_SIZE`, 4096, which is sixteen times it;
the allocators of freshly constructed spaces are set up with these sizes. -/
theorem STUB_DEFAULT_CHUNK_SIZE_fallback_smaller :
    FallbackICStubSpace.STUB_DEFAULT_CHUNK_SIZE < OptimizedICStubSpace.STUB_DEFAULT_CHUNK_SIZE ∧
    OptimizedICStubSpace.STUB_DEFAULT_CHUNK_SIZE =
      16 * FallbackICStubSpace.STUB_DEFAULT_CHUNK_SIZE ∧
    OptimizedICStubSpace.new.allocator_.defaultChunkSize_ = 4096 ∧
    FallbackICStubSpace.new.allocator_.defaultChunkSize_ = 256 := by
  decide

/-! ## Theorems: the conversion of 64-bit integers -/

/-- C22, failing inputs: `cvt_ll` divides the value as the signed `int64_t`, so an unsigned
value from `2 ^ 63` on is not printed by its digits. `"%llu"` and `"%llx"` print
`2 ^ 64 - 1` as `"f"`, and `"%llu"` prints `2 ^ 63` as `"7eedd9e0da8bc99b808"`, whereas
`2 ^ 63 - 1` is printed as `"9223372036854775807"`. -/
theorem vsnprintf_llu_from_two_pow_63_wrong_digits :
    vsnprintf Example.debugBuild true Example.out24 24 Example.fmtLlu Example.uint64Max =
      Except.ok (1, [102, 0] ++ List.replicate 22 120) ∧
    vsnprintf Example.debugBuild true Example.out24 24 Example.fmtLlx Example.uint64Max =
      Except.ok (1, [102, 0] ++ List.replicate 22 120) ∧
    vsnprintf Example.debugBuild true Example.out24 24 Example.fmtLlu Example.uint64Half =
      Except.ok (19, [55, 101, 101, 100, 100, 57, 101, 48, 100, 97, 56, 98, 99, 57, 57, 98, 56,
        48, 56, 0] ++ List.replicate 4 120) ∧
    vsnprintf Example.debugBuild true Example.out24 24 Example.fmtLlu Example.int64Max =
      Except.ok (19, [57, 50, 50, 51, 51, 55, 50, 48, 51, 54, 56, 53, 52, 55, 55, 53, 56,
        48, 55, 0] ++ List.replicate 4 120) ∧
    cvt_ll.digits 10 hexDigits 64 (wrapSigned 64 (2 ^ 64 - 1 : Nat)) [] = [102] := by
  refine ⟨?_, ?_, ?_, ?_, ?_⟩ <;> rfl

/-- The digit loop of `cvt_ll` on a value that is not negative: the digits of the value in
the radix, most significant first, in front of what was converted before. -/
theorem cvt_ll.digits_of_nonneg (radix : Nat) (hexp : List Nat) (h2 : 2 ≤ radix)
    (h16 : radix ≤ 16) (fuel : Nat) :
    ∀ (v : Nat) (cvt : List Nat), v < 2 ^ fuel →
      cvt_ll.digits (radix : Int) hexp fuel (v : Int) cvt =
        ((Nat.digits radix v).reverse.map fun d => hexp.getD d 0) ++ cvt := by
  induction fuel with
  | zero =>
    intro v cvt hv
    have : v = 0 := by simpa using hv
    subst this
    simp [cvt_ll.digits]
  | succ fuel ih =>
    intro v cvt hv
    by_cases h0 : v = 0
    · subst h0
      simp [cvt_ll.digits]
    · have hpos : 0 < v := Nat.pos_of_ne_zero h0
      have hv0 : ¬ ((v : Int) = 0) := by omega
      have hdiv : Int.tdiv (v : Int) (radix : Int) = ((v / radix : Nat) : Int) := by
        rw [Int.tdiv_eq_ediv (by omega) (by omega)]
        rfl
      have hmod : Int.tmod (v : Int) (radix : Int) = ((v % radix : Nat) : Int) := by
        rw [Int.tmod_eq_emod (by omega) (by omega)]
        rfl
      have hlt : v % radix < radix := Nat.mod_lt _ (by omega)
      have hidx : (wrapInt32 ((v % radix : Nat) : Int) % 16).toNat = v % radix := by
        unfold wrapInt32
        omega
      have hq : v / radix < 2 ^ fuel := by
        have h3 : v / radix ≤ v / 2 := Nat.div_le_div_left h2 (by omega)
        have h4 : v / 2 < 2 ^ fuel := by
          rw [Nat.div_lt_iff_lt_mul (by omega)]
          rw [Nat.pow_succ] at hv
          exact hv
        omega
      rw [cvt_ll.digits, if_neg hv0, hdiv, hmod, hidx, ih _ _ hq,
        Nat.digits_def' (by omega) hpos]
      simp

/-- The conversion of an unsigned 64-bit value below `2 ^ 63` by `cvt_ll` as `dosprintf`
calls it for the type `UINT64`: the digits are those of the value in the radix. -/
theorem cvt_ll.digits_of_lower_half (radix : Nat) (hexp : List Nat) (h2 : 2 ≤ radix)
    (h16 : radix ≤ 16) (v : Nat) (hv : v < 2 ^ 63) :
    cvt_ll.digits (radix : Int) hexp 64 (wrapSigned 64 (v : Int)) [] =
      (Nat.digits radix v).reverse.map fun d => hexp.getD d 0 := by
  have hw : wrapSigned 64 (v : Int) = (v : Int) := by
    unfold wrapSigned
    norm_num at hv ⊢
    omega
  rw [hw, cvt_ll.digits_of_nonneg radix hexp h2 h16 64 v [] (by
    calc v < 2 ^ 63 := hv
      _ ≤ 2 ^ 64 := by norm_num)]
  simp

/-! ## Theorems: the conversions of `nsTextFormatter` into a buffer with room -/

/-- Storing nothing leaves the state as it is. -/
theorem SprintfState.put_nil (ss : SprintfState) : ss.put [] = ss := by
  obtain ⟨b, c, m⟩ := ss
  simp [SprintfState.put]

/-- Storing `xs` and then `ys` is storing `xs ++ ys`. -/
theorem SprintfState.put_put (ss : SprintfState) (xs ys : List Nat)
    (h : ss.cur ≤ ss.base.length) : (ss.put xs).put ys = ss.put (xs ++ ys) := by
  obtain ⟨b, c, m⟩ := ss
  simp only at h
  simp only [SprintfState.put, List.length_append, SprintfState.mk.injEq, and_true]
  refine ⟨?_, by omega⟩
  have h1 : (List.take c b ++ xs).length = c + xs.length := by
    simp [List.length_take, Nat.min_eq_left h]
  have h2 : (List.take c b ++ xs).length + ys.length = c + xs.length + ys.length := by
    rw [h1]
  rw [List.take_left' h1, ← h2, List.drop_append, List.drop_drop]
  simp only [List.append_assoc]
  rw [Nat.add_assoc]

/-- The cursor stays within the buffer when the stored units fit into it. -/
theorem SprintfState.put_cur_le (ss : SprintfState) (xs : List Nat)
    (h : ss.cur + xs.length ≤ ss.base.length) :
    (ss.put xs).cur ≤ (ss.put xs).base.length := by
  obtain ⟨b, c, m⟩ := ss
  simp only at h
  simp only [SprintfState.put, List.length_append, List.length_take, List.length_drop]
  omega

/-- The copy loop of `LimitStuff` stores the units that it is given when they fit into the
buffer. -/
theorem LimitStuff.copy_put (xs rest : List Nat) (ss : SprintfState)
    (h : ss.cur + xs.length ≤ ss.base.length) :
    LimitStuff.copy xs.length ss (xs ++ rest) = Except.ok (ss.put xs) := by
  induction xs generalizing ss with
  | nil => simp [LimitStuff.copy, SprintfState.put_nil, pure, Except.pure]
  | cons x xs ih =>
    obtain ⟨b, c, m⟩ := ss
    simp only [List.length_cons] at h
    have hc : c < b.length := by omega
    simp only [List.length_cons, List.cons_append, LimitStuff.copy, hc, if_true]
    rw [ih _ (by simp only [List.length_set]; omega)]
    have hput : (SprintfState.mk (b.set c x) (c + 1) m).put xs =
        ((SprintfState.mk b c m).put [x]).put xs := by
      congr 1
      simp only [SprintfState.put, List.length_singleton, SprintfState.mk.injEq, and_true,
        true_and]
      rw [List.set_eq_take_append_cons_drop, if_pos hc]
      simp
    rw [hput, SprintfState.put_put _ _ _ (Nat.le_of_lt hc)]
    rfl

/-- The function `LimitStuff` stores the units that it is given and returns 0 when they fit
into what is left of the buffer. -/
theorem LimitStuff.put_of_room (xs rest : List Nat) (ss : SprintfState)
    (h1 : ss.cur + xs.length ≤ ss.maxlen) (h2 : ss.maxlen ≤ ss.base.length)
    (h3 : ss.maxlen < 2 ^ 32) :
    LimitStuff ss (xs ++ rest) xs.length = Except.ok (0, ss.put xs) := by
  have hl : toUint32 ((ss.maxlen : Int) - (ss.cur : Int)) = ss.maxlen - ss.cur := by
    unfold toUint32
    have : ((ss.maxlen : Int) - (ss.cur : Int)) = ((ss.maxlen - ss.cur : Nat) : Int) := by
      omega
    rw [this]
    have h4 : ((ss.maxlen - ss.cur : Nat) : Int) % 2 ^ 32 = ((ss.maxlen - ss.cur : Nat) : Int) :=
      Int.emod_eq_of_lt (by omega) (by norm_num at h3 ⊢; omega)
    rw [h4, Int.toNat_ofNat]
  have hn : ¬ xs.length > ss.maxlen - ss.cur := by omega
  simp only [LimitStuff, hl, hn, if_false, bind, Except.bind,
    LimitStuff.copy_put xs rest ss (by omega), pure, Except.pure]

/-- A step that returns 0 is followed by the next step. -/
theorem stuffThen_ok_zero (ss : SprintfState)
    (next : SprintfState → Except Failure (Int × SprintfState)) :
    stuffThen (Except.ok (0, ss)) next = next ss := by
  simp [stuffThen, bind, Except.bind]

/-- There is room for less. -/
theorem SprintfState.hasRoom_mono (ss : SprintfState) (n k : Nat) (h : ss.hasRoom n)
    (hk : k ≤ n) : ss.hasRoom k := by
  unfold SprintfState.hasRoom at *
  omega

/-- After `xs` has been stored there is room for what the buffer had room for beyond `xs`. -/
theorem SprintfState.hasRoom_put (ss : SprintfState) (xs : List Nat) (n k : Nat)
    (h : ss.hasRoom n) (hk : xs.length + k ≤ n) : (ss.put xs).hasRoom k := by
  obtain ⟨b, c, m⟩ := ss
  unfold SprintfState.hasRoom at *
  simp only [SprintfState.put, List.length_append, List.length_take, List.length_drop] at *
  omega

/-- The function `LimitStuff` stores the units that it is given and returns 0 when the
buffer has room for them. -/
theorem LimitStuff.put_of_hasRoom (xs rest : List Nat) (ss : SprintfState)
    (h : ss.hasRoom xs.length) :
    LimitStuff ss (xs ++ rest) xs.length = Except.ok (0, ss.put xs) :=
  LimitStuff.put_of_room xs rest ss h.1 h.2.1 h.2.2

/-- The padding loop stores `n` copies of the unit when the buffer has room for them. -/
theorem stuffRepeat_put (ch n : Nat) (ss : SprintfState) (h : ss.hasRoom n) :
    stuffRepeat LimitStuff ch n ss = Except.ok (0, ss.put (List.replicate n ch)) := by
  induction n generalizing ss with
  | zero => simp [stuffRepeat, SprintfState.put_nil, pure, Except.pure]
  | succ n ih =>
    have h1 := LimitStuff.put_of_hasRoom [ch] [] ss
      (SprintfState.hasRoom_mono ss (n + 1) 1 h (by simp))
    simp only [List.append_nil, List.length_singleton] at h1
    simp only [stuffRepeat, h1, stuffThen_ok_zero]
    rw [ih _ (SprintfState.hasRoom_put ss [ch] (n + 1) n h (by simp; omega)),
      SprintfState.put_put _ _ _ (by unfold SprintfState.hasRoom at h; omega)]
    rfl

/-- The length of the output that is expected of `fill2`: that of the units, or `width` when
this is more. -/
theorem fill2.expected_length (body : List Nat) (width : Int) (flags : Nat) :
    (fill2.expected body width flags).length =
      body.length + (width - (body.length : Int)).toNat := by
  unfold fill2.expected
  split <;> simp [Nat.add_comm]

/-- The function `fill2` on a buffer with room stores the units padded to the width. -/
theorem fill2_put (ss : SprintfState) (body rest : List Nat) (width : Int) (flags : Nat)
    (hroom : ss.hasRoom (fill2.expected body width flags).length)
    (hlow : -2 ^ 31 ≤ width - (body.length : Int)) (hhigh : width < 2 ^ 31) :
    fill2 LimitStuff ss (body ++ rest) (body.length : Int) width flags =
      Except.ok (0, ss.put (fill2.expected body width flags)) := by
  rw [fill2.expected_length] at hroom
  have hcur : ss.cur ≤ ss.base.length := by unfold SprintfState.hasRoom at hroom; omega
  have hw : wrapInt32 (width - (body.length : Int)) = width - (body.length : Int) := by
    unfold wrapInt32
    have h0 : (0 : Int) ≤ (body.length : Int) := Int.ofNat_nonneg _
    norm_num at hlow hhigh ⊢
    omega
  have hu : toUint32 (body.length : Int) = body.length := by
    unfold toUint32
    have h4 : (body.length : Int) % 2 ^ 32 = (body.length : Int) :=
      Int.emod_eq_of_lt (by omega) (by
        unfold SprintfState.hasRoom at hroom
        norm_num at hroom ⊢
        omega)
    rw [h4, Int.toNat_ofNat]
  have hbody : ∀ s1 : SprintfState, s1.hasRoom body.length →
      LimitStuff s1 (body ++ rest) body.length = Except.ok (0, s1.put body) :=
    fun s1 h1 => LimitStuff.put_of_hasRoom body rest s1 h1
  simp only [fill2, hw, hu]
  by_cases hpos : width - (body.length : Int) > 0
  · by_cases hleft : (flags &&& _LEFT == 0) = true
    · have hl2 : (flags &&& _LEFT != 0) = false := by
        simp only [bne, hleft, Bool.not_true]
      simp only [hpos, decide_True, hleft, Bool.and_self, Bool.true_and, if_true]
      rw [stuffRepeat_put _ _ _ (SprintfState.hasRoom_mono _ _ _ hroom (by omega)),
        stuffThen_ok_zero,
        hbody _ (SprintfState.hasRoom_put _ _ _ _ hroom (by simp; omega)),
        stuffThen_ok_zero, SprintfState.put_put _ _ _ hcur]
      simp [fill2.expected, hl2, pure, Except.pure]
    · have hl2 : (flags &&& _LEFT != 0) = true := by
        simpa [bne] using hleft
      have hl3 : (flags &&& _LEFT == 0) = false := by simpa using hleft
      simp only [hpos, decide_True, hl3, Bool.and_false, Bool.false_and, if_false,
        Bool.false_eq_true, hl2, Bool.and_self, if_true, pure, Except.pure,
        stuffThen_ok_zero]
      rw [hbody _ (SprintfState.hasRoom_mono _ _ _ hroom (by omega)), stuffThen_ok_zero,
        stuffRepeat_put _ _ _ (SprintfState.hasRoom_put _ _ _ _ hroom (by omega)),
        stuffThen_ok_zero, SprintfState.put_put _ _ _ hcur]
      simp [fill2.expected, hl2]
  · have hz : (width - (body.length : Int)).toNat = 0 := by omega
    simp only [hpos, decide_False, Bool.false_and, Bool.false_eq_true, if_false, pure,
      Except.pure, stuffThen_ok_zero]
    rw [hbody _ (SprintfState.hasRoom_mono _ _ _ hroom (by omega)), stuffThen_ok_zero]
    unfold fill2.expected
    simp only [hz, List.replicate_zero, List.append_nil, List.nil_append, ite_self]

/-- For a precision other than zero `cvt_S` is `fill2` on the units to output, which are a
prefix of what can be read from the string. -/
theorem cvt_S_eq_fill2 (stuff : StuffFn) (ss : SprintfState) (s : Option (List Nat))
    (width prec : Int) (flags : Nat) (hp : prec ≠ 0)
    (hlen : ∀ str, s = some str → NS_strlen str < 2 ^ 31) :
    ∃ rest, cvt_S stuff ss s width prec flags =
      fill2 stuff ss (cvt_S.body s prec ++ rest) ((cvt_S.body s prec).length : Int) width
        flags := by
  have key : ∀ (src : List Nat) (L : Int),
      L = ((src.takeWhile (fun c => c != 0)).length : Int) →
      ∃ rest, src = (if prec > 0 then (src.takeWhile (fun c => c != 0)).take prec.toNat
          else src.takeWhile (fun c => c != 0)) ++ rest ∧
        (if prec > 0 ∧ prec < L then prec else L) =
          (((if prec > 0 then (src.takeWhile (fun c => c != 0)).take prec.toNat
            else src.takeWhile (fun c => c != 0))).length : Int) := by
    intro src L hL
    by_cases hpos : prec > 0
    · refine ⟨(src.takeWhile (fun c => c != 0)).drop prec.toNat ++
        src.dropWhile (fun c => c != 0), ?_, ?_⟩
      · simp only [hpos, if_true]
        rw [← List.append_assoc, List.take_append_drop, List.takeWhile_append_dropWhile]
      · simp only [hpos, if_true, true_and, List.length_take, hL]
        split <;> omega
    · refine ⟨src.dropWhile (fun c => c != 0), ?_, ?_⟩
      · simp only [hpos, if_false]
        rw [List.takeWhile_append_dropWhile]
      · simp only [hpos, if_false, false_and, hL]
  cases s with
  | none =>
    obtain ⟨rest, h1, h2⟩ := key nullstr 6 rfl
    refine ⟨rest, ?_⟩
    simp only [cvt_S, hp, if_false, Option.getD_none, cvt_S.body]
    rw [h2, ← h1]
  | some str =>
    have h0 := hlen str rfl
    have hL : toInt32 (NS_strlen str) =
        (((str.takeWhile (fun c => c != 0)).length : Nat) : Int) := by
      unfold toInt32 wrapInt32
      unfold NS_strlen at h0 ⊢
      norm_num at h0 ⊢
      omega
    obtain ⟨rest, h1, h2⟩ := key str (toInt32 (NS_strlen str)) hL
    refine ⟨rest, ?_⟩
    simp only [cvt_S, hp, if_false, Option.getD_some, cvt_S.body]
    rw [h2, ← h1]

/-- C21, amended: `cvt_S` treats `width` as the output width and `prec` as the maximum number
of units of the string to output, except that a precision of zero gives no output at all,
not even the padding. For every string `s` shorter than `2 ^ 31` units, or null, which is
taken as `"(null)"`, and every `prec` and `width` for which `width - slen` does not overflow
an `int`, `cvt_S` with `LimitStuff` on a buffer with room returns 0 and stores exactly the
expected output at the cursor: for `prec` other than zero the first `min(len, prec)` units
of the string (all of them when `prec` is negative), padded to `width` units with spaces at
the end when `_LEFT` is set and else at the front with spaces or, when `_ZEROS` is set, with
zeros; the output has `max(width, number of units)` units. -/
theorem cvt_S_stores_limited_padded (ss : SprintfState) (s : Option (List Nat))
    (width prec : Int) (flags : Nat)
    (hroom : ss.hasRoom (cvt_S.expected s width prec flags).length)
    (hlen : ∀ str, s = some str → NS_strlen str < 2 ^ 31)
    (hlow : -2 ^ 31 ≤ width - ((cvt_S.body s prec).length : Int)) (hhigh : width < 2 ^ 31) :
    cvt_S LimitStuff ss s width prec flags =
      Except.ok (0, ss.put (cvt_S.expected s width prec flags)) ∧
    (prec = 0 → cvt_S.expected s width prec flags = []) ∧
    (prec ≠ 0 → ((cvt_S.expected s width prec flags).length : Int) =
      max width ((cvt_S.body s prec).length : Int)) := by
  refine ⟨?_, fun hp => by simp [cvt_S.expected, hp], fun hp => ?_⟩
  · by_cases hp : prec = 0
    · simp [cvt_S, cvt_S.expected, hp, SprintfState.put_nil, pure, Except.pure]
    · obtain ⟨rest, hfill⟩ := cvt_S_eq_fill2 LimitStuff ss s width prec flags hp hlen
      simp only [cvt_S.expected, hp, if_false] at hroom ⊢
      rw [hfill]
      exact fill2_put ss (cvt_S.body s prec) rest width flags hroom hlow hhigh
  · simp only [cvt_S.expected, hp, if_false, fill2.expected_length]
    omega

/-- C21, at an example: `"%5.1S"` of the string `"ab"` stores four spaces and `a` in a buffer
of eight units; and a null string is cut by the precision like any other, so that `"%.3S"`
stores `"(nu"`. -/
theorem cvt_S_stores_limited_padded_witness :
    cvt_S LimitStuff Example.state8 (some Example.strAb) 5 1 0 =
      Except.ok (0, { base := [32, 32, 32, 32, 97, 120, 120, 120], cur := 5, maxlen := 8 }) ∧
    cvt_S LimitStuff Example.state8 none 0 3 0 =
      Except.ok (0, { base := [40, 110, 117, 120, 120, 120, 120, 120], cur := 3, maxlen := 8 }) :=
  ⟨(cvt_S_stores_limited_padded Example.state8 (some Example.strAb) 5 1 0
      (by unfold SprintfState.hasRoom; decide)
      (by intro str h; cases h; decide) (by decide) (by decide)).1,
   rfl⟩

/-- C21, counterexample: with a precision of zero `cvt_S` stores nothing, whatever the width:
`"%5.0S"` of the string `"ab"` leaves the buffer and the cursor as they were, where five fill
characters are claimed, and so does `"%-5.0S"`. -/
theorem cvt_S_zero_precision_stores_nothing :
    cvt_S LimitStuff Example.state8 (some Example.strAb) 5 0 0 =
      Except.ok (0, Example.state8) ∧
    cvt_S LimitStuff Example.state8 (some Example.strAb) 5 0 _LEFT =
      Except.ok (0, Example.state8) := by
  constructor <;> rfl

/-! ## Theorems: the argument numbers that `BuildArgArray` checks -/

/-- The whole format is its rest from the start on. -/
theorem Suffix.start (fmt : List Nat) : Suffix fmt 0 fmt := by
  simp [Suffix]

/-- Reading where the rest of the format begins gives its first unit. -/
theorem Suffix.charAt_cons (fmt : List Nat) (p x : Nat) (tl : List Nat)
    (h : Suffix fmt p (x :: tl)) : charAt fmt p = Except.ok x := by
  obtain ⟨h1, h2⟩ := h
  have hp : p < fmt.length := by simp only [List.length_cons] at h2; omega
  unfold charAt
  simp only [hp, if_true, pure, Except.pure]
  have h3 : fmt[p]? = some x := by
    rw [← List.head?_drop, h1]
    rfl
  rw [List.getD_eq_getElem?_getD, h3]
  rfl

/-- Reading at the end of the format gives the NUL. -/
theorem Suffix.charAt_nil (fmt : List Nat) (p : Nat) (h : Suffix fmt p []) :
    charAt fmt p = Except.ok 0 := by
  obtain ⟨_, h2⟩ := h
  simp only [List.length_nil, Nat.add_zero] at h2
  subst h2
  simp [charAt, pure, Except.pure]

/-- The rest of the format after its first unit. -/
theorem Suffix.after_unit (fmt : List Nat) (p x : Nat) (tl : List Nat)
    (h : Suffix fmt p (x :: tl)) : Suffix fmt (p + 1) tl := by
  obtain ⟨h1, h2⟩ := h
  refine ⟨?_, by simp only [List.length_cons] at h2; omega⟩
  have : List.drop 1 (List.drop p fmt) = tl := by rw [h1]; rfl
  rw [List.drop_drop] at this
  rw [← this]

/-- The rest of the format after some of its units. -/
theorem Suffix.drop (fmt : List Nat) (us : List Nat) :
    ∀ (p : Nat) (tl : List Nat), Suffix fmt p (us ++ tl) → Suffix fmt (p + us.length) tl := by
  induction us with
  | nil => intro p tl h; simpa using h
  | cons u us ih =>
    intro p tl h
    have h1 := ih (p + 1) tl (Suffix.after_unit fmt p u (us ++ tl) h)
    simp only [List.length_cons]
    rw [show p + (us.length + 1) = p + 1 + us.length by omega]
    exact h1

/-- The rest of the format is no longer than the format. -/
theorem Suffix.length_le (fmt : List Nat) (p : Nat) (us : List Nat) (h : Suffix fmt p us) :
    us.length ≤ fmt.length := by
  obtain ⟨_, h2⟩ := h
  omega

/-- The inner loop of the first pass of `BuildArgArray` runs over the digits of a
specification and ends at the first unit that is not a digit. -/
theorem BuildArgArray.scanSpec_digits (fmt : List Nat) (stop : Nat) (tl : List Nat)
    (hstop : stop > 57 ∨ stop < 48) (ds : List Nat) :
    ∀ (q fuel c : Nat), Suffix fmt q (digitUnits ds ++ stop :: tl) → (∀ d ∈ ds, d ≤ 9) →
      ds.length + 1 ≤ fuel → charAt fmt q = Except.ok c →
      BuildArgArray.scanSpec fmt fuel c (q + 1) = Except.ok (stop, q + ds.length + 1) := by
  induction ds with
  | nil =>
    intro q fuel c hs _ hfuel hc
    obtain ⟨f, rfl⟩ : ∃ f, fuel = f + 1 := ⟨fuel - 1, by omega⟩
    simp only [digitUnits, List.map_nil, List.nil_append] at hs
    rw [Suffix.charAt_cons fmt q stop tl hs] at hc
    cases hc
    by_cases h0 : stop = 0
    · simp [BuildArgArray.scanSpec, h0, pure, Except.pure]
    · simp [BuildArgArray.scanSpec, h0, hstop, pure, Except.pure]
  | cons d ds ih =>
    intro q fuel c hs hd hfuel hc
    simp only [List.length_cons] at hfuel
    obtain ⟨f, rfl⟩ : ∃ f, fuel = f + 1 := ⟨fuel - 1, by omega⟩
    simp only [digitUnits, List.map_cons, List.cons_append] at hs
    rw [Suffix.charAt_cons fmt q _ _ hs] at hc
    cases hc
    have hd0 : d ≤ 9 := hd d (List.mem_cons_self _ _)
    have hs1 := Suffix.after_unit fmt q _ _ hs
    obtain ⟨c1, hc1⟩ : ∃ c1, charAt fmt (q + 1) = Except.ok c1 := by
      cases ds with
      | nil => exact ⟨_, Suffix.charAt_cons fmt (q + 1) _ _ hs1⟩
      | cons d1 ds1 => exact ⟨_, Suffix.charAt_cons fmt (q + 1) _ _ hs1⟩
    have e1 : ¬ (48 + d = 0) := by omega
    have e2 : ¬ (48 + d > 57 ∨ 48 + d < 48) := by omega
    have hrec := ih (q + 1) f c1 hs1 (fun x hx => hd x (List.mem_cons_of_mem _ hx))
      (by omega) hc1
    simp only [BuildArgArray.scanSpec, e1, e2, if_false, hc1, bind, Except.bind]
    rw [hrec, show q + 1 + ds.length + 1 = q + (d :: ds).length + 1 by
      simp only [List.length_cons]; omega]

/-- The loop over the digits of a width or of a precision in the second pass of
`BuildArgArray` ends at the first unit that is not a digit. -/
theorem skipDigits_digits (fmt : List Nat) (stop : Nat) (tl : List Nat)
    (hstop : stop > 57 ∨ stop < 48) (ds : List Nat) :
    ∀ (q fuel c : Nat), Suffix fmt q (digitUnits ds ++ stop :: tl) → (∀ d ∈ ds, d ≤ 9) →
      ds.length + 1 ≤ fuel → charAt fmt q = Except.ok c →
      skipDigits fmt fuel c (q + 1) = Except.ok (stop, q + ds.length + 1) := by
  induction ds with
  | nil =>
    intro q fuel c hs _ hfuel hc
    obtain ⟨f, rfl⟩ : ∃ f, fuel = f + 1 := ⟨fuel - 1, by omega⟩
    simp only [digitUnits, List.map_nil, List.nil_append] at hs
    rw [Suffix.charAt_cons fmt q stop tl hs] at hc
    cases hc
    have e : ¬ (stop ≥ 48 ∧ stop ≤ 57) := by omega
    simp [skipDigits, e, pure, Except.pure]
  | cons d ds ih =>
    intro q fuel c hs hd hfuel hc
    simp only [List.length_cons] at hfuel
    obtain ⟨f, rfl⟩ : ∃ f, fuel = f + 1 := ⟨fuel - 1, by omega⟩
    simp only [digitUnits, List.map_cons, List.cons_append] at hs
    rw [Suffix.charAt_cons fmt q _ _ hs] at hc
    cases hc
    have hd0 : d ≤ 9 := hd d (List.mem_cons_self _ _)
    have hs1 := Suffix.after_unit fmt q _ _ hs
    obtain ⟨c1, hc1⟩ : ∃ c1, charAt fmt (q + 1) = Except.ok c1 := by
      cases ds with
      | nil => exact ⟨_, Suffix.charAt_cons fmt (q + 1) _ _ hs1⟩
      | cons d1 ds1 => exact ⟨_, Suffix.charAt_cons fmt (q + 1) _ _ hs1⟩
    have e1 : (48 + d ≥ 48 ∧ 48 + d ≤ 57) := by omega
    have hrec := ih (q + 1) f c1 hs1 (fun x hx => hd x (List.mem_cons_of_mem _ hx))
      (by omega) hc1
    rw [skipDigits, if_pos e1]
    simp only [hc1, bind, Except.bind]
    rw [hrec, show q + 1 + ds.length + 1 = q + (d :: ds).length + 1 by
      simp only [List.length_cons]; omega]

/-- The number read so far is at most the number with more digits read. -/
theorem digitsValue_le (ds : List Nat) : ∀ n, n ≤ digitsValue n ds := by
  induction ds with
  | nil => intro n; exact Nat.le_refl _
  | cons d ds ih =>
    intro n
    have := ih (n * 10 + d)
    simp only [digitsValue, List.foldl_cons] at this ⊢
    omega

/-- The loop over the number of a specification in the second pass of `BuildArgArray` reads
the number up to its `$`. -/
theorem argNumber_digits (fmt : List Nat) (tl : List Nat) (ds : List Nat) :
    ∀ (q fuel c n : Nat), Suffix fmt q (digitUnits ds ++ 36 :: tl) → (∀ d ∈ ds, d ≤ 9) →
      ds.length + 1 ≤ fuel → charAt fmt q = Except.ok c → digitsValue n ds < 2 ^ 31 →
      argNumber fmt fuel (n : Int) c (q + 1) =
        Except.ok ((digitsValue n ds : Int), 36, q + ds.length + 1) := by
  induction ds with
  | nil =>
    intro q fuel c n hs _ hfuel hc _
    obtain ⟨f, rfl⟩ : ∃ f, fuel = f + 1 := ⟨fuel - 1, by omega⟩
    simp only [digitUnits, List.map_nil, List.nil_append] at hs
    rw [Suffix.charAt_cons fmt q 36 tl hs] at hc
    cases hc
    simp [argNumber, digitsValue, pure, Except.pure]
  | cons d ds ih =>
    intro q fuel c n hs hd hfuel hc hv
    simp only [List.length_cons] at hfuel
    obtain ⟨f, rfl⟩ : ∃ f, fuel = f + 1 := ⟨fuel - 1, by omega⟩
    simp only [digitUnits, List.map_cons, List.cons_append] at hs
    rw [Suffix.charAt_cons fmt q _ _ hs] at hc
    cases hc
    have hd0 : d ≤ 9 := hd d (List.mem_cons_self _ _)
    have hs1 := Suffix.after_unit fmt q _ _ hs
    obtain ⟨c1, hc1⟩ : ∃ c1, charAt fmt (q + 1) = Except.ok c1 := by
      cases ds with
      | nil => exact ⟨_, Suffix.charAt_cons fmt (q + 1) _ _ hs1⟩
      | cons d1 ds1 => exact ⟨_, Suffix.charAt_cons fmt (q + 1) _ _ hs1⟩
    have hv1 : digitsValue (n * 10 + d) ds < 2 ^ 31 := by
      simpa [digitsValue] using hv
    have hle := digitsValue_le ds (n * 10 + d)
    have e1 : (48 + d ≠ 0 ∧ 48 + d ≠ 36) := by omega
    have hw : wrapInt32 ((n : Int) * 10 + ((48 + d : Nat) : Int) - 48) =
        ((n * 10 + d : Nat) : Int) := by
      unfold wrapInt32
      push_cast
      norm_num at hv1 ⊢
      omega
    have hrec := ih (q + 1) f c1 (n * 10 + d) hs1
      (fun x hx => hd x (List.mem_cons_of_mem _ hx)) (by omega) hc1 hv1
    rw [argNumber, if_pos e1]
    simp only [hc1, bind, Except.bind, hw]
    rw [hrec, show q + 1 + ds.length + 1 = q + (d :: ds).length + 1 by
      simp only [List.length_cons]; omega]
    simp only [digitsValue, List.foldl_cons]

/-- The unit that follows the `%` of a numbered specification is a digit or the `$`, not a
second `%`. -/
theorem Suffix.charAt_number (fmt : List Nat) (q : Nat) (ds tl : List Nat)
    (h : Suffix fmt q (digitUnits ds ++ 36 :: tl)) :
    ∃ c, charAt fmt q = Except.ok c ∧ c ≠ 37 := by
  cases ds with
  | nil => exact ⟨36, Suffix.charAt_cons fmt q _ _ h, by omega⟩
  | cons d ds => exact ⟨48 + d, Suffix.charAt_cons fmt q _ _ h, by omega⟩

/-- The units of a well-formed specification after its `$` are neither NUL nor `%`. -/
theorem NumberedSpec.tail_text (s : NumberedSpec) :
    ∀ u ∈ s.tail, u ≠ 0 ∧ u ≠ 37 := by
  intro u hu
  simp only [NumberedSpec.tail, digitUnits, List.mem_append, List.mem_map,
    List.mem_singleton] at hu
  rcases hu with ⟨d, _, rfl⟩ | hu | hu | hu
  · omega
  · cases hp : s.prec with
    | none => simp [hp, precisionUnits] at hu
    | some ds =>
      simp only [hp, precisionUnits, digitUnits, List.mem_cons, List.mem_map] at hu
      rcases hu with rfl | ⟨d, _, rfl⟩ <;> omega
  · cases hz : s.size <;> simp [hz, FormatSize.units] at hu <;> omega
  · subst hu
    cases s.conv <;> simp [FormatConv.unit]

/-- The first pass of `BuildArgArray` passes over units of text. -/
theorem BuildArgArray.firstPass_texts (fmt : List Nat) (number i : Nat) (us : List Nat) :
    ∀ (p fuel : Nat) (tl : List Nat), Suffix fmt p (us ++ tl) →
      (∀ u ∈ us, u ≠ 0 ∧ u ≠ 37) →
      BuildArgArray.firstPass fmt (fuel + us.length) p number i =
        BuildArgArray.firstPass fmt fuel (p + us.length) number i := by
  induction us with
  | nil => intro p fuel tl _ _; rfl
  | cons u us ih =>
    intro p fuel tl hs hu
    have hu0 := hu u (List.mem_cons_self _ _)
    have hc := Suffix.charAt_cons fmt p u (us ++ tl) hs
    have hrec := ih (p + 1) fuel tl (Suffix.after_unit fmt p u _ hs)
      (fun x hx => hu x (List.mem_cons_of_mem _ hx))
    simp only [List.length_cons]
    rw [show fuel + (us.length + 1) = fuel + us.length + 1 by omega,
      BuildArgArray.firstPass]
    simp only [hc, hu0.1, hu0.2, bind, Except.bind, if_false, ne_eq, not_false_eq_true,
      if_true]
    rw [hrec, show p + 1 + us.length = p + (us.length + 1) by omega]

/-- The first pass of `BuildArgArray` counts a numbered specification and goes on after its
`$`. -/
theorem BuildArgArray.firstPass_spec (fmt : List Nat) (number : Nat) (ds tl : List Nat)
    (p fuel : Nat) (hs : Suffix fmt p (37 :: (digitUnits ds ++ 36 :: tl)))
    (hd : ∀ d ∈ ds, d ≤ 9) :
    BuildArgArray.firstPass fmt (fuel + 1) p number 0 =
      BuildArgArray.firstPass fmt fuel (p + 1 + ds.length + 1) (number + 1) 0 := by
  have hc := Suffix.charAt_cons fmt p 37 _ hs
  have hs1 := Suffix.after_unit fmt p 37 _ hs
  obtain ⟨c1, hc1, hne⟩ := Suffix.charAt_number fmt (p + 1) ds tl hs1
  have hlen := Suffix.length_le fmt (p + 1) _ hs1
  simp only [List.length_append, digitUnits, List.length_map, List.length_cons] at hlen
  have hscan := BuildArgArray.scanSpec_digits fmt 36 tl (by omega) ds (p + 1)
    (fmt.length + 2) c1 hs1 hd (by omega) hc1
  rw [BuildArgArray.firstPass]
  simp only [hc, hc1, hne, hscan, bind, Except.bind, if_false, ne_eq, not_true_eq_false,
    OfNat.ofNat_ne_zero, if_true, Nat.lt_irrefl, gt_iff_lt, Nat.reduceEqDiff]

/-- The first pass of `BuildArgArray` counts the numbered specifications of a format that
consists of text, quoted percent signs and numbered specifications. -/
theorem BuildArgArray.firstPass_items (fmt : List Nat) (items : List FormatItem) :
    ∀ (p fuel number : Nat), Suffix fmt p (renderFormat items) →
      (∀ item ∈ items, item.WellFormed) → (renderFormat items).length + 1 ≤ fuel →
      BuildArgArray.firstPass fmt fuel p number 0 =
        Except.ok (some (number + (numberedSpecs items).length)) := by
  induction items with
  | nil =>
    intro p fuel number hs _ hfuel
    obtain ⟨f, rfl⟩ : ∃ f, fuel = f + 1 := ⟨fuel - 1, by omega⟩
    simp only [renderFormat] at hs
    simp [BuildArgArray.firstPass, Suffix.charAt_nil fmt p hs, numberedSpecs, bind,
      Except.bind, pure, Except.pure]
  | cons item items ih =>
    intro p fuel number hs hwf hfuel
    have hwf1 : ∀ it ∈ items, it.WellFormed := fun x hx => hwf x (List.mem_cons_of_mem _ hx)
    have hw := hwf item (List.mem_cons_self _ _)
    simp only [renderFormat, List.length_append] at hs hfuel
    cases item with
    | text u =>
      simp only [FormatItem.units, List.length_singleton] at hs hfuel
      simp only [FormatItem.WellFormed] at hw
      obtain ⟨f, rfl⟩ : ∃ f, fuel = f + [u].length := ⟨fuel - 1, by simp; omega⟩
      rw [BuildArgArray.firstPass_texts fmt number 0 [u] p f _ hs (by simpa using hw)]
      simp only [List.length_singleton] at hfuel ⊢
      rw [ih (p + 1) f number (Suffix.drop fmt [u] p _ hs) hwf1 (by omega)]
      simp [numberedSpecs]
    | percent =>
      simp only [FormatItem.units, List.length_cons, List.length_nil] at hs hfuel
      obtain ⟨f, rfl⟩ : ∃ f, fuel = f + 1 := ⟨fuel - 1, by omega⟩
      have hc := Suffix.charAt_cons fmt p 37 _ hs
      have hs1 := Suffix.after_unit fmt p 37 _ hs
      have hc1 := Suffix.charAt_cons fmt (p + 1) 37 _ hs1
      have hs2 := Suffix.after_unit fmt (p + 1) 37 _ hs1
      rw [BuildArgArray.firstPass]
      simp only [hc, hc1, bind, Except.bind, if_false, if_true, ne_eq, not_true_eq_false,
        OfNat.ofNat_ne_zero]
      rw [ih (p + 2) f number hs2 hwf1 (by omega)]
      simp [numberedSpecs]
    | spec s =>
      simp only [FormatItem.units, NumberedSpec.units, List.length_cons, List.length_append,
        digitUnits, List.length_map] at hs hfuel
      simp only [FormatItem.WellFormed, NumberedSpec.WellFormed] at hw
      obtain ⟨f, rfl⟩ : ∃ f, fuel = f + s.tail.length + 1 :=
        ⟨fuel - s.tail.length - 1, by omega⟩
      have hs0 : Suffix fmt p (37 :: (digitUnits s.number ++ 36 ::
          (s.tail ++ renderFormat items))) := by
        simpa [digitUnits] using hs
      rw [BuildArgArray.firstPass_spec fmt number s.number _ p (f + s.tail.length) hs0 hw.1]
      have hs1 : Suffix fmt (p + 1 + s.number.length + 1) (s.tail ++ renderFormat items) := by
        have h1 := Suffix.drop fmt (37 :: (digitUnits s.number ++ [36])) p
          (s.tail ++ renderFormat items) (by simpa using hs0)
        simpa [digitUnits, Nat.add_assoc, Nat.add_comm, Nat.add_left_comm] using h1
      rw [BuildArgArray.firstPass_texts fmt (number + 1) 0 s.tail _ f _ hs1 s.tail_text,
        ih _ f (number + 1) (Suffix.drop fmt s.tail _ _ hs1) hwf1 (by omega)]
      simp only [numberedSpecs, List.length_cons]
      congr 2
      omega

/-- The entries of the array of the specifications seen. -/
theorem typedArray_getElem? (k : Nat) (seen : List (Nat × Nat)) (i : Nat) (h : i < k) :
    (typedArray k seen)[i]? =
      some { type := (seen.lookup (i + 1)).getD NumArgState.UNKNOWN, ap := 0 } := by
  simp [typedArray, List.getElem?_map, List.getElem?_range h]

/-- The array of the specifications seen has `k` entries. -/
theorem typedArray_length (k : Nat) (seen : List (Nat × Nat)) :
    (typedArray k seen).length = k := by
  simp [typedArray]

/-- The array as `BuildArgArray` initialises it is the array with no specification seen. -/
theorem typedArray_nil (k : Nat) :
    List.replicate k ({ type := NumArgState.UNKNOWN, ap := 0 } : NumArgState) =
      typedArray k [] := by
  apply List.ext_getElem?
  intro i
  by_cases h : i < k
  · rw [typedArray_getElem? k [] i h]
    simp [List.getElem?_replicate, h]
  · rw [List.getElem?_eq_none (by simp; omega), List.getElem?_eq_none (by
      rw [typedArray_length]; omega)]

/-- A further specification with a number that was seen before leaves the array as it is. -/
theorem typedArray_known (k : Nat) (seen : List (Nat × Nat)) (n t t1 : Nat)
    (h : seen.lookup n = some t) :
    typedArray k (seen ++ [(n, t1)]) = typedArray k seen := by
  unfold typedArray
  apply List.map_congr_left
  intro i _
  by_cases hi : i + 1 = n
  · subst hi
    simp [List.lookup_append, h]
  · have : (i + 1 == n) = false := by simpa using hi
    simp [List.lookup_append, List.lookup, this]

/-- Setting the type of the entry of a number that was not seen before gives the array with
the specification seen. -/
theorem typedArray_set (k : Nat) (seen : List (Nat × Nat)) (n t : Nat) (h1 : 1 ≤ n)
    (h : seen.lookup n = none) :
    (typedArray k seen).set (n - 1) { type := t, ap := 0 } =
      typedArray k (seen ++ [(n, t)]) := by
  apply List.ext_getElem?
  intro i
  by_cases hk : i < k
  · rw [typedArray_getElem? k _ i hk, List.getElem?_set]
    by_cases hi : n - 1 = i
    · have e : i + 1 = n := by omega
      subst e
      simp [typedArray_length, hk, List.lookup_append, h, List.lookup]
    · have e : (i + 1 == n) = false := by
        simp only [beq_eq_false_iff_ne, ne_eq]
        omega
      simp [hi, typedArray_getElem? k _ i hk, List.lookup_append, List.lookup, e]
  · rw [List.getElem?_eq_none (by rw [List.length_set, typedArray_length]; omega),
      List.getElem?_eq_none (by rw [typedArray_length]; omega)]

/-- The type of a specification is a known type when pointers have four or eight bytes. -/
theorem NumberedSpec.type_known (cfg : BuildConfig) (s : NumberedSpec) :
    s.type cfg < NumArgState.UNKNOWN := by
  unfold NumberedSpec.type
  cases s.conv <;> cases s.size <;>
    simp [NumArgState.UNKNOWN, NumArgState.DOUBLE, NumArgState.UINT32, NumArgState.UINT64,
      NumArgState.UNISTRING, NumArgState.STRING, NumArgState.INTSTR, NumArgState.INTN,
      NumArgState.INT16, NumArgState.INT32, NumArgState.INT64] <;>
    split <;> omega

/-- The parts "width" and "precision" of the second pass of `BuildArgArray` pass over the
digits of a width and over a precision, and end at the unit `x` that follows them. -/
theorem BuildArgArray.specWidthPrec_tail (fmt : List Nat) (w : List Nat)
    (prec : Option (List Nat)) (x : Nat) (tl : List Nat) (q c : Nat)
    (hs : Suffix fmt q (digitUnits w ++ (precisionUnits prec ++ x :: tl)))
    (hw : ∀ d ∈ w, d ≤ 9) (hp : ∀ ds, prec = some ds → ∀ d ∈ ds, d ≤ 9)
    (hx : (x > 57 ∨ x < 48) ∧ x ≠ 46 ∧ x ≠ 42) (hc : charAt fmt q = Except.ok c) :
    BuildArgArray.specWidthPrec fmt c (q + 1) =
      Except.ok (some (x, q + w.length + (precisionUnits prec).length + 1)) := by
  have hlen := Suffix.length_le fmt q _ hs
  simp only [List.length_append, digitUnits, List.length_map] at hlen
  have hc42 : c ≠ 42 := by
    cases w with
    | cons d w =>
      simp only [digitUnits, List.map_cons, List.cons_append] at hs
      rw [Suffix.charAt_cons fmt q _ _ hs] at hc
      cases hc
      omega
    | nil =>
      cases prec with
      | none =>
        simp only [precisionUnits, digitUnits, List.map_nil, List.nil_append] at hs
        rw [Suffix.charAt_cons fmt q _ _ hs] at hc
        cases hc
        exact hx.2.2
      | some ds =>
        simp only [precisionUnits, digitUnits, List.map_nil, List.nil_append,
          List.cons_append] at hs
        rw [Suffix.charAt_cons fmt q _ _ hs] at hc
        cases hc
        omega
  cases prec with
  | none =>
    simp only [precisionUnits, List.nil_append] at hs
    have h1 := skipDigits_digits fmt x tl hx.1 w q (fmt.length + 2) c hs hw
      (by simp only [List.length_cons] at hlen; omega) hc
    simp [BuildArgArray.specWidthPrec, hc42, h1, hx.2.1, precisionUnits, bind, Except.bind,
      pure, Except.pure]
  | some ds =>
    simp only [precisionUnits, List.cons_append] at hs
    simp only [precisionUnits, List.length_cons, List.length_append, digitUnits,
      List.length_map] at hlen
    have h1 := skipDigits_digits fmt 46 _ (by omega) w q (fmt.length + 2) c hs hw
      (by omega) hc
    have hs1 : Suffix fmt (q + w.length + 1) (digitUnits ds ++ x :: tl) := by
      have h2 := Suffix.drop fmt (digitUnits w ++ [46]) q (digitUnits ds ++ x :: tl)
        (by simpa using hs)
      simpa [digitUnits, Nat.add_assoc] using h2
    obtain ⟨c1, hc1, hc142⟩ : ∃ c1, charAt fmt (q + w.length + 1) = Except.ok c1 ∧ c1 ≠ 42 := by
      cases ds with
      | nil => exact ⟨x, Suffix.charAt_cons fmt _ _ _ hs1, hx.2.2⟩
      | cons d ds =>
        have hd := hp (d :: ds) rfl d (List.mem_cons_self _ _)
        exact ⟨48 + d, Suffix.charAt_cons fmt _ _ _ hs1, by omega⟩
    have h3 := skipDigits_digits fmt x tl hx.1 ds (q + w.length + 1) (fmt.length + 2) c1 hs1
      (hp ds rfl) (by omega) hc1
    simp only [BuildArgArray.specWidthPrec, hc42, h1, hc1, hc142, h3, bind, Except.bind, pure,
      Except.pure, if_false, if_true, precisionUnits, List.length_cons, digitUnits,
      List.length_map]
    congr 3
    omega

/-- The parts "size" and "format" of the second pass of `BuildArgArray` on the size and the
conversion character of a specification give its type. -/
theorem BuildArgArray.specType_tail (cfg : BuildConfig) (fmt : List Nat) (s : NumberedSpec)
    (tl : List Nat) (q c : Nat) (hs : Suffix fmt q (s.size.units ++ s.conv.unit :: tl))
    (hptr : cfg.sizeofPointer = 4 ∨ cfg.sizeofPointer = 8)
    (hc : charAt fmt q = Except.ok c) :
    BuildArgArray.specType cfg fmt c (q + 1) =
      Except.ok (s.type cfg, q + s.size.units.length + 1) := by
  have h8 : ¬ cfg.sizeofPointer = 4 → cfg.sizeofPointer = 8 := by omega
  cases hz : s.size with
  | plain =>
    simp only [hz, FormatSize.units, List.nil_append] at hs
    rw [Suffix.charAt_cons fmt q _ _ hs] at hc
    cases hc
    cases hv : s.conv <;> by_cases h4 : cfg.sizeofPointer = 4 <;>
      simp [BuildArgArray.specType, NumberedSpec.type, FormatConv.unit, hz, hv, h4, h8, bind,
        Except.bind, pure, Except.pure, FormatSize.units]
  | h =>
    simp only [hz, FormatSize.units, List.cons_append, List.nil_append] at hs
    rw [Suffix.charAt_cons fmt q _ _ hs] at hc
    cases hc
    have hc1 := Suffix.charAt_cons fmt (q + 1) _ _ (Suffix.after_unit fmt q _ _ hs)
    cases hv : s.conv <;> by_cases h4 : cfg.sizeofPointer = 4 <;>
      simp [BuildArgArray.specType, NumberedSpec.type, FormatConv.unit, hz, hv, h4, h8, hc1,
        bind, Except.bind, pure, Except.pure, FormatSize.units, NumArgState.INT16,
        NumArgState.DOUBLE, NumArgState.UINT32, NumArgState.UINT64, NumArgState.UNISTRING,
        NumArgState.STRING, NumArgState.INTSTR] at hc1 ⊢
  | l =>
    simp only [hz, FormatSize.units, List.cons_append, List.nil_append] at hs
    rw [Suffix.charAt_cons fmt q _ _ hs] at hc
    cases hc
    have hc1 := Suffix.charAt_cons fmt (q + 1) _ _ (Suffix.after_unit fmt q _ _ hs)
    cases hv : s.conv <;> by_cases h4 : cfg.sizeofPointer = 4 <;>
      simp [BuildArgArray.specType, NumberedSpec.type, FormatConv.unit, hz, hv, h4, h8, hc1,
        bind, Except.bind, pure, Except.pure, FormatSize.units, NumArgState.INT32,
        NumArgState.DOUBLE, NumArgState.UINT32, NumArgState.UINT64, NumArgState.UNISTRING,
        NumArgState.STRING, NumArgState.INTSTR] at hc1 ⊢
  | ll =>
    simp only [hz, FormatSize.units, List.cons_append, List.nil_append] at hs
    rw [Suffix.charAt_cons fmt q _ _ hs] at hc
    cases hc
    have hs1 := Suffix.after_unit fmt q _ _ hs
    have hc1 := Suffix.charAt_cons fmt (q + 1) _ _ hs1
    have hc2 := Suffix.charAt_cons fmt (q + 1 + 1) _ _ (Suffix.after_unit fmt (q + 1) _ _ hs1)
    cases hv : s.conv <;> by_cases h4 : cfg.sizeofPointer = 4 <;>
      simp [BuildArgArray.specType, NumberedSpec.type, FormatConv.unit, hz, hv, h4, h8, hc1,
        hc2, bind, Except.bind, pure, Except.pure, FormatSize.units, NumArgState.INT64,
        NumArgState.DOUBLE, NumArgState.UINT32, NumArgState.UINT64, NumArgState.UNISTRING,
        NumArgState.STRING, NumArgState.INTSTR] at hc1 hc2 ⊢
  | L =>
    simp only [hz, FormatSize.units, List.cons_append, List.nil_append] at hs
    rw [Suffix.charAt_cons fmt q _ _ hs] at hc
    cases hc
    have hc1 := Suffix.charAt_cons fmt (q + 1) _ _ (Suffix.after_unit fmt q _ _ hs)
    cases hv : s.conv <;> by_cases h4 : cfg.sizeofPointer = 4 <;>
      simp [BuildArgArray.specType, NumberedSpec.type, FormatConv.unit, hz, hv, h4, h8, hc1,
        bind, Except.bind, pure, Except.pure, FormatSize.units, NumArgState.INT64,
        NumArgState.DOUBLE, NumArgState.UINT32, NumArgState.UINT64, NumArgState.UNISTRING,
        NumArgState.STRING, NumArgState.INTSTR] at hc1 ⊢

/-- Reading within the rest of the format gives a unit. -/
theorem Suffix.charAt_exists (fmt : List Nat) (q : Nat) (us : List Nat) (h : Suffix fmt q us)
    (hne : us ≠ []) : ∃ c, charAt fmt q = Except.ok c := by
  cases us with
  | nil => exact absurd rfl hne
  | cons u us => exact ⟨u, Suffix.charAt_cons fmt q u us h⟩

/-- The size and the conversion character of a specification begin with a unit that is not
a digit, a point or a star. -/
theorem NumberedSpec.size_conv_head (s : NumberedSpec) (tl : List Nat) :
    ∃ x tl1, s.size.units ++ s.conv.unit :: tl = x :: tl1 ∧
      (x > 57 ∨ x < 48) ∧ x ≠ 46 ∧ x ≠ 42 := by
  cases hz : s.size with
  | plain =>
    refine ⟨s.conv.unit, tl, rfl, ?_⟩
    cases s.conv <;> simp [FormatConv.unit]
  | h => exact ⟨104, s.conv.unit :: tl, rfl, by omega, by omega, by omega⟩
  | l => exact ⟨108, s.conv.unit :: tl, rfl, by omega, by omega, by omega⟩
  | ll => exact ⟨108, 108 :: s.conv.unit :: tl, rfl, by omega, by omega, by omega⟩
  | L => exact ⟨76, s.conv.unit :: tl, rfl, by omega, by omega, by omega⟩

/-- The length of the units of a specification after its `$`. -/
theorem NumberedSpec.tail_length (s : NumberedSpec) :
    s.tail.length = s.width.length + (precisionUnits s.prec).length + s.size.units.length +
      1 := by
  unfold NumberedSpec.tail
  simp [digitUnits]
  omega

/-- The second pass of `BuildArgArray` passes over units of text. -/
theorem BuildArgArray.secondPass_texts (cfg : BuildConfig) (fmt : List Nat) (k : Nat)
    (nas : List NumArgState) (us : List Nat) :
    ∀ (p fuel : Nat) (tl : List Nat), Suffix fmt p (us ++ tl) →
      (∀ u ∈ us, u ≠ 0 ∧ u ≠ 37) →
      BuildArgArray.secondPass cfg fmt k (fuel + us.length) p nas =
        BuildArgArray.secondPass cfg fmt k fuel (p + us.length) nas := by
  induction us with
  | nil => intro p fuel tl _ _; rfl
  | cons u us ih =>
    intro p fuel tl hs hu
    have hu0 := hu u (List.mem_cons_self _ _)
    have hc := Suffix.charAt_cons fmt p u (us ++ tl) hs
    have hrec := ih (p + 1) fuel tl (Suffix.after_unit fmt p u _ hs)
      (fun x hx => hu x (List.mem_cons_of_mem _ hx))
    simp only [List.length_cons]
    rw [show fuel + (us.length + 1) = fuel + us.length + 1 by omega,
      BuildArgArray.secondPass]
    simp only [hc, hu0.1, hu0.2, bind, Except.bind, if_false, ne_eq, not_false_eq_true,
      if_true]
    rw [hrec, show p + 1 + us.length = p + (us.length + 1) by omega]

/-- The second pass of `BuildArgArray` reads the number of a specification. -/
theorem BuildArgArray.secondPass_number (fmt : List Nat) (s : NumberedSpec) (tl : List Nat)
    (p : Nat) (hs : Suffix fmt p (37 :: (digitUnits s.number ++ 36 :: tl)))
    (hw : s.WellFormed) :
    charAt fmt p = Except.ok 37 ∧
    ∃ c1, charAt fmt (p + 1) = Except.ok c1 ∧ c1 ≠ 37 ∧
      argNumber fmt (fmt.length + 2) 0 c1 (p + 1 + 1) =
        Except.ok ((s.value : Int), 36, p + 1 + s.number.length + 1) := by
  have hc := Suffix.charAt_cons fmt p 37 _ hs
  have hs1 := Suffix.after_unit fmt p 37 _ hs
  obtain ⟨c1, hc1, hne⟩ := Suffix.charAt_number fmt (p + 1) s.number tl hs1
  have hlen := Suffix.length_le fmt (p + 1) _ hs1
  simp only [List.length_append, digitUnits, List.length_map, List.length_cons] at hlen
  have harg := argNumber_digits fmt tl s.number (p + 1) (fmt.length + 2) c1 0 hs1 hw.1
    (by omega) hc1 hw.2.2.2
  exact ⟨hc, c1, hc1, hne, by simpa [NumberedSpec.value] using harg⟩

/-- The second pass of `BuildArgArray` ends with -1 at a specification whose number is
below 1 or above the count of the specifications. -/
theorem BuildArgArray.secondPass_out_of_range (cfg : BuildConfig) (fmt : List Nat) (k : Nat)
    (nas : List NumArgState) (s : NumberedSpec) (tl : List Nat) (p fuel : Nat)
    (hs : Suffix fmt p (37 :: (digitUnits s.number ++ 36 :: tl))) (hw : s.WellFormed)
    (hr : s.value < 1 ∨ k < s.value) :
    BuildArgArray.secondPass cfg fmt k (fuel + 1) p nas = Except.ok (-1, nas) := by
  obtain ⟨hc, c1, hc1, hne, harg⟩ := BuildArgArray.secondPass_number fmt s tl p hs hw
  have hcond : ((s.value : Int) < 1 ∨ (s.value : Int) > (k : Int)) := by omega
  rw [BuildArgArray.secondPass]
  simp only [hc, hc1, hne, harg, hcond, bind, Except.bind, pure, Except.pure, if_false,
    if_true, ne_eq, not_true_eq_false, OfNat.ofNat_ne_zero, false_or, not_false_eq_true,
    or_true]

/-- The second pass of `BuildArgArray` goes on after the `$` of a specification whose
number was seen before. -/
theorem BuildArgArray.secondPass_known (cfg : BuildConfig) (fmt : List Nat) (k : Nat)
    (seen : List (Nat × Nat)) (s : NumberedSpec) (tl : List Nat) (p fuel t : Nat)
    (hs : Suffix fmt p (37 :: (digitUnits s.number ++ 36 :: tl))) (hw : s.WellFormed)
    (hr : 1 ≤ s.value ∧ s.value ≤ k) (hl : seen.lookup s.value = some t)
    (ht : t ≠ NumArgState.UNKNOWN) :
    BuildArgArray.secondPass cfg fmt k (fuel + 1) p (typedArray k seen) =
      BuildArgArray.secondPass cfg fmt k fuel (p + 1 + s.number.length + 1)
        (typedArray k seen) := by
  obtain ⟨hc, c1, hc1, hne, harg⟩ := BuildArgArray.secondPass_number fmt s tl p hs hw
  have hcond : ¬ ((s.value : Int) < 1 ∨ (s.value : Int) > (k : Int)) := by omega
  have hcn : ((s.value : Int) - 1).toNat = s.value - 1 := by omega
  have hentry := typedArray_getElem? k seen (s.value - 1) (by omega)
  rw [show s.value - 1 + 1 = s.value by omega, hl] at hentry
  simp only [Option.getD_some] at hentry
  rw [BuildArgArray.secondPass]
  simp only [hc, hc1, hne, harg, hcond, hcn, hentry, ht, bind, Except.bind, pure,
    Except.pure, if_false, if_true, ne_eq, not_true_eq_false, OfNat.ofNat_ne_zero, false_or,
    not_false_eq_true]

/-- The second pass of `BuildArgArray` types the entry of a specification whose number was
not seen before, and goes on after the specification. -/
theorem BuildArgArray.secondPass_unknown (cfg : BuildConfig) (fmt : List Nat) (k : Nat)
    (seen : List (Nat × Nat)) (s : NumberedSpec) (tl : List Nat) (p fuel : Nat)
    (hs : Suffix fmt p (37 :: (digitUnits s.number ++ 36 :: (s.tail ++ tl))))
    (hw : s.WellFormed) (hptr : cfg.sizeofPointer = 4 ∨ cfg.sizeofPointer = 8)
    (hr : 1 ≤ s.value ∧ s.value ≤ k) (hl : seen.lookup s.value = none) :
    BuildArgArray.secondPass cfg fmt k (fuel + 1) p (typedArray k seen) =
      BuildArgArray.secondPass cfg fmt k fuel (p + 1 + s.number.length + 1 + s.tail.length)
        (typedArray k (seen ++ [(s.value, s.type cfg)])) := by
  obtain ⟨hc, c1, hc1, hne, harg⟩ := BuildArgArray.secondPass_number fmt s _ p hs hw
  have hcond : ¬ ((s.value : Int) < 1 ∨ (s.value : Int) > (k : Int)) := by omega
  have hcn : ((s.value : Int) - 1).toNat = s.value - 1 := by omega
  have hentry := typedArray_getElem? k seen (s.value - 1) (by omega)
  rw [show s.value - 1 + 1 = s.value by omega, hl] at hentry
  simp only [Option.getD_none] at hentry
  -- the rest of the format after the `$`
  have hs2 : Suffix fmt (p + 1 + s.number.length + 1) (s.tail ++ tl) := by
    have h1 := Suffix.drop fmt (37 :: (digitUnits s.number ++ [36])) p (s.tail ++ tl)
      (by simpa using hs)
    simpa [digitUnits, Nat.add_assoc, Nat.add_comm, Nat.add_left_comm] using h1
  obtain ⟨x, tl1, hx, hxp⟩ := s.size_conv_head tl
  have hs2a : Suffix fmt (p + 1 + s.number.length + 1) (digitUnits s.width ++
      (precisionUnits s.prec ++ x :: tl1)) := by
    rw [← hx]
    simpa [NumberedSpec.tail, List.append_assoc] using hs2
  obtain ⟨c2, hc2⟩ := Suffix.charAt_exists fmt _ _ hs2a (by simp)
  have hwp := BuildArgArray.specWidthPrec_tail fmt s.width s.prec x tl1 _ c2 hs2a hw.2.1
    (fun ds h d hd => hw.2.2.1 d (by simpa [h] using hd)) hxp hc2
  have hs3 : Suffix fmt (p + 1 + s.number.length + 1 + s.width.length +
      (precisionUnits s.prec).length) (s.size.units ++ s.conv.unit :: tl) := by
    have h1 := Suffix.drop fmt (digitUnits s.width ++ precisionUnits s.prec)
      (p + 1 + s.number.length + 1) (x :: tl1) (by simpa [List.append_assoc] using hs2a)
    rw [hx]
    have e : (digitUnits s.width ++ precisionUnits s.prec).length =
        s.width.length + (precisionUnits s.prec).length := by
      simp [digitUnits]
    rw [e, ← Nat.add_assoc] at h1
    exact h1
  have hc3 := Suffix.charAt_cons fmt _ x tl1 (hx ▸ hs3)
  have hty := BuildArgArray.specType_tail cfg fmt s tl _ x hs3 hptr hc3
  have hne2 : ¬ (s.type cfg = NumArgState.UNKNOWN) := Nat.ne_of_lt (s.type_known cfg)
  have hset := typedArray_set k seen s.value (s.type cfg) hr.1 hl
  have hpos : p + 1 + s.number.length + 1 + s.width.length + (precisionUnits s.prec).length +
      s.size.units.length + 1 = p + 1 + s.number.length + 1 + s.tail.length := by
    rw [s.tail_length]
    omega
  rw [BuildArgArray.secondPass]
  simp only [hc, hc1, hne, harg, hcond, hcn, hentry, hc2, hwp, hty, hne2, hset, hpos, bind,
    Except.bind, pure, Except.pure, if_false, if_true, ne_eq, not_true_eq_false,
    OfNat.ofNat_ne_zero, false_or, not_false_eq_true]

/-- A number that is looked up with success was seen with the type found. -/
theorem lookup_mem (seen : List (Nat × Nat)) (n t : Nat) (h : seen.lookup n = some t) :
    (n, t) ∈ seen := by
  induction seen with
  | nil => simp [List.lookup] at h
  | cons x seen ih =>
    obtain ⟨a, b⟩ := x
    by_cases hn : n = a
    · subst hn
      simp [List.lookup] at h
      subst h
      exact List.mem_cons_self _ _
    · have e : (n == a) = false := by simpa using hn
      simp only [List.lookup, e] at h
      exact List.mem_cons_of_mem _ (ih h)

/-- The second pass of `BuildArgArray` on a format of text, quoted percent signs and numbered
specifications: it ends with -1 when one of the numbers is below 1 or above `number`, and
else with 0 and the entry of each number typed by the first specification with it. -/
theorem BuildArgArray.secondPass_items (cfg : BuildConfig) (fmt : List Nat) (k : Nat)
    (hptr : cfg.sizeofPointer = 4 ∨ cfg.sizeofPointer = 8) (items : List FormatItem) :
    ∀ (p fuel : Nat) (seen : List (Nat × Nat)), Suffix fmt p (renderFormat items) →
      (∀ item ∈ items, item.WellFormed) → (renderFormat items).length + 1 ≤ fuel →
      (∀ x ∈ seen, x.2 ≠ NumArgState.UNKNOWN) →
      ∃ nas, BuildArgArray.secondPass cfg fmt k fuel p (typedArray k seen) =
          Except.ok ((if ∀ s ∈ numberedSpecs items, 1 ≤ s.value ∧ s.value ≤ k then 0 else -1),
            nas) ∧
        ((∀ s ∈ numberedSpecs items, 1 ≤ s.value ∧ s.value ≤ k) →
          nas = typedArray k (seen ++ numberedTypes cfg items)) := by
  induction items with
  | nil =>
    intro p fuel seen hs _ hfuel _
    obtain ⟨f, rfl⟩ : ∃ f, fuel = f + 1 := ⟨fuel - 1, by omega⟩
    simp only [renderFormat] at hs
    refine ⟨typedArray k seen, ?_, fun _ => by simp [numberedTypes, numberedSpecs]⟩
    simp [BuildArgArray.secondPass, Suffix.charAt_nil fmt p hs, numberedSpecs, bind,
      Except.bind, pure, Except.pure]
  | cons item items ih =>
    intro p fuel seen hs hwf hfuel hseen
    have hwf1 : ∀ it ∈ items, it.WellFormed := fun x hx => hwf x (List.mem_cons_of_mem _ hx)
    have hw := hwf item (List.mem_cons_self _ _)
    simp only [renderFormat, List.length_append] at hs hfuel
    cases item with
    | text u =>
      simp only [FormatItem.units, List.length_singleton] at hs hfuel
      simp only [FormatItem.WellFormed] at hw
      obtain ⟨f, rfl⟩ : ∃ f, fuel = f + [u].length := ⟨fuel - 1, by simp; omega⟩
      rw [BuildArgArray.secondPass_texts cfg fmt k _ [u] p f _ hs (by simpa using hw)]
      simp only [List.length_singleton] at hfuel
      simpa [numberedSpecs, numberedTypes] using
        ih (p + 1) f seen (Suffix.drop fmt [u] p _ hs) hwf1 (by omega) hseen
    | percent =>
      simp only [FormatItem.units, List.length_cons, List.length_nil] at hs hfuel
      obtain ⟨f, rfl⟩ : ∃ f, fuel = f + 1 := ⟨fuel - 1, by omega⟩
      have hc := Suffix.charAt_cons fmt p 37 _ hs
      have hs1 := Suffix.after_unit fmt p 37 _ hs
      have hc1 := Suffix.charAt_cons fmt (p + 1) 37 _ hs1
      have hs2 := Suffix.after_unit fmt (p + 1) 37 _ hs1
      rw [BuildArgArray.secondPass]
      simp only [hc, hc1, bind, Except.bind, if_false, if_true, ne_eq, not_true_eq_false,
        OfNat.ofNat_ne_zero]
      simpa [numberedSpecs, numberedTypes] using ih (p + 2) f seen hs2 hwf1 (by omega) hseen
    | spec s =>
      simp only [FormatItem.units, NumberedSpec.units, List.length_cons, List.length_append,
        digitUnits, List.length_map] at hs hfuel
      simp only [FormatItem.WellFormed] at hw
      obtain ⟨f, rfl⟩ : ∃ f, fuel = f + s.tail.length + 1 :=
        ⟨fuel - s.tail.length - 1, by omega⟩
      have hs0 : Suffix fmt p (37 :: (digitUnits s.number ++ 36 ::
          (s.tail ++ renderFormat items))) := by
        simpa [digitUnits] using hs
      have hs1 : Suffix fmt (p + 1 + s.number.length + 1) (s.tail ++ renderFormat items) := by
        have h1 := Suffix.drop fmt (37 :: (digitUnits s.number ++ [36])) p
          (s.tail ++ renderFormat items) (by simpa using hs0)
        simpa [digitUnits, Nat.add_assoc, Nat.add_comm, Nat.add_left_comm] using h1
      have hs2 := Suffix.drop fmt s.tail _ _ hs1
      have hspecs : numberedSpecs (FormatItem.spec s :: items) = s :: numberedSpecs items :=
        rfl
      have htypes : seen ++ numberedTypes cfg (FormatItem.spec s :: items) =
          (seen ++ [(s.value, s.type cfg)]) ++ numberedTypes cfg items := by
        simp [numberedTypes, numberedSpecs]
      have hseen1 : ∀ x ∈ seen ++ [(s.value, s.type cfg)], x.2 ≠ NumArgState.UNKNOWN := by
        intro x hx
        rcases List.mem_append.mp hx with h | h
        · exact hseen x h
        · simp only [List.mem_singleton] at h
          subst h
          exact Nat.ne_of_lt (s.type_known cfg)
      by_cases hr : 1 ≤ s.value ∧ s.value ≤ k
      · have hall : (∀ s1 ∈ numberedSpecs (FormatItem.spec s :: items),
            1 ≤ s1.value ∧ s1.value ≤ k) ↔
            (∀ s1 ∈ numberedSpecs items, 1 ≤ s1.value ∧ s1.value ≤ k) := by
          simp [hspecs, hr]
        simp only [hall, htypes]
        cases hl : seen.lookup s.value with
        | some t =>
          have ht : t ≠ NumArgState.UNKNOWN := hseen (s.value, t) (lookup_mem seen _ _ hl)
          rw [BuildArgArray.secondPass_known cfg fmt k seen s _ p (f + s.tail.length) t hs0 hw
              hr hl ht,
            BuildArgArray.secondPass_texts cfg fmt k _ s.tail _ f _ hs1 s.tail_text,
            ← typedArray_known k seen s.value t (s.type cfg) hl]
          exact ih _ f _ hs2 hwf1 (by omega) hseen1
        | none =>
          rw [BuildArgArray.secondPass_unknown cfg fmt k seen s _ p (f + s.tail.length) hs0 hw
            hptr hr hl]
          exact ih _ (f + s.tail.length) _ hs2 hwf1 (by omega) hseen1
      · have hall : ¬ (∀ s1 ∈ numberedSpecs (FormatItem.spec s :: items),
            1 ≤ s1.value ∧ s1.value ≤ k) := fun h =>
          hr (h s (by rw [hspecs]; exact List.mem_cons_self _ _))
        refine ⟨typedArray k seen, ?_, fun h => absurd h hall⟩
        rw [if_neg hall]
        exact BuildArgArray.secondPass_out_of_range cfg fmt k _ s _ p (f + s.tail.length) hs0
          hw (by omega)

/-- The third pass of `BuildArgArray` returns the array with the argument positions handed
to the entries of known type, one after the other, when no entry has a type beyond
`UNKNOWN`. -/
theorem BuildArgArray.thirdPass_assign (todo : List NumArgState) :
    ∀ (done : List NumArgState) (ap : Nat),
      (∀ e ∈ todo, e.type ≤ NumArgState.UNKNOWN) →
      BuildArgArray.thirdPass todo.length done.length ap (done ++ todo) =
        Except.ok (some (done ++ assignArgs ap todo)) := by
  induction todo with
  | nil => intro done ap _; simp [BuildArgArray.thirdPass, assignArgs, pure, Except.pure]
  | cons e todo ih =>
    intro done ap ht
    have he : (done ++ e :: todo)[done.length]? = some e := by
      rw [List.getElem?_append_right (Nat.le_refl _)]
      simp
    have hle := ht e (List.mem_cons_self _ _)
    have ht1 : ∀ x ∈ todo, x.type ≤ NumArgState.UNKNOWN :=
      fun x hx => ht x (List.mem_cons_of_mem _ hx)
    simp only [List.length_cons]
    rw [BuildArgArray.thirdPass]
    simp only [he]
    by_cases hu : e.type = NumArgState.UNKNOWN
    · have h1 := ih (done ++ [e]) ap ht1
      simp only [List.length_append, List.length_singleton, List.append_assoc,
        List.singleton_append] at h1
      simp only [hu, if_true, assignArgs]
      exact h1
    · have hlt : e.type < NumArgState.UNKNOWN := Nat.lt_of_le_of_ne hle hu
      have hset : (done ++ e :: todo).set done.length { e with ap := ap } =
          done ++ { e with ap := ap } :: todo := by
        rw [List.set_append_right _ _ (Nat.le_refl _)]
        simp
      have h1 := ih (done ++ [{ e with ap := ap }]) (ap + 1) ht1
      simp only [List.length_append, List.length_singleton, List.append_assoc,
        List.singleton_append] at h1
      simp only [hu, hlt, if_true, if_false, assignArgs, hset]
      exact h1

/-- The array of the specifications seen has no type beyond `UNKNOWN` when the
specifications have none. -/
theorem typedArray_types (k : Nat) (seen : List (Nat × Nat))
    (hseen : ∀ x ∈ seen, x.2 ≤ NumArgState.UNKNOWN) :
    ∀ e ∈ typedArray k seen, e.type ≤ NumArgState.UNKNOWN := by
  intro e he
  simp only [typedArray, List.mem_map, List.mem_range] at he
  obtain ⟨i, _, rfl⟩ := he
  cases hl : seen.lookup (i + 1) with
  | none => simp
  | some t =>
    simp only [Option.getD_some]
    exact hseen (i + 1, t) (lookup_mem seen _ _ hl)

/-- C23, amended: `BuildArgArray` checks each argument number against the count of the
numbered specifications, not the set of the numbers against `{1, ..., k}`. For every format
that consists of text, quoted percent signs `%%` and numbered specifications `%N$` with a
width, a precision, a size and one of the conversion characters `dciouxXefgpSsn` (the digits
are decimal digits, `N` fits an `int`, pointers have four or eight bytes, and the array can
be allocated), with `k` the number of its specifications: when there is no specification it
returns null with `*rv` 0; when the number of some specification is below 1 or above `k` it
reports an error (`*rv` is -1 and the result is null); and when `k ≥ 1` and every number
lies within `1 .. k` it returns `*rv` 0 and the array of `k` entries in which the entry of a
number has the type of the first specification with this number, the entry of a number
that no specification uses has the type `UNKNOWN`, and the entries of known type hold the
argument positions from `ap` on in the order of the array. So a format that leaves out a
number or repeats one is accepted. -/
theorem BuildArgArray_checks_numbers_against_count (cfg : BuildConfig)
    (items : List FormatItem) (ap : Nat) (allocOk : Bool)
    (hwf : ∀ item ∈ items, item.WellFormed)
    (hptr : cfg.sizeofPointer = 4 ∨ cfg.sizeofPointer = 8)
    (halloc : (numberedSpecs items).length ≤ NAS_DEFAULT_NUM ∨ allocOk = true) :
    (numberedSpecs items = [] →
      BuildArgArray cfg (renderFormat items) ap allocOk = Except.ok (0, none)) ∧
    ((∃ s ∈ numberedSpecs items, s.value < 1 ∨ (numberedSpecs items).length < s.value) →
      BuildArgArray cfg (renderFormat items) ap allocOk = Except.ok (-1, none)) ∧
    (numberedSpecs items ≠ [] →
      (∀ s ∈ numberedSpecs items, 1 ≤ s.value ∧ s.value ≤ (numberedSpecs items).length) →
      BuildArgArray cfg (renderFormat items) ap allocOk =
        Except.ok (0, some (assignArgs ap
          (typedArray (numberedSpecs items).length (numberedTypes cfg items))))) := by
  have hfirst := BuildArgArray.firstPass_items (renderFormat items) items 0
    ((renderFormat items).length + 2) 0 (Suffix.start _) hwf (by omega)
  obtain ⟨nas2, hsecond, hnas2⟩ := BuildArgArray.secondPass_items cfg (renderFormat items)
    (numberedSpecs items).length hptr items 0 ((renderFormat items).length + 2) []
    (Suffix.start _) hwf (by omega) (by simp)
  simp only [Nat.zero_add, List.nil_append] at hfirst hsecond hnas2
  rw [← typedArray_nil] at hsecond
  have hal2 : NAS_DEFAULT_NUM < (numberedSpecs items).length → allocOk = true := by
    intro h
    rcases halloc with h1 | h1
    · omega
    · exact h1
  refine ⟨fun hnil => ?_, ?_, fun hne hall => ?_⟩
  · simp [BuildArgArray, hfirst, hnil, bind, Except.bind, pure, Except.pure]
  · rintro ⟨s, hs, hbad⟩
    have hk : (numberedSpecs items).length ≠ 0 := fun h => by
      rw [List.length_eq_zero.mp h] at hs
      cases hs
    have hall : ¬ (∀ s1 ∈ numberedSpecs items,
        1 ≤ s1.value ∧ s1.value ≤ (numberedSpecs items).length) := fun h => by
      have := h s hs
      omega
    rw [if_neg hall] at hsecond
    simp [BuildArgArray, hfirst, hk, hsecond, bind, Except.bind, pure, Except.pure]
  · have hk : (numberedSpecs items).length ≠ 0 := fun h => hne (List.length_eq_zero.mp h)
    rw [if_pos hall] at hsecond
    have hn2 := hnas2 hall
    subst hn2
    have hthird := BuildArgArray.thirdPass_assign
      (typedArray (numberedSpecs items).length (numberedTypes cfg items)) [] ap
      (typedArray_types _ _ (fun x hx => by
        simp only [numberedTypes, List.mem_map] at hx
        obtain ⟨s, _, rfl⟩ := hx
        exact Nat.le_of_lt (s.type_known cfg)))
    simp only [typedArray_length, List.length_nil, List.nil_append] at hthird
    simp [BuildArgArray, hfirst, hk, hsecond, hthird, bind, Except.bind, pure, Except.pure]
    exact hal2

/-- C23, at examples: the pieces of the examples make the formats `"%2$d %2$d"` and
`"%12$5.2lld%%"`; the first, which leaves out the number 1, is accepted with the first entry
of unknown type and the second entry at the first argument, and the second, whose number
exceeds the count of the specifications, is reported as an error. -/
theorem BuildArgArray_checks_numbers_against_count_witness :
    renderFormat Example.itemsSecondTwice = Example.fmtSecondTwice ∧
    BuildArgArray Example.debugBuild (renderFormat Example.itemsSecondTwice) 0 true =
      Except.ok (0, some [{ type := NumArgState.UNKNOWN, ap := 0 },
        { type := NumArgState.INTN, ap := 0 }]) ∧
    renderFormat Example.itemsTwelfth =
      [37, 49, 50, 36, 53, 46, 50, 108, 108, 100, 37, 37] ∧
    BuildArgArray Example.debugBuild (renderFormat Example.itemsTwelfth) 0 true =
      Except.ok (-1, none) :=
  ⟨rfl,
   (BuildArgArray_checks_numbers_against_count Example.debugBuild Example.itemsSecondTwice 0
      true (by decide) (by decide) (by decide)).2.2 (by decide) (by decide),
   rfl,
   (BuildArgArray_checks_numbers_against_count Example.debugBuild Example.itemsTwelfth 0
      true (by decide) (by decide) (by decide)).2.1 ⟨_, List.mem_cons_self _ _, by decide⟩⟩

/-- C23, counterexample: the numbers of `"%2$d %2$d"` are not `{1, 2}`, and yet
`BuildArgArray` reports no error: it returns 0 and an array whose first entry has the type
`UNKNOWN`, and `vsnprintf` formats the first argument, 5, twice, as `"5 5"`. The same holds
of `"%1$d%1$d"`, which leaves out the number 2. -/
theorem BuildArgArray_accepts_gap_in_numbers :
    BuildArgArray Example.debugBuild Example.fmtSecondTwice 0 true =
      Except.ok (0, some [{ type := NumArgState.UNKNOWN, ap := 0 },
        { type := NumArgState.INTN, ap := 0 }]) ∧
    vsnprintf Example.debugBuild true Example.out24 24 Example.fmtSecondTwice Example.twoInts =
      Except.ok (3, [53, 32, 53, 0] ++ List.replicate 20 120) ∧
    BuildArgArray Example.debugBuild Example.fmtFirstTwice 0 true =
      Except.ok (0, some [{ type := NumArgState.INTN, ap := 0 },
        { type := NumArgState.UNKNOWN, ap := 0 }]) ∧
    vsnprintf Example.debugBuild true Example.out24 24 Example.fmtFirstTwice Example.twoInts =
      Except.ok (2, [53, 53, 0] ++ List.replicate 21 120) := by
  refine ⟨?_, ?_, ?_, ?_⟩ <;> rfl

end Firefox
